import Mathlib

/-!
# Grid geometry manager (`generic/tkGrid.c`): constraint solver and offset adjustment

A shallow embedding of `ResolveConstraints`, `AdjustOffsets`, `AdjustForSticky`,
`SetContentColumn`, `SetContentRow`, `CheckSlotData`, `InitContainerData`,
`GridRowColumnConfigureCommand`, `StringToSticky`, `StickyToObj`, `SetGridSize`, the
queries `GridSizeCommand`, `GridBboxCommand` and `GridLocationCommand`, and, on the
`Gridder` structures of the windows, `GetGrid`, `Unlink`, `GridForgetRemoveCommand` and
`ConfigureContent`, and the layout pass `ArrangeGrid`, the caller of `ResolveConstraints`
and `AdjustOffsets`.  `specResolveConstraints` is the solver with its first steps in the
order of the specification, for the comparison with `ResolveConstraints`.

* A C `int` is an `Int`.  The products of a pixel distance and a weight in
  `AdjustOffsets` (lines 1575, 1654, 1668) and in step 5 of `ResolveConstraints` (lines
  2306, 2322, 2330, 2342, 2346, 2353, 2388), and the sums `column + numCols` and
  `row + numRows` of slot indices (lines 1861-1862, 2540-2541, 2578, 2619), are reduced to
  the range of a 32-bit `int` (`wrapInt`), as the compiled code computes them.  The sums
  and differences of pixel sizes and of weights are exact, and so are the product of step
  2b (line 2150), whose value is the minimum size of a slot, and the doubling of a border
  width or of an internal padding: the development covers the executions in which these
  do not overflow.  The index `column + numCols - 1` of step 2 (lines 2046, 2065) is exact
  too: for a content of span 1 it does not overflow, and for a larger span both its exact
  value and its value as an `int` lie outside the layout array when it overflows.  C
  integer division truncates towards zero: `Int.tdiv`.
* Slot arrays (`SlotInfo *`) are total maps `Nat → SlotInfo`; the working layout array
  (`GridLayout *`, valid from index `-1`, the dummy slot) is a total map `Int → GridLayout`.
  An access outside the part of an array that the C code has allocated and initialised
  is reported as `Fault.outOfBounds`, the use of a NULL pointer as `Fault.nullPointer`
  and a call of `Tcl_Panic` as `Fault.panicked`.
* A procedure that returns a Tcl completion code returns it together with the state it
  leaves, so that what a failing call has changed can be stated.  The arguments of a
  command are taken as parsed: an index is an integer, `all`, a window or illegal, and an
  option value is the result of its conversion.
* A pointer to a `Gridder` is the token of its window, and the list of content of a
  container, linked through `nextPtr`, is a list of such pointers.  The procedures of Tk
  that `tkGrid.c` calls and that are defined elsewhere are parameters (`TkProcs`).
* `for` loops with a known trip count are structural recursions; the unbounded loops
  (the `do … while` of step 5 and the scan over runs, the `while` of `AdjustOffsets`, and
  the loops of `ConfigureContent` over ancestors, containers and shortcuts) take a fuel
  argument and report `Fault.outOfFuel` when it is exhausted.
-/

namespace TkGrid

/-- Ways in which an execution of the embedded code can fail to produce a result. -/
inductive Fault where
  | outOfBounds
  | outOfFuel
  | nullPointer
  | panicked
deriving DecidableEq, Repr

/-- Row or column constraints: `struct SlotInfo`.  `uniform` is the `Tk_Uid` of the
`-uniform` option, `none` for `NULL`. -/
structure SlotInfo where
  minSize : Int
  weight : Int
  pad : Int
  uniform : Option Nat
  offset : Int
  temp : Int
deriving DecidableEq, Repr

/-- A content window: the fields of `struct Gridder` that the geometry computations read,
with the requested size of its `tkwin` (`Tk_ReqWidth`, `Tk_ReqHeight`). -/
structure Gridder where
  reqWidth : Int
  reqHeight : Int
  column : Int
  row : Int
  numCols : Int
  numRows : Int
  padX : Int
  padY : Int
  padLeft : Int
  padTop : Int
  iPadX : Int
  iPadY : Int
  sticky : Int
  doubleBw : Int
  size : Int
deriving DecidableEq, Repr

/-- Working data of one slot during layout: `struct GridLayout`.  The bin (the list linked
through `Gridder.binNextPtr`) is a list, most recently binned content first. -/
structure GridLayout where
  binNextPtr : List Gridder
  minSize : Int
  pad : Int
  weight : Int
  uniform : Option Nat
  minOffset : Int
  maxOffset : Int
deriving DecidableEq, Repr

/-- Data gathered about one uniform group: `struct UniformGroup`. -/
structure UniformGroup where
  group : Nat
  minSize : Int
deriving DecidableEq, Repr

/-- The axis being resolved: `COLUMN` or `ROW`. -/
inductive SlotType where
  | COLUMN
  | ROW
deriving DecidableEq, Repr

/-- The slot table of a container, `GridContainer`, with the list of content of the
container `Gridder` that the solver reads.  `columnSpace` and `rowSpace` are the numbers
of slots allocated for the two arrays.  (`anchor` is not part of the model.) -/
structure GridContainer where
  columnPtr : Nat → SlotInfo
  rowPtr : Nat → SlotInfo
  columnEnd : Nat
  columnMax : Nat
  columnSpace : Nat
  rowEnd : Nat
  rowMax : Nat
  rowSpace : Nat
  startX : Int
  startY : Int
  contentPtr : List Gridder

/-- The loop `for (slot = 0; slot < n; slot++) body`, acting on a state. -/
def forUp {σ : Type} : Nat → (Nat → σ → σ) → σ → σ
  | 0, _, s => s
  | n + 1, body, s => body n (forUp n body s)

/-- The loop `for (slot = start; slot < start + n; slot++) body`, acting on a state. -/
def forFrom {σ : Type} (body : Nat → σ → σ) : Nat → Nat → σ → σ
  | _, 0, s => s
  | start, n + 1, s => forFrom body (start + 1) n (body start s)

/-! ## Arithmetic of `int` -/

/-- The largest `int`: `INT_MAX`. -/
def INT_MAX : Int := 2147483647

/-- The value that the compiled code computes for an `int` expression whose exact value is
`x`: the integer of the range `-2^31 .. 2^31 - 1` that differs from `x` by a multiple of
`2^32`. -/
def wrapInt (x : Int) : Int := (x + 2147483648) % 4294967296 - 2147483648

/-! ## `AdjustOffsets` -/

/-- The assignment `slotPtr[slot].offset = v`. -/
def setOffset (slotPtr : Nat → SlotInfo) (slot : Nat) (v : Int) : Nat → SlotInfo :=
  fun j => if j = slot then { slotPtr j with offset := v } else slotPtr j

/-- The assignment `slotPtr[slot].temp = v`. -/
def setTemp (slotPtr : Nat → SlotInfo) (slot : Nat) (v : Int) : Nat → SlotInfo :=
  fun j => if j = slot then { slotPtr j with temp := v } else slotPtr j

/-- The current size of a slot:
`(slot == 0) ? slotPtr[slot].offset : slotPtr[slot].offset - slotPtr[slot-1].offset`. -/
def current (slotPtr : Nat → SlotInfo) (slot : Nat) : Int :=
  if slot = 0 then (slotPtr slot).offset
  else (slotPtr slot).offset - (slotPtr (slot - 1)).offset

/-- The sum of the weights of all the slots (lines 1557-1560). -/
def sumWeights (slots : Nat) (slotPtr : Nat → SlotInfo) : Int :=
  forUp slots (fun slot totalWeight => totalWeight + (slotPtr slot).weight) 0

/-- Adding extra space according to the weights, cumulatively (lines 1572-1576).
The state is `(weight, slotPtr)`. -/
def growLoop (diff totalWeight : Int) (slots : Nat) (slotPtr : Nat → SlotInfo) :
    Int × (Nat → SlotInfo) :=
  forUp slots (fun slot st =>
    let weight := st.1 + (st.2 slot).weight
    (weight,
      setOffset st.2 slot
        ((st.2 slot).offset + Int.tdiv (wrapInt (diff * weight)) totalWeight)))
    (0, slotPtr)

/-- Storing each slot's minimum size in `temp` and summing them (lines 1586-1596).
The state is `(minSize, slotPtr)`. -/
def tempLoop (slots : Nat) (slotPtr : Nat → SlotInfo) : Int × (Nat → SlotInfo) :=
  forUp slots (fun slot st =>
    let t :=
      if (st.2 slot).weight > 0 then (st.2 slot).minSize
      else if slot > 0 then (st.2 slot).offset - (st.2 (slot - 1)).offset
      else (st.2 slot).offset
    (st.1 + t, setTemp st.2 slot t))
    (0, slotPtr)

/-- Setting the slot sizes to their minimum values (lines 1604-1609).
The state is `(offset, slotPtr)`. -/
def minLoop (slots : Nat) (slotPtr : Nat → SlotInfo) : Int × (Nat → SlotInfo) :=
  forUp slots (fun slot st =>
    let offset := st.1 + (st.2 slot).temp
    (offset, setOffset st.2 slot offset))
    (0, slotPtr)

/-- The total weight of the shrinkable slots, recorded in `temp` (lines 1623-1634).
The state is `(totalWeight, slotPtr)`. -/
def shrinkWeights (slots : Nat) (slotPtr : Nat → SlotInfo) : Int × (Nat → SlotInfo) :=
  forUp slots (fun slot st =>
    if current st.2 slot > (st.2 slot).minSize then
      (st.1 + (st.2 slot).weight, setTemp st.2 slot (st.2 slot).weight)
    else
      (st.1, setTemp st.2 slot 0))
    (0, slotPtr)

/-- The maximum amount of space that can be distributed in this pass (lines 1643-1659). -/
def shrinkNewDiff (diff totalWeight : Int) (slots : Nat) (slotPtr : Nat → SlotInfo) : Int :=
  forUp slots (fun slot newDiff =>
    if (slotPtr slot).temp = 0 then newDiff
    else
      let maxDiff :=
        Int.tdiv (wrapInt (totalWeight * ((slotPtr slot).minSize - current slotPtr slot)))
          (slotPtr slot).temp
      if maxDiff > newDiff then maxDiff else newDiff)
    diff

/-- Distributing the space of one pass (lines 1665-1669).  The state is `(weight, slotPtr)`. -/
def shrinkDistribute (newDiff totalWeight : Int) (slots : Nat) (slotPtr : Nat → SlotInfo) :
    Int × (Nat → SlotInfo) :=
  forUp slots (fun slot st =>
    let weight := st.1 + (st.2 slot).temp
    (weight,
      setOffset st.2 slot
        ((st.2 slot).offset + Int.tdiv (wrapInt (newDiff * weight)) totalWeight)))
    (0, slotPtr)

/-- The loop `while (diff < 0)` (lines 1618-1671); one unit of fuel per iteration. -/
def shrinkLoop (slots : Nat) : Nat → Int → (Nat → SlotInfo) → Except Fault (Nat → SlotInfo)
  | fuel, diff, slotPtr =>
    if diff < 0 then
      match fuel with
      | 0 => Except.error Fault.outOfFuel
      | fuel + 1 =>
        let w := shrinkWeights slots slotPtr
        if w.1 = 0 then Except.ok w.2
        else
          let newDiff := shrinkNewDiff diff w.1 slots w.2
          let d := shrinkDistribute newDiff w.1 slots w.2
          shrinkLoop slots fuel (diff - newDiff) d.2
    else Except.ok slotPtr

/-- The procedure `AdjustOffsets(size, slots, slotPtr)`: the size used by the layout and the
slot array afterwards.  With `slots = 0` the first statement reads `slotPtr[-1]`. -/
def AdjustOffsets (fuel : Nat) (size : Int) (slots : Nat) (slotPtr : Nat → SlotInfo) :
    Except Fault (Int × (Nat → SlotInfo)) :=
  if slots = 0 then Except.error Fault.outOfBounds
  else
    let diff := size - (slotPtr (slots - 1)).offset
    if diff = 0 then Except.ok (size, slotPtr)
    else
      let totalWeight := sumWeights slots slotPtr
      if totalWeight = 0 then Except.ok ((slotPtr (slots - 1)).offset, slotPtr)
      else if diff > 0 then Except.ok (size, (growLoop diff totalWeight slots slotPtr).2)
      else
        let t := tempLoop slots slotPtr
        if size ≤ t.1 then Except.ok (t.1, (minLoop slots t.2).2)
        else
          match shrinkLoop slots fuel diff t.2 with
          | Except.ok slotPtr1 => Except.ok (size, slotPtr1)
          | Except.error e => Except.error e

/-! ## `ResolveConstraints` -/

/-- The working layout array, indexed from the dummy slot `-1`. -/
abbrev Layout := Int → GridLayout

/-- The assignment `layoutPtr[slot].minSize = v`. -/
def setMinSize (layoutPtr : Layout) (slot : Int) (v : Int) : Layout :=
  fun j => if j = slot then { layoutPtr j with minSize := v } else layoutPtr j

/-- The assignment `layoutPtr[slot].minOffset = v`. -/
def setMinOffset (layoutPtr : Layout) (slot : Int) (v : Int) : Layout :=
  fun j => if j = slot then { layoutPtr j with minOffset := v } else layoutPtr j

/-- The assignment `layoutPtr[slot].maxOffset = v`. -/
def setMaxOffset (layoutPtr : Layout) (slot : Int) (v : Int) : Layout :=
  fun j => if j = slot then { layoutPtr j with maxOffset := v } else layoutPtr j

/-- Linking a content at the head of a bin:
`contentPtr->binNextPtr = layoutPtr[slot].binNextPtr; layoutPtr[slot].binNextPtr = contentPtr`. -/
def pushBin (layoutPtr : Layout) (slot : Int) (contentPtr : Gridder) : Layout :=
  fun j =>
    if j = slot then { layoutPtr j with binNextPtr := contentPtr :: (layoutPtr j).binNextPtr }
    else layoutPtr j

/-- Memory of the layout array that no statement has written yet. -/
def blankLayout : GridLayout :=
  { binNextPtr := [], minSize := 0, pad := 0, weight := 0, uniform := none,
    minOffset := 0, maxOffset := 0 }

/-- The dummy slot and step 1 (lines 2005-2028): the constraints of the first
`constraintCount` slots are copied, the slots up to `gridCount` are zeroed. -/
def initLayout (slotPtr : Nat → SlotInfo) (constraintCount gridCount : Nat) : Layout :=
  fun j =>
    if j = -1 then
      { binNextPtr := [], minSize := 0, pad := 0, weight := 0, uniform := none,
        minOffset := 0, maxOffset := 0 }
    else if 0 ≤ j ∧ j < constraintCount then
      { binNextPtr := [], minSize := (slotPtr j.toNat).minSize,
        pad := (slotPtr j.toNat).pad, weight := (slotPtr j.toNat).weight,
        uniform := (slotPtr j.toNat).uniform, minOffset := 0, maxOffset := 0 }
    else if 0 ≤ j ∧ j < gridCount then
      { binNextPtr := [], minSize := 0, pad := 0, weight := 0, uniform := none,
        minOffset := 0, maxOffset := 0 }
    else blankLayout

/-- The position of a content on the axis: `column` or `row`. -/
def Gridder.start (slotType : SlotType) (contentPtr : Gridder) : Int :=
  match slotType with
  | SlotType.COLUMN => contentPtr.column
  | SlotType.ROW => contentPtr.row

/-- The span of a content on the axis: `numCols` or `numRows`. -/
def Gridder.span (slotType : SlotType) (contentPtr : Gridder) : Int :=
  match slotType with
  | SlotType.COLUMN => contentPtr.numCols
  | SlotType.ROW => contentPtr.numRows

/-- The nominal size of a content on the axis (lines 2048-2049 and 2067-2068). -/
def Gridder.nominal (slotType : SlotType) (contentPtr : Gridder) : Int :=
  match slotType with
  | SlotType.COLUMN =>
    contentPtr.reqWidth + contentPtr.padX + contentPtr.iPadX + contentPtr.doubleBw
  | SlotType.ROW =>
    contentPtr.reqHeight + contentPtr.padY + contentPtr.iPadY + contentPtr.doubleBw

/-- Step 2 (lines 2042-2081): the content of span 1 set the minimum size of their slot, the
others are binned by their right edge.  The layout array has the slots `-1 .. gridCount-1`. -/
def binContent (slotType : SlotType) (gridCount : Nat) :
    List Gridder → Layout → Except Fault Layout
  | [], layoutPtr => Except.ok layoutPtr
  | contentPtr :: rest, layoutPtr =>
    let rightEdge := contentPtr.start slotType + contentPtr.span slotType - 1
    let content1 := { contentPtr with size := contentPtr.nominal slotType }
    if contentPtr.span slotType > 1 then
      if rightEdge < -1 ∨ rightEdge ≥ gridCount then Except.error Fault.outOfBounds
      else binContent slotType gridCount rest (pushBin layoutPtr rightEdge content1)
    else if rightEdge ≥ 0 then
      if rightEdge ≥ gridCount then Except.error Fault.outOfBounds
      else
        let size := content1.size + (layoutPtr rightEdge).pad
        if size > (layoutPtr rightEdge).minSize then
          binContent slotType gridCount rest (setMinSize layoutPtr rightEdge size)
        else binContent slotType gridCount rest layoutPtr
    else binContent slotType gridCount rest layoutPtr

/-- The search `for (start = 0; start < uniformGroups; start++)` for a group (lines 2095-2099
and 2144-2153): the index of the first entry for `uniform`, or the number of groups. -/
def findGroup (uniform : Nat) : List UniformGroup → Nat
  | [] => 0
  | g :: rest => if g.group = uniform then 0 else findGroup uniform rest + 1

/-- The assignment `uniformGroupPtr[start].minSize = v`. -/
def setGroupMin : List UniformGroup → Nat → Int → List UniformGroup
  | [], _, _ => []
  | g :: rest, 0, v => { g with minSize := v } :: rest
  | g :: rest, n + 1, v => g :: setGroupMin rest n v

/-- The value `uniformGroupPtr[start].minSize`. -/
def groupMin : List UniformGroup → Nat → Int
  | [], _ => 0
  | g :: _, 0 => g.minSize
  | _ :: rest, n + 1 => groupMin rest n

/-- Step 2b, gathering (lines 2092-2135): the uniform groups after the slots `0 .. n-1`. -/
def gatherUniform (layoutPtr : Layout) (n : Nat) : List UniformGroup :=
  forUp n (fun slot groups =>
    match (layoutPtr slot).uniform with
    | none => groups
    | some u =>
      let start := findGroup u groups
      let groups1 :=
        if start ≥ groups.length then groups ++ [{ group := u, minSize := 0 }] else groups
      let weight := (layoutPtr slot).weight
      let weight1 := if weight > 0 then weight else 1
      let minSize := Int.tdiv ((layoutPtr slot).minSize + weight1 - 1) weight1
      if minSize > groupMin groups1 start then setGroupMin groups1 start minSize
      else groups1)
    []

/-- Step 2b, relayout (lines 2141-2156). -/
def applyUniform (groups : List UniformGroup) (gridCount : Nat) (layoutPtr : Layout) : Layout :=
  if groups.length > 0 then
    forUp gridCount (fun slot lp =>
      match (lp slot).uniform with
      | none => lp
      | some u =>
        let start := findGroup u groups
        if start < groups.length then
          let weight := (lp slot).weight
          let weight1 := if weight > 0 then weight else 1
          setMinSize lp slot (groupMin groups start * weight1)
        else lp)
      layoutPtr
  else layoutPtr

/-- Step 2b (lines 2088-2156). -/
def resolveUniform (gridCount : Nat) (layoutPtr : Layout) : Layout :=
  applyUniform (gatherUniform layoutPtr gridCount) gridCount layoutPtr

/-- Step 3, the bin of one slot (lines 2170-2179): `some` of the resulting
`layoutPtr[slot].minOffset`, or `none` when `layoutPtr[slot - span]` lies before the
dummy slot. -/
def forwardBin (slotType : SlotType) (layoutPtr : Layout) (slot : Int) :
    List Gridder → Int → Option Int
  | [], minOffset => some minOffset
  | contentPtr :: rest, minOffset =>
    let span := contentPtr.span slotType
    if slot - span < -1 then none
    else
      let required := contentPtr.size + (layoutPtr (slot - span)).minOffset
      if required > minOffset then forwardBin slotType layoutPtr slot rest required
      else forwardBin slotType layoutPtr slot rest minOffset

/-- Step 3 (lines 2168-2181): the minimum slot offsets from left to right.  The state is
`(offset, layoutPtr)`. -/
def forwardPass (slotType : SlotType) :
    Nat → Layout → Except Fault (Int × Layout)
  | 0, layoutPtr => Except.ok (0, layoutPtr)
  | slot + 1, layoutPtr =>
    match forwardPass slotType slot layoutPtr with
    | Except.error e => Except.error e
    | Except.ok st =>
      match forwardBin slotType st.2 slot (st.2 slot).binNextPtr
          ((st.2 slot).minSize + st.1) with
      | none => Except.error Fault.outOfBounds
      | some minOffset => Except.ok (minOffset, setMinOffset st.2 slot minOffset)

/-- Step 4, the bin of one slot (lines 2206-2216). -/
def backwardBin (slotType : SlotType) (slot : Int) (offset : Int) :
    List Gridder → Layout → Layout
  | [], layoutPtr => layoutPtr
  | contentPtr :: rest, layoutPtr =>
    let span := contentPtr.span slotType
    let require := offset - contentPtr.size
    let startSlot := slot - span
    if startSlot ≥ 0 ∧ require < (layoutPtr startSlot).maxOffset then
      backwardBin slotType slot offset rest (setMaxOffset layoutPtr startSlot require)
    else backwardBin slotType slot offset rest layoutPtr

/-- Step 4, the loop from right to left (lines 2205-2224), entered with the C variable
`slot` equal to the first argument.  The state is `(offset, layoutPtr)`. -/
def backwardPass (slotType : SlotType) : Nat → Int × Layout → Int × Layout
  | 0, st => st
  | slot + 1, st =>
    let lp1 := backwardBin slotType (slot + 1 : Nat) st.1 (st.2 (slot + 1 : Nat)).binNextPtr st.2
    let offset := st.1 - (lp1 (slot + 1 : Nat)).minSize
    if (lp1 slot).maxOffset < offset then
      backwardPass slotType slot ((lp1 slot).maxOffset, lp1)
    else
      backwardPass slotType slot (offset, setMaxOffset lp1 slot offset)

/-- Step 5, the search for the end of a span (lines 2258-2262): the first argument is
the number of slots from `end` up to `gridCount`. -/
def findEnd (layoutPtr : Layout) : Nat → Nat → Nat
  | 0, e => e
  | n + 1, e =>
    if (layoutPtr e).minOffset = (layoutPtr e).maxOffset then e
    else findEnd layoutPtr n (e + 1)

/-- Step 5, the new value of `have` when a slot cannot grow as much as its share
(lines 2320-2360): `grow` is how much the slot can grow. -/
def reducedHave (totalWeight weight need haveV grow : Int) : Int :=
  let newHave := Int.tdiv (wrapInt (grow * totalWeight)) weight
  let newHave1 :=
    if newHave > totalWeight then wrapInt (Int.tdiv newHave totalWeight * totalWeight)
    else newHave
  let newHave2 :=
    if newHave1 ≤ 0 then
      let nh := (haveV - need) - 1
      let nh1 := if nh > wrapInt (3 * totalWeight) then Int.tdiv (wrapInt (nh * 3)) 4 else nh
      let nh2 :=
        if nh1 > totalWeight then wrapInt (Int.tdiv nh1 totalWeight * totalWeight) else nh1
      if nh2 ≤ 0 then 1 else nh2
    else newHave1
  newHave2 + need

/-- Step 5, one round of the `do … while` loop (lines 2299-2372) from slot `slot`, the
first argument being `end - slot + 1`: `none` when the inner loop ran all the way,
`some have1` when it breaks out with a new value of `have`. -/
def tryHave (layoutPtr : Layout) (noWeights : Bool) (totalWeight need haveV : Int) :
    Nat → Nat → Int → Int → Int → Option Int
  | 0, _, _, _, _ => none
  | n + 1, slot, prevMinOffset, prevGrow, accWeight =>
    let weight := if noWeights then 1 else (layoutPtr slot).weight
    let accWeight1 := accWeight + weight
    let grow := Int.tdiv (wrapInt ((haveV - need) * accWeight1)) totalWeight - prevGrow
    let prevGrow1 := prevGrow + grow
    if weight > 0 ∧ prevMinOffset + (layoutPtr slot).minSize + grow > (layoutPtr slot).maxOffset then
      some (reducedHave totalWeight weight need haveV
        ((layoutPtr slot).maxOffset - (layoutPtr slot).minSize - prevMinOffset))
    else
      let prevMinOffset1 := prevMinOffset + (layoutPtr slot).minSize + grow
      let prevMinOffset2 :=
        if prevMinOffset1 < (layoutPtr slot).minOffset then (layoutPtr slot).minOffset
        else prevMinOffset1
      tryHave layoutPtr noWeights totalWeight need haveV n (slot + 1)
        prevMinOffset2 prevGrow1 accWeight1

/-- Step 5, the `do … while` loop (lines 2298-2377): the value of `have` that fits; one
unit of fuel per round. -/
def fitHave (layoutPtr : Layout) (noWeights : Bool) (totalWeight need : Int)
    (start endV : Nat) : Nat → Int → Except Fault Int
  | 0, _ => Except.error Fault.outOfFuel
  | fuel + 1, haveV =>
    match tryHave layoutPtr noWeights totalWeight need haveV (endV - start + 1) start
        (layoutPtr ((start : Int) - 1)).minOffset 0 0 with
    | none => Except.ok haveV
    | some have1 => fitHave layoutPtr noWeights totalWeight need start endV fuel have1

/-- Step 5, the body of the loop that distributes the extra space of a span
(lines 2387-2395).  The state is `(prevGrow, accWeight, layoutPtr)`. -/
def distributeStep (noWeights : Bool) (totalWeight need haveV : Int) (slot : Nat)
    (st : Int × Int × Layout) : Int × Int × Layout :=
  let lp := st.2.2
  let accWeight := st.2.1 + (if noWeights then 1 else (lp slot).weight)
  let grow := Int.tdiv (wrapInt ((haveV - need) * accWeight)) totalWeight - st.1
  let lp1 := setMinSize lp slot ((lp slot).minSize + grow)
  let lp2 :=
    if (lp1 ((slot : Int) - 1)).minOffset + (lp1 slot).minSize > (lp1 slot).minOffset then
      setMinOffset lp1 slot ((lp1 ((slot : Int) - 1)).minOffset + (lp1 slot).minSize)
    else lp1
  (st.1 + grow, accWeight, lp2)

/-- Step 5, distributing the extra space of a span (lines 2384-2396). -/
def distribute (noWeights : Bool) (totalWeight need haveV : Int) (start count : Nat)
    (layoutPtr : Layout) : Int × Int × Layout :=
  forFrom (distributeStep noWeights totalWeight need haveV) start count (0, 0, layoutPtr)

/-- Step 5, recalculating the right offsets (lines 2404-2414): the slots
`start + count`, …, `start + 1` in this order. -/
def tighten (start : Nat) : Nat → Layout → Layout
  | 0, layoutPtr => layoutPtr
  | k + 1, layoutPtr =>
    let slot : Int := ((start + k + 1 : Nat) : Int)
    if (layoutPtr slot).maxOffset - (layoutPtr slot).minSize < (layoutPtr (slot - 1)).maxOffset then
      tighten start k
        (setMaxOffset layoutPtr (slot - 1) ((layoutPtr slot).maxOffset - (layoutPtr slot).minSize))
    else tighten start k layoutPtr

/-- Step 5, the sums over a span (lines 2269-2272): `(totalWeight, need)`. -/
def spanSums (layoutPtr : Layout) (start count : Nat) : Int × Int :=
  forFrom (fun slot st =>
    (st.1 + (layoutPtr slot).weight, st.2 + (layoutPtr slot).minSize)) start count (0, 0)

/-- Step 5, the body of the outer loop for an unresolved `start` (lines 2258-2414). -/
def resolveSpan (fuel gridCount start : Nat) (layoutPtr : Layout) : Except Fault Layout :=
  let endV := findEnd layoutPtr (gridCount - (start + 1)) (start + 1)
  if endV ≥ gridCount then Except.error Fault.outOfBounds
  else
    let sums := spanSums layoutPtr start (endV - start + 1)
    let need := sums.2
    let have0 := (layoutPtr endV).maxOffset - (layoutPtr ((start : Int) - 1)).minOffset
    let noWeights : Bool := decide (sums.1 = 0)
    let totalWeight : Int := if sums.1 = 0 then ((endV : Int) - start + 1) else sums.1
    match fitHave layoutPtr noWeights totalWeight need start endV fuel have0 with
    | Except.error e => Except.error e
    | Except.ok haveV =>
      let lp1 := (distribute noWeights totalWeight need haveV start (endV - start + 1) layoutPtr).2.2
      Except.ok (tighten start (endV - start) lp1)

/-- Step 5 (lines 2236-2415): the scan `for (start = 0; start < gridCount;)`; one unit
of fuel per iteration. -/
def resolveSpans (gridCount : Nat) (inner : Nat) : Nat → Nat → Layout → Except Fault Layout
  | fuel, start, layoutPtr =>
    if start < gridCount then
      match fuel with
      | 0 => Except.error Fault.outOfFuel
      | fuel + 1 =>
        if (layoutPtr start).minOffset = (layoutPtr start).maxOffset then
          resolveSpans gridCount inner fuel (start + 1) layoutPtr
        else
          match resolveSpan inner gridCount start layoutPtr with
          | Except.error e => Except.error e
          | Except.ok lp1 => resolveSpans gridCount inner fuel start lp1
    else Except.ok layoutPtr

/-- Step 6 (lines 2423-2425): the offsets are copied back into the container. -/
def copyOffsets (gridCount : Nat) (layoutPtr : Layout) (slotPtr : Nat → SlotInfo) :
    Nat → SlotInfo :=
  forUp gridCount (fun slot sp => setOffset sp slot (layoutPtr slot).minOffset) slotPtr

/-- Steps 1 to 3 of `ResolveConstraints` (lines 1975-2181): the value of `offset` after
the forward pass and the layout array. -/
def requiredLayout (slotType : SlotType) (slotPtr : Nat → SlotInfo)
    (constraintCount gridCount : Nat) (contentPtr : List Gridder) :
    Except Fault (Int × Layout) :=
  match binContent slotType gridCount contentPtr
      (initLayout slotPtr constraintCount gridCount) with
  | Except.error e => Except.error e
  | Except.ok lp => forwardPass slotType gridCount (resolveUniform gridCount lp)

/-- Steps 4 to 6 of `ResolveConstraints` (lines 2189-2425), from the result `offset` of
the forward pass: the slot array with the offsets written. -/
def placeOffsets (fuel : Nat) (slotType : SlotType) (slotPtr : Nat → SlotInfo)
    (gridCount : Nat) (maxOffset : Int) (requiredSize : Int) (layoutPtr : Layout) :
    Except Fault (Nat → SlotInfo) :=
  let offset := if maxOffset > requiredSize then maxOffset else requiredSize
  let lp1 := forUp gridCount (fun slot lp => setMaxOffset lp slot offset) layoutPtr
  let lp2 := (backwardPass slotType (gridCount - 1) (offset, lp1)).2
  match resolveSpans gridCount fuel fuel 0 lp2 with
  | Except.error e => Except.error e
  | Except.ok lp3 => Except.ok (copyOffsets gridCount lp3 slotPtr)

/-- The slot array of the axis: `columnPtr` or `rowPtr`. -/
def GridContainer.slotPtr (slotType : SlotType) (c : GridContainer) : Nat → SlotInfo :=
  match slotType with
  | SlotType.COLUMN => c.columnPtr
  | SlotType.ROW => c.rowPtr

/-- The count of slots that have constraints: `columnMax` or `rowMax`. -/
def GridContainer.constraintCount (slotType : SlotType) (c : GridContainer) : Nat :=
  match slotType with
  | SlotType.COLUMN => c.columnMax
  | SlotType.ROW => c.rowMax

/-- The last occupied slot: `columnEnd` or `rowEnd`. -/
def GridContainer.slotCount (slotType : SlotType) (c : GridContainer) : Nat :=
  match slotType with
  | SlotType.COLUMN => c.columnEnd
  | SlotType.ROW => c.rowEnd

/-- The value `gridCount = MAX(constraintCount, slotCount)` (line 1989). -/
def GridContainer.gridCount (slotType : SlotType) (c : GridContainer) : Nat :=
  if c.constraintCount slotType > c.slotCount slotType then c.constraintCount slotType
  else c.slotCount slotType

/-- The procedure `ResolveConstraints(containerPtr, slotType, maxOffset)`: the required size
and the slot array of the axis afterwards.  Each of the two unbounded loops of step 5 may
run `fuel` times. -/
def ResolveConstraints (fuel : Nat) (containerPtr : GridContainer) (slotType : SlotType)
    (maxOffset : Int) : Except Fault (Int × (Nat → SlotInfo)) :=
  let slotPtr := containerPtr.slotPtr slotType
  let gridCount := containerPtr.gridCount slotType
  match requiredLayout slotType slotPtr (containerPtr.constraintCount slotType) gridCount
      containerPtr.contentPtr with
  | Except.error e => Except.error e
  | Except.ok st =>
    match placeOffsets fuel slotType slotPtr gridCount maxOffset st.1 st.2 with
    | Except.error e => Except.error e
    | Except.ok slotPtr1 => Except.ok (st.1, slotPtr1)

/-! ## Auxiliary definitions for the statements -/

/-- Partial sums: `psum f n = f 0 + … + f (n-1)`. -/
def psum (f : Nat → Int) : Nat → Int
  | 0 => 0
  | n + 1 => psum f n + f n

/-- The products of the shrink loop of `AdjustOffsets` fit in an `int`: the total weight
times the deficit `-diff`, and times the excess of each slot over its minimum size, is at
most `INT_MAX`. -/
def ShrinkFits (slots : Nat) (diff : Int) (slotPtr : Nat → SlotInfo) : Prop :=
  sumWeights slots slotPtr * (-diff) ≤ INT_MAX
  ∧ ∀ j, j < slots →
      sumWeights slots slotPtr * (current slotPtr j - (slotPtr j).minSize) ≤ INT_MAX

/-- The products of `AdjustOffsets(size, slots, slotPtr)` fit in an `int`: the total weight
times the distance between the target and the current size, and times the excess of each
slot over its minimum size, is at most `INT_MAX`. -/
def AdjustFits (size : Int) (slots : Nat) (slotPtr : Nat → SlotInfo) : Prop :=
  sumWeights slots slotPtr * (size - (slotPtr (slots - 1)).offset) ≤ INT_MAX
  ∧ ShrinkFits slots (size - (slotPtr (slots - 1)).offset) slotPtr

/-- The value stored in `temp` by the loop of lines 1586-1596. -/
def tempOf (slotPtr : Nat → SlotInfo) (j : Nat) : Int :=
  if (slotPtr j).weight > 0 then (slotPtr j).minSize else current slotPtr j

/-- A slot array for which the statement "after shrinking to the sum of the minimum sizes
every slot has its minimum size" fails: slot 0 has weight 1 and slot 1 weight 0, both have
`minSize` 10 and width 50. -/
def shrinkExample : Nat → SlotInfo := fun j =>
  if j = 0 then { minSize := 10, weight := 1, pad := 0, uniform := none, offset := 50, temp := 0 }
  else { minSize := 10, weight := 0, pad := 0, uniform := none, offset := 100, temp := 0 }

/-- Two columns of weight 1 and width 0. -/
def twoColumns : Nat → SlotInfo := fun _ =>
  { minSize := 0, weight := 1, pad := 0, uniform := none, offset := 0, temp := 0 }

/-- The weight that the loop of lines 1623-1634 records in `temp`: the slot's weight when
the slot is wider than its `minSize`, otherwise 0. -/
def shrinkWeightOf (slotPtr : Nat → SlotInfo) (j : Nat) : Int :=
  if current slotPtr j > (slotPtr j).minSize then (slotPtr j).weight else 0

/-- The right edge of a content on the axis: `column + numCols - 1` or `row + numRows - 1`. -/
def Gridder.rightEdge (slotType : SlotType) (contentPtr : Gridder) : Int :=
  contentPtr.start slotType + contentPtr.span slotType - 1

/-- A content as its container keeps it: placed at a slot that is not negative, spanning
at least one slot, and ending inside the `gridCount` slots of the axis (`SetGridSize`
makes `columnEnd`, `rowEnd` the largest `start + span`). -/
def ValidContent (slotType : SlotType) (gridCount : Nat) (contentPtr : Gridder) : Prop :=
  0 ≤ contentPtr.start slotType ∧ 1 ≤ contentPtr.span slotType
    ∧ contentPtr.start slotType + contentPtr.span slotType ≤ gridCount

instance (slotType : SlotType) (gridCount : Nat) (contentPtr : Gridder) :
    Decidable (ValidContent slotType gridCount contentPtr) := by
  unfold ValidContent; infer_instance

/-- The content as step 2 bins it: with its nominal size stored in `size`. -/
def Gridder.sized (slotType : SlotType) (contentPtr : Gridder) : Gridder :=
  { contentPtr with size := contentPtr.nominal slotType }

/-- The weight used for a uniform group: `weight > 0 ? weight : 1`, that is `max(weight, 1)`. -/
def uniformWeight (layoutPtr : Layout) (slot : Nat) : Int :=
  if (layoutPtr slot).weight > 0 then (layoutPtr slot).weight else 1

/-- The per-weight minimum that a slot demands from its group (line 2130). -/
def uniformDemand (layoutPtr : Layout) (slot : Nat) : Int :=
  Int.tdiv ((layoutPtr slot).minSize + uniformWeight layoutPtr slot - 1)
    (uniformWeight layoutPtr slot)

/-- One round of the gathering loop for a slot with tag `u` and demand `c`
(lines 2095-2133). -/
def gatherStep (u : Nat) (c : Int) (groups : List UniformGroup) : List UniformGroup :=
  let start := findGroup u groups
  let groups1 :=
    if start ≥ groups.length then groups ++ [{ group := u, minSize := 0 }] else groups
  if c > groupMin groups1 start then setGroupMin groups1 start c else groups1

/-- The group `u` has an entry. -/
def groupHas (groups : List UniformGroup) (u : Nat) : Prop :=
  findGroup u groups < groups.length

/-- The minimum recorded for the group `u`. -/
def groupVal (groups : List UniformGroup) (u : Nat) : Int :=
  groupMin groups (findGroup u groups)

/-- The largest demand among the slots `0 .. n-1` that carry the tag `u`, and at least 0. -/
def groupDemand (layoutPtr : Layout) (u : Nat) : Nat → Int
  | 0 => 0
  | n + 1 =>
    if (layoutPtr n).uniform = some u then
      max (groupDemand layoutPtr u n) (uniformDemand layoutPtr n)
    else groupDemand layoutPtr u n

/-- The slot as the relayout loop of step 2b leaves it (lines 2143-2154). -/
def uniformSized (groups : List UniformGroup) (layoutPtr : Layout) (j : Int) : GridLayout :=
  match (layoutPtr j).uniform with
  | none => layoutPtr j
  | some u =>
    if findGroup u groups < groups.length then
      { layoutPtr j with
        minSize := groupMin groups (findGroup u groups)
          * (if (layoutPtr j).weight > 0 then (layoutPtr j).weight else 1) }
    else layoutPtr j

/-- The effect of the forward pass (step 3) from `lp` to `lp1` on the slots `0 .. n-1`: only
`minOffset` is written, and `minOffset` of a slot is the largest of `minSize` plus the
previous `minOffset` and, for the content of its bin, `size` plus the `minOffset` before
the first slot of the content. -/
structure ForwardOk (slotType : SlotType) (n : Nat) (lp lp1 : Layout) : Prop where
  frame : ∀ j, (lp1 j).minSize = (lp j).minSize ∧ (lp1 j).weight = (lp j).weight
    ∧ (lp1 j).pad = (lp j).pad ∧ (lp1 j).uniform = (lp j).uniform
    ∧ (lp1 j).binNextPtr = (lp j).binNextPtr ∧ (lp1 j).maxOffset = (lp j).maxOffset
  outside : ∀ j : Int, (j < 0 ∨ j ≥ (n : Int)) → (lp1 j).minOffset = (lp j).minOffset
  ge_init : ∀ j : Nat, j < n →
    (lp j).minSize + (lp1 ((j : Int) - 1)).minOffset ≤ (lp1 j).minOffset
  ge_item : ∀ j : Nat, j < n → ∀ c, c ∈ (lp j).binNextPtr →
    c.size + (lp1 ((j : Int) - c.span slotType)).minOffset ≤ (lp1 j).minOffset
  attained : ∀ j : Nat, j < n →
    (lp1 j).minOffset = (lp j).minSize + (lp1 ((j : Int) - 1)).minOffset
    ∨ ∃ c, c ∈ (lp j).binNextPtr
        ∧ (lp1 j).minOffset = c.size + (lp1 ((j : Int) - c.span slotType)).minOffset

/-- The invariant of step 5 on the slots `0 .. n-1` of the layout array: the weights are
not negative, the dummy slot is at 0, consecutive `minOffset` and consecutive `maxOffset`
are at least `minSize` apart, `minOffset ≤ maxOffset`, and the last slot is fixed. -/
structure SpanInv (n : Nat) (lp : Layout) : Prop where
  weight_nonneg : ∀ j : Int, 0 ≤ (lp j).weight
  dummy_min : (lp (-1)).minOffset = 0
  dummy_max : (lp (-1)).maxOffset = 0
  min_chain : ∀ j : Nat, j < n →
    (lp ((j : Int) - 1)).minOffset + (lp j).minSize ≤ (lp j).minOffset
  max_chain : ∀ j : Nat, j < n →
    (lp ((j : Int) - 1)).maxOffset + (lp j).minSize ≤ (lp j).maxOffset
  min_le_max : ∀ j : Nat, j < n → (lp j).minOffset ≤ (lp j).maxOffset
  last_fixed : 0 < n → (lp ((n : Int) - 1)).minOffset = (lp ((n : Int) - 1)).maxOffset
/-- The state of the loop of step 4 when the C variable `slot` is `s`: relative to the
layout `lp0` after the forward pass only `maxOffset` has been written, `offset` is the
`maxOffset` of slot `s`, `minOffset ≤ maxOffset` everywhere, and the slots above `s` are
at least `minSize` after the `maxOffset` of their left neighbour. -/
structure BackInv (n : Nat) (lp0 : Layout) (top : Int) (s : Nat) (offset : Int)
    (lp : Layout) : Prop where
  frame : ∀ j, (lp j).minSize = (lp0 j).minSize ∧ (lp j).weight = (lp0 j).weight
    ∧ (lp j).pad = (lp0 j).pad ∧ (lp j).uniform = (lp0 j).uniform
    ∧ (lp j).binNextPtr = (lp0 j).binNextPtr ∧ (lp j).minOffset = (lp0 j).minOffset
  offset_eq : offset = (lp s).maxOffset
  min_le_max : ∀ j : Nat, j < n → (lp j).minOffset ≤ (lp j).maxOffset
  max_chain : ∀ j : Nat, s < j → j < n →
    (lp ((j : Int) - 1)).maxOffset + (lp j).minSize ≤ (lp j).maxOffset
  top_eq : (lp ((n : Int) - 1)).maxOffset = top
  outside : ∀ j : Int, (j < 0 ∨ j ≥ (n : Int)) → (lp j).maxOffset = (lp0 j).maxOffset

/-- The sum `f s + … + f (s + n - 1)`. -/
def sumFrom (f : Nat → Int) : Nat → Nat → Int
  | _, 0 => 0
  | s, n + 1 => f s + sumFrom f (s + 1) n

/-- The weight of a slot in a span: `noWeights ? 1 : layoutPtr[slot].weight`. -/
def effWeight (layoutPtr : Layout) (noWeights : Bool) (slot : Nat) : Int :=
  if noWeights then 1 else (layoutPtr slot).weight

/-- A slot whose range of possible offsets is a single value. -/
def fixedSlot (layoutPtr : Layout) (j : Int) : Prop :=
  (layoutPtr j).minOffset = (layoutPtr j).maxOffset

/-- The slack that step 5 can still distribute: the `maxOffset` of the last slot less the
sum of the current minimum sizes. -/
def slack (n : Nat) (layoutPtr : Layout) : Int :=
  (layoutPtr ((n : Int) - 1)).maxOffset - sumFrom (fun k => (layoutPtr k).minSize) 0 n

/-- The configured weight of a slot: `weight` of the slot table for the slots that have
constraints, 0 for the slots beyond them. -/
def configuredWeight (slotPtr : Nat → SlotInfo) (constraintCount : Nat) (j : Nat) : Int :=
  if j < constraintCount then (slotPtr j).weight else 0

/-- The configured minimum size of a slot: `minSize` of the slot table for the slots
that have constraints, 0 for the slots beyond them. -/
def configuredMin (slotPtr : Nat → SlotInfo) (constraintCount : Nat) (j : Nat) : Int :=
  if j < constraintCount then (slotPtr j).minSize else 0

/-- The products of step 5 of `ResolveConstraints` fit in an `int` for the required size
`r`: with `W` the sum of the configured weights of the slots below `gridCount`,
`(r + 3) * (W + gridCount + 3)` is at most `INT_MAX`.  (The slack `have - need` of a span
is at most `r` and its `totalWeight` at most `W`, or the number of its slots; the products
of lines 2306, 2322, 2342, 2346 and 2388 are then below this bound.) -/
def ResolveFits (c : GridContainer) (slotType : SlotType) (r : Int) : Prop :=
  (r + 3) * (sumFrom (configuredWeight (c.slotPtr slotType) (c.constraintCount slotType)) 0
      (c.gridCount slotType) + (c.gridCount slotType : Int) + 3) ≤ INT_MAX

/-- The configured pad of a slot: `pad` of the slot table for the slots that have
constraints, 0 for the slots beyond them. -/
def configuredPad (slotPtr : Nat → SlotInfo) (constraintCount : Nat) (j : Nat) : Int :=
  if j < constraintCount then (slotPtr j).pad else 0

/-- The container with the slot array of the axis replaced. -/
def GridContainer.setSlotPtr (slotType : SlotType) (c : GridContainer)
    (slotPtr : Nat → SlotInfo) : GridContainer :=
  match slotType with
  | SlotType.COLUMN => { c with columnPtr := slotPtr }
  | SlotType.ROW => { c with rowPtr := slotPtr }

/-- The outcome of `ResolveConstraints` as values: the required size and the offsets of the
slots `0 .. n-1`, or `none` after a fault. -/
def offsetsOf (n : Nat) (res : Except Fault (Int × (Nat → SlotInfo))) :
    Option (Int × List Int) :=
  match res with
  | Except.ok (r, sp) => some (r, (List.range n).map (fun j => (sp j).offset))
  | Except.error _ => none

/-- A slot without constraints. -/
def defaultSlot : SlotInfo :=
  { minSize := 0, weight := 0, pad := 0, uniform := none, offset := 0, temp := 0 }

/-- A content of the column axis at `column`, spanning `numCols` columns, of requested width
`reqWidth`, without padding or border. -/
def columnContent (column numCols reqWidth : Int) : Gridder :=
  { reqWidth := reqWidth, reqHeight := 0, column := column, row := 0, numCols := numCols,
    numRows := 1, padX := 0, padY := 0, padLeft := 0, padTop := 0, iPadX := 0, iPadY := 0,
    sticky := 0, doubleBw := 0, size := 0 }

/-- Four columns without constraints and two overlapping spans: a content of width 3 on
the columns 1-2 and a content of width 4 on the columns 0-3. -/
def overlapExample : GridContainer :=
  { columnPtr := fun _ => defaultSlot, rowPtr := fun _ => defaultSlot,
    columnEnd := 4, columnMax := 0, columnSpace := 25, rowEnd := 1, rowMax := 0,
    rowSpace := 25, startX := 0, startY := 0,
    contentPtr := [columnContent 1 2 3, columnContent 0 4 4] }
/-- A container for the examples: the columns 0 and 2 are configured (2 has `minSize` 20
and weight 1), column 1 has a pad; a content of width 30 in column 1 and a content of width
90 on the columns 0-2. -/
def sampleContainer : GridContainer :=
  { columnPtr := fun j =>
      if j = 1 then { minSize := 0, weight := 0, pad := 2, uniform := none, offset := 0, temp := 0 }
      else if j = 2 then
        { minSize := 20, weight := 1, pad := 0, uniform := none, offset := 0, temp := 0 }
      else defaultSlot,
    rowPtr := fun _ => defaultSlot,
    columnEnd := 3, columnMax := 3, columnSpace := 25, rowEnd := 1, rowMax := 0,
    rowSpace := 25, startX := 0, startY := 0,
    contentPtr := [columnContent 1 1 30, columnContent 0 3 90] }

/-! ## `AdjustForSticky` -/

/-- The flag `STICK_NORTH`: the window sticks to the top of its cavity. -/
def STICK_NORTH : Int := 1

/-- The flag `STICK_EAST`: the window sticks to the right edge of its cavity. -/
def STICK_EAST : Int := 2

/-- The flag `STICK_SOUTH`: the window sticks to the bottom of its cavity. -/
def STICK_SOUTH : Int := 4

/-- The flag `STICK_WEST`: the window sticks to the left edge of its cavity. -/
def STICK_WEST : Int := 8

/-- The test `sticky & flag` of C: the flag is set in the bit set `sticky`. -/
def stuck (sticky flag : Int) : Bool :=
  Int.land sticky flag != 0

/-- The procedure `AdjustForSticky(contentPtr, &x, &y, &width, &height)`: the values of
`x`, `y`, `width` and `height` afterwards. -/
def AdjustForSticky (contentPtr : Gridder) (x y width height : Int) :
    Int × Int × Int × Int :=
  let sticky := contentPtr.sticky
  let x1 := x + contentPtr.padLeft
  let width1 := width - contentPtr.padX
  let y1 := y + contentPtr.padTop
  let height1 := height - contentPtr.padY
  let diffx :=
    if width1 > contentPtr.reqWidth + contentPtr.iPadX then
      width1 - (contentPtr.reqWidth + contentPtr.iPadX)
    else 0
  let width2 :=
    if width1 > contentPtr.reqWidth + contentPtr.iPadX then
      contentPtr.reqWidth + contentPtr.iPadX
    else width1
  let diffy :=
    if height1 > contentPtr.reqHeight + contentPtr.iPadY then
      height1 - (contentPtr.reqHeight + contentPtr.iPadY)
    else 0
  let height2 :=
    if height1 > contentPtr.reqHeight + contentPtr.iPadY then
      contentPtr.reqHeight + contentPtr.iPadY
    else height1
  let width3 :=
    if stuck sticky STICK_EAST && stuck sticky STICK_WEST then width2 + diffx else width2
  let height3 :=
    if stuck sticky STICK_NORTH && stuck sticky STICK_SOUTH then height2 + diffy else height2
  let x2 :=
    if !stuck sticky STICK_WEST then
      x1 + (if stuck sticky STICK_EAST then diffx else Int.tdiv diffx 2)
    else x1
  let y2 :=
    if !stuck sticky STICK_NORTH then
      y1 + (if stuck sticky STICK_SOUTH then diffy else Int.tdiv diffy 2)
    else y1
  (x2, y2, width3, height3)

/-! ## `SetContentColumn`, `SetContentRow` -/

/-- A Tcl completion code: `TCL_OK` or `TCL_ERROR`. -/
inductive TclStatus where
  | TCL_OK
  | TCL_ERROR
deriving DecidableEq, Repr

/-- The bound `MAX_ELEMENT` on slot indices. -/
def MAX_ELEMENT : Int := 10000

/-- The procedure `SetContentColumn(interp, contentPtr, column, numCols)`: the completion
code and the content afterwards. -/
def SetContentColumn (contentPtr : Gridder) (column numCols : Int) : TclStatus × Gridder :=
  let newColumn := if column ≥ 0 then column else contentPtr.column
  let newNumCols := if numCols ≥ 1 then numCols else contentPtr.numCols
  let lastCol := wrapInt ((if newColumn ≥ 0 then newColumn else 0) + newNumCols)
  if lastCol ≥ MAX_ELEMENT then (TclStatus.TCL_ERROR, contentPtr)
  else (TclStatus.TCL_OK, { contentPtr with column := newColumn, numCols := newNumCols })

/-- The procedure `SetContentRow(interp, contentPtr, row, numRows)`: the completion code and
the content afterwards. -/
def SetContentRow (contentPtr : Gridder) (row numRows : Int) : TclStatus × Gridder :=
  let newRow := if row ≥ 0 then row else contentPtr.row
  let newNumRows := if numRows ≥ 1 then numRows else contentPtr.numRows
  let lastRow := wrapInt ((if newRow ≥ 0 then newRow else 0) + newNumRows)
  if lastRow ≥ MAX_ELEMENT then (TclStatus.TCL_ERROR, contentPtr)
  else (TclStatus.TCL_OK, { contentPtr with row := newRow, numRows := newNumRows })

/-- A content of requested size 20 x 10 with outer padding 4 x 2 (left 1, top 1), inner
padding 2 x 2 and the given sticky flags. -/
def stickyContent (sticky : Int) : Gridder :=
  { reqWidth := 20, reqHeight := 10, column := 0, row := 0, numCols := 1, numRows := 1,
    padX := 4, padY := 2, padLeft := 1, padTop := 1, iPadX := 2, iPadY := 2,
    sticky := sticky, doubleBw := 0, size := 0 }

/-! ## The slot table: `InitContainerData`, `CheckSlotData` -/

/-- The number of slots allocated at first: `TYPICAL_SIZE`. -/
def TYPICAL_SIZE : Nat := 25

/-- The extra slots to allocate: `PREALLOC`. -/
def PREALLOC : Nat := 10

/-- The value `CHECK_ONLY` of the argument `checkOnly`: check the slot against the maximum
constraint, allocate nothing. -/
def CHECK_ONLY : Int := 1

/-- The value `CHECK_SPACE` of the argument `checkOnly`: allocate more space, do not change
the maximum. -/
def CHECK_SPACE : Int := 2

/-- The container `Gridder` as the slot table procedures see it: `containerDataPtr`
(`none` for NULL) and the list of content linked from `contentPtr` through `nextPtr`. -/
structure Container where
  containerDataPtr : Option GridContainer
  contentPtr : List Gridder

/-- The number of slots allocated for the axis: `columnSpace` or `rowSpace`. -/
def GridContainer.space (slotType : SlotType) (c : GridContainer) : Nat :=
  match slotType with
  | SlotType.COLUMN => c.columnSpace
  | SlotType.ROW => c.rowSpace

/-- The assignment to `columnSpace` or `rowSpace`. -/
def GridContainer.setSpace (slotType : SlotType) (c : GridContainer) (v : Nat) :
    GridContainer :=
  match slotType with
  | SlotType.COLUMN => { c with columnSpace := v }
  | SlotType.ROW => { c with rowSpace := v }

/-- The assignment to `columnMax` or `rowMax`. -/
def GridContainer.setMax (slotType : SlotType) (c : GridContainer) (v : Nat) :
    GridContainer :=
  match slotType with
  | SlotType.COLUMN => { c with columnMax := v }
  | SlotType.ROW => { c with rowMax := v }

/-- The `GridContainer` that `InitContainerData` allocates (lines 2741-2757): no slot
occupied or constrained, `TYPICAL_SIZE` slots per axis, all set to 0 by `memset`. -/
def freshData (contentPtr : List Gridder) : GridContainer :=
  { columnPtr := fun _ => defaultSlot, rowPtr := fun _ => defaultSlot,
    columnEnd := 0, columnMax := 0, columnSpace := TYPICAL_SIZE,
    rowEnd := 0, rowMax := 0, rowSpace := TYPICAL_SIZE,
    startX := 0, startY := 0,
    contentPtr := contentPtr }

/-- The procedure `InitContainerData(containerPtr)`. -/
def InitContainerData (containerPtr : Container) : Container :=
  match containerPtr.containerDataPtr with
  | some _ => containerPtr
  | none => { containerPtr with containerDataPtr := some (freshData containerPtr.contentPtr) }

/-- The structure `*containerPtr->containerDataPtr` once `InitContainerData(containerPtr)`
has been called. -/
def Container.data (containerPtr : Container) : GridContainer :=
  match containerPtr.containerDataPtr with
  | some d => d
  | none => freshData containerPtr.contentPtr

/-- The new array of lines 2690-2699: the `numSlot` old slots copied by `memcpy`, the
slots after them set to 0 by `memset`. -/
def growSlots (slotPtr : Nat → SlotInfo) (numSlot : Nat) : Nat → SlotInfo :=
  fun j => if j < numSlot then slotPtr j else defaultSlot

/-- The procedure `CheckSlotData(containerPtr, slot, slotType, checkOnly)`: the completion
code and the container afterwards. -/
def CheckSlotData (containerPtr : Container) (slot : Int) (slotType : SlotType)
    (checkOnly : Int) : TclStatus × Container :=
  if slot < 0 ∨ slot ≥ MAX_ELEMENT then (TclStatus.TCL_ERROR, containerPtr)
  else if checkOnly = CHECK_ONLY ∧ containerPtr.containerDataPtr.isNone then
    (TclStatus.TCL_ERROR, containerPtr)
  else
    let d := containerPtr.data
    let endSlot := d.constraintCount slotType
    if checkOnly = CHECK_ONLY then
      (if (endSlot : Int) < slot then TclStatus.TCL_ERROR else TclStatus.TCL_OK,
        InitContainerData containerPtr)
    else
      let numSlot := d.space slotType
      let d1 :=
        if slot ≥ (numSlot : Int) then
          (d.setSlotPtr slotType (growSlots (d.slotPtr slotType) numSlot)).setSpace slotType
            (slot.toNat + PREALLOC)
        else d
      let d2 :=
        if slot ≥ (endSlot : Int) ∧ checkOnly ≠ CHECK_SPACE then
          d1.setMax slotType (slot.toNat + 1)
        else d1
      (TclStatus.TCL_OK, { containerPtr with containerDataPtr := some d2 })

/-! ## `GridRowColumnConfigureCommand` -/

/-- An element of the index list `lObjv` as the command reads it: an integer, the word
`all`, the name of a window, or anything else.  For a window, `contentPtr` is the result
of `GetGrid` (`none` for NULL) and `managed` tells whether its `containerPtr` is the
container of the command. -/
inductive IndexArg where
  | slot (n : Int)
  | all
  | window (contentPtr : Option Gridder) (managed : Bool)
  | illegal
deriving DecidableEq, Repr

/-- A pair `-option value` of the argument list as the command reads it.  For `-minsize`
and `-pad` the value is the result of `Tk_GetPixelsFromObj`, for `-weight` that of
`Tcl_GetIntFromObj` (`none` when the conversion fails); for `-uniform` it is the `Tk_Uid`
of the string, `none` for the empty string; `unknown` is an option name that
`Tcl_GetIndexFromObjStruct` rejects. -/
inductive OptionArg where
  | minsize (size : Option Int)
  | pad (size : Option Int)
  | uniform (uid : Option Nat)
  | weight (wt : Option Int)
  | unknown
deriving DecidableEq, Repr

/-- The four options of a slot, as the command reports them. -/
structure SlotOptions where
  minsize : Int
  pad : Int
  uniform : Option Nat
  weight : Int
deriving DecidableEq, Repr

/-- The body of the loop over the option value pairs (lines 1203-1248) for one pair. -/
def setOption (slotPtr : Nat → SlotInfo) (slot : Nat) :
    OptionArg → TclStatus × (Nat → SlotInfo)
  | OptionArg.minsize none => (TclStatus.TCL_ERROR, slotPtr)
  | OptionArg.minsize (some size) =>
    (TclStatus.TCL_OK, fun j => if j = slot then { slotPtr j with minSize := size } else slotPtr j)
  | OptionArg.weight none => (TclStatus.TCL_ERROR, slotPtr)
  | OptionArg.weight (some wt) =>
    if wt < 0 then (TclStatus.TCL_ERROR, slotPtr)
    else
      (TclStatus.TCL_OK, fun j => if j = slot then { slotPtr j with weight := wt } else slotPtr j)
  | OptionArg.uniform uid =>
    (TclStatus.TCL_OK, fun j => if j = slot then { slotPtr j with uniform := uid } else slotPtr j)
  | OptionArg.pad none => (TclStatus.TCL_ERROR, slotPtr)
  | OptionArg.pad (some size) =>
    if size < 0 then (TclStatus.TCL_ERROR, slotPtr)
    else
      (TclStatus.TCL_OK, fun j => if j = slot then { slotPtr j with pad := size } else slotPtr j)
  | OptionArg.unknown => (TclStatus.TCL_ERROR, slotPtr)

/-- The loop `for (i = 4; i < objc; i += 2)` over the option value pairs (lines 1203-1248):
it stops at the first pair that is rejected. -/
def setOptions (slot : Nat) : List OptionArg → (Nat → SlotInfo) → TclStatus × (Nat → SlotInfo)
  | [], slotPtr => (TclStatus.TCL_OK, slotPtr)
  | o :: os, slotPtr =>
    match setOption slotPtr slot o with
    | (TclStatus.TCL_OK, slotPtr1) => setOptions slot os slotPtr1
    | (TclStatus.TCL_ERROR, slotPtr1) => (TclStatus.TCL_ERROR, slotPtr1)

/-- The state of the loops of the command: the container and whether the local variable
`slotPtr` has been assigned (`slotPtr != NULL`). -/
structure ConfigureState where
  containerPtr : Container
  slotPtrSet : Bool

/-- The body of the loop over the slots (lines 1187-1249) for one slot. -/
def configureSlot (slotType : SlotType) (options : List OptionArg) (st : ConfigureState)
    (slot : Int) : TclStatus × ConfigureState :=
  match CheckSlotData st.containerPtr slot slotType 0 with
  | (TclStatus.TCL_ERROR, c) => (TclStatus.TCL_ERROR, { st with containerPtr := c })
  | (TclStatus.TCL_OK, c) =>
    let r := setOptions slot.toNat options (c.data.slotPtr slotType)
    (r.1,
      { containerPtr := { c with containerDataPtr := some (c.data.setSlotPtr slotType r.2) },
        slotPtrSet := true })

/-- The loop `for (slot = first; slot <= last; slot++)` (lines 1187-1249), `count` slots
from `slot` on. -/
def configureRange (slotType : SlotType) (options : List OptionArg) :
    Nat → Int → ConfigureState → TclStatus × ConfigureState
  | 0, _, st => (TclStatus.TCL_OK, st)
  | count + 1, slot, st =>
    match configureSlot slotType options st slot with
    | (TclStatus.TCL_OK, st1) => configureRange slotType options count (slot + 1) st1
    | (TclStatus.TCL_ERROR, st1) => (TclStatus.TCL_ERROR, st1)

/-- The loop `do … while` over a list of content (lines 1179-1254): the slots of each
content, from `first` to `last = first - 1 + span`. -/
def configureContent (slotType : SlotType) (options : List OptionArg) :
    List Gridder → ConfigureState → TclStatus × ConfigureState
  | [], st => (TclStatus.TCL_OK, st)
  | contentPtr :: nextPtr, st =>
    let first := contentPtr.start slotType
    let last := first - 1 + contentPtr.span slotType
    match configureRange slotType options (last + 1 - first).toNat first st with
    | (TclStatus.TCL_OK, st1) => configureContent slotType options nextPtr st1
    | (TclStatus.TCL_ERROR, st1) => (TclStatus.TCL_ERROR, st1)

/-- The body of the loop over the index list (lines 1131-1254) for one index. -/
def configureIndex (slotType : SlotType) (options : List OptionArg) (st : ConfigureState) :
    IndexArg → TclStatus × ConfigureState
  | IndexArg.slot n => configureRange slotType options (n + 1 - n).toNat n st
  | IndexArg.all =>
    let st1 := { st with containerPtr := InitContainerData st.containerPtr }
    configureContent slotType options st1.containerPtr.contentPtr st1
  | IndexArg.window none _ => (TclStatus.TCL_OK, st)
  | IndexArg.window (some _) false => (TclStatus.TCL_ERROR, st)
  | IndexArg.window (some contentPtr) true => configureContent slotType options [contentPtr] st
  | IndexArg.illegal => (TclStatus.TCL_ERROR, st)

/-- The loop `for (j = 0; j < lObjc; j++)` over the index list (lines 1131-1254). -/
def configureIndices (slotType : SlotType) (options : List OptionArg) :
    List IndexArg → ConfigureState → TclStatus × ConfigureState
  | [], st => (TclStatus.TCL_OK, st)
  | index :: rest, st =>
    match configureIndex slotType options st index with
    | (TclStatus.TCL_OK, st1) => configureIndices slotType options rest st1
    | (TclStatus.TCL_ERROR, st1) => (TclStatus.TCL_ERROR, st1)

/-- The test of lines 1265-1267 and 1274-1276: every constraint of the slot has its
default. -/
def SlotInfo.unconstrained (s : SlotInfo) : Bool :=
  s.weight == 0 && s.pad == 0 && s.minSize == 0 && s.uniform.isNone

/-- The check for constraint shrinkage (lines 1263-1269 and 1272-1278): the new maximum,
starting from `last = max - 1`. -/
def trimMax (slotPtr : Nat → SlotInfo) : Nat → Nat
  | 0 => 0
  | last + 1 => if (slotPtr last).unconstrained then trimMax slotPtr last else last + 1

/-- The options of slot `slot` of an array. -/
def slotOptions (slotPtr : Nat → SlotInfo) (slot : Nat) : SlotOptions :=
  { minsize := (slotPtr slot).minSize, pad := (slotPtr slot).pad,
    uniform := (slotPtr slot).uniform, weight := (slotPtr slot).weight }

/-- The command `grid rowconfigure` or `grid columnconfigure` on a live container, with the
index list `lObjv` and the option value pairs `options`: the completion code, the
container afterwards and, for the retrieval of all the options of a slot (no pair given,
`objc == 4`), the values reported.  A read of a slot that is not allocated is a fault.
(The retrieval of one option, `objc == 5`, reports one of the four values of the retrieval
of all of them and is not part of the model.) -/
def GridRowColumnConfigureCommand (containerPtr : Container) (slotType : SlotType)
    (lObjv : List IndexArg) (options : List OptionArg) :
    Except Fault (TclStatus × Container × Option SlotOptions) :=
  match lObjv, options with
  | [], _ => Except.ok (TclStatus.TCL_ERROR, containerPtr, none)
  | [IndexArg.slot slot], [] =>
    let r := CheckSlotData containerPtr slot slotType CHECK_ONLY
    if r.1 = TclStatus.TCL_OK then
      if slot.toNat < r.2.data.space slotType then
        Except.ok (TclStatus.TCL_OK, r.2, some (slotOptions (r.2.data.slotPtr slotType) slot.toNat))
      else Except.error Fault.outOfBounds
    else
      Except.ok (TclStatus.TCL_OK, r.2,
        some { minsize := 0, pad := 0, uniform := none, weight := 0 })
  | _ :: _, [] => Except.ok (TclStatus.TCL_ERROR, containerPtr, none)
  | _ :: _, _ :: _ =>
    match configureIndices slotType options lObjv { containerPtr := containerPtr, slotPtrSet := false } with
    | (TclStatus.TCL_ERROR, st) => Except.ok (TclStatus.TCL_ERROR, st.containerPtr, none)
    | (TclStatus.TCL_OK, st) =>
      if st.slotPtrSet then
        let d := st.containerPtr.data
        Except.ok (TclStatus.TCL_OK,
          { st.containerPtr with
            containerDataPtr :=
              some (d.setMax slotType (trimMax (d.slotPtr slotType) (d.constraintCount slotType))) },
          none)
      else Except.ok (TclStatus.TCL_OK, st.containerPtr, none)

/-- A container without content and without grid data. -/
def emptyContainer : Container :=
  { containerDataPtr := none, contentPtr := [] }

/-- The allocated slots from `columnMax` (`rowMax`) on have their defaults: the invariant
that the configuration command maintains on the arrays it allocates. -/
def TrailingDefault (slotType : SlotType) (containerPtr : Container) : Prop :=
  ∀ j, containerPtr.data.constraintCount slotType ≤ j → j < containerPtr.data.space slotType →
    (containerPtr.data.slotPtr slotType j).unconstrained = true

/-- What a part of a configuration call on the axis `slotType` may change, from the
container `c0` to the container `c1`: nothing on the other axis, no slot outside
`touched` among the slots that were allocated; the allocation and the maximum do not
decrease, and the slots from the maximum on stay at their defaults. -/
structure ConfigStep (slotType : SlotType) (touched : Nat → Prop) (c0 c1 : Container) :
    Prop where
  other : ∀ t, t ≠ slotType →
    c1.data.slotPtr t = c0.data.slotPtr t ∧ c1.data.space t = c0.data.space t
      ∧ c1.data.constraintCount t = c0.data.constraintCount t
  space_le : c0.data.space slotType ≤ c1.data.space slotType
  max_le : c0.data.constraintCount slotType ≤ c1.data.constraintCount slotType
  kept : ∀ j, j < c0.data.space slotType → ¬ touched j →
    c1.data.slotPtr slotType j = c0.data.slotPtr slotType j
  content : c1.contentPtr = c0.contentPtr
  trailing : TrailingDefault slotType c0 → TrailingDefault slotType c1

/-- The slots that a content occupies on the axis. -/
def Gridder.covers (slotType : SlotType) (contentPtr : Gridder) (j : Nat) : Prop :=
  contentPtr.start slotType ≤ j ∧ (j : Int) ≤ contentPtr.start slotType - 1 + contentPtr.span slotType

/-- The slots that an element of the index list names. -/
def IndexArg.covers (slotType : SlotType) (contentPtr : List Gridder) (j : Nat) :
    IndexArg → Prop
  | IndexArg.slot n => (j : Int) = n
  | IndexArg.all => ∃ g, g ∈ contentPtr ∧ g.covers slotType j
  | IndexArg.window (some g) true => g.covers slotType j
  | IndexArg.window _ _ => False
  | IndexArg.illegal => False

/-- A pair `-option value` that the command accepts: the value converts, and a weight or
a pad is not negative. -/
def OptionArg.accepted : OptionArg → Bool
  | OptionArg.minsize (some _) => true
  | OptionArg.pad (some size) => decide (0 ≤ size)
  | OptionArg.uniform _ => true
  | OptionArg.weight (some wt) => decide (0 ≤ wt)
  | _ => false

/-- The slot after an accepted pair `-option value` has been stored in it. -/
def OptionArg.store (s : SlotInfo) : OptionArg → SlotInfo
  | OptionArg.minsize (some size) => { s with minSize := size }
  | OptionArg.pad (some size) => { s with pad := size }
  | OptionArg.uniform uid => { s with uniform := uid }
  | OptionArg.weight (some wt) => { s with weight := wt }
  | _ => s

/-- A container without content whose grid data has just been created. -/
def freshContainer : Container :=
  { containerDataPtr := some (freshData []), contentPtr := [] }

/-! ## `StringToSticky` -/

/-- The loop of `StringToSticky` (lines 3656-3676) over the characters of the string, with
the value of `sticky` so far.  The string ends at its terminator, the character 0; the
separators are the space (32), the comma (44), the tab (9), CR (13) and LF (10). -/
def stickyLoop : List Char → Int → Int
  | [], sticky => sticky
  | c :: string, sticky =>
    if c = Char.ofNat 0 then sticky
    else if c = 'n' ∨ c = 'N' then stickyLoop string (Int.lor sticky STICK_NORTH)
    else if c = 'e' ∨ c = 'E' then stickyLoop string (Int.lor sticky STICK_EAST)
    else if c = 's' ∨ c = 'S' then stickyLoop string (Int.lor sticky STICK_SOUTH)
    else if c = 'w' ∨ c = 'W' then stickyLoop string (Int.lor sticky STICK_WEST)
    else if c = Char.ofNat 32 ∨ c = Char.ofNat 44 ∨ c = Char.ofNat 9 ∨ c = Char.ofNat 13
        ∨ c = Char.ofNat 10 then stickyLoop string sticky
    else -1

/-- The procedure `StringToSticky(string)`. -/
def StringToSticky (string : List Char) : Int :=
  stickyLoop string 0

/-- The characters that `StringToSticky` accepts: the four letters in either case and the
separators space, comma, tab, CR and LF. -/
def stickyChar (c : Char) : Prop :=
  c = 'n' ∨ c = 'N' ∨ c = 'e' ∨ c = 'E' ∨ c = 's' ∨ c = 'S' ∨ c = 'w' ∨ c = 'W'
    ∨ c = Char.ofNat 32 ∨ c = Char.ofNat 44 ∨ c = Char.ofNat 9 ∨ c = Char.ofNat 13
    ∨ c = Char.ofNat 10

instance (c : Char) : Decidable (stickyChar c) := by
  unfold stickyChar
  infer_instance

/-- The bitwise OR of the flags of the sides given. -/
def stickyFlags (n e s w : Bool) : Int :=
  Int.lor (Int.lor (Int.lor (if n then STICK_NORTH else 0) (if e then STICK_EAST else 0))
    (if s then STICK_SOUTH else 0)) (if w then STICK_WEST else 0)

/-- The bitwise OR of the flags of the letters present in a string. -/
def stickyOf (string : List Char) : Int :=
  stickyFlags (decide ('n' ∈ string ∨ 'N' ∈ string)) (decide ('e' ∈ string ∨ 'E' ∈ string))
    (decide ('s' ∈ string ∨ 'S' ∈ string)) (decide ('w' ∈ string ∨ 'W' ∈ string))

/-! ## `SetGridSize` and the queries `grid size`, `grid bbox`, `grid location` -/

/-- The loop of `SetGridSize` (lines 2538-2542): the values of `maxX` and `maxY` after the
content list. -/
def gridExtent : List Gridder → Int × Int → Int × Int
  | [], m => m
  | contentPtr :: nextPtr, m =>
    gridExtent nextPtr
      (if m.1 > wrapInt (contentPtr.numCols + contentPtr.column) then m.1
        else wrapInt (contentPtr.numCols + contentPtr.column),
       if m.2 > wrapInt (contentPtr.numRows + contentPtr.row) then m.2
        else wrapInt (contentPtr.numRows + contentPtr.row))

/-- The procedure `SetGridSize(containerPtr)`; it uses `containerPtr->containerDataPtr`
without a test for NULL. -/
def SetGridSize (containerPtr : Container) : Except Fault Container :=
  let m := gridExtent containerPtr.contentPtr (0, 0)
  match containerPtr.containerDataPtr with
  | none => Except.error Fault.nullPointer
  | some d =>
    let c1 : Container :=
      { containerPtr with
        containerDataPtr := some { d with columnEnd := m.1.toNat, rowEnd := m.2.toNat } }
    let c2 := (CheckSlotData c1 m.1 SlotType.COLUMN CHECK_SPACE).2
    Except.ok (CheckSlotData c2 m.2 SlotType.ROW CHECK_SPACE).2

/-- The value `MAX(slotCount, constraintCount)` of an axis as a C `int`: `endX` or `endY`. -/
def GridContainer.gridEnd (slotType : SlotType) (c : GridContainer) : Int :=
  if (c.slotCount slotType : Int) > c.constraintCount slotType then c.slotCount slotType
  else c.constraintCount slotType

/-- The command `grid size` on a live container: the container afterwards and the pair
reported. -/
def GridSizeCommand (containerPtr : Container) : Except Fault (Container × Int × Int) :=
  match containerPtr.containerDataPtr with
  | some _ =>
    match SetGridSize containerPtr with
    | Except.error e => Except.error e
    | Except.ok c1 =>
      Except.ok (c1, c1.data.gridEnd SlotType.COLUMN, c1.data.gridEnd SlotType.ROW)
  | none => Except.ok (containerPtr, 0, 0)

/-- The value `slotPtr[i].offset` of an axis; a read outside the slots allocated is a
fault. -/
def readOffset (d : GridContainer) (slotType : SlotType) (i : Int) : Except Fault Int :=
  if 0 ≤ i ∧ i < (d.space slotType : Int) then Except.ok (d.slotPtr slotType i.toNat).offset
  else Except.error Fault.outOfBounds

/-- The start of the bounding box on an axis (lines 596-606): `x` or `y`. -/
def bboxStart (d : GridContainer) (slotType : SlotType) (column endX : Int) :
    Except Fault Int :=
  if column > 0 ∧ column < endX then readOffset d slotType (column - 1)
  else if column > 0 then readOffset d slotType (endX - 1)
  else Except.ok 0

/-- The extent of the bounding box on an axis (lines 608-622): `width` or `height`. -/
def bboxExtent (d : GridContainer) (slotType : SlotType) (column2 endX x : Int) :
    Except Fault Int :=
  if column2 < 0 then Except.ok 0
  else if column2 ≥ endX then
    match readOffset d slotType (endX - 1) with
    | Except.ok v => Except.ok (v - x)
    | Except.error e => Except.error e
  else
    match readOffset d slotType column2 with
    | Except.ok v => Except.ok (v - x)
    | Except.error e => Except.error e

/-- The corners given to `grid bbox`: none (`objc == 3`), one (`objc == 5`) or two
(`objc == 7`), each as `column row`. -/
inductive BboxArgs where
  | whole
  | cell (column row : Int)
  | cells (column row column2 row2 : Int)
deriving DecidableEq, Repr

/-- The command `grid bbox` on a live container, with integer corners: the container
afterwards and the quadruple `x y width height` reported. -/
def GridBboxCommand (containerPtr : Container) (args : BboxArgs) :
    Except Fault (Container × Int × Int × Int × Int) :=
  match containerPtr.containerDataPtr with
  | none => Except.ok (containerPtr, 0, 0, 0, 0)
  | some _ =>
    match SetGridSize containerPtr with
    | Except.error e => Except.error e
    | Except.ok c1 =>
      let gridPtr := c1.data
      let endX := gridPtr.gridEnd SlotType.COLUMN
      let endY := gridPtr.gridEnd SlotType.ROW
      if endX = 0 ∨ endY = 0 then Except.ok (c1, 0, 0, 0, 0)
      else
        let column0 := match args with
          | BboxArgs.whole => 0
          | BboxArgs.cell column _ => column
          | BboxArgs.cells column _ _ _ => column
        let row0 := match args with
          | BboxArgs.whole => 0
          | BboxArgs.cell _ row => row
          | BboxArgs.cells _ row _ _ => row
        let column20 := match args with
          | BboxArgs.whole => endX
          | BboxArgs.cell column _ => column
          | BboxArgs.cells _ _ column2 _ => column2
        let row20 := match args with
          | BboxArgs.whole => endY
          | BboxArgs.cell _ row => row
          | BboxArgs.cells _ _ _ row2 => row2
        let column := if column0 > column20 then column20 else column0
        let column2 := if column0 > column20 then column0 else column20
        let row := if row0 > row20 then row20 else row0
        let row2 := if row0 > row20 then row0 else row20
        match bboxStart gridPtr SlotType.COLUMN column endX with
        | Except.error e => Except.error e
        | Except.ok x =>
          match bboxStart gridPtr SlotType.ROW row endY with
          | Except.error e => Except.error e
          | Except.ok y =>
            match bboxExtent gridPtr SlotType.COLUMN column2 endX x with
            | Except.error e => Except.error e
            | Except.ok width =>
              match bboxExtent gridPtr SlotType.ROW row2 endY y with
              | Except.error e => Except.error e
              | Except.ok height =>
                Except.ok (c1, x + gridPtr.startX, y + gridPtr.startY, width, height)

/-- The scan `for (i = 0; slotPtr[i].offset < x && i < endX; i++)` of `grid location`
(lines 859-861 and 869-871), entered with `i`; the first argument bounds the number of
tests of the condition, `endX + 1 - i` of them suffice. -/
def locateLoop (d : GridContainer) (slotType : SlotType) (x endX : Int) :
    Nat → Int → Except Fault Int
  | 0, _ => Except.error Fault.outOfFuel
  | n + 1, i =>
    match readOffset d slotType i with
    | Except.error e => Except.error e
    | Except.ok offset =>
      if offset < x ∧ i < endX then locateLoop d slotType x endX n (i + 1)
      else Except.ok i

/-- The slot of a pixel on an axis (lines 854-862 and 864-872). -/
def locate (d : GridContainer) (slotType : SlotType) (x start endX : Int) : Except Fault Int :=
  if x < start then Except.ok (-1)
  else locateLoop d slotType (x - start) endX (endX.toNat + 1) 0

/-- The command `grid location` on a live container without a pending relayout, with the
pixels `x` and `y`: the container afterwards and the pair `column row` reported. -/
def GridLocationCommand (containerPtr : Container) (x y : Int) :
    Except Fault (Container × Int × Int) :=
  match containerPtr.containerDataPtr with
  | none => Except.ok (containerPtr, -1, -1)
  | some _ =>
    match SetGridSize containerPtr with
    | Except.error e => Except.error e
    | Except.ok c1 =>
      let gridPtr := c1.data
      let endX := gridPtr.gridEnd SlotType.COLUMN
      let endY := gridPtr.gridEnd SlotType.ROW
      match locate gridPtr SlotType.COLUMN x gridPtr.startX endX with
      | Except.error e => Except.error e
      | Except.ok i =>
        match locate gridPtr SlotType.ROW y gridPtr.startY endY with
        | Except.error e => Except.error e
        | Except.ok j => Except.ok (c1, i, j)

/-- A slot with the given offset and no constraint. -/
def offsetSlot (offset : Int) : SlotInfo :=
  { minSize := 0, weight := 0, pad := 0, uniform := none, offset := offset, temp := 0 }

/-- A content of the given cell, spans and requested size, without padding or border. -/
def cellContent (column row numCols numRows reqWidth reqHeight : Int) : Gridder :=
  { reqWidth := reqWidth, reqHeight := reqHeight, column := column, row := row,
    numCols := numCols, numRows := numRows, padX := 0, padY := 0, padLeft := 0, padTop := 0,
    iPadX := 0, iPadY := 0, sticky := 0, doubleBw := 0, size := 0 }

/-- A laid out container: two columns with the offsets 10 and 20, one row with the offset
10, a content 10 x 10 in each of the two cells, the layout at the origin of the
container. -/
def locationExample : Container :=
  { containerDataPtr := some
      { columnPtr := fun j => if j = 0 then offsetSlot 10 else if j = 1 then offsetSlot 20
          else defaultSlot,
        rowPtr := fun j => if j = 0 then offsetSlot 10 else defaultSlot,
        columnEnd := 2, columnMax := 0, columnSpace := 25, rowEnd := 1, rowMax := 0,
        rowSpace := 25, startX := 0, startY := 0,
        contentPtr := [cellContent 0 0 1 1 10 10, cellContent 1 0 1 1 10 10] },
    contentPtr := [cellContent 0 0 1 1 10 10, cellContent 1 0 1 1 10 10] }

/-- The offset of the right or bottom edge of slot `i` of an axis, and 0 for the edge
before slot 0: `offset[i]` with `offset[-1] = 0`. -/
def edgeOffset (d : GridContainer) (slotType : SlotType) (i : Int) : Int :=
  if i < 0 then 0 else (d.slotPtr slotType i.toNat).offset

/-- A container without content whose column 0 is configured with `minSize` 10. -/
def minExample : GridContainer :=
  { columnPtr := fun j =>
      if j = 0 then { minSize := 10, weight := 0, pad := 0, uniform := none, offset := 0, temp := 0 }
      else defaultSlot,
    rowPtr := fun _ => defaultSlot,
    columnEnd := 0, columnMax := 1, columnSpace := 25, rowEnd := 0, rowMax := 0,
    rowSpace := 25, startX := 0, startY := 0,
    contentPtr := [] }

/-- No slot of the two slot tables of the container has a negative `weight` or `pad`. -/
def WeightPadOk (containerPtr : Container) : Prop :=
  ∀ (t : SlotType) (j : Nat),
    0 ≤ (containerPtr.data.slotPtr t j).weight ∧ 0 ≤ (containerPtr.data.slotPtr t j).pad

/-! ## The grid records of the windows: `GetGrid`, `Unlink`, `grid forget`, `grid remove` -/

/-- A window token `Tk_Window`. -/
abbrev Tk_Window := Nat

/-- The fields of the window structure `TkWindow` that the grid reads: the parent
(`Tk_Parent`), `maintainerPtr`, whether the window is a top-level (`Tk_TopWinHierarchy`),
the flag `TK_ALREADY_DEAD`, the border width `Tk_Changes(tkwin)->border_width` and the
requested size. -/
structure TkWindow where
  parentPtr : Option Tk_Window
  maintainerPtr : Option Tk_Window
  topWinHierarchy : Bool
  alreadyDead : Bool
  border_width : Int
  reqWidth : Int
  reqHeight : Int
deriving DecidableEq, Repr

/-- The structure `struct Gridder` of a window with its links.  A pointer to a `Gridder` is
the token of its window; `contentPtr` is the list linked through `nextPtr`; `inObj` is
the field `in`, the saved name of a container, as the window that had this name; the
three booleans are the bits `REQUESTED_RELAYOUT`, `DONT_PROPAGATE` and
`ALLOCED_CONTAINER` of `flags`.  (`abortPtr`, which is NULL outside `ArrangeGrid`, is not
part of the model.) -/
structure GridRecord where
  content : Gridder
  containerPtr : Option Tk_Window
  contentPtr : List Tk_Window
  containerDataPtr : Option GridContainer
  inObj : Option Tk_Window
  requestedRelayout : Bool
  dontPropagate : Bool
  allocedContainer : Bool

/-- The windows and the hash table `gridHashTable` from windows to `Gridder` structures. -/
structure GridState where
  window : Tk_Window → TkWindow
  gridHashTable : Tk_Window → Option GridRecord

/-- The procedures of Tk outside `tkGrid.c` whose results the grid reads: the macro
`TkGetContainer` on a window structure, the value of `maintainerPtr` of each window after
`Tk_UnmaintainGeometry(content, container)` (the only field of the model that this
procedure may change), the completion code of `TkSetGeometryContainer` for a container,
and the window that `TkGetWindowFromObj` finds for the saved name of a window.
(`Tk_ManageGeometry`, `Tk_UnmapWindow`, `TkFreeGeometryContainer` and
`Tk_SendVirtualEvent` change nothing that the model holds.) -/
structure TkProcs where
  TkGetContainer : TkWindow → Option Tk_Window
  Tk_UnmaintainGeometry :
    (Tk_Window → TkWindow) → Tk_Window → Tk_Window → Tk_Window → Option Tk_Window
  TkSetGeometryContainer : Tk_Window → TclStatus
  nameToWindow : Tk_Window → Option Tk_Window

/-- The `Gridder` that `GetGrid` creates for a window (lines 2482-2503). -/
def newGridder (w : TkWindow) : GridRecord :=
  { content :=
      { reqWidth := w.reqWidth, reqHeight := w.reqHeight, column := -1, row := -1,
        numCols := 1, numRows := 1, padX := 0, padY := 0, padLeft := 0, padTop := 0,
        iPadX := 0, iPadY := 0, sticky := 0, doubleBw := 2 * w.border_width, size := 0 },
    containerPtr := none, contentPtr := [], containerDataPtr := none, inObj := none,
    requestedRelayout := false, dontPropagate := false, allocedContainer := false }

/-- The structure that a pointer denotes: the entry of the hash table, and for a window
without entry the structure that `GetGrid` would create. -/
def GridState.get (st : GridState) (p : Tk_Window) : GridRecord :=
  match st.gridHashTable p with
  | some r => r
  | none => newGridder (st.window p)

/-- An assignment to the structure of a window. -/
def GridState.set (st : GridState) (p : Tk_Window) (r : GridRecord) : GridState :=
  { st with gridHashTable := fun q => if q = p then some r else st.gridHashTable q }

/-- An update of the structure of a window. -/
def GridState.modify (st : GridState) (p : Tk_Window) (f : GridRecord → GridRecord) :
    GridState :=
  st.set p (f (st.get p))

/-- The procedure `GetGrid(tkwin)`: the pointer returned (`none` for NULL, when the window
is already dead) and the state afterwards. -/
def GetGrid (st : GridState) (tkwin : Tk_Window) : Option Tk_Window × GridState :=
  if (st.window tkwin).alreadyDead then (none, st)
  else
    match st.gridHashTable tkwin with
    | some _ => (some tkwin, st)
    | none => (some tkwin, st.set tkwin (newGridder (st.window tkwin)))

/-- The container of a pointer as the slot table procedures see it: its
`containerDataPtr` and the list of its content. -/
def GridState.view (st : GridState) (p : Tk_Window) : Container :=
  { containerDataPtr := (st.get p).containerDataPtr,
    contentPtr := (st.get p).contentPtr.map (fun q =>
      { (st.get q).content with
        reqWidth := (st.window q).reqWidth, reqHeight := (st.window q).reqHeight }) }

/-- The assignment to `containerDataPtr` of a window. -/
def GridState.setData (st : GridState) (p : Tk_Window) (d : Option GridContainer) :
    GridState :=
  st.modify p (fun r => { r with containerDataPtr := d })

/-- The call `InitContainerData(containerPtr)` on the structure of a window. -/
def GridState.InitContainerData (st : GridState) (containerPtr : Tk_Window) : GridState :=
  st.setData containerPtr (TkGrid.InitContainerData (st.view containerPtr)).containerDataPtr

/-- The call `SetGridSize(containerPtr)` on the structure of a window. -/
def GridState.SetGridSize (st : GridState) (containerPtr : Tk_Window) :
    Except Fault GridState :=
  match TkGrid.SetGridSize (st.view containerPtr) with
  | Except.error e => Except.error e
  | Except.ok c1 => Except.ok (st.setData containerPtr c1.containerDataPtr)

/-- The statement `if (containerPtr->tkwin != Tk_Parent(contentPtr->tkwin))
Tk_UnmaintainGeometry(contentPtr->tkwin, containerPtr->tkwin)` (lines 702-705 and
3378-3380). -/
def unmaintain (tk : TkProcs) (st : GridState) (contentPtr containerPtr : Tk_Window) :
    GridState :=
  if some containerPtr ≠ (st.window contentPtr).parentPtr then
    { st with
      window := fun q =>
        { st.window q with
          maintainerPtr := tk.Tk_UnmaintainGeometry st.window contentPtr containerPtr q } }
  else st

/-- The procedure `Unlink(contentPtr)`.  The search of lines 2792-2802 for the content in
the list of its container ends in `Tcl_Panic` when the content is not there. -/
def Unlink (st : GridState) (contentPtr : Tk_Window) : Except Fault GridState :=
  match (st.get contentPtr).containerPtr with
  | none => Except.ok st
  | some containerPtr =>
    if contentPtr ∈ (st.get containerPtr).contentPtr then
      let st1 := st.modify containerPtr (fun r =>
        { r with contentPtr := r.contentPtr.erase contentPtr, requestedRelayout := true })
      match st1.SetGridSize containerPtr with
      | Except.error e => Except.error e
      | Except.ok st2 =>
        let st3 := st2.modify contentPtr (fun r => { r with containerPtr := none })
        if (st3.get containerPtr).contentPtr.isEmpty ∧ (st3.get containerPtr).allocedContainer
        then Except.ok (st3.modify containerPtr (fun r => { r with allocedContainer := false }))
        else Except.ok st3
    else Except.error Fault.panicked

/-- The body of the loop of `GridForgetRemoveCommand` (lines 662-709) for the window
`content`; `c` is the first character of the subcommand, `f` (code 102) for `forget`. -/
def forgetRemove (tk : TkProcs) (tkwin : Tk_Window) (c : Char) (st : GridState)
    (content : Tk_Window) : Except Fault GridState :=
  match GetGrid st content with
  | (none, st1) => Except.ok st1
  | (some contentPtr, st1) =>
    match (st1.get contentPtr).containerPtr with
    | none => Except.ok st1
    | some containerPtr =>
      let st2 :=
        if c = Char.ofNat 102 then
          st1.modify contentPtr (fun r =>
            { r with
              content :=
                { r.content with
                  column := -1, row := -1, numCols := 1, numRows := 1, padX := 0, padY := 0,
                  padLeft := 0, padTop := 0, iPadX := 0, iPadY := 0,
                  doubleBw := 2 * (st1.window tkwin).border_width, sticky := 0 },
              inObj := none, requestedRelayout := false, dontPropagate := false,
              allocedContainer := false })
        else st1.modify contentPtr (fun r => { r with inObj := some containerPtr })
      Unlink (unmaintain tk st2 contentPtr containerPtr) contentPtr

/-- The command `grid forget` or `grid remove` (first character `c` of the subcommand) on
the windows `objv[2..]`, each given as the result of `TkGetWindowFromObj` (`none` when
there is no such window): the completion code and the state afterwards. -/
def GridForgetRemoveCommand (tk : TkProcs) (tkwin : Tk_Window) (c : Char) :
    List (Option Tk_Window) → GridState → Except Fault (TclStatus × GridState)
  | [], st => Except.ok (TclStatus.TCL_OK, st)
  | none :: _, st => Except.ok (TclStatus.TCL_ERROR, st)
  | some content :: rest, st =>
    match forgetRemove tk tkwin c st content with
    | Except.error e => Except.error e
    | Except.ok st1 => GridForgetRemoveCommand tk tkwin c rest st1

/-- The macro `TkGetContainer` of Tk: NULL for a top-level, else `maintainerPtr` when it is
set, else the parent. -/
def getContainer (w : TkWindow) : Option Tk_Window :=
  if w.topWinHierarchy then none
  else
    match w.maintainerPtr with
    | some m => some m
    | none => w.parentPtr

/-- An instance of the procedures of Tk for the examples: `Tk_UnmaintainGeometry` clears
`maintainerPtr`, `TkSetGeometryContainer` succeeds, every saved name is found. -/
def sampleTk : TkProcs :=
  { TkGetContainer := getContainer,
    Tk_UnmaintainGeometry := fun window content _ q =>
      if q = content then none else (window q).maintainerPtr,
    TkSetGeometryContainer := fun _ => TclStatus.TCL_OK,
    nameToWindow := fun w => some w }

/-- Three windows for the examples: the top-level 0, its child 1 and the child 2 of
window 1. -/
def sampleWindows : Tk_Window → TkWindow := fun p =>
  { parentPtr := if p = 0 then none else some (p - 1), maintainerPtr := none,
    topWinHierarchy := decide (p = 0), alreadyDead := false, border_width := 0,
    reqWidth := 10, reqHeight := 10 }

/-- The state in which window 0 manages window 1 at row 2, column 3 (spanning 2 columns,
sticky `ew`), and window 1 manages window 2. -/
def sampleState : GridState :=
  { window := sampleWindows,
    gridHashTable := fun p =>
      if p = 0 then
        some { newGridder (sampleWindows 0) with
          contentPtr := [1], containerDataPtr := some (freshData []) }
      else if p = 1 then
        some { newGridder (sampleWindows 1) with
          content := { (newGridder (sampleWindows 1)).content with
            column := 3, row := 2, numCols := 2, sticky := 10 },
          containerPtr := some 0, contentPtr := [2], containerDataPtr := some (freshData []) }
      else if p = 2 then
        some { newGridder (sampleWindows 2) with
          content := { (newGridder (sampleWindows 2)).content with column := 0, row := 0 },
          containerPtr := some 1 }
      else none }

/-! ## `ConfigureContent` -/

/-- The character `REL_SKIP`, the letter x. -/
def REL_SKIP : Char := Char.ofNat 120

/-- The character `REL_HORIZ`, the minus sign. -/
def REL_HORIZ : Char := Char.ofNat 45

/-- The character `REL_VERT`, the caret. -/
def REL_VERT : Char := Char.ofNat 94

/-- The options of `grid configure`: the index into `optionStrings`. -/
inductive ConfOption where
  | CONF_COLUMN
  | CONF_COLUMNSPAN
  | CONF_IN
  | CONF_IPADX
  | CONF_IPADY
  | CONF_PADX
  | CONF_PADY
  | CONF_ROW
  | CONF_ROWSPAN
  | CONF_STICKY
deriving DecidableEq, Repr

/-- An argument object as `ConfigureContent` reads it: its string, and the results of the
conversions that the procedure may ask for (`none` when the conversion fails):
`TkGetWindowFromObj`, `Tcl_GetIntFromObj`, `Tk_GetPixelsFromObj`, `TkParsePadAmount`
(the values stored through `halfPtr` and `allPtr`) and `Tcl_GetIndexFromObjStruct` on
`optionStrings`. -/
structure Tcl_Obj where
  string : List Char
  window : Option Tk_Window
  int : Option Int
  pixels : Option Int
  pad : Option (Int × Int)
  index : Option ConfOption
deriving DecidableEq, Repr

/-- The first character `string[0]` of an argument; the terminator 0 for the empty string. -/
def Tcl_Obj.firstChar (obj : Tcl_Obj) : Char :=
  obj.string.headD (Char.ofNat 0)

/-- The local variables of `ConfigureContent` that its loops share, with the state. -/
structure ContentState where
  st : GridState
  containerPtr : Option Tk_Window
  defaultRow : Int
  defaultColumn : Int
  positionGiven : Bool

/-- Lines 3049-3058: the parent of the first content becomes the container when there is
none yet, and the window is counted.  The result is the state and `numWindows`. -/
def scanParent (content : Tk_Window) (s : ContentState) (numWindows : Nat) :
    ContentState × Nat :=
  match s.containerPtr with
  | some _ => (s, numWindows + 1)
  | none =>
    match (s.st.window content).parentPtr with
    | none => (s, numWindows + 1)
    | some parent =>
      match GetGrid s.st parent with
      | (none, st1) => ({ s with st := st1 }, numWindows)
      | (some p, st1) =>
        ({ s with st := st1.InitContainerData p, containerPtr := some p }, numWindows + 1)

/-- Lines 3029-3060: the body of the first loop for an argument that names the window
`content`. -/
def scanWindow (tk : TkProcs) (content : Tk_Window) (s : ContentState) (numWindows : Nat) :
    ContentState × Nat :=
  match s.containerPtr with
  | some _ => scanParent content s numWindows
  | none =>
    match GetGrid s.st content with
    | (none, st1) => ({ s with st := st1 }, numWindows)
    | (some contentPtr, st1) =>
      match (st1.get contentPtr).inObj with
      | none => scanParent content { s with st := st1 } numWindows
      | some name =>
        match tk.nameToWindow name with
        | none => scanParent content { s with st := st1 } numWindows
        | some parent =>
          match GetGrid st1 parent with
          | (none, st2) => ({ s with st := st2 }, numWindows)
          | (some p, st2) =>
            scanParent content
              { s with st := st2.InitContainerData p, containerPtr := some p } numWindows

/-- The first loop (lines 3015-3091), which counts the windows and window shortcuts: from
the argument `i` on, with the first character of the argument before and the count
`numWindows` of the windows seen.  The result is the completion code, the state and the
value of `i` at the end of the loop. -/
def scanArgs (tk : TkProcs) :
    List Tcl_Obj → Nat → Char → Nat → ContentState → TclStatus × ContentState × Nat
  | [], i, _, _, s => (TclStatus.TCL_OK, s, i)
  | obj :: rest, i, prevChar, numWindows, s =>
    if obj.firstChar = Char.ofNat 46 then
      match obj.window with
      | none => (TclStatus.TCL_ERROR, s, i)
      | some content =>
        scanArgs tk rest (i + 1) obj.firstChar (scanWindow tk content s numWindows).2
          (scanWindow tk content s numWindows).1
    else if obj.string.length > 1 ∧ i = 0 then (TclStatus.TCL_ERROR, s, i)
    else if obj.string.length > 1 ∧ obj.firstChar = Char.ofNat 45 then (TclStatus.TCL_OK, s, i)
    else if obj.string.length > 1 then (TclStatus.TCL_ERROR, s, i)
    else if obj.firstChar = REL_HORIZ
        ∧ (numWindows = 0 ∨ prevChar = REL_SKIP ∨ prevChar = REL_VERT) then
      (TclStatus.TCL_ERROR, s, i)
    else if obj.firstChar = REL_VERT ∨ obj.firstChar = REL_SKIP ∨ obj.firstChar = REL_HORIZ then
      scanArgs tk rest (i + 1) obj.firstChar numWindows s
    else (TclStatus.TCL_ERROR, s, i)

/-- The loop over the options that looks for `-in` and `-row` (lines 3112-3137). -/
def checkOptions : List Tcl_Obj → ContentState → TclStatus × ContentState
  | name :: value :: rest, s =>
    match name.index with
    | none => (TclStatus.TCL_ERROR, s)
    | some ConfOption.CONF_IN =>
      match value.window with
      | none => (TclStatus.TCL_ERROR, s)
      | some other =>
        match GetGrid s.st other with
        | (none, st1) => checkOptions rest { s with st := st1, containerPtr := none }
        | (some p, st1) =>
          checkOptions rest { s with st := st1.InitContainerData p, containerPtr := some p }
    | some ConfOption.CONF_ROW =>
      match value.int with
      | none => (TclStatus.TCL_ERROR, s)
      | some tmp =>
        if tmp < 0 then (TclStatus.TCL_ERROR, s)
        else checkOptions rest { s with defaultRow := tmp }
    | some _ => checkOptions rest s
  | _, s => (TclStatus.TCL_OK, s)

/-- The checks of `ConfigureContent` before its loop over the content (lines 3015-3137):
the first loop, the test for an odd number of option words, and the loop that looks for
`-in` and `-row`.  The result is the completion code, the state and `numWindows`. -/
def scanCommand (tk : TkProcs) (st : GridState) (objv : List Tcl_Obj) :
    TclStatus × ContentState × Nat :=
  match scanArgs tk objv 0 (Char.ofNat 0) 0
      { st := st, containerPtr := none, defaultRow := -1, defaultColumn := 0,
        positionGiven := false } with
  | (TclStatus.TCL_ERROR, s1, numWindows) => (TclStatus.TCL_ERROR, s1, numWindows)
  | (TclStatus.TCL_OK, s1, numWindows) =>
    if (objv.length - numWindows) % 2 = 1 then (TclStatus.TCL_ERROR, s1, numWindows)
    else
      match checkOptions (objv.drop numWindows) s1 with
      | (TclStatus.TCL_ERROR, s2) => (TclStatus.TCL_ERROR, s2, numWindows)
      | (TclStatus.TCL_OK, s2) => (TclStatus.TCL_OK, s2, numWindows)

/-- Lines 3144-3151: without `-row` the default row is the row after the highest
occupied row of the container. -/
def chooseDefaultRow (s : ContentState) : Except Fault ContentState :=
  if s.defaultRow < 0 then
    match s.containerPtr with
    | none => Except.ok { s with defaultRow := 0 }
    | some p =>
      if (s.st.get p).containerDataPtr.isSome then
        match s.st.SetGridSize p with
        | Except.error e => Except.error e
        | Except.ok st1 => Except.ok { s with st := st1, defaultRow := (st1.view p).data.rowEnd }
      else Except.ok { s with defaultRow := 0 }
  else Except.ok s

/-- An assignment to the position and size fields of the structure of a window. -/
def ContentState.setContent (s : ContentState) (contentPtr : Tk_Window) (g : Gridder) :
    ContentState :=
  { s with st := s.st.modify contentPtr (fun r => { r with content := g }) }

/-- The loop over the options for one content (lines 3222-3342), with the window
`content` and its structure `contentPtr`: each value is converted, checked and stored
before the next option is read.  (Every option name has been checked by `checkOptions`; a
name that is not an option is passed over.) -/
def configureOptions (content contentPtr : Tk_Window) :
    List Tcl_Obj → ContentState → TclStatus × ContentState
  | name :: value :: rest, s =>
    match name.index with
    | none => configureOptions content contentPtr rest s
    | some ConfOption.CONF_COLUMN =>
      match value.int with
      | none => (TclStatus.TCL_ERROR, s)
      | some tmp =>
        if tmp < 0 then (TclStatus.TCL_ERROR, s)
        else
          match SetContentColumn (s.st.get contentPtr).content tmp (-1) with
          | (TclStatus.TCL_ERROR, _) => (TclStatus.TCL_ERROR, s)
          | (TclStatus.TCL_OK, g) =>
            configureOptions content contentPtr rest (s.setContent contentPtr g)
    | some ConfOption.CONF_COLUMNSPAN =>
      match value.int with
      | none => (TclStatus.TCL_ERROR, s)
      | some tmp =>
        if tmp ≤ 0 then (TclStatus.TCL_ERROR, s)
        else
          match SetContentColumn (s.st.get contentPtr).content (-1) tmp with
          | (TclStatus.TCL_ERROR, _) => (TclStatus.TCL_ERROR, s)
          | (TclStatus.TCL_OK, g) =>
            configureOptions content contentPtr rest (s.setContent contentPtr g)
    | some ConfOption.CONF_IN =>
      match value.window with
      | none => (TclStatus.TCL_ERROR, s)
      | some other =>
        if other = content then (TclStatus.TCL_ERROR, s)
        else
          match GetGrid s.st other with
          | (none, st1) =>
            configureOptions content contentPtr rest
              { s with st := st1, positionGiven := true, containerPtr := none }
          | (some p, st1) =>
            configureOptions content contentPtr rest
              { s with
                st := st1.InitContainerData p, positionGiven := true, containerPtr := some p }
    | some ConfOption.CONF_STICKY =>
      if StringToSticky value.string = -1 then (TclStatus.TCL_ERROR, s)
      else
        configureOptions content contentPtr rest
          (s.setContent contentPtr
            { (s.st.get contentPtr).content with sticky := StringToSticky value.string })
    | some ConfOption.CONF_IPADX =>
      match value.pixels with
      | none => (TclStatus.TCL_ERROR, s)
      | some tmp =>
        if tmp < 0 then (TclStatus.TCL_ERROR, s)
        else
          configureOptions content contentPtr rest
            (s.setContent contentPtr { (s.st.get contentPtr).content with iPadX := tmp * 2 })
    | some ConfOption.CONF_IPADY =>
      match value.pixels with
      | none => (TclStatus.TCL_ERROR, s)
      | some tmp =>
        if tmp < 0 then (TclStatus.TCL_ERROR, s)
        else
          configureOptions content contentPtr rest
            (s.setContent contentPtr { (s.st.get contentPtr).content with iPadY := tmp * 2 })
    | some ConfOption.CONF_PADX =>
      match value.pad with
      | none => (TclStatus.TCL_ERROR, s)
      | some amount =>
        configureOptions content contentPtr rest
          (s.setContent contentPtr
            { (s.st.get contentPtr).content with padLeft := amount.1, padX := amount.2 })
    | some ConfOption.CONF_PADY =>
      match value.pad with
      | none => (TclStatus.TCL_ERROR, s)
      | some amount =>
        configureOptions content contentPtr rest
          (s.setContent contentPtr
            { (s.st.get contentPtr).content with padTop := amount.1, padY := amount.2 })
    | some ConfOption.CONF_ROW =>
      match value.int with
      | none => (TclStatus.TCL_ERROR, s)
      | some tmp =>
        if tmp < 0 then (TclStatus.TCL_ERROR, s)
        else
          match SetContentRow (s.st.get contentPtr).content tmp (-1) with
          | (TclStatus.TCL_ERROR, _) => (TclStatus.TCL_ERROR, s)
          | (TclStatus.TCL_OK, g) =>
            configureOptions content contentPtr rest (s.setContent contentPtr g)
    | some ConfOption.CONF_ROWSPAN =>
      match value.int with
      | none => (TclStatus.TCL_ERROR, s)
      | some tmp =>
        if tmp ≤ 0 then (TclStatus.TCL_ERROR, s)
        else
          match SetContentRow (s.st.get contentPtr).content (-1) tmp with
          | (TclStatus.TCL_ERROR, _) => (TclStatus.TCL_ERROR, s)
          | (TclStatus.TCL_OK, g) =>
            configureOptions content contentPtr rest (s.setContent contentPtr g)
  | _, s => (TclStatus.TCL_OK, s)

/-- The label `scheduleLayout` (lines 3468-3475): the container, which is used without a
test for NULL, is scheduled for a new layout. -/
def scheduleLayout (s : ContentState) : Except Fault (TclStatus × ContentState) :=
  match s.containerPtr with
  | none => Except.error Fault.nullPointer
  | some p =>
    Except.ok (TclStatus.TCL_OK,
      { s with st := s.st.modify p (fun r => { r with requestedRelayout := true }) })

/-- Lines 3377-3391: the content leaves another container and is put at the head of the
list of `containerPtr`. -/
def linkContent (tk : TkProcs) (st : GridState) (contentPtr containerPtr : Tk_Window) :
    Except Fault GridState :=
  let unlinked : Except Fault GridState :=
    match (st.get contentPtr).containerPtr with
    | none => Except.ok st
    | some old =>
      if old ≠ containerPtr then
        match Unlink (unmaintain tk st contentPtr old) contentPtr with
        | Except.error e => Except.error e
        | Except.ok st1 => Except.ok (st1.modify contentPtr (fun r => { r with containerPtr := none }))
      else Except.ok st
  match unlinked with
  | Except.error e => Except.error e
  | Except.ok st1 =>
    if (st1.get contentPtr).containerPtr.isNone then
      let tempPtr := (st1.get containerPtr).contentPtr
      let st2 := st1.modify contentPtr (fun r => { r with containerPtr := some containerPtr })
      Except.ok (st2.modify containerPtr (fun r => { r with contentPtr := contentPtr :: tempPtr }))
    else Except.ok st1

/-- The loop of lines 3399-3411 over the ancestors of the container, on the window
structures `window`: `true` when the parent of the content is reached, `false` when a
top-level is reached first.  `Tk_TopWinHierarchy(ancestor)` is evaluated without a test
for NULL. -/
def hierarchyLoop (window : Tk_Window → TkWindow) (parent : Option Tk_Window) :
    Nat → Option Tk_Window → Except Fault Bool
  | 0, _ => Except.error Fault.outOfFuel
  | n + 1, ancestor =>
    if ancestor = parent then Except.ok true
    else
      match ancestor with
      | none => Except.error Fault.nullPointer
      | some a =>
        if (window a).topWinHierarchy then Except.ok false
        else hierarchyLoop window parent n (window a).parentPtr

/-- The loop of lines 3417-3427 over the containers of the container, on the window
structures `window`: `true` when the content is among them. -/
def managementLoop (tk : TkProcs) (window : Tk_Window → TkWindow) (content : Tk_Window) :
    Nat → Option Tk_Window → Except Fault Bool
  | 0, _ => Except.error Fault.outOfFuel
  | _ + 1, none => Except.ok false
  | n + 1, some container =>
    if container = content then Except.ok true
    else managementLoop tk window content n (tk.TkGetContainer (window container))

/-- The failure exits of lines 3408, 3424 and 3439: `Unlink(contentPtr); return
TCL_ERROR`. -/
def unlinkFail (s : ContentState) (contentPtr : Tk_Window) :
    Except Fault (TclStatus × ContentState) :=
  match Unlink s.st contentPtr with
  | Except.error e => Except.error e
  | Except.ok st1 => Except.ok (TclStatus.TCL_ERROR, { s with st := st1 })

/-- Lines 3447-3461: the default position of the content, then `scheduleLayout`. -/
def assignDefaults (s : ContentState) (contentPtr : Tk_Window) (defaultColumnSpan : Int) :
    Except Fault (TclStatus × ContentState) :=
  let g0 := (s.st.get contentPtr).content
  let r1 := if g0.column = -1 then SetContentColumn g0 s.defaultColumn (-1)
    else (TclStatus.TCL_OK, g0)
  match r1 with
  | (TclStatus.TCL_ERROR, _) => Except.ok (TclStatus.TCL_ERROR, s)
  | (TclStatus.TCL_OK, g1) =>
    match SetContentColumn g1 (-1) (g1.numCols + defaultColumnSpan - 1) with
    | (TclStatus.TCL_ERROR, _) => Except.ok (TclStatus.TCL_ERROR, s.setContent contentPtr g1)
    | (TclStatus.TCL_OK, g2) =>
      let r3 := if g2.row = -1 then SetContentRow g2 s.defaultRow (-1)
        else (TclStatus.TCL_OK, g2)
      match r3 with
      | (TclStatus.TCL_ERROR, _) => Except.ok (TclStatus.TCL_ERROR, s.setContent contentPtr g2)
      | (TclStatus.TCL_OK, g3) =>
        scheduleLayout
          { (s.setContent contentPtr g3) with defaultColumn := s.defaultColumn + g3.numCols }

/-- Lines 3369-3461: the content is put into the container of the command, the two
topology checks are made, and the default position is assigned. -/
def placeContent (tk : TkProcs) (fuel : Nat) (content contentPtr : Tk_Window)
    (defaultColumnSpan : Int) (s : ContentState) : Except Fault (TclStatus × ContentState) :=
  let parent := (s.st.window content).parentPtr
  let chosen : Except Fault (Option (Tk_Window × GridState)) :=
    match s.containerPtr with
    | some p => Except.ok (some (p, s.st))
    | none =>
      match parent with
      | none => Except.error Fault.nullPointer
      | some w =>
        match GetGrid s.st w with
        | (none, _) => Except.ok none
        | (some p, st1) => Except.ok (some (p, st1.InitContainerData p))
  match chosen with
  | Except.error e => Except.error e
  | Except.ok none => Except.ok (TclStatus.TCL_OK, { s with containerPtr := none })
  | Except.ok (some (containerPtr, st0)) =>
    match linkContent tk st0 contentPtr containerPtr with
    | Except.error e => Except.error e
    | Except.ok st1 =>
      let s1 : ContentState := { s with st := st1, containerPtr := some containerPtr }
      match hierarchyLoop st1.window parent fuel (some containerPtr) with
      | Except.error e => Except.error e
      | Except.ok false => unlinkFail s1 contentPtr
      | Except.ok true =>
        match managementLoop tk st1.window content fuel (some containerPtr) with
        | Except.error e => Except.error e
        | Except.ok true => unlinkFail s1 contentPtr
        | Except.ok false =>
          let st2 : GridState :=
            if some containerPtr ≠ parent then
              { st1 with
                window := fun q =>
                  if q = content then { st1.window q with maintainerPtr := some containerPtr }
                  else st1.window q }
            else st1
          if (st2.get containerPtr).dontPropagate then
            assignDefaults { s1 with st := st2 } contentPtr defaultColumnSpan
          else if tk.TkSetGeometryContainer containerPtr ≠ TclStatus.TCL_OK then
            unlinkFail { s1 with st := st2 } contentPtr
          else
            assignDefaults
              { s1 with st := st2.modify containerPtr (fun r => { r with allocedContainer := true }) }
              contentPtr defaultColumnSpan

/-- The body of the loop over the content (lines 3184-3475) for an argument that is not
a shortcut; `defaultColumnSpan` has been counted from the shortcuts that follow it. -/
def configureWindow (tk : TkProcs) (fuel : Nat) (options : List Tcl_Obj) (obj : Tcl_Obj)
    (defaultColumnSpan : Int) (s : ContentState) : Except Fault (TclStatus × ContentState) :=
  match obj.window with
  | none => Except.ok (TclStatus.TCL_ERROR, s)
  | some content =>
    if (s.st.window content).topWinHierarchy then Except.ok (TclStatus.TCL_ERROR, s)
    else
      match GetGrid s.st content with
      | (none, st1) => Except.ok (TclStatus.TCL_OK, { s with st := st1 })
      | (some contentPtr, st1) =>
        match configureOptions content contentPtr options { s with st := st1 } with
        | (TclStatus.TCL_ERROR, s1) => Except.ok (TclStatus.TCL_ERROR, s1)
        | (TclStatus.TCL_OK, s1) =>
          if ¬ s1.positionGiven ∧ (s1.st.get contentPtr).containerPtr.isSome then
            scheduleLayout { s1 with containerPtr := (s1.st.get contentPtr).containerPtr }
          else if s1.positionGiven ∧ s1.containerPtr = (s1.st.get contentPtr).containerPtr then
            scheduleLayout s1
          else placeContent tk fuel content contentPtr defaultColumnSpan s1

/-- The number of arguments at the head of the list that start with `REL_HORIZ`. -/
def countHoriz : List Tcl_Obj → Int
  | [] => 0
  | obj :: rest => if obj.firstChar = REL_HORIZ then 1 + countHoriz rest else 0

/-- The loop over the content windows and shortcuts (lines 3165-3476). -/
def configureWindows (tk : TkProcs) (fuel : Nat) (options : List Tcl_Obj) :
    List Tcl_Obj → ContentState → Except Fault (TclStatus × ContentState)
  | [], s => Except.ok (TclStatus.TCL_OK, s)
  | obj :: rest, s =>
    if obj.firstChar = REL_VERT ∨ obj.firstChar = REL_SKIP then
      configureWindows tk fuel options rest { s with defaultColumn := s.defaultColumn + 1 }
    else if obj.firstChar = REL_HORIZ then configureWindows tk fuel options rest s
    else
      match configureWindow tk fuel options obj (1 + countHoriz rest) s with
      | Except.error e => Except.error e
      | Except.ok (TclStatus.TCL_ERROR, s1) => Except.ok (TclStatus.TCL_ERROR, s1)
      | Except.ok (TclStatus.TCL_OK, s1) => configureWindows tk fuel options rest s1

/-- The number of arguments at the head of the list that start with `REL_VERT`. -/
def countVert : List Tcl_Obj → Int
  | [] => 0
  | obj :: rest => if obj.firstChar = REL_VERT then 1 + countVert rest else 0

/-- The search of lines 3535-3552 through the content of the container for the content to
extend: the first one at column `lastColumn` that ends at row `lastRow` and spans at most
`width` columns. -/
def findExtend (st : GridState) (lastColumn lastRow width : Int) :
    List Tk_Window → Option Tk_Window
  | [] => none
  | contentPtr :: nextPtr =>
    if (st.get contentPtr).content.column = lastColumn
        ∧ (st.get contentPtr).content.row + (st.get contentPtr).content.numRows - 1 = lastRow
        ∧ (st.get contentPtr).content.numCols ≤ width then
      some contentPtr
    else findExtend st lastColumn lastRow width nextPtr

/-- The loop that looks for the shortcuts `^` (lines 3482-3560) over the windows
`windows`, from the index `j` on, with `lastWindow` as the window of that name and one
unit of fuel per iteration. -/
def extendLoop (windows : List Tcl_Obj) :
    Nat → Int → Option Tk_Window → Int → ContentState → Except Fault (TclStatus × ContentState)
  | 0, j, _, _, s =>
    if j < windows.length then Except.error Fault.outOfFuel
    else Except.ok (TclStatus.TCL_OK, s)
  | n + 1, j, lastWindow, numSkip, s =>
    if j < 0 then Except.error Fault.outOfBounds
    else if j < windows.length then
      match windows.get? j.toNat with
      | none => Except.error Fault.outOfBounds
      | some obj =>
        let lastWindow1 := if obj.firstChar = Char.ofNat 46 then obj.window else lastWindow
        let numSkip1 := if obj.firstChar = Char.ofNat 46 then 0 else numSkip
        let numSkip2 := if obj.firstChar = REL_SKIP then numSkip1 + 1 else numSkip1
        if obj.firstChar ≠ REL_VERT then extendLoop windows n (j + 1) lastWindow1 numSkip2 s
        else
          match s.containerPtr with
          | none => Except.ok (TclStatus.TCL_ERROR, s)
          | some containerPtr =>
            let width := 1 + countVert (windows.drop (j.toNat + 1))
            let implied : Option (Int × Int × GridState) :=
              match lastWindow1 with
              | none => some (s.defaultRow - 1, 0, s.st)
              | some other =>
                match GetGrid s.st other with
                | (none, _) => none
                | (some otherPtr, st1) =>
                  some ((st1.get otherPtr).content.row + (st1.get otherPtr).content.numRows - 2,
                    (st1.get otherPtr).content.column + (st1.get otherPtr).content.numCols, st1)
            match implied with
            | none => extendLoop windows n (j + 1) lastWindow1 numSkip2 s
            | some (lastRow, lastColumn, st1) =>
              match findExtend st1 (lastColumn + numSkip2) lastRow width
                  (st1.get containerPtr).contentPtr with
              | none => Except.ok (TclStatus.TCL_ERROR, { s with st := st1 })
              | some contentPtr =>
                match SetContentRow (st1.get contentPtr).content (-1)
                    ((st1.get contentPtr).content.numRows + 1) with
                | (TclStatus.TCL_ERROR, _) => Except.ok (TclStatus.TCL_ERROR, { s with st := st1 })
                | (TclStatus.TCL_OK, g) =>
                  extendLoop windows n (j + (g.numCols - 1) + 1) (some contentPtr) 0
                    ({ s with st := st1 }.setContent contentPtr g)
    else Except.ok (TclStatus.TCL_OK, s)

/-- Lines 3562-3584: the end of `ConfigureContent`. -/
def finishConfigure (s : ContentState) : Except Fault (TclStatus × GridState) :=
  match s.containerPtr with
  | none => Except.ok (TclStatus.TCL_ERROR, s.st)
  | some containerPtr =>
    match s.st.SetGridSize containerPtr with
    | Except.error e => Except.error e
    | Except.ok st1 =>
      if (st1.get containerPtr).contentPtr.isEmpty ∧ (st1.get containerPtr).allocedContainer
      then
        Except.ok (TclStatus.TCL_OK,
          st1.modify containerPtr (fun r => { r with allocedContainer := false }))
      else Except.ok (TclStatus.TCL_OK, st1)

/-- The procedure `ConfigureContent(interp, tkwin, objc, objv)` on the argument list
`objv`: the completion code and the state afterwards.  Each of the two loops over
ancestors or containers and the loop over the shortcuts `^` may run `fuel` times. -/
def ConfigureContent (tk : TkProcs) (fuel : Nat) (st : GridState) (objv : List Tcl_Obj) :
    Except Fault (TclStatus × GridState) :=
  match scanCommand tk st objv with
  | (TclStatus.TCL_ERROR, s, _) => Except.ok (TclStatus.TCL_ERROR, s.st)
  | (TclStatus.TCL_OK, s, numWindows) =>
    match chooseDefaultRow s with
    | Except.error e => Except.error e
    | Except.ok s1 =>
      match configureWindows tk fuel (objv.drop numWindows) (objv.take numWindows) s1 with
      | Except.error e => Except.error e
      | Except.ok (TclStatus.TCL_ERROR, s2) => Except.ok (TclStatus.TCL_ERROR, s2.st)
      | Except.ok (TclStatus.TCL_OK, s2) =>
        match extendLoop (objv.take numWindows) fuel 0 none 0 s2 with
        | Except.error e => Except.error e
        | Except.ok (TclStatus.TCL_ERROR, s3) => Except.ok (TclStatus.TCL_ERROR, s3.st)
        | Except.ok (TclStatus.TCL_OK, s3) => finishConfigure s3

/-- What the checks of `ConfigureContent` leave as it was: the windows and, in the structure
of every window, the position and size fields, the container, the list of content, the
saved name and the flags. -/
def SameItems (st st1 : GridState) : Prop :=
  st1.window = st.window
  ∧ ∀ p, (st1.get p).content = (st.get p).content
    ∧ (st1.get p).containerPtr = (st.get p).containerPtr
    ∧ (st1.get p).contentPtr = (st.get p).contentPtr
    ∧ (st1.get p).inObj = (st.get p).inObj
    ∧ (st1.get p).requestedRelayout = (st.get p).requestedRelayout
    ∧ (st1.get p).dontPropagate = (st.get p).dontPropagate
    ∧ (st1.get p).allocedContainer = (st.get p).allocedContainer

/-- An argument that names the window `w`: its string starts with a dot. -/
def windowObj (w : Tk_Window) : Tcl_Obj :=
  { string := [Char.ofNat 46, Char.ofNat 97], window := some w, int := none, pixels := none,
    pad := none, index := none }

/-- An option word: its string starts with a minus sign and `index` is the option. -/
def optionObj (index : ConfOption) : Tcl_Obj :=
  { string := [Char.ofNat 45, Char.ofNat 111], window := none, int := none, pixels := none,
    pad := none, index := some index }

/-- A value that converts to the integer and to the pixel distance `n`. -/
def intObj (n : Int) : Tcl_Obj :=
  { string := [Char.ofNat 48], window := none, int := some n, pixels := some n,
    pad := some (n, 2 * n), index := none }

/-- The value `q` of an option `-sticky`, which is not a sticky string. -/
def badStickyObj : Tcl_Obj :=
  { string := [Char.ofNat 113], window := none, int := none, pixels := none, pad := none,
    index := none }

/-- The window `container` is the content or is managed inside it, directly or through at
most `n` containers: following `TkGetContainer` from `container` on the window structures
`window` reaches `content`. -/
def managedInside (tk : TkProcs) (window : Tk_Window → TkWindow) (content : Tk_Window) :
    Nat → Tk_Window → Prop
  | 0, container => container = content
  | n + 1, container =>
    container = content
      ∨ ∃ next, tk.TkGetContainer (window container) = some next
          ∧ managedInside tk window content n next

/-- The window structures when `ConfigureContent` makes its topology checks for the content
`contentPtr` and the container `containerPtr`: after the content has left another
container. -/
def windowsAtCheck (tk : TkProcs) (st : GridState) (contentPtr containerPtr : Tk_Window) :
    Tk_Window → TkWindow :=
  match (st.get contentPtr).containerPtr with
  | none => st.window
  | some old =>
    if old ≠ containerPtr then (unmaintain tk st contentPtr old).window else st.window

/-! ## `StickyToObj` -/

/-- The procedure `StickyToObj(flags)`: the characters of the string object returned, the
letters n (110), e (101), s (115), w (119) of the flags set, in this order. -/
def StickyToObj (flags : Int) : List Char :=
  (if stuck flags STICK_NORTH then [Char.ofNat 110] else [])
    ++ (if stuck flags STICK_EAST then [Char.ofNat 101] else [])
    ++ (if stuck flags STICK_SOUTH then [Char.ofNat 115] else [])
    ++ (if stuck flags STICK_WEST then [Char.ofNat 119] else [])

/-- The canonical sticky string of a string: the lower-case letters n (110), e (101),
s (115), w (119) that the string holds in either case, each once, in this order. -/
def canonicalSticky (string : List Char) : List Char :=
  (if 'n' ∈ string ∨ 'N' ∈ string then [Char.ofNat 110] else [])
    ++ (if 'e' ∈ string ∨ 'E' ∈ string then [Char.ofNat 101] else [])
    ++ (if 's' ∈ string ∨ 'S' ∈ string then [Char.ofNat 115] else [])
    ++ (if 'w' ∈ string ∨ 'W' ∈ string then [Char.ofNat 119] else [])

/-- Two slots of `minSize` 10: slot 0 has weight 2 and is 11 wide, slot 1 has weight 1 and
is 15 wide, so the layout is 26 wide and can shrink to 20. -/
def shrinkStepExample : Nat → SlotInfo := fun j =>
  if j = 0 then { minSize := 10, weight := 2, pad := 0, uniform := none, offset := 11, temp := 0 }
  else { minSize := 10, weight := 1, pad := 0, uniform := none, offset := 26, temp := 0 }

/-- The quadruple `x y width height` that `grid bbox` reports, `none` for a fault. -/
def bboxOf (res : Except Fault (Container × Int × Int × Int × Int)) :
    Option (Int × Int × Int × Int) :=
  match res with
  | Except.ok (_, box) => some box
  | Except.error _ => none

/-- A slot array for the grow branch of `AdjustOffsets`: the slots have weight 40000 and
offset 0 (two empty columns of `-weight 40000`). -/
def growWrapExample : Nat → SlotInfo := fun _ =>
  { minSize := 0, weight := 40000, pad := 0, uniform := none, offset := 0, temp := 0 }

/-- A slot array with one slot of weight: slot 0 has weight 1000000 and offset 100, the
other slots have weight 0 and offset 200. -/
def singleWrapExample : Nat → SlotInfo := fun j =>
  if j = 0 then
    { minSize := 0, weight := 1000000, pad := 0, uniform := none, offset := 100, temp := 0 }
  else { minSize := 0, weight := 0, pad := 0, uniform := none, offset := 200, temp := 0 }

/-- A slot array whose slots have `minSize` 20 and weight 1000000: slot 0 ends at 50, the
other slots at 100. -/
def minWrapExample : Nat → SlotInfo := fun j =>
  { minSize := 20, weight := 1000000, pad := 0, uniform := none,
    offset := if j = 0 then 50 else 100, temp := 0 }

/-- A slot array with the minimum sizes 30 and 40: slot 0 has weight 1500000 and offset 100,
the other slots have weight 0 and offset 200. -/
def totalWrapExample : Nat → SlotInfo := fun j =>
  if j = 0 then
    { minSize := 30, weight := 1500000, pad := 0, uniform := none, offset := 100, temp := 0 }
  else { minSize := 40, weight := 0, pad := 0, uniform := none, offset := 200, temp := 0 }

/-- A slot array whose slots have weight 1000000: slot 0 ends at 100, the other slots at
200. -/
def lastWrapExample : Nat → SlotInfo := fun j =>
  { minSize := 0, weight := 1000000, pad := 0, uniform := none,
    offset := if j = 0 then 100 else 200, temp := 0 }

/-- A slot array whose slots have weight 1073741824, no minimum size and offset 8 (one
column of `-weight 1073741824` that is 8 pixels wide). -/
def stuckExample : Nat → SlotInfo := fun _ =>
  { minSize := 0, weight := 1073741824, pad := 0, uniform := none, offset := 8, temp := 0 }

/-- A slot array whose slots have weight 1500000 and no minimum size: slot 0 ends at 1000,
the other slots at 2000. -/
def widenExample : Nat → SlotInfo := fun j =>
  { minSize := 0, weight := 1500000, pad := 0, uniform := none,
    offset := if j = 0 then 1000 else 2000, temp := 0 }

/-- Three configured columns of the weights 40000, 1000000 and 1000000, column 1 with
`minSize` 10; a content of width 10 in column 2 and a content of width 3000 on the columns
0-2. -/
def minWidthWrapExample : GridContainer :=
  { columnPtr := fun j =>
      if j = 0 then
        { minSize := 0, weight := 40000, pad := 0, uniform := none, offset := 0, temp := 0 }
      else if j = 1 then
        { minSize := 10, weight := 1000000, pad := 0, uniform := none, offset := 0, temp := 0 }
      else { minSize := 0, weight := 1000000, pad := 0, uniform := none, offset := 0, temp := 0 },
    rowPtr := fun _ => defaultSlot,
    columnEnd := 3, columnMax := 3, columnSpace := 25, rowEnd := 1, rowMax := 0,
    rowSpace := 25, startX := 0, startY := 0,
    contentPtr := [columnContent 2 1 10, columnContent 0 3 3000] }

/-- A column of weight 1000000 and a content of width 3000 on the columns 0-1 (column 1 is
not configured). -/
def hangExample : GridContainer :=
  { columnPtr := fun j =>
      if j = 0 then
        { minSize := 0, weight := 1000000, pad := 0, uniform := none, offset := 0, temp := 0 }
      else defaultSlot,
    rowPtr := fun _ => defaultSlot,
    columnEnd := 2, columnMax := 1, columnSpace := 25, rowEnd := 1, rowMax := 0,
    rowSpace := 25, startX := 0, startY := 0,
    contentPtr := [columnContent 0 2 3000] }

/-- A container with grid data whose only content is at column 2147483647, the position
that `SetContentColumn` accepts for `-column 2147483647`. -/
def wrapSizeExample : Container :=
  { containerDataPtr :=
      some (freshData [(SetContentColumn (stickyContent 0) 2147483647 (-1)).2]),
    contentPtr := [(SetContentColumn (stickyContent 0) 2147483647 (-1)).2] }

/-! ## `ArrangeGrid` -/

/-- The slot table of the container with the list of its content, as
`ResolveConstraints(containerPtr, …)` reads them. -/
def Container.solverView (c : Container) : GridContainer :=
  { c.data with contentPtr := c.contentPtr }

/-- What `ArrangeGrid` reads of the window `containerPtr->tkwin` and of the flags of the
container: the requested size (`Tk_ReqWidth`, `Tk_ReqHeight`), the minimum requested size
(`Tk_MinReqWidth`, `Tk_MinReqHeight`), the size of the window (`Tk_Width`, `Tk_Height`),
its internal borders, and the flag `DONT_PROPAGATE`. -/
structure ContainerWindow where
  reqWidth : Int
  reqHeight : Int
  minReqWidth : Int
  minReqHeight : Int
  width : Int
  height : Int
  internalBorderLeft : Int
  internalBorderRight : Int
  internalBorderTop : Int
  internalBorderBottom : Int
  dontPropagate : Bool

/-- What a call of `ArrangeGrid` has done: the container afterwards, the size passed to
`Tk_GeometryRequest` (`none` when the procedure is not called), whether `ArrangeGrid` has
been scheduled again (the flag `REQUESTED_RELAYOUT`, cleared on entry), and the values
`x`, `y`, `width`, `height` computed for each content, in the order of the list (empty when
the loop over the content is not reached). -/
structure Arrangement where
  containerPtr : Container
  request : Option (Int × Int)
  relayout : Bool
  placed : List (Int × Int × Int × Int)

/-- The loop over the content of `ArrangeGrid` (lines 1852-1902) when no nested call sets
`abort`: the cavity of each content, read from the offsets of the slots, and the position
and size that `AdjustForSticky` gives the content in it.  A read outside the slots
allocated is a fault.  (The calls that then place the window, `Tk_MoveResizeWindow`,
`Tk_MapWindow`, `Tk_UnmapWindow`, `Tk_MaintainGeometry`, are outside the model.) -/
def arrangeContent (d : GridContainer) :
    List Gridder → Except Fault (List (Int × Int × Int × Int))
  | [] => Except.ok []
  | contentPtr :: nextPtr =>
    let col := contentPtr.column
    let row := contentPtr.row
    match (if col > 0 then readOffset d SlotType.COLUMN (col - 1) else Except.ok 0) with
    | Except.error e => Except.error e
    | Except.ok x =>
      match (if row > 0 then readOffset d SlotType.ROW (row - 1) else Except.ok 0) with
      | Except.error e => Except.error e
      | Except.ok y =>
        match readOffset d SlotType.COLUMN (wrapInt (contentPtr.numCols + col - 1)) with
        | Except.error e => Except.error e
        | Except.ok right =>
          match readOffset d SlotType.ROW (wrapInt (contentPtr.numRows + row - 1)) with
          | Except.error e => Except.error e
          | Except.ok bottom =>
            match arrangeContent d nextPtr with
            | Except.error e => Except.error e
            | Except.ok rest =>
              Except.ok
                (AdjustForSticky contentPtr (x + d.startX) (y + d.startY) (right - x)
                  (bottom - y) :: rest)

/-- The procedure `ArrangeGrid(clientData)` (lines 1755-1906) on the container
`containerPtr`, whose window has the values `tkwin`; `anchor usedX usedY` is the pair
`(startX, startY)` that `TkComputeAnchor` computes for the anchor of the container.  Both
calls of `ResolveConstraints` have the target 0.  The `fuel` bounds the loops of
`ResolveConstraints` and `AdjustOffsets`.  (`abortPtr`, which a nested call of
`ArrangeGrid` from a callback of Tk would set, and `Tcl_Preserve`, `Tcl_Release` are
outside the model.) -/
def ArrangeGrid (fuel : Nat) (anchor : Int → Int → Int × Int) (tkwin : ContainerWindow)
    (containerPtr : Container) : Except Fault Arrangement :=
  match containerPtr.contentPtr, containerPtr.containerDataPtr with
  | [], _ =>
    Except.ok { containerPtr := containerPtr, request := none, relayout := false, placed := [] }
  | _ :: _, none =>
    Except.ok { containerPtr := containerPtr, request := none, relayout := false, placed := [] }
  | _ :: _, some _ =>
    match SetGridSize containerPtr with
    | Except.error e => Except.error e
    | Except.ok c1 =>
      match ResolveConstraints fuel c1.solverView SlotType.COLUMN 0 with
      | Except.error e => Except.error e
      | Except.ok (width0, columnPtr) =>
        let d1 := c1.solverView.setSlotPtr SlotType.COLUMN columnPtr
        match ResolveConstraints fuel d1 SlotType.ROW 0 with
        | Except.error e => Except.error e
        | Except.ok (height0, rowPtr) =>
          let d2 := d1.setSlotPtr SlotType.ROW rowPtr
          let width1 := width0 + (tkwin.internalBorderLeft + tkwin.internalBorderRight)
          let height1 := height0 + (tkwin.internalBorderTop + tkwin.internalBorderBottom)
          let width := if width1 < tkwin.minReqWidth then tkwin.minReqWidth else width1
          let height := if height1 < tkwin.minReqHeight then tkwin.minReqHeight else height1
          if (width ≠ tkwin.reqWidth ∨ height ≠ tkwin.reqHeight) ∧ tkwin.dontPropagate = false then
            Except.ok
              { containerPtr := { c1 with containerDataPtr := some d2 },
                request := some (width, height),
                relayout := decide (width > 1 ∧ height > 1), placed := [] }
          else
            let realWidth :=
              tkwin.width - tkwin.internalBorderLeft - tkwin.internalBorderRight
            let realHeight :=
              tkwin.height - tkwin.internalBorderTop - tkwin.internalBorderBottom
            match AdjustOffsets fuel realWidth (d2.gridCount SlotType.COLUMN) d2.columnPtr with
            | Except.error e => Except.error e
            | Except.ok (usedX, columnPtr1) =>
              match AdjustOffsets fuel realHeight (d2.gridCount SlotType.ROW) d2.rowPtr with
              | Except.error e => Except.error e
              | Except.ok (usedY, rowPtr1) =>
                let d3 : GridContainer :=
                  { d2 with columnPtr := columnPtr1, rowPtr := rowPtr1,
                            startX := (anchor usedX usedY).1, startY := (anchor usedX usedY).2 }
                match arrangeContent d3 c1.contentPtr with
                | Except.error e => Except.error e
                | Except.ok placed =>
                  Except.ok
                    { containerPtr := { c1 with containerDataPtr := some d3 },
                      request := none, relayout := false, placed := placed }

/-- A container without content whose column 0 has been configured with `-minsize 10`. -/
def noContentExample : Container :=
  { containerDataPtr := some minExample, contentPtr := [] }

/-- A window of size 50 x 40 that has requested this size, without borders. -/
def sampleWindow : ContainerWindow :=
  { reqWidth := 50, reqHeight := 40, minReqWidth := 0, minReqHeight := 0, width := 50,
    height := 40, internalBorderLeft := 0, internalBorderRight := 0, internalBorderTop := 0,
    internalBorderBottom := 0, dontPropagate := false }

/-- The top-level window 0 and its children, which request 10 x 10 pixels. -/
def siblingWindows : Tk_Window → TkWindow := fun p =>
  { parentPtr := if p = 0 then none else some 0, maintainerPtr := none,
    topWinHierarchy := decide (p = 0), alreadyDead := false, border_width := 0,
    reqWidth := 10, reqHeight := 10 }

/-- The state in which no window is managed by the grid. -/
def siblingState : GridState :=
  { window := siblingWindows, gridHashTable := fun _ => none }

/-- The outcome of `ArrangeGrid` as values: the size requested and whether a new layout is
scheduled; `none` after a fault. -/
def requestOf (res : Except Fault Arrangement) : Option (Option (Int × Int) × Bool) :=
  match res with
  | Except.ok a => some (a.request, a.relayout)
  | Except.error _ => none

/-- The outcome of `ArrangeGrid` as values: the positions and sizes of the content; `none`
after a fault. -/
def placedOf (res : Except Fault Arrangement) : Option (List (Int × Int × Int × Int)) :=
  match res with
  | Except.ok a => some a.placed
  | Except.error _ => none

/-! ## Theorems -/

theorem sumWeights_eq (slotPtr : Nat → SlotInfo) (n : Nat) :
    sumWeights n slotPtr = psum (fun i => (slotPtr i).weight) n := by
  induction n with
  | zero => rfl
  | succ n ih =>
    simp only [sumWeights, forUp, psum] at ih ⊢
    rw [ih]

theorem psum_nonneg (f : Nat → Int) (hf : ∀ i, 0 ≤ f i) (n : Nat) : 0 ≤ psum f n := by
  induction n with
  | zero => simp [psum]
  | succ n ih => simp only [psum]; have := hf n; omega

theorem psum_mono (f : Nat → Int) (hf : ∀ i, 0 ≤ f i) {m n : Nat} (h : m ≤ n) :
    psum f m ≤ psum f n := by
  induction h with
  | refl => exact le_refl _
  | @step k _ ih => simp only [psum]; have := hf k; omega

/-- An exact value within the range of `int` is the value computed. -/
theorem wrapInt_eq (x : Int) (h1 : -2147483648 ≤ x) (h2 : x ≤ 2147483647) : wrapInt x = x := by
  unfold wrapInt
  omega

/-- A product `a * b` with `0 ≤ b ≤ c` is computed exactly when `a * c` fits in an `int`. -/
theorem wrapInt_mul (a b c : Int) (hb : 0 ≤ b) (hbc : b ≤ c) (h1 : -2147483647 ≤ a * c)
    (h2 : a * c ≤ 2147483647) : wrapInt (a * b) = a * b := by
  apply wrapInt_eq
  · by_cases ha : 0 ≤ a
    · have : 0 ≤ a * b := Int.mul_nonneg ha hb
      omega
    · have : a * c ≤ a * b := by nlinarith
      omega
  · by_cases ha : 0 ≤ a
    · have : a * b ≤ a * c := Int.mul_le_mul_of_nonneg_left hbc ha
      omega
    · have : a * b ≤ 0 := by nlinarith
      omega

/-- The value computed is in the range of `int`. -/
theorem wrapInt_range (x : Int) : -2147483648 ≤ wrapInt x ∧ wrapInt x ≤ 2147483647 := by
  unfold wrapInt
  omega

/-- The loop that adds the extra space, in closed form, when its products are computed
exactly. -/
theorem growLoop_eq (diff totalWeight : Int) (slotPtr : Nat → SlotInfo) (n : Nat)
    (hfit : ∀ j, j < n →
      wrapInt (diff * psum (fun i => (slotPtr i).weight) (j + 1))
        = diff * psum (fun i => (slotPtr i).weight) (j + 1)) :
    growLoop diff totalWeight n slotPtr =
      (psum (fun i => (slotPtr i).weight) n,
       fun j => if j < n then
          { slotPtr j with
            offset := (slotPtr j).offset +
              Int.tdiv (diff * psum (fun i => (slotPtr i).weight) (j + 1)) totalWeight }
         else slotPtr j) := by
  induction n with
  | zero => simp [growLoop, forUp, psum]
  | succ n ih =>
    have ih := ih (fun j hj => hfit j (by omega))
    have hn := hfit n (by omega)
    simp only [growLoop, forUp] at ih ⊢
    rw [ih]
    simp only [psum, lt_irrefl, if_false] at hn ⊢
    rw [hn]
    refine Prod.ext rfl ?_
    funext j
    simp only [setOffset]
    by_cases h1 : j = n
    · subst h1; simp
    · by_cases h2 : j < n
      · have : j < n + 1 := by omega
        simp [h1, h2, this]
      · have : ¬ j < n + 1 := by omega
        simp [h1, h2, this]

theorem psum_congr (f g : Nat → Int) (n : Nat) (h : ∀ i, i < n → f i = g i) :
    psum f n = psum g n := by
  induction n with
  | zero => rfl
  | succ n ih =>
    simp only [psum]
    rw [ih (fun i hi => h i (by omega)), h n (by omega)]

theorem psum_zero (f : Nat → Int) (n : Nat) (h : ∀ i, i < n → f i = 0) : psum f n = 0 := by
  induction n with
  | zero => rfl
  | succ n ih =>
    simp only [psum]
    rw [ih (fun i hi => h i (by omega)), h n (by omega)]; rfl

/-- With a single non-zero term at `k`, the partial sums are `0` up to `k` and `f k` after. -/
theorem psum_single (f : Nat → Int) (k : Nat) (h : ∀ i, i ≠ k → f i = 0) (n : Nat) :
    psum f n = if k < n then f k else 0 := by
  induction n with
  | zero => simp [psum]
  | succ n ih =>
    simp only [psum, ih]
    by_cases h1 : k < n
    · have h2 : k < n + 1 := by omega
      have h3 : f n = 0 := h n (by omega)
      simp [h1, h2, h3]
    · by_cases h4 : k = n
      · subst h4; simp
      · have h2 : ¬ k < n + 1 := by omega
        have h3 : f n = 0 := h n (by omega)
        simp [h1, h2, h3]

theorem current_grow (diff totalWeight : Int) (slotPtr : Nat → SlotInfo) (n j : Nat)
    (hj : j < n)
    (hfit : ∀ j, j < n →
      wrapInt (diff * psum (fun i => (slotPtr i).weight) (j + 1))
        = diff * psum (fun i => (slotPtr i).weight) (j + 1)) :
    current (growLoop diff totalWeight n slotPtr).2 j =
      current slotPtr j
        + (Int.tdiv (diff * psum (fun i => (slotPtr i).weight) (j + 1)) totalWeight
          - Int.tdiv (diff * psum (fun i => (slotPtr i).weight) j) totalWeight) := by
  rw [growLoop_eq _ _ _ _ hfit]
  unfold current
  by_cases h0 : j = 0
  · subst h0
    simp [hj, psum]
  · have h1 : j - 1 < n := by omega
    have h2 : j - 1 + 1 = j := by omega
    simp only [h0, if_false, hj, if_true, h1, h2]
    omega


theorem adjustOffsets_grow_eq (fuel : Nat) (size : Int) (slots : Nat) (slotPtr : Nat → SlotInfo)
    (hslots : 0 < slots) (hT : sumWeights slots slotPtr ≠ 0)
    (hgrow : (slotPtr (slots - 1)).offset < size) :
    AdjustOffsets fuel size slots slotPtr =
      Except.ok (size, (growLoop (size - (slotPtr (slots - 1)).offset)
        (sumWeights slots slotPtr) slots slotPtr).2) := by
  unfold AdjustOffsets
  have h1 : slots ≠ 0 := by omega
  have h2 : size - (slotPtr (slots - 1)).offset ≠ 0 := by omega
  have h3 : size - (slotPtr (slots - 1)).offset > 0 := by omega
  simp only [h1, if_false, h2, hT, h3, if_true]

/-- The products of the growing loop are computed exactly when the surplus times the total
weight fits in an `int`. -/
theorem grow_fits (diff : Int) (slots : Nat) (slotPtr : Nat → SlotInfo)
    (hw : ∀ j, 0 ≤ (slotPtr j).weight) (hd : 0 ≤ diff)
    (hfit : diff * sumWeights slots slotPtr ≤ INT_MAX) :
    ∀ j, j < slots →
      wrapInt (diff * psum (fun i => (slotPtr i).weight) (j + 1))
        = diff * psum (fun i => (slotPtr i).weight) (j + 1) := by
  intro j hj
  rw [sumWeights_eq] at hfit
  have h0 := psum_nonneg (fun i => (slotPtr i).weight) hw slots
  exact wrapInt_mul _ _ _ (psum_nonneg _ hw (j + 1)) (psum_mono _ hw (by omega))
    (by have := Int.mul_nonneg hd h0; omega) hfit

/-- Growing never makes a slot narrower. -/
theorem current_grow_le (diff totalWeight : Int) (slots : Nat) (slotPtr : Nat → SlotInfo)
    (hw : ∀ j, 0 ≤ (slotPtr j).weight) (hT : 0 < totalWeight) (hd : 0 ≤ diff)
    (hfit : ∀ j, j < slots →
      wrapInt (diff * psum (fun i => (slotPtr i).weight) (j + 1))
        = diff * psum (fun i => (slotPtr i).weight) (j + 1))
    (j : Nat) (hj : j < slots) :
    current slotPtr j ≤ current (growLoop diff totalWeight slots slotPtr).2 j := by
  rw [current_grow _ _ _ _ _ hj hfit]
  have hp1 := psum_nonneg (fun i => (slotPtr i).weight) hw j
  have hp2 := psum_nonneg (fun i => (slotPtr i).weight) hw (j + 1)
  have hm : psum (fun i => (slotPtr i).weight) j ≤ psum (fun i => (slotPtr i).weight) (j + 1) :=
    psum_mono _ hw (by omega)
  rw [Int.tdiv_eq_ediv (Int.mul_nonneg hd hp2) (le_of_lt hT),
    Int.tdiv_eq_ediv (Int.mul_nonneg hd hp1) (le_of_lt hT)]
  have := Int.ediv_le_ediv hT (Int.mul_le_mul_of_nonneg_left hm hd)
  omega

/-- `AdjustOffsets` growing when the surplus times the total weight fits in an `int`: with
at least one slot, weights that are not negative, a positive total weight and a target
above the current last offset, the call returns the target, the last offset becomes the
target exactly and no slot becomes narrower.  With two columns of equal weight and target
101 the widths sum to 101, and the second column receives exactly the odd pixel of the
surplus. -/
theorem adjustOffsets_grow (fuel : Nat) (size : Int) (slots : Nat) (slotPtr : Nat → SlotInfo)
    (hslots : 0 < slots) (hw : ∀ j, 0 ≤ (slotPtr j).weight)
    (hT : 0 < sumWeights slots slotPtr)
    (hgrow : (slotPtr (slots - 1)).offset < size)
    (hfit : (size - (slotPtr (slots - 1)).offset) * sumWeights slots slotPtr ≤ INT_MAX) :
    ∃ slotPtr1, AdjustOffsets fuel size slots slotPtr = Except.ok (size, slotPtr1)
      ∧ (slotPtr1 (slots - 1)).offset = size
      ∧ (∀ j, j < slots → current slotPtr j ≤ current slotPtr1 j)
      ∧ (slots = 2 → (slotPtr 0).weight = (slotPtr 1).weight → size = 101 →
          current slotPtr1 0 + current slotPtr1 1 = 101
          ∧ (current slotPtr1 1 - current slotPtr 1) - (current slotPtr1 0 - current slotPtr 0)
              = (101 - (slotPtr 1).offset) % 2) := by
  have hf := grow_fits (size - (slotPtr (slots - 1)).offset) slots slotPtr hw (by omega) hfit
  refine ⟨_, adjustOffsets_grow_eq fuel size slots slotPtr hslots (ne_of_gt hT) hgrow, ?_, ?_, ?_⟩
  · rw [growLoop_eq _ _ _ _ hf]
    have h1 : slots - 1 < slots := by omega
    have h2 : slots - 1 + 1 = slots := by omega
    simp only [h1, if_true, h2]
    rw [← sumWeights_eq, Int.mul_tdiv_cancel _ (ne_of_gt hT)]
    omega
  · intro j hj
    exact current_grow_le _ _ slots slotPtr hw hT (by omega) hf j hj
  · intro h2 hweq hsz
    subst h2
    subst hsz
    rw [current_grow _ _ _ _ _ (by omega : 0 < 2) hf,
      current_grow _ _ _ _ _ (by omega : 1 < 2) hf]
    rw [sumWeights_eq] at hT ⊢
    simp only [psum, zero_add, mul_zero, Int.zero_tdiv, sub_zero] at hT ⊢
    simp only [current]
    simp only [if_true, one_ne_zero, if_false, Nat.sub_self, Nat.reduceSub] at hgrow ⊢
    rw [← hweq] at hT ⊢
    have hw0 : 0 < (slotPtr 0).weight := by omega
    generalize (slotPtr 0).weight = w at hT hw0 ⊢
    generalize hdd : 101 - (slotPtr 1).offset = d
    have hd : 0 < d := by omega
    rw [Int.mul_tdiv_cancel _ (by omega : w + w ≠ 0)]
    rw [Int.tdiv_eq_ediv (Int.mul_nonneg (le_of_lt hd) (le_of_lt hw0)) (by omega)]
    have e : d * w / (w + w) = d / 2 := by
      have : w + w = w * 2 := by ring
      rw [this, mul_comm d w]
      exact Int.mul_ediv_mul_of_pos _ _ hw0
    rw [e]
    constructor <;> omega

/-- `AdjustOffsets` growing with a single slot `k` of non-zero weight, when the surplus
times this weight fits in an `int`: the width of slot `k` grows by exactly the surplus and
the width of every other slot is unchanged. -/
theorem adjustOffsets_grow_single (fuel : Nat) (size : Int) (slots : Nat)
    (slotPtr : Nat → SlotInfo) (k : Nat) (hk : k < slots)
    (hwk : (slotPtr k).weight ≠ 0) (hw0 : ∀ j, j ≠ k → (slotPtr j).weight = 0)
    (hgrow : (slotPtr (slots - 1)).offset < size)
    (hfit : -2147483648 ≤ (size - (slotPtr (slots - 1)).offset) * (slotPtr k).weight
      ∧ (size - (slotPtr (slots - 1)).offset) * (slotPtr k).weight ≤ INT_MAX) :
    ∃ slotPtr1, AdjustOffsets fuel size slots slotPtr = Except.ok (size, slotPtr1)
      ∧ current slotPtr1 k = current slotPtr k + (size - (slotPtr (slots - 1)).offset)
      ∧ (∀ j, j < slots → j ≠ k → current slotPtr1 j = current slotPtr j) := by
  have hsum : ∀ n, psum (fun i => (slotPtr i).weight) n = if k < n then (slotPtr k).weight else 0 :=
    psum_single (fun i => (slotPtr i).weight) k hw0
  have hT : sumWeights slots slotPtr = (slotPtr k).weight := by
    rw [sumWeights_eq, hsum]; simp [hk]
  have hf : ∀ j, j < slots →
      wrapInt ((size - (slotPtr (slots - 1)).offset) * psum (fun i => (slotPtr i).weight) (j + 1))
        = (size - (slotPtr (slots - 1)).offset)
          * psum (fun i => (slotPtr i).weight) (j + 1) := by
    intro j _
    rw [hsum]
    split
    · exact wrapInt_eq _ hfit.1 hfit.2
    · rw [mul_zero]; rfl
  refine ⟨_, adjustOffsets_grow_eq fuel size slots slotPtr (by omega) (by rw [hT]; exact hwk) hgrow,
    ?_, ?_⟩
  · rw [current_grow _ _ _ _ _ hk hf, hsum, hsum, hT]
    simp only [Nat.lt_succ_self, if_true, lt_irrefl, if_false, mul_zero, Int.zero_tdiv, sub_zero]
    rw [Int.mul_tdiv_cancel _ hwk]
  · intro j hj hjk
    rw [current_grow _ _ _ _ _ hj hf, hsum, hsum, hT]
    by_cases h : k < j
    · have h1 : k < j + 1 := by omega
      simp [h, h1]
    · have h1 : ¬ k < j + 1 := by omega
      simp [h, h1]

/-- C10. `AdjustOffsets` changes nothing when the target equals the current last offset, or
when all the weights are zero; in the second case it returns the current last offset, not
the target, whether the target is larger or smaller. -/
theorem adjustOffsets_noop (fuel : Nat) (size : Int) (slots : Nat) (slotPtr : Nat → SlotInfo)
    (hslots : 0 < slots) :
    (size = (slotPtr (slots - 1)).offset →
        AdjustOffsets fuel size slots slotPtr = Except.ok (size, slotPtr))
    ∧ ((∀ j, j < slots → (slotPtr j).weight = 0) →
        AdjustOffsets fuel size slots slotPtr
          = Except.ok ((slotPtr (slots - 1)).offset, slotPtr)) := by
  have h1 : slots ≠ 0 := by omega
  constructor
  · intro h
    unfold AdjustOffsets
    simp [h1, h]
  · intro h
    have hT : sumWeights slots slotPtr = 0 := by
      rw [sumWeights_eq]; exact psum_zero _ _ h
    unfold AdjustOffsets
    simp only [h1, if_false, hT, if_true]
    by_cases hd : size - (slotPtr (slots - 1)).offset = 0
    · simp only [hd, if_true]
      have : size = (slotPtr (slots - 1)).offset := by omega
      rw [this]
    · simp only [hd, if_false]

theorem tempLoop_eq (slotPtr : Nat → SlotInfo) (n : Nat) :
    tempLoop n slotPtr =
      (psum (tempOf slotPtr) n,
       fun j => if j < n then { slotPtr j with temp := tempOf slotPtr j } else slotPtr j) := by
  induction n with
  | zero => simp [tempLoop, forUp, psum]
  | succ n ih =>
    simp only [tempLoop, forUp] at ih ⊢
    rw [ih]
    simp only [psum, lt_irrefl, if_false]
    have ht : (if (slotPtr n).weight > 0 then (slotPtr n).minSize
        else if n > 0 then (slotPtr n).offset -
          (if n - 1 < n then { slotPtr (n - 1) with temp := tempOf slotPtr (n - 1) }
            else slotPtr (n - 1)).offset
        else (slotPtr n).offset) = tempOf slotPtr n := by
      unfold tempOf current
      by_cases h0 : n = 0
      · subst h0; simp
      · have h1 : n > 0 := by omega
        have h2 : n - 1 < n := by omega
        simp [h0, h1, h2]
    rw [ht]
    refine Prod.ext rfl ?_
    funext j
    simp only [setTemp]
    by_cases h1 : j = n
    · subst h1; simp
    · by_cases h2 : j < n
      · have : j < n + 1 := by omega
        simp [h1, h2, this]
      · have : ¬ j < n + 1 := by omega
        simp [h1, h2, this]

theorem minLoop_eq (slotPtr : Nat → SlotInfo) (n : Nat) :
    minLoop n slotPtr =
      (psum (fun i => (slotPtr i).temp) n,
       fun j => if j < n then
          { slotPtr j with offset := psum (fun i => (slotPtr i).temp) (j + 1) }
         else slotPtr j) := by
  induction n with
  | zero => simp [minLoop, forUp, psum]
  | succ n ih =>
    simp only [minLoop, forUp] at ih ⊢
    rw [ih]
    simp only [psum, lt_irrefl, if_false]
    refine Prod.ext rfl ?_
    funext j
    simp only [setOffset]
    by_cases h1 : j = n
    · subst h1; simp [psum]
    · by_cases h2 : j < n
      · have : j < n + 1 := by omega
        simp [h1, h2, this]
      · have : ¬ j < n + 1 := by omega
        simp [h1, h2, this]

theorem current_minLoop (slotPtr : Nat → SlotInfo) (n j : Nat) (hj : j < n) :
    current (minLoop n slotPtr).2 j = (slotPtr j).temp := by
  rw [minLoop_eq]
  unfold current
  by_cases h0 : j = 0
  · subst h0
    simp [hj, psum]
  · have h1 : j - 1 < n := by omega
    have h2 : j - 1 + 1 = j := by omega
    simp only [h0, if_false, hj, if_true, h1, h2]
    simp only [psum]
    omega

theorem psum_le_psum (f g : Nat → Int) (n : Nat) (h : ∀ i, i < n → f i ≤ g i) :
    psum f n ≤ psum g n := by
  induction n with
  | zero => exact le_refl _
  | succ n ih =>
    simp only [psum]
    have := ih (fun i hi => h i (by omega))
    have := h n (by omega)
    omega

/-- The outcome of `AdjustOffsets` in the branch that sets the slots to their minimum. -/
theorem adjustOffsets_min_eq (fuel : Nat) (size : Int) (slots : Nat) (slotPtr : Nat → SlotInfo)
    (hslots : 0 < slots) (hT : sumWeights slots slotPtr ≠ 0)
    (hshrink : size < (slotPtr (slots - 1)).offset)
    (hmin : size ≤ psum (tempOf slotPtr) slots) :
    ∃ slotPtr1, AdjustOffsets fuel size slots slotPtr
        = Except.ok (psum (tempOf slotPtr) slots, slotPtr1)
      ∧ (∀ j, j < slots → current slotPtr1 j = tempOf slotPtr j)
      ∧ (∀ j, (slotPtr1 j).minSize = (slotPtr j).minSize
          ∧ (slotPtr1 j).weight = (slotPtr j).weight) := by
  refine ⟨(minLoop slots (tempLoop slots slotPtr).2).2, ?_, ?_, ?_⟩
  · unfold AdjustOffsets
    have h1 : slots ≠ 0 := by omega
    have h2 : size - (slotPtr (slots - 1)).offset ≠ 0 := by omega
    have h3 : ¬ size - (slotPtr (slots - 1)).offset > 0 := by omega
    have h4 : size ≤ (tempLoop slots slotPtr).1 := by rw [tempLoop_eq]; exact hmin
    simp only [h1, if_false, h2, hT, h3, h4, if_true]
    rw [tempLoop_eq]
  · intro j hj
    rw [current_minLoop _ _ _ hj, tempLoop_eq]
    simp [hj]
  · intro j
    rw [minLoop_eq, tempLoop_eq]
    by_cases hj : j < slots <;> simp [hj]

/-- C8, as stated, fails: the target 20 is the sum of the two minimum sizes, the layout
shrinks from 100, and afterwards slot 1 (weight 0) is still 50 wide, not 10. -/
theorem adjustOffsets_shrink_to_min_counterexample :
    (shrinkExample 0).minSize + (shrinkExample 1).minSize = 20
    ∧ ∃ slotPtr1, AdjustOffsets 0 20 2 shrinkExample = Except.ok (60, slotPtr1)
        ∧ current slotPtr1 1 = 50 ∧ (slotPtr1 1).minSize = 10 := by
  refine ⟨by decide, (minLoop 2 (tempLoop 2 shrinkExample).2).2, rfl, by decide, by decide⟩

/-- C8, amended. `AdjustOffsets` shrinking to a target equal to the sum of all the slots'
`minSize`, when the weights are not negative, at least one is positive and no slot of
weight zero is narrower than its `minSize`: afterwards every slot of positive weight is
exactly `minSize` wide and every slot of weight zero keeps its width; so when all the
weights are positive every slot's width equals its `minSize`. -/
theorem adjustOffsets_shrink_to_min (fuel : Nat) (size : Int) (slots : Nat)
    (slotPtr : Nat → SlotInfo) (hslots : 0 < slots)
    (hw : ∀ j, 0 ≤ (slotPtr j).weight) (hT : 0 < sumWeights slots slotPtr)
    (hsize : size = psum (fun i => (slotPtr i).minSize) slots)
    (hshrink : size < (slotPtr (slots - 1)).offset)
    (hz : ∀ j, j < slots → (slotPtr j).weight = 0 → (slotPtr j).minSize ≤ current slotPtr j) :
    ∃ r slotPtr1, AdjustOffsets fuel size slots slotPtr = Except.ok (r, slotPtr1)
      ∧ (∀ j, j < slots → 0 < (slotPtr j).weight → current slotPtr1 j = (slotPtr j).minSize)
      ∧ (∀ j, j < slots → (slotPtr j).weight = 0 → current slotPtr1 j = current slotPtr j)
      ∧ ((∀ j, j < slots → 0 < (slotPtr j).weight) →
          ∀ j, j < slots → current slotPtr1 j = (slotPtr j).minSize) := by
  have hmin : size ≤ psum (tempOf slotPtr) slots := by
    rw [hsize]
    apply psum_le_psum
    intro i hi
    unfold tempOf
    by_cases h : (slotPtr i).weight > 0
    · simp [h]
    · have h0 : (slotPtr i).weight = 0 := by have := hw i; omega
      simp only [h, if_false]
      exact hz i hi h0
  obtain ⟨sp1, h1, h2, _⟩ :=
    adjustOffsets_min_eq fuel size slots slotPtr hslots (ne_of_gt hT) hshrink hmin
  have hpos : ∀ j, j < slots → 0 < (slotPtr j).weight → current sp1 j = (slotPtr j).minSize := by
    intro j hj hwj
    rw [h2 j hj]
    unfold tempOf
    simp [hwj]
  refine ⟨_, sp1, h1, hpos, ?_, fun hall j hj => hpos j hj (hall j hj)⟩
  intro j hj hwj
  rw [h2 j hj]
  unfold tempOf
  simp [hwj]

theorem adjustOffsets_grow_witness :
    (0 < sumWeights 2 twoColumns ∧ (twoColumns (2 - 1)).offset < 101)
    ∧ ∃ slotPtr1, AdjustOffsets 0 101 2 twoColumns = Except.ok (101, slotPtr1)
      ∧ (slotPtr1 (2 - 1)).offset = 101
      ∧ (∀ j, j < 2 → current twoColumns j ≤ current slotPtr1 j)
      ∧ (2 = 2 → (twoColumns 0).weight = (twoColumns 1).weight → (101 : Int) = 101 →
          current slotPtr1 0 + current slotPtr1 1 = 101
          ∧ (current slotPtr1 1 - current twoColumns 1)
              - (current slotPtr1 0 - current twoColumns 0)
              = (101 - (twoColumns 1).offset) % 2) :=
  ⟨⟨by decide, by decide⟩,
    adjustOffsets_grow 0 101 2 twoColumns (by decide) (fun _ => by show (0 : Int) ≤ 1; decide)
      (by decide) (by decide) (by decide)⟩

theorem adjustOffsets_grow_single_witness :
    ((shrinkExample 0).weight ≠ 0 ∧ (shrinkExample (2 - 1)).offset < 120)
    ∧ ∃ slotPtr1, AdjustOffsets 0 120 2 shrinkExample = Except.ok (120, slotPtr1)
      ∧ current slotPtr1 0 = current shrinkExample 0 + (120 - (shrinkExample (2 - 1)).offset)
      ∧ (∀ j, j < 2 → j ≠ 0 → current slotPtr1 j = current shrinkExample j) :=
  ⟨⟨by decide, by decide⟩,
    adjustOffsets_grow_single 0 120 2 shrinkExample 0 (by decide) (by decide)
      (fun j hj => by simp [shrinkExample, hj]) (by decide) (by decide)⟩

theorem adjustOffsets_shrink_to_min_witness :
    (0 < sumWeights 2 shrinkExample
      ∧ (20 : Int) = psum (fun i => (shrinkExample i).minSize) 2
      ∧ 20 < (shrinkExample (2 - 1)).offset)
    ∧ ∃ r slotPtr1, AdjustOffsets 0 20 2 shrinkExample = Except.ok (r, slotPtr1)
      ∧ (∀ j, j < 2 → 0 < (shrinkExample j).weight →
          current slotPtr1 j = (shrinkExample j).minSize)
      ∧ (∀ j, j < 2 → (shrinkExample j).weight = 0 →
          current slotPtr1 j = current shrinkExample j)
      ∧ ((∀ j, j < 2 → 0 < (shrinkExample j).weight) →
          ∀ j, j < 2 → current slotPtr1 j = (shrinkExample j).minSize) :=
  ⟨⟨by decide, by decide, by decide⟩,
    adjustOffsets_shrink_to_min 0 20 2 shrinkExample (by decide)
      (fun j => by unfold shrinkExample; split <;> decide) (by decide) (by decide) (by decide)
      (fun j hj _ => by
        have h : j = 0 ∨ j = 1 := by omega
        rcases h with h | h <;> subst h <;> decide)⟩

theorem adjustOffsets_noop_witness :
    0 < 2
    ∧ AdjustOffsets 0 0 2 twoColumns = Except.ok (0, twoColumns)
    ∧ ((∀ j, j < 2 → (twoColumns j).weight = 0) →
        AdjustOffsets 0 0 2 twoColumns = Except.ok ((twoColumns (2 - 1)).offset, twoColumns)) :=
  ⟨by decide, (adjustOffsets_noop 0 0 2 twoColumns (by decide)).1 rfl,
    (adjustOffsets_noop 0 0 2 twoColumns (by decide)).2⟩

theorem current_congr (a b : Nat → SlotInfo) (h : ∀ j, (a j).offset = (b j).offset) (j : Nat) :
    current a j = current b j := by
  unfold current
  rw [h j, h (j - 1)]

theorem psum_term_le (f : Nat → Int) (hf : ∀ i, 0 ≤ f i) {j n : Nat} (h : j < n) :
    f j ≤ psum f n := by
  have h1 : psum f (j + 1) ≤ psum f n := psum_mono f hf h
  have h2 := psum_nonneg f hf j
  simp only [psum] at h1
  omega

theorem shrinkWeights_eq (slotPtr : Nat → SlotInfo) (n : Nat) :
    shrinkWeights n slotPtr =
      (psum (shrinkWeightOf slotPtr) n,
       fun j => if j < n then { slotPtr j with temp := shrinkWeightOf slotPtr j }
         else slotPtr j) := by
  induction n with
  | zero => simp [shrinkWeights, forUp, psum]
  | succ n ih =>
    simp only [shrinkWeights, forUp] at ih ⊢
    rw [ih]
    have hc : current (fun j => if j < n then { slotPtr j with temp := shrinkWeightOf slotPtr j }
        else slotPtr j) n = current slotPtr n := by
      apply current_congr
      intro j
      by_cases h : j < n <;> simp [h]
    simp only [hc, lt_irrefl, if_false, psum]
    by_cases hgt : current slotPtr n > (slotPtr n).minSize
    · simp only [hgt, if_true]
      refine Prod.ext (by simp [shrinkWeightOf, hgt]) ?_
      funext j
      simp only [setTemp]
      by_cases h1 : j = n
      · subst h1; simp [shrinkWeightOf, hgt]
      · by_cases h2 : j < n
        · have : j < n + 1 := by omega
          simp [h1, h2, this]
        · have : ¬ j < n + 1 := by omega
          simp [h1, h2, this]
    · simp only [hgt, if_false]
      refine Prod.ext (by simp [shrinkWeightOf, hgt]) ?_
      funext j
      simp only [setTemp]
      by_cases h1 : j = n
      · subst h1; simp [shrinkWeightOf, hgt]
      · by_cases h2 : j < n
        · have : j < n + 1 := by omega
          simp [h1, h2, this]
        · have : ¬ j < n + 1 := by omega
          simp [h1, h2, this]

theorem shrinkDistribute_eq (newDiff totalWeight : Int) (slotPtr : Nat → SlotInfo) (n : Nat)
    (hfit : ∀ j, j < n →
      wrapInt (newDiff * psum (fun i => (slotPtr i).temp) (j + 1))
        = newDiff * psum (fun i => (slotPtr i).temp) (j + 1)) :
    shrinkDistribute newDiff totalWeight n slotPtr =
      (psum (fun i => (slotPtr i).temp) n,
       fun j => if j < n then
          { slotPtr j with
            offset := (slotPtr j).offset +
              Int.tdiv (newDiff * psum (fun i => (slotPtr i).temp) (j + 1)) totalWeight }
         else slotPtr j) := by
  induction n with
  | zero => simp [shrinkDistribute, forUp, psum]
  | succ n ih =>
    have ih := ih (fun j hj => hfit j (by omega))
    have hn := hfit n (by omega)
    simp only [shrinkDistribute, forUp] at ih ⊢
    rw [ih]
    simp only [psum, lt_irrefl, if_false] at hn ⊢
    rw [hn]
    refine Prod.ext rfl ?_
    funext j
    simp only [setOffset]
    by_cases h1 : j = n
    · subst h1; simp
    · by_cases h2 : j < n
      · have : j < n + 1 := by omega
        simp [h1, h2, this]
      · have : ¬ j < n + 1 := by omega
        simp [h1, h2, this]

theorem current_shrinkDistribute (newDiff totalWeight : Int) (slotPtr : Nat → SlotInfo)
    (n j : Nat) (hj : j < n)
    (hfit : ∀ j, j < n →
      wrapInt (newDiff * psum (fun i => (slotPtr i).temp) (j + 1))
        = newDiff * psum (fun i => (slotPtr i).temp) (j + 1)) :
    current (shrinkDistribute newDiff totalWeight n slotPtr).2 j =
      current slotPtr j
        + (Int.tdiv (newDiff * psum (fun i => (slotPtr i).temp) (j + 1)) totalWeight
          - Int.tdiv (newDiff * psum (fun i => (slotPtr i).temp) j) totalWeight) := by
  rw [shrinkDistribute_eq _ _ _ _ hfit]
  unfold current
  by_cases h0 : j = 0
  · subst h0
    simp [hj, psum]
  · have h1 : j - 1 < n := by omega
    have h2 : j - 1 + 1 = j := by omega
    simp only [h0, if_false, hj, if_true, h1, h2]
    omega

theorem shrinkNewDiff_ge_diff (diff totalWeight : Int) (slotPtr : Nat → SlotInfo) (n : Nat) :
    diff ≤ shrinkNewDiff diff totalWeight n slotPtr := by
  induction n with
  | zero => exact le_refl _
  | succ n ih =>
    simp only [shrinkNewDiff, forUp] at ih ⊢
    split
    · exact ih
    · split <;> omega

/-- One round of the loop that finds the amount to distribute. -/
theorem shrinkNewDiff_succ (diff totalWeight : Int) (slotPtr : Nat → SlotInfo) (n : Nat) :
    shrinkNewDiff diff totalWeight (n + 1) slotPtr =
      if (slotPtr n).temp = 0 then shrinkNewDiff diff totalWeight n slotPtr
      else if Int.tdiv (wrapInt (totalWeight * ((slotPtr n).minSize - current slotPtr n)))
            (slotPtr n).temp > shrinkNewDiff diff totalWeight n slotPtr
        then Int.tdiv (wrapInt (totalWeight * ((slotPtr n).minSize - current slotPtr n)))
            (slotPtr n).temp
        else shrinkNewDiff diff totalWeight n slotPtr := rfl

theorem shrinkNewDiff_ge_maxDiff (diff totalWeight : Int) (slotPtr : Nat → SlotInfo) (n : Nat)
    (j : Nat) (hj : j < n) (ht : (slotPtr j).temp ≠ 0)
    (hfit : ∀ j, j < n → (slotPtr j).temp ≠ 0 →
      wrapInt (totalWeight * ((slotPtr j).minSize - current slotPtr j))
        = totalWeight * ((slotPtr j).minSize - current slotPtr j)) :
    Int.tdiv (totalWeight * ((slotPtr j).minSize - current slotPtr j)) (slotPtr j).temp
      ≤ shrinkNewDiff diff totalWeight n slotPtr := by
  induction n with
  | zero => omega
  | succ n ih =>
    rw [shrinkNewDiff_succ]
    by_cases hjn : j = n
    · subst hjn
      rw [if_neg ht, hfit j (by omega) ht]
      split <;> omega
    · have := ih (by omega) (fun i hi => hfit i (by omega))
      by_cases htn : (slotPtr n).temp = 0
      · rw [if_pos htn]
        exact this
      · rw [if_neg htn]
        split <;> omega

theorem shrinkNewDiff_le (diff totalWeight : Int) (slotPtr : Nat → SlotInfo) (n : Nat) (b : Int)
    (hd : diff ≤ b)
    (hm : ∀ j, j < n → (slotPtr j).temp ≠ 0 →
      Int.tdiv (totalWeight * ((slotPtr j).minSize - current slotPtr j)) (slotPtr j).temp ≤ b)
    (hfit : ∀ j, j < n → (slotPtr j).temp ≠ 0 →
      wrapInt (totalWeight * ((slotPtr j).minSize - current slotPtr j))
        = totalWeight * ((slotPtr j).minSize - current slotPtr j)) :
    shrinkNewDiff diff totalWeight n slotPtr ≤ b := by
  induction n with
  | zero => exact hd
  | succ n ih =>
    have := ih (fun j hj => hm j (by omega)) (fun j hj => hfit j (by omega))
    rw [shrinkNewDiff_succ]
    by_cases ht : (slotPtr n).temp = 0
    · rw [if_pos ht]
      exact this
    · rw [if_neg ht, hfit n (by omega) ht]
      have := hm n (by omega) ht
      split <;> omega

/-- The amount distributed in a pass is `diff` or the bound `maxDiff` of a shrinkable slot. -/
theorem shrinkNewDiff_cases (diff totalWeight : Int) (slotPtr : Nat → SlotInfo) (n : Nat)
    (hfit : ∀ j, j < n → (slotPtr j).temp ≠ 0 →
      wrapInt (totalWeight * ((slotPtr j).minSize - current slotPtr j))
        = totalWeight * ((slotPtr j).minSize - current slotPtr j)) :
    shrinkNewDiff diff totalWeight n slotPtr = diff
    ∨ ∃ j, j < n ∧ (slotPtr j).temp ≠ 0
        ∧ shrinkNewDiff diff totalWeight n slotPtr
          = Int.tdiv (totalWeight * ((slotPtr j).minSize - current slotPtr j))
              (slotPtr j).temp := by
  induction n with
  | zero => exact Or.inl rfl
  | succ n ih =>
    have ih := ih (fun j hj => hfit j (by omega))
    have hold : shrinkNewDiff diff totalWeight n slotPtr = diff
        ∨ ∃ j, j < n + 1 ∧ (slotPtr j).temp ≠ 0
          ∧ shrinkNewDiff diff totalWeight n slotPtr
            = Int.tdiv (totalWeight * ((slotPtr j).minSize - current slotPtr j))
                (slotPtr j).temp := by
      rcases ih with h | ⟨j, hj, ht, h⟩
      · exact Or.inl h
      · exact Or.inr ⟨j, by omega, ht, h⟩
    rw [shrinkNewDiff_succ]
    by_cases ht : (slotPtr n).temp = 0
    · rw [if_pos ht]
      exact hold
    · rw [if_neg ht, hfit n (by omega) ht]
      split
      · exact Or.inr ⟨n, by omega, ht, rfl⟩
      · exact hold

/-- Truncating division of a product with one negative factor. -/
theorem tdiv_neg_mul (a p t : Int) (ha : a ≤ 0) (hp : 0 ≤ p) (ht : 0 < t) :
    Int.tdiv (a * p) t = -((-a) * p / t) := by
  have h : a * p = -((-a) * p) := by ring
  rw [h, Int.neg_tdiv, Int.tdiv_eq_ediv (Int.mul_nonneg (by omega) hp) (le_of_lt ht)]

/-- Under `ShrinkFits` the products of a pass of the shrink loop are computed exactly:
those of the search for the amount to distribute, and those of the distribution of any
amount between `diff` and 0. -/
theorem shrinkPass_fits (slots : Nat) (diff : Int) (slotPtr : Nat → SlotInfo)
    (hw : ∀ j, 0 ≤ (slotPtr j).weight) (hfit : ShrinkFits slots diff slotPtr) :
    (∀ j, j < slots → ((shrinkWeights slots slotPtr).2 j).temp ≠ 0 →
      wrapInt ((shrinkWeights slots slotPtr).1
          * (((shrinkWeights slots slotPtr).2 j).minSize - current (shrinkWeights slots slotPtr).2 j))
        = (shrinkWeights slots slotPtr).1
          * (((shrinkWeights slots slotPtr).2 j).minSize
              - current (shrinkWeights slots slotPtr).2 j))
    ∧ (∀ newDiff : Int, diff ≤ newDiff → newDiff ≤ 0 → ∀ j, j < slots →
      wrapInt (newDiff * psum (fun i => ((shrinkWeights slots slotPtr).2 i).temp) (j + 1))
        = newDiff * psum (fun i => ((shrinkWeights slots slotPtr).2 i).temp) (j + 1)) := by
  obtain ⟨hfd, hfe⟩ := hfit
  rw [sumWeights_eq] at hfd
  simp only [sumWeights_eq] at hfe
  unfold INT_MAX at hfd hfe
  have hsw0 : ∀ i, 0 ≤ shrinkWeightOf slotPtr i := by
    intro i; unfold shrinkWeightOf; split
    · exact hw i
    · exact le_refl _
  have hswle : ∀ i, shrinkWeightOf slotPtr i ≤ (slotPtr i).weight := by
    intro i; unfold shrinkWeightOf; split
    · exact le_refl _
    · exact hw i
  have hT0 := psum_nonneg _ hsw0 slots
  have hTW : psum (shrinkWeightOf slotPtr) slots ≤ psum (fun i => (slotPtr i).weight) slots :=
    psum_le_psum _ _ slots (fun i _ => hswle i)
  have hW0 := psum_nonneg (fun i => (slotPtr i).weight) hw slots
  have htemp : ∀ j, j < slots →
      ((shrinkWeights slots slotPtr).2 j).temp = shrinkWeightOf slotPtr j := by
    intro j hj; rw [shrinkWeights_eq]; simp [hj]
  have hmins : ∀ j, ((shrinkWeights slots slotPtr).2 j).minSize = (slotPtr j).minSize := by
    intro j; rw [shrinkWeights_eq]; by_cases hj : j < slots <;> simp [hj]
  have hcur : ∀ j, current (shrinkWeights slots slotPtr).2 j = current slotPtr j := by
    intro j
    apply current_congr
    intro i; rw [shrinkWeights_eq]; by_cases hi : i < slots <;> simp [hi]
  have hT : (shrinkWeights slots slotPtr).1 = psum (shrinkWeightOf slotPtr) slots := by
    rw [shrinkWeights_eq]
  generalize hW : psum (fun i => (slotPtr i).weight) slots = W at hfd hfe hTW hW0
  constructor
  · intro j hj ht
    rw [htemp j hj] at ht
    have hgt : current slotPtr j > (slotPtr j).minSize := by
      by_contra hc
      apply ht; unfold shrinkWeightOf; simp [hc]
    rw [hT, hmins, hcur, mul_comm]
    have h1 := hfe j hj
    have e : ((slotPtr j).minSize - current slotPtr j) * W
        = -(W * (current slotPtr j - (slotPtr j).minSize)) := by ring
    have h2 : 0 ≤ W * (current slotPtr j - (slotPtr j).minSize) :=
      Int.mul_nonneg hW0 (by omega)
    exact wrapInt_mul _ _ W hT0 hTW (by rw [e]; omega) (by rw [e]; omega)
  · intro nd h1 h2 j hj
    have hps : psum (fun i => ((shrinkWeights slots slotPtr).2 i).temp) (j + 1)
        = psum (shrinkWeightOf slotPtr) (j + 1) :=
      psum_congr _ _ _ (fun i hi => htemp i (by omega))
    rw [hps]
    have h3 : diff * W ≤ nd * W := Int.mul_le_mul_of_nonneg_right h1 hW0
    have e : diff * W = -(W * (-diff)) := by ring
    have h4 : nd * W ≤ 0 := Int.mul_nonpos_of_nonpos_of_nonneg h2 hW0
    exact wrapInt_mul _ _ W (psum_nonneg _ hsw0 (j + 1))
      (le_trans (psum_mono _ hsw0 (by omega)) hTW) (by omega) (by omega)

/-- One pass of the shrink loop whose products fit in an `int`: the amount distributed
lies between `diff` and `-1`, and no slot is taken below its `minSize`. -/
theorem shrinkPass_inv (slots : Nat) (diff : Int) (slotPtr : Nat → SlotInfo)
    (hw : ∀ j, 0 ≤ (slotPtr j).weight)
    (hmin : ∀ j, j < slots → (slotPtr j).minSize ≤ current slotPtr j)
    (hdiff : diff < 0) (hT : (shrinkWeights slots slotPtr).1 ≠ 0)
    (hfit : ShrinkFits slots diff slotPtr) :
    diff ≤ shrinkNewDiff diff (shrinkWeights slots slotPtr).1 slots (shrinkWeights slots slotPtr).2
    ∧ shrinkNewDiff diff (shrinkWeights slots slotPtr).1 slots (shrinkWeights slots slotPtr).2 ≤ -1
    ∧ ∀ j, j < slots → (slotPtr j).minSize ≤
        current (shrinkDistribute
          (shrinkNewDiff diff (shrinkWeights slots slotPtr).1 slots (shrinkWeights slots slotPtr).2)
          (shrinkWeights slots slotPtr).1 slots (shrinkWeights slots slotPtr).2).2 j := by
  have hsw0 : ∀ i, 0 ≤ shrinkWeightOf slotPtr i := by
    intro i; unfold shrinkWeightOf; split
    · exact hw i
    · exact le_refl _
  have htw : 0 < psum (shrinkWeightOf slotPtr) slots := by
    have h1 := psum_nonneg _ hsw0 slots
    have h2 : psum (shrinkWeightOf slotPtr) slots ≠ 0 := by
      rw [shrinkWeights_eq] at hT; exact hT
    omega
  obtain ⟨hf1, hf2⟩ := shrinkPass_fits slots diff slotPtr hw hfit
  rw [shrinkWeights_eq] at hf1 hf2 ⊢
  simp only at hf1 hf2 ⊢
  generalize hsp2 : (fun j => if j < slots then
      { slotPtr j with temp := shrinkWeightOf slotPtr j } else slotPtr j) = sp2 at hf1 hf2 ⊢
  have htemp : ∀ j, j < slots → (sp2 j).temp = shrinkWeightOf slotPtr j := by
    intro j hj; rw [← hsp2]; simp [hj]
  have hmins : ∀ j, (sp2 j).minSize = (slotPtr j).minSize := by
    intro j; rw [← hsp2]; by_cases hj : j < slots <;> simp [hj]
  have hcur : ∀ j, current sp2 j = current slotPtr j := by
    intro j
    apply current_congr
    intro i; rw [← hsp2]; by_cases hi : i < slots <;> simp [hi]
  generalize htwd : psum (shrinkWeightOf slotPtr) slots = tw at htw hf1
  have hf1 : ∀ j, j < slots → (sp2 j).temp ≠ 0 →
      wrapInt (tw * ((sp2 j).minSize - current sp2 j))
        = tw * ((sp2 j).minSize - current sp2 j) := by
    subst hsp2; exact hf1
  have hf2 : ∀ newDiff : Int, diff ≤ newDiff → newDiff ≤ 0 → ∀ j, j < slots →
      wrapInt (newDiff * psum (fun i => (sp2 i).temp) (j + 1))
        = newDiff * psum (fun i => (sp2 i).temp) (j + 1) := by
    subst hsp2; exact hf2
  -- bounds on maxDiff of every shrinkable slot
  have hmax : ∀ j, j < slots → (sp2 j).temp ≠ 0 →
      0 < (slotPtr j).weight ∧ (sp2 j).temp = (slotPtr j).weight
      ∧ (slotPtr j).minSize < current slotPtr j
      ∧ (slotPtr j).weight ≤ tw
      ∧ Int.tdiv (tw * ((sp2 j).minSize - current sp2 j)) (sp2 j).temp
          = -(tw * (current slotPtr j - (slotPtr j).minSize) / (slotPtr j).weight) := by
    intro j hj ht
    rw [htemp j hj] at ht
    have hle : shrinkWeightOf slotPtr j ≤ tw := by
      rw [← htwd]; exact psum_term_le _ hsw0 hj
    have hgt : current slotPtr j > (slotPtr j).minSize := by
      by_contra hc
      apply ht; unfold shrinkWeightOf; simp [hc]
    have hsw : shrinkWeightOf slotPtr j = (slotPtr j).weight := by
      unfold shrinkWeightOf; simp [hgt]
    rw [hsw] at ht hle
    have hpos : 0 < (slotPtr j).weight := by have := hw j; omega
    refine ⟨hpos, by rw [htemp j hj, hsw], hgt, hle, ?_⟩
    rw [htemp j hj, hsw, hmins, hcur]
    have e : tw * ((slotPtr j).minSize - current slotPtr j)
        = -(tw * (current slotPtr j - (slotPtr j).minSize)) := by ring
    rw [e, Int.neg_tdiv, Int.tdiv_eq_ediv (Int.mul_nonneg (le_of_lt htw) (by omega))
      (le_of_lt hpos)]
  have hnd1 := shrinkNewDiff_ge_diff diff tw sp2 slots
  have hnd2 : shrinkNewDiff diff tw slots sp2 ≤ -1 := by
    refine shrinkNewDiff_le diff tw sp2 slots (-1) (by omega) ?_ hf1
    intro j hj ht
    obtain ⟨hpos, _, hgt, hle, e⟩ := hmax j hj ht
    rw [e]
    have : 1 ≤ tw * (current slotPtr j - (slotPtr j).minSize) / (slotPtr j).weight := by
      apply Int.le_ediv_of_mul_le hpos
      have : 1 ≤ current slotPtr j - (slotPtr j).minSize := by omega
      nlinarith
    omega
  refine ⟨hnd1, hnd2, ?_⟩
  intro j hj
  rw [current_shrinkDistribute _ tw sp2 _ _ hj (hf2 _ hnd1 (by omega)), hcur]
  generalize hnd : shrinkNewDiff diff tw slots sp2 = nd at hnd1 hnd2
  have hps : psum (fun i => (sp2 i).temp) j = psum (shrinkWeightOf slotPtr) j :=
    psum_congr _ _ _ (fun i hi => htemp i (by omega))
  have hp0 := psum_nonneg _ hsw0 j
  simp only [psum]
  rw [hps]
  by_cases ht : (sp2 j).temp = 0
  · rw [ht, add_zero]
    have := hmin j hj
    omega
  · obtain ⟨hpos, htj, hgt, hle, e⟩ := hmax j hj ht
    have hge := shrinkNewDiff_ge_maxDiff diff tw sp2 slots j hj ht hf1
    rw [hnd, e] at hge
    rw [htj]
    rw [tdiv_neg_mul nd _ tw (by omega) (by omega) htw, tdiv_neg_mul nd _ tw (by omega) hp0 htw]
    generalize psum (shrinkWeightOf slotPtr) j = P at hp0
    generalize hk : current slotPtr j - (slotPtr j).minSize = k at hge
    generalize (slotPtr j).weight = w at hpos hle hge
    -- (-nd) * w ≤ tw * k
    have h1 : (-nd) * w ≤ tw * k := by
      have h2 : -nd ≤ tw * k / w := by omega
      have h3 := Int.ediv_mul_le (tw * k) (ne_of_gt hpos)
      have h4 : (-nd) * w ≤ tw * k / w * w := Int.mul_le_mul_of_nonneg_right h2 (le_of_lt hpos)
      omega
    have h5 : (-nd) * (P + w) / tw ≤ (-nd) * P / tw + k := by
      have h6 : (-nd) * (P + w) ≤ (-nd) * P + tw * k := by
        have : (-nd) * (P + w) = (-nd) * P + (-nd) * w := by ring
        omega
      have h7 := Int.ediv_le_ediv htw h6
      rw [Int.add_mul_ediv_left _ _ (ne_of_gt htw)] at h7
      exact h7
    omega

/-- A pass of the shrink loop that distributes an amount that is not positive, with
products that are computed exactly, makes no slot wider. -/
theorem shrinkPass_le (slots : Nat) (newDiff : Int) (slotPtr : Nat → SlotInfo)
    (hw : ∀ j, 0 ≤ (slotPtr j).weight) (hnd : newDiff ≤ 0)
    (hT : (shrinkWeights slots slotPtr).1 ≠ 0)
    (hfit : ∀ j, j < slots →
      wrapInt (newDiff * psum (fun i => ((shrinkWeights slots slotPtr).2 i).temp) (j + 1))
        = newDiff * psum (fun i => ((shrinkWeights slots slotPtr).2 i).temp) (j + 1))
    (j : Nat) (hj : j < slots) :
    current (shrinkDistribute newDiff (shrinkWeights slots slotPtr).1 slots
        (shrinkWeights slots slotPtr).2).2 j ≤ current slotPtr j := by
  have hsw0 : ∀ i, 0 ≤ shrinkWeightOf slotPtr i := by
    intro i; unfold shrinkWeightOf; split
    · exact hw i
    · exact le_refl _
  have htw : 0 < (shrinkWeights slots slotPtr).1 := by
    have h1 := psum_nonneg _ hsw0 slots
    have h2 := hT
    rw [shrinkWeights_eq] at h2 ⊢
    simp only at h2 ⊢
    omega
  have hcur : current (shrinkWeights slots slotPtr).2 j = current slotPtr j := by
    apply current_congr
    intro i; rw [shrinkWeights_eq]; by_cases hi : i < slots <;> simp [hi]
  have hps : ∀ n, n ≤ slots → psum (fun i => ((shrinkWeights slots slotPtr).2 i).temp) n
      = psum (shrinkWeightOf slotPtr) n := by
    intro n hn
    apply psum_congr
    intro i hi
    rw [shrinkWeights_eq]
    have : i < slots := by omega
    simp [this]
  rw [current_shrinkDistribute _ _ _ _ _ hj hfit, hcur, hps (j + 1) (by omega),
    hps j (by omega)]
  have hp0 := psum_nonneg _ hsw0 j
  have hp1 := psum_nonneg _ hsw0 (j + 1)
  rw [tdiv_neg_mul newDiff _ _ hnd hp1 htw, tdiv_neg_mul newDiff _ _ hnd hp0 htw]
  have h1 : (-newDiff) * psum (shrinkWeightOf slotPtr) j
      ≤ (-newDiff) * psum (shrinkWeightOf slotPtr) (j + 1) := by
    apply Int.mul_le_mul_of_nonneg_left _ (by omega)
    simp only [psum]
    have := hsw0 j
    omega
  have h2 := Int.ediv_le_ediv htw h1
  omega

/-- The fields of the slots after a pass of the shrink loop: only `offset` and `temp`
change. -/
theorem shrinkPass_fields (slots : Nat) (newDiff : Int) (slotPtr : Nat → SlotInfo)
    (hfit : ∀ j, j < slots →
      wrapInt (newDiff * psum (fun i => ((shrinkWeights slots slotPtr).2 i).temp) (j + 1))
        = newDiff * psum (fun i => ((shrinkWeights slots slotPtr).2 i).temp) (j + 1))
    (j : Nat) :
    ((shrinkDistribute newDiff (shrinkWeights slots slotPtr).1 slots
        (shrinkWeights slots slotPtr).2).2 j).minSize = (slotPtr j).minSize
    ∧ ((shrinkDistribute newDiff (shrinkWeights slots slotPtr).1 slots
        (shrinkWeights slots slotPtr).2).2 j).weight = (slotPtr j).weight := by
  rw [shrinkDistribute_eq _ _ _ _ hfit, shrinkWeights_eq]
  by_cases hj : j < slots <;> simp [hj]

/-- `ShrinkFits` is kept by a pass of the shrink loop that distributes an amount between
`diff` and 0. -/
theorem shrinkFits_step (slots : Nat) (diff newDiff : Int) (slotPtr : Nat → SlotInfo)
    (hw : ∀ j, 0 ≤ (slotPtr j).weight) (hfit : ShrinkFits slots diff slotPtr)
    (hT : (shrinkWeights slots slotPtr).1 ≠ 0) (h1 : diff ≤ newDiff) (h2 : newDiff ≤ 0) :
    ShrinkFits slots (diff - newDiff)
      (shrinkDistribute newDiff (shrinkWeights slots slotPtr).1 slots
        (shrinkWeights slots slotPtr).2).2 := by
  have hf2 := (shrinkPass_fits slots diff slotPtr hw hfit).2 newDiff h1 h2
  have hfields := shrinkPass_fields slots newDiff slotPtr hf2
  have hle := shrinkPass_le slots newDiff slotPtr hw h2 hT hf2
  obtain ⟨hfd, hfe⟩ := hfit
  have hW : sumWeights slots (shrinkDistribute newDiff (shrinkWeights slots slotPtr).1 slots
      (shrinkWeights slots slotPtr).2).2 = sumWeights slots slotPtr := by
    rw [sumWeights_eq, sumWeights_eq]
    exact psum_congr _ _ _ (fun i _ => (hfields i).2)
  have hW0 : 0 ≤ sumWeights slots slotPtr := by
    rw [sumWeights_eq]; exact psum_nonneg _ hw slots
  unfold ShrinkFits
  rw [hW]
  constructor
  · have : sumWeights slots slotPtr * (-(diff - newDiff))
        ≤ sumWeights slots slotPtr * (-diff) :=
      Int.mul_le_mul_of_nonneg_left (by omega) hW0
    omega
  · intro j hj
    rw [(hfields j).1]
    have := hfe j hj
    have : sumWeights slots slotPtr
          * (current (shrinkDistribute newDiff (shrinkWeights slots slotPtr).1 slots
              (shrinkWeights slots slotPtr).2).2 j - (slotPtr j).minSize)
        ≤ sumWeights slots slotPtr * (current slotPtr j - (slotPtr j).minSize) :=
      Int.mul_le_mul_of_nonneg_left (by have := hle j hj; omega) hW0
    omega

/-- `ShrinkFits` depends only on the weights, the minimum sizes and the offsets. -/
theorem shrinkFits_congr (slots : Nat) (diff : Int) (a b : Nat → SlotInfo)
    (h : ∀ j, (b j).weight = (a j).weight ∧ (b j).minSize = (a j).minSize
      ∧ (b j).offset = (a j).offset)
    (hf : ShrinkFits slots diff a) : ShrinkFits slots diff b := by
  have hW : sumWeights slots b = sumWeights slots a := by
    rw [sumWeights_eq, sumWeights_eq]
    exact psum_congr _ _ _ (fun i _ => (h i).1)
  have hc : ∀ j, current b j = current a j := fun j => current_congr _ _ (fun i => (h i).2.2) j
  unfold ShrinkFits at hf ⊢
  rw [hW]
  refine ⟨hf.1, fun j hj => ?_⟩
  rw [hc, (h j).2.1]
  exact hf.2 j hj

/-- The shrink loop whose products fit in an `int`, given enough fuel, ends and never
takes a slot below its `minSize`. -/
theorem shrinkLoop_inv (slots : Nat) :
    ∀ (fuel : Nat) (diff : Int) (slotPtr : Nat → SlotInfo),
      (∀ j, 0 ≤ (slotPtr j).weight) →
      (∀ j, j < slots → (slotPtr j).minSize ≤ current slotPtr j) →
      (-diff).toNat ≤ fuel → ShrinkFits slots diff slotPtr →
      ∃ slotPtr1, shrinkLoop slots fuel diff slotPtr = Except.ok slotPtr1
        ∧ (∀ j, (slotPtr1 j).minSize = (slotPtr j).minSize
            ∧ (slotPtr1 j).weight = (slotPtr j).weight)
        ∧ (∀ j, j < slots → (slotPtr j).minSize ≤ current slotPtr1 j) := by
  intro fuel
  induction fuel with
  | zero =>
    intro diff slotPtr _ hmin hfuel _
    have hd : ¬ diff < 0 := by omega
    refine ⟨slotPtr, ?_, fun j => ⟨rfl, rfl⟩, hmin⟩
    unfold shrinkLoop
    simp [hd]
  | succ fuel ih =>
    intro diff slotPtr hw hmin hfuel hfit
    by_cases hd : diff < 0
    · unfold shrinkLoop
      simp only [hd, if_true]
      by_cases hT : (shrinkWeights slots slotPtr).1 = 0
      · simp only [hT, if_true]
        refine ⟨_, rfl, ?_, ?_⟩
        · intro j; rw [shrinkWeights_eq]; by_cases hj : j < slots <;> simp [hj]
        · intro j hj
          have : current (shrinkWeights slots slotPtr).2 j = current slotPtr j := by
            apply current_congr
            intro i; rw [shrinkWeights_eq]; by_cases hi : i < slots <;> simp [hi]
          rw [this]; exact hmin j hj
      · simp only [hT, if_false]
        obtain ⟨h1, h2, h3⟩ := shrinkPass_inv slots diff slotPtr hw hmin hd hT hfit
        have hfit1 := shrinkFits_step slots diff _ slotPtr hw hfit hT h1 (by omega)
        have hfields : ∀ j, ((shrinkDistribute
            (shrinkNewDiff diff (shrinkWeights slots slotPtr).1 slots
              (shrinkWeights slots slotPtr).2)
            (shrinkWeights slots slotPtr).1 slots (shrinkWeights slots slotPtr).2).2 j).minSize
              = (slotPtr j).minSize
            ∧ ((shrinkDistribute
            (shrinkNewDiff diff (shrinkWeights slots slotPtr).1 slots
              (shrinkWeights slots slotPtr).2)
            (shrinkWeights slots slotPtr).1 slots (shrinkWeights slots slotPtr).2).2 j).weight
              = (slotPtr j).weight := by
          intro j
          exact shrinkPass_fields slots _ slotPtr
            ((shrinkPass_fits slots diff slotPtr hw hfit).2 _ h1 (by omega)) j
        obtain ⟨sp1, e1, e2, e3⟩ := ih
          (diff - shrinkNewDiff diff (shrinkWeights slots slotPtr).1 slots
              (shrinkWeights slots slotPtr).2)
          _ (fun j => by rw [(hfields j).2]; exact hw j)
          (fun j hj => by rw [(hfields j).1]; exact h3 j hj)
          (by omega) hfit1
        refine ⟨sp1, e1, ?_, ?_⟩
        · intro j
          rw [(e2 j).1, (e2 j).2]
          exact hfields j
        · intro j hj
          have := e3 j hj
          rw [(hfields j).1] at this
          exact this
    · refine ⟨slotPtr, ?_, fun j => ⟨rfl, rfl⟩, hmin⟩
      unfold shrinkLoop
      simp [hd]

/-! ### The assignments to the layout array -/

theorem setMinSize_apply (lp : Layout) (i : Int) (v : Int) (j : Int) :
    setMinSize lp i v j = if j = i then { lp j with minSize := v } else lp j := rfl

theorem setMinOffset_apply (lp : Layout) (i : Int) (v : Int) (j : Int) :
    setMinOffset lp i v j = if j = i then { lp j with minOffset := v } else lp j := rfl

theorem setMaxOffset_apply (lp : Layout) (i : Int) (v : Int) (j : Int) :
    setMaxOffset lp i v j = if j = i then { lp j with maxOffset := v } else lp j := rfl

theorem pushBin_apply (lp : Layout) (i : Int) (c : Gridder) (j : Int) :
    pushBin lp i c j =
      if j = i then { lp j with binNextPtr := c :: (lp j).binNextPtr } else lp j := rfl

theorem setMinSize_fields (lp : Layout) (i v j : Int) :
    (setMinSize lp i v j).weight = (lp j).weight ∧ (setMinSize lp i v j).pad = (lp j).pad
    ∧ (setMinSize lp i v j).uniform = (lp j).uniform
    ∧ (setMinSize lp i v j).binNextPtr = (lp j).binNextPtr
    ∧ (setMinSize lp i v j).minOffset = (lp j).minOffset
    ∧ (setMinSize lp i v j).maxOffset = (lp j).maxOffset
    ∧ (setMinSize lp i v j).minSize = if j = i then v else (lp j).minSize := by
  rw [setMinSize_apply]; split <;> simp

theorem setMinOffset_fields (lp : Layout) (i v j : Int) :
    (setMinOffset lp i v j).weight = (lp j).weight ∧ (setMinOffset lp i v j).pad = (lp j).pad
    ∧ (setMinOffset lp i v j).uniform = (lp j).uniform
    ∧ (setMinOffset lp i v j).binNextPtr = (lp j).binNextPtr
    ∧ (setMinOffset lp i v j).minSize = (lp j).minSize
    ∧ (setMinOffset lp i v j).maxOffset = (lp j).maxOffset
    ∧ (setMinOffset lp i v j).minOffset = if j = i then v else (lp j).minOffset := by
  rw [setMinOffset_apply]; split <;> simp

theorem setMaxOffset_fields (lp : Layout) (i v j : Int) :
    (setMaxOffset lp i v j).weight = (lp j).weight ∧ (setMaxOffset lp i v j).pad = (lp j).pad
    ∧ (setMaxOffset lp i v j).uniform = (lp j).uniform
    ∧ (setMaxOffset lp i v j).binNextPtr = (lp j).binNextPtr
    ∧ (setMaxOffset lp i v j).minSize = (lp j).minSize
    ∧ (setMaxOffset lp i v j).minOffset = (lp j).minOffset
    ∧ (setMaxOffset lp i v j).maxOffset = if j = i then v else (lp j).maxOffset := by
  rw [setMaxOffset_apply]; split <;> simp

theorem pushBin_fields (lp : Layout) (i : Int) (c : Gridder) (j : Int) :
    (pushBin lp i c j).weight = (lp j).weight ∧ (pushBin lp i c j).pad = (lp j).pad
    ∧ (pushBin lp i c j).uniform = (lp j).uniform
    ∧ (pushBin lp i c j).minSize = (lp j).minSize
    ∧ (pushBin lp i c j).minOffset = (lp j).minOffset
    ∧ (pushBin lp i c j).maxOffset = (lp j).maxOffset
    ∧ (pushBin lp i c j).binNextPtr
        = if j = i then c :: (lp j).binNextPtr else (lp j).binNextPtr := by
  rw [pushBin_apply]; split <;> simp
theorem sized_start (slotType : SlotType) (g : Gridder) :
    (g.sized slotType).start slotType = g.start slotType := by
  cases slotType <;> rfl

theorem sized_span (slotType : SlotType) (g : Gridder) :
    (g.sized slotType).span slotType = g.span slotType := by
  cases slotType <;> rfl

/-- Step 2 on valid content: no fault; only `minSize` and the bins change; no `minSize`
decreases; the bin of a slot receives exactly the content of span above 1 whose right edge
is the slot; a content of span 1 has its size and the pad of its slot within `minSize`. -/
theorem binContent_ok (slotType : SlotType) (gridCount : Nat) :
    ∀ (items : List Gridder) (lp : Layout),
      (∀ g, g ∈ items → ValidContent slotType gridCount g) →
      ∃ lp1, binContent slotType gridCount items lp = Except.ok lp1
        ∧ (∀ j, (lp1 j).weight = (lp j).weight ∧ (lp1 j).pad = (lp j).pad
            ∧ (lp1 j).uniform = (lp j).uniform ∧ (lp1 j).minOffset = (lp j).minOffset
            ∧ (lp1 j).maxOffset = (lp j).maxOffset ∧ (lp j).minSize ≤ (lp1 j).minSize)
        ∧ (∀ j c, c ∈ (lp1 j).binNextPtr ↔
            (c ∈ (lp j).binNextPtr ∨ ∃ g, g ∈ items ∧ 1 < g.span slotType
              ∧ g.rightEdge slotType = j ∧ c = g.sized slotType))
        ∧ (∀ g, g ∈ items → g.span slotType = 1 →
            g.nominal slotType + (lp (g.start slotType)).pad
              ≤ (lp1 (g.start slotType)).minSize) := by
  intro items
  induction items with
  | nil =>
    intro lp _
    refine ⟨lp, rfl, fun j => ⟨rfl, rfl, rfl, rfl, rfl, le_refl _⟩, ?_, ?_⟩
    · intro j c; simp
    · intro g hg; simp at hg
  | cons c rest ih =>
    intro lp hv
    have hc : ValidContent slotType gridCount c := hv c (List.mem_cons_self _ _)
    have hrest : ∀ g, g ∈ rest → ValidContent slotType gridCount g :=
      fun g hg => hv g (List.mem_cons_of_mem _ hg)
    obtain ⟨hs0, hs1, hs2⟩ := hc
    unfold binContent
    simp only
    by_cases hspan : c.span slotType > 1
    · -- binned by its right edge
      have hno : ¬ (c.start slotType + c.span slotType - 1 < -1
          ∨ c.start slotType + c.span slotType - 1 ≥ (gridCount : Int)) := by omega
      simp only [hspan, if_true, hno, if_false]
      obtain ⟨lp1, e, hf, hb, hm⟩ := ih (pushBin lp (c.start slotType + c.span slotType - 1)
        { c with size := c.nominal slotType }) hrest
      refine ⟨lp1, e, ?_, ?_, ?_⟩
      · intro j
        obtain ⟨a1, a2, a3, a4, a5, a6⟩ := hf j
        obtain ⟨b1, b2, b3, b4, b5, b6, _⟩ := pushBin_fields lp
          (c.start slotType + c.span slotType - 1) { c with size := c.nominal slotType } j
        exact ⟨a1.trans b1, a2.trans b2, a3.trans b3, a4.trans b5, a5.trans b6, by omega⟩
      · intro j x
        rw [hb j x]
        have hp := (pushBin_fields lp (c.start slotType + c.span slotType - 1)
          { c with size := c.nominal slotType } j).2.2.2.2.2.2
        rw [hp]
        constructor
        · rintro (h | ⟨g, hg, h1, h2, h3⟩)
          · by_cases hj : j = c.start slotType + c.span slotType - 1
            · simp only [hj, if_true, List.mem_cons] at h
              rcases h with h | h
              · right
                exact ⟨c, List.mem_cons_self _ _, hspan, by rw [hj]; rfl, h⟩
              · left; rw [hj]; exact h
            · simp only [hj, if_false] at h
              left; exact h
          · right; exact ⟨g, List.mem_cons_of_mem _ hg, h1, h2, h3⟩
        · rintro (h | ⟨g, hg, h1, h2, h3⟩)
          · left
            by_cases hj : j = c.start slotType + c.span slotType - 1
            · simp only [hj, if_true, List.mem_cons]; right; rw [← hj]; exact h
            · simp only [hj, if_false]; exact h
          · rcases List.mem_cons.mp hg with hgc | hgr
            · left
              subst hgc
              have hj : j = g.start slotType + g.span slotType - 1 := by rw [← h2]; rfl
              simp only [hj, if_true, List.mem_cons]
              left; exact h3
            · right; exact ⟨g, hgr, h1, h2, h3⟩
      · intro g hg hg1
        rcases List.mem_cons.mp hg with hgc | hgr
        · subst hgc; omega
        · have := hm g hgr hg1
          have hp := (pushBin_fields lp (c.start slotType + c.span slotType - 1)
            { c with size := c.nominal slotType } (g.start slotType)).2.1
          rw [hp] at this
          exact this
    · -- span 1: folded into the minimum size of its slot
      have hspan1 : c.span slotType = 1 := by omega
      have hre : c.start slotType + c.span slotType - 1 ≥ 0 := by omega
      have hno : ¬ (c.start slotType + c.span slotType - 1 ≥ (gridCount : Int)) := by omega
      simp only [hspan, if_false, hre, if_true, hno]
      have hedge : c.start slotType + c.span slotType - 1 = c.start slotType := by omega
      by_cases hgt : c.nominal slotType + (lp (c.start slotType + c.span slotType - 1)).pad
          > (lp (c.start slotType + c.span slotType - 1)).minSize
      · simp only [hgt, if_true]
        obtain ⟨lp1, e, hf, hb, hm⟩ := ih (setMinSize lp (c.start slotType + c.span slotType - 1)
          (c.nominal slotType + (lp (c.start slotType + c.span slotType - 1)).pad)) hrest
        refine ⟨lp1, e, ?_, ?_, ?_⟩
        · intro j
          obtain ⟨a1, a2, a3, a4, a5, a6⟩ := hf j
          obtain ⟨b1, b2, b3, b4, b5, b6, b7⟩ := setMinSize_fields lp
            (c.start slotType + c.span slotType - 1)
            (c.nominal slotType + (lp (c.start slotType + c.span slotType - 1)).pad) j
          refine ⟨a1.trans b1, a2.trans b2, a3.trans b3, a4.trans b5, a5.trans b6, ?_⟩
          rw [b7] at a6
          by_cases hj : j = c.start slotType + c.span slotType - 1
          · subst hj; rw [if_pos rfl] at a6; omega
          · simp only [hj, if_false] at a6; exact a6
        · intro j x
          rw [hb j x]
          have hp := (setMinSize_fields lp (c.start slotType + c.span slotType - 1)
            (c.nominal slotType + (lp (c.start slotType + c.span slotType - 1)).pad) j).2.2.2.1
          rw [hp]
          constructor
          · rintro (h | ⟨g, hg, h1, h2, h3⟩)
            · left; exact h
            · right; exact ⟨g, List.mem_cons_of_mem _ hg, h1, h2, h3⟩
          · rintro (h | ⟨g, hg, h1, h2, h3⟩)
            · left; exact h
            · rcases List.mem_cons.mp hg with hgc | hgr
              · subst hgc; omega
              · right; exact ⟨g, hgr, h1, h2, h3⟩
        · intro g hg hg1
          rcases List.mem_cons.mp hg with hgc | hgr
          · subst hgc
            have a6 := (hf (g.start slotType)).2.2.2.2.2
            have b7 := (setMinSize_fields lp (g.start slotType + g.span slotType - 1)
              (g.nominal slotType + (lp (g.start slotType + g.span slotType - 1)).pad)
              (g.start slotType)).2.2.2.2.2.2
            rw [b7] at a6
            rw [hedge] at a6
            simp only [if_true] at a6
            exact a6
          · have := hm g hgr hg1
            have hp := (setMinSize_fields lp (c.start slotType + c.span slotType - 1)
              (c.nominal slotType + (lp (c.start slotType + c.span slotType - 1)).pad)
              (g.start slotType)).2.1
            rw [hp] at this
            exact this
      · simp only [hgt, if_false]
        obtain ⟨lp1, e, hf, hb, hm⟩ := ih lp hrest
        refine ⟨lp1, e, hf, ?_, ?_⟩
        · intro j x
          rw [hb j x]
          constructor
          · rintro (h | ⟨g, hg, h1, h2, h3⟩)
            · left; exact h
            · right; exact ⟨g, List.mem_cons_of_mem _ hg, h1, h2, h3⟩
          · rintro (h | ⟨g, hg, h1, h2, h3⟩)
            · left; exact h
            · rcases List.mem_cons.mp hg with hgc | hgr
              · subst hgc; omega
              · right; exact ⟨g, hgr, h1, h2, h3⟩
        · intro g hg hg1
          rcases List.mem_cons.mp hg with hgc | hgr
          · subst hgc
            have a6 := (hf (g.start slotType)).2.2.2.2.2
            rw [hedge] at hgt
            omega
          · exact hm g hgr hg1

/-! ### Step 2b: uniform groups -/

theorem findGroup_le (u : Nat) (gs : List UniformGroup) : findGroup u gs ≤ gs.length := by
  induction gs with
  | nil => simp [findGroup]
  | cons g rest ih =>
    simp only [findGroup, List.length_cons]
    split <;> omega

theorem findGroup_setGroupMin (u : Nat) (gs : List UniformGroup) (i : Nat) (v : Int) :
    findGroup u (setGroupMin gs i v) = findGroup u gs := by
  induction gs generalizing i with
  | nil => cases i <;> rfl
  | cons g rest ih =>
    cases i with
    | zero => simp [setGroupMin, findGroup]
    | succ i => simp [setGroupMin, findGroup, ih]

theorem length_setGroupMin (gs : List UniformGroup) (i : Nat) (v : Int) :
    (setGroupMin gs i v).length = gs.length := by
  induction gs generalizing i with
  | nil => cases i <;> rfl
  | cons g rest ih =>
    cases i with
    | zero => simp [setGroupMin]
    | succ i => simp [setGroupMin, ih]

theorem groupMin_setGroupMin (gs : List UniformGroup) (i k : Nat) (v : Int) (hi : i < gs.length) :
    groupMin (setGroupMin gs i v) k = if k = i then v else groupMin gs k := by
  induction gs generalizing i k with
  | nil => simp at hi
  | cons g rest ih =>
    cases i with
    | zero =>
      cases k with
      | zero => simp [setGroupMin, groupMin]
      | succ k => simp [setGroupMin, groupMin]
    | succ i =>
      cases k with
      | zero => simp [setGroupMin, groupMin]
      | succ k =>
        simp only [setGroupMin, groupMin]
        rw [ih i k (by simpa using hi)]
        simp

theorem findGroup_append_found (u : Nat) (gs : List UniformGroup) (x : UniformGroup)
    (h : findGroup u gs < gs.length) : findGroup u (gs ++ [x]) = findGroup u gs := by
  induction gs with
  | nil => simp at h
  | cons g rest ih =>
    rw [List.cons_append]
    simp only [findGroup, List.length_cons] at h ⊢
    by_cases hg : g.group = u
    · simp [hg]
    · simp only [hg, if_false] at h ⊢
      rw [ih (by omega)]

theorem findGroup_append_missing (u : Nat) (gs : List UniformGroup) (x : UniformGroup)
    (h : ¬ findGroup u gs < gs.length) :
    findGroup u (gs ++ [x]) = if x.group = u then gs.length else gs.length + 1 := by
  induction gs with
  | nil => simp [findGroup]
  | cons g rest ih =>
    rw [List.cons_append]
    simp only [findGroup, List.length_cons] at h ⊢
    by_cases hg : g.group = u
    · simp [hg] at h
    · simp only [hg, if_false] at h ⊢
      rw [ih (by omega)]
      split <;> rfl

theorem groupMin_append (gs : List UniformGroup) (x : UniformGroup) (k : Nat) :
    groupMin (gs ++ [x]) k =
      if k < gs.length then groupMin gs k else if k = gs.length then x.minSize else 0 := by
  induction gs generalizing k with
  | nil => cases k <;> simp [groupMin]
  | cons g rest ih =>
    rw [List.cons_append]
    cases k with
    | zero => simp [groupMin]
    | succ k => simp [groupMin, ih]

/-- Two groups found at the same entry are the same group. -/
theorem findGroup_inj (u v : Nat) (gs : List UniformGroup) (hv : findGroup v gs < gs.length)
    (h : findGroup v gs = findGroup u gs) : v = u := by
  induction gs with
  | nil => simp at hv
  | cons g rest ih =>
    simp only [findGroup, List.length_cons] at hv h
    by_cases hgv : g.group = v
    · by_cases hgu : g.group = u
      · exact hgv.symm.trans hgu
      · rw [if_pos hgv, if_neg hgu] at h; omega
    · by_cases hgu : g.group = u
      · rw [if_neg hgv, if_pos hgu] at h; omega
      · rw [if_neg hgv] at hv
        rw [if_neg hgv, if_neg hgu] at h
        exact ih (by omega) (by omega)

theorem gatherStep_found (u : Nat) (c : Int) (gs : List UniformGroup)
    (h : findGroup u gs < gs.length) :
    gatherStep u c gs =
      if c > groupMin gs (findGroup u gs) then setGroupMin gs (findGroup u gs) c else gs := by
  unfold gatherStep
  have h1 : ¬ findGroup u gs ≥ gs.length := by omega
  simp only [h1, if_false]

theorem gatherStep_missing (u : Nat) (c : Int) (gs : List UniformGroup)
    (h : ¬ findGroup u gs < gs.length) :
    gatherStep u c gs =
      if c > 0 then setGroupMin (gs ++ [{ group := u, minSize := 0 }]) gs.length c
      else gs ++ [{ group := u, minSize := 0 }] := by
  unfold gatherStep
  have h1 : findGroup u gs ≥ gs.length := by omega
  have h2 : findGroup u gs = gs.length := by have := findGroup_le u gs; omega
  simp only [h2, ge_iff_le, le_refl, if_true]
  rw [groupMin_append]
  simp

/-- One round of gathering: the group `u` then has an entry, holding the larger of its old
minimum (0 for a new group) and the demand; the other groups are as before. -/
theorem gatherStep_spec (u : Nat) (c : Int) (gs : List UniformGroup) :
    groupHas (gatherStep u c gs) u
    ∧ groupVal (gatherStep u c gs) u
        = max (if findGroup u gs < gs.length then groupVal gs u else 0) c
    ∧ ∀ v, v ≠ u → ((groupHas (gatherStep u c gs) v ↔ groupHas gs v)
        ∧ (groupHas gs v → groupVal (gatherStep u c gs) v = groupVal gs v)) := by
  unfold groupHas groupVal
  by_cases hfound : findGroup u gs < gs.length
  · rw [gatherStep_found u c gs hfound, if_pos hfound]
    by_cases hc : c > groupMin gs (findGroup u gs)
    · rw [if_pos hc]
      refine ⟨?_, ?_, ?_⟩
      · rw [findGroup_setGroupMin, length_setGroupMin]; exact hfound
      · rw [findGroup_setGroupMin, groupMin_setGroupMin _ _ _ _ hfound, if_pos rfl]
        omega
      · intro v hv
        rw [findGroup_setGroupMin, length_setGroupMin]
        refine ⟨Iff.rfl, fun hv2 => ?_⟩
        rw [groupMin_setGroupMin _ _ _ _ hfound]
        have : findGroup v gs ≠ findGroup u gs := fun heq => hv (findGroup_inj u v gs hv2 heq)
        rw [if_neg this]
    · rw [if_neg hc]
      exact ⟨hfound, by omega, fun v _ => ⟨Iff.rfl, fun _ => rfl⟩⟩
  · rw [gatherStep_missing u c gs hfound, if_neg hfound]
    have hlen : (gs ++ [({ group := u, minSize := 0 } : UniformGroup)]).length = gs.length + 1 := by
      simp
    have hf : findGroup u (gs ++ [{ group := u, minSize := 0 }]) = gs.length := by
      rw [findGroup_append_missing _ _ _ hfound]; simp
    have hother : ∀ v, v ≠ u →
        (findGroup v (gs ++ [{ group := u, minSize := 0 }]) < gs.length + 1
          ↔ findGroup v gs < gs.length)
        ∧ (findGroup v gs < gs.length →
            findGroup v (gs ++ [{ group := u, minSize := 0 }]) = findGroup v gs) := by
      intro v hv
      by_cases hvf : findGroup v gs < gs.length
      · rw [findGroup_append_found _ _ _ hvf]
        exact ⟨⟨fun _ => hvf, fun _ => by omega⟩, fun _ => rfl⟩
      · rw [findGroup_append_missing _ _ _ hvf]
        have : ¬ u = v := fun h => hv h.symm
        simp only [this, if_false]
        exact ⟨⟨fun h => by omega, fun h => absurd h hvf⟩, fun h => absurd h hvf⟩
    have hgm : ∀ k, k < gs.length →
        groupMin (gs ++ [({ group := u, minSize := 0 } : UniformGroup)]) k = groupMin gs k := by
      intro k hk; rw [groupMin_append, if_pos hk]
    have hgl : groupMin (gs ++ [({ group := u, minSize := 0 } : UniformGroup)]) gs.length = 0 := by
      rw [groupMin_append]; simp
    by_cases hc : c > 0
    · rw [if_pos hc]
      refine ⟨?_, ?_, ?_⟩
      · rw [findGroup_setGroupMin, length_setGroupMin, hlen, hf]; omega
      · rw [findGroup_setGroupMin, hf, groupMin_setGroupMin _ _ _ _ (by rw [hlen]; omega),
          if_pos rfl]
        omega
      · intro v hv
        rw [findGroup_setGroupMin, length_setGroupMin, hlen]
        refine ⟨(hother v hv).1, fun hv2 => ?_⟩
        rw [groupMin_setGroupMin _ _ _ _ (by rw [hlen]; omega), (hother v hv).2 hv2]
        have : findGroup v gs ≠ gs.length := by omega
        rw [if_neg this, hgm _ hv2]
    · rw [if_neg hc]
      refine ⟨?_, ?_, ?_⟩
      · rw [hlen, hf]; omega
      · rw [hf, hgl]; omega
      · intro v hv
        rw [hlen]
        refine ⟨(hother v hv).1, fun hv2 => ?_⟩
        rw [(hother v hv).2 hv2, hgm _ hv2]
theorem gatherUniform_succ (lp : Layout) (n : Nat) :
    gatherUniform lp (n + 1) =
      match (lp n).uniform with
      | none => gatherUniform lp n
      | some u => gatherStep u (uniformDemand lp n) (gatherUniform lp n) := by
  simp only [gatherUniform, forUp]
  cases (lp n).uniform <;> rfl

/-- The groups gathered from the slots `0 .. n-1`: a group has an entry exactly when one of
these slots carries its tag, and the entry holds the largest demand of these slots. -/
theorem gatherUniform_spec (lp : Layout) (n : Nat) (u : Nat) :
    (groupHas (gatherUniform lp n) u ↔ ∃ k : Nat, k < n ∧ (lp k).uniform = some u)
    ∧ (groupHas (gatherUniform lp n) u →
        groupVal (gatherUniform lp n) u = groupDemand lp u n) := by
  induction n with
  | zero =>
    constructor
    · constructor
      · intro h; simp [groupHas, gatherUniform, forUp, findGroup] at h
      · rintro ⟨k, hk, _⟩; omega
    · intro h; simp [groupHas, gatherUniform, forUp, findGroup] at h
  | succ n ih =>
    obtain ⟨ih1, ih2⟩ := ih
    rw [gatherUniform_succ]
    simp only [groupDemand]
    cases htag : (lp n).uniform with
    | none =>
      simp only
      have hne : ¬ (none : Option Nat) = some u := by simp
      rw [if_neg hne]
      refine ⟨?_, ih2⟩
      rw [ih1]
      constructor
      · rintro ⟨k, hk, h⟩; exact ⟨k, by omega, h⟩
      · rintro ⟨k, hk, h⟩
        have : k ≠ n := by intro e; subst e; rw [htag] at h; simp at h
        exact ⟨k, by omega, h⟩
    | some v =>
      simp only
      obtain ⟨s1, s2, s3⟩ := gatherStep_spec v (uniformDemand lp n) (gatherUniform lp n)
      by_cases hvu : v = u
      · subst hvu
        rw [if_pos rfl]
        refine ⟨⟨fun _ => ⟨n, by omega, htag⟩, fun _ => s1⟩, fun _ => ?_⟩
        rw [s2]
        by_cases hh : findGroup v (gatherUniform lp n) < (gatherUniform lp n).length
        · rw [if_pos hh, ih2 hh]
        · rw [if_neg hh]
          -- no slot below `n` carries the tag: the demand so far is 0
          have hnone : ∀ k : Nat, k < n → (lp k).uniform ≠ some v := by
            intro k hk h
            exact hh (ih1.mpr ⟨k, hk, h⟩)
          have hz : ∀ m : Nat, m ≤ n → groupDemand lp v m = 0 := by
            intro m
            induction m with
            | zero => intro _; rfl
            | succ m ihm =>
              intro hm
              simp only [groupDemand]
              rw [if_neg (hnone m (by omega)), ihm (by omega)]
          rw [hz n (le_refl _)]
      · have hne : ¬ some v = some u := by simpa using hvu
        rw [if_neg hne]
        have hs := s3 u (fun h => hvu h.symm)
        constructor
        · rw [hs.1, ih1]
          constructor
          · rintro ⟨k, hk, h⟩; exact ⟨k, by omega, h⟩
          · rintro ⟨k, hk, h⟩
            have : k ≠ n := by intro e; subst e; rw [htag] at h; exact hne h
            exact ⟨k, by omega, h⟩
        · intro h
          have h' := hs.1.mp h
          rw [hs.2 h', ih2 h']

theorem uniformSized_nil (lp : Layout) (j : Int) : uniformSized [] lp j = lp j := by
  unfold uniformSized
  cases (lp j).uniform <;> simp [findGroup]

/-- The relayout loop of step 2b in closed form. -/
theorem applyUniform_eq (groups : List UniformGroup) (n : Nat) (lp : Layout) :
    applyUniform groups n lp =
      fun j : Int => if 0 ≤ j ∧ j < (n : Int) then uniformSized groups lp j else lp j := by
  unfold applyUniform
  by_cases hlen : groups.length > 0
  · rw [if_pos hlen]
    induction n with
    | zero =>
      funext j
      have : ¬ (0 ≤ j ∧ j < ((0 : Nat) : Int)) := by omega
      simp only [forUp, this, if_false]
    | succ n ih =>
      simp only [forUp]
      rw [ih]
      funext j
      have hnn : ¬ (0 ≤ (n : Int) ∧ (n : Int) < (n : Int)) := by omega
      simp only [hnn, if_false]
      by_cases hj : j = (n : Int)
      · subst hj
        have h1 : 0 ≤ (n : Int) ∧ (n : Int) < ((n + 1 : Nat) : Int) := by omega
        rw [if_pos h1]
        unfold uniformSized
        cases htag : (lp n).uniform with
        | none => simp only [hnn, if_false]
        | some u =>
          simp only
          by_cases hf : findGroup u groups < groups.length
          · rw [if_pos hf, if_pos hf, setMinSize_apply, if_pos rfl]
            simp only [hnn, if_false]
          · rw [if_neg hf, if_neg hf]
            simp only [hnn, if_false]
      · have e : (match (lp n).uniform with
            | none => fun j : Int => if 0 ≤ j ∧ j < (n : Int) then uniformSized groups lp j else lp j
            | some u =>
              if findGroup u groups < groups.length then
                setMinSize
                  (fun j : Int => if 0 ≤ j ∧ j < (n : Int) then uniformSized groups lp j else lp j) n
                  (groupMin groups (findGroup u groups)
                    * (if (lp n).weight > 0 then (lp n).weight else 1))
              else fun j : Int => if 0 ≤ j ∧ j < (n : Int) then uniformSized groups lp j else lp j) j
            = if 0 ≤ j ∧ j < (n : Int) then uniformSized groups lp j else lp j := by
          cases (lp n).uniform with
          | none => rfl
          | some u =>
            simp only
            split
            · rw [setMinSize_apply, if_neg hj]
            · rfl
        rw [e]
        by_cases h2 : 0 ≤ j ∧ j < (n : Int)
        · have h3 : 0 ≤ j ∧ j < ((n + 1 : Nat) : Int) := by omega
          rw [if_pos h2, if_pos h3]
        · have h3 : ¬ (0 ≤ j ∧ j < ((n + 1 : Nat) : Int)) := by omega
          rw [if_neg h2, if_neg h3]
  · rw [if_neg hlen]
    have hnil : groups = [] := by
      cases groups with
      | nil => rfl
      | cons g rest => simp at hlen
    subst hnil
    funext j
    rw [uniformSized_nil]
    simp
theorem uniformDemand_mul_ge (lp : Layout) (k : Nat) (hm : 0 ≤ (lp k).minSize) :
    (lp k).minSize ≤ uniformDemand lp k * uniformWeight lp k
    ∧ 0 ≤ uniformDemand lp k := by
  have hw : 0 < uniformWeight lp k := by unfold uniformWeight; split <;> omega
  unfold uniformDemand
  rw [Int.tdiv_eq_ediv (by omega) (le_of_lt hw)]
  have h2 := Int.lt_ediv_add_one_mul_self ((lp k).minSize + uniformWeight lp k - 1) hw
  constructor
  · nlinarith
  · exact Int.ediv_nonneg (by omega) (le_of_lt hw)

theorem groupDemand_nonneg (lp : Layout) (u : Nat) (n : Nat) : 0 ≤ groupDemand lp u n := by
  induction n with
  | zero => exact le_refl _
  | succ n ih =>
    simp only [groupDemand]
    split
    · exact le_trans ih (le_max_left _ _)
    · exact ih

theorem groupDemand_ge (lp : Layout) (u : Nat) (n : Nat) (k : Nat) (hk : k < n)
    (htag : (lp k).uniform = some u) : uniformDemand lp k ≤ groupDemand lp u n := by
  induction n with
  | zero => omega
  | succ n ih =>
    simp only [groupDemand]
    by_cases hkn : k = n
    · subst hkn
      rw [if_pos htag]
      exact le_max_right _ _
    · have := ih (by omega)
      split
      · exact le_trans this (le_max_left _ _)
      · exact this

/-- Step 2b in closed form: a tagged slot below `gridCount` gets the largest demand of its
group times its own weight; nothing else changes. -/
theorem resolveUniform_apply (gridCount : Nat) (lp : Layout) (j : Int) :
    resolveUniform gridCount lp j =
      if 0 ≤ j ∧ j < (gridCount : Int) then
        match (lp j).uniform with
        | none => lp j
        | some u =>
          { lp j with
            minSize := groupDemand lp u gridCount
              * (if (lp j).weight > 0 then (lp j).weight else 1) }
      else lp j := by
  unfold resolveUniform
  rw [applyUniform_eq]
  simp only
  by_cases hj : 0 ≤ j ∧ j < (gridCount : Int)
  · rw [if_pos hj, if_pos hj]
    unfold uniformSized
    cases htag : (lp j).uniform with
    | none => rfl
    | some u =>
      simp only
      have hk : ∃ k : Nat, k < gridCount ∧ (lp k).uniform = some u :=
        ⟨j.toNat, by omega, by rw [Int.toNat_of_nonneg hj.1]; exact htag⟩
      obtain ⟨g1, g2⟩ := gatherUniform_spec lp gridCount u
      have hhas : groupHas (gatherUniform lp gridCount) u := g1.mpr hk
      have hval := g2 hhas
      unfold groupHas at hhas
      unfold groupVal at hval
      rw [if_pos hhas, hval, htag]
  · rw [if_neg hj, if_neg hj]

/-- Step 2b changes only `minSize`, and only of tagged slots below `gridCount`; when the
minimum sizes are not negative no `minSize` decreases. -/
theorem resolveUniform_fields (gridCount : Nat) (lp : Layout) (j : Int) :
    (resolveUniform gridCount lp j).weight = (lp j).weight
    ∧ (resolveUniform gridCount lp j).pad = (lp j).pad
    ∧ (resolveUniform gridCount lp j).uniform = (lp j).uniform
    ∧ (resolveUniform gridCount lp j).binNextPtr = (lp j).binNextPtr
    ∧ (resolveUniform gridCount lp j).minOffset = (lp j).minOffset
    ∧ (resolveUniform gridCount lp j).maxOffset = (lp j).maxOffset
    ∧ ((∀ k : Nat, k < gridCount → 0 ≤ (lp k).minSize) →
        (lp j).minSize ≤ (resolveUniform gridCount lp j).minSize) := by
  rw [resolveUniform_apply]
  by_cases hj : 0 ≤ j ∧ j < (gridCount : Int)
  · rw [if_pos hj]
    cases htag : (lp j).uniform with
    | none => simp [htag]
    | some u =>
      simp only [htag, true_and]
      intro hm
      have hjk : ((j.toNat : Nat) : Int) = j := Int.toNat_of_nonneg hj.1
      have h0 := hm j.toNat (by omega)
      have h1 := (uniformDemand_mul_ge lp j.toNat h0).1
      have h2 := groupDemand_ge lp u gridCount j.toNat (by omega) (by rw [hjk]; exact htag)
      have hw : 0 < uniformWeight lp j.toNat := by unfold uniformWeight; split <;> omega
      have h3 : uniformDemand lp j.toNat * uniformWeight lp j.toNat
          ≤ groupDemand lp u gridCount * uniformWeight lp j.toNat :=
        Int.mul_le_mul_of_nonneg_right h2 (le_of_lt hw)
      unfold uniformWeight at h1 h3
      rw [hjk] at h0 h1 h3
      omega
  · rw [if_neg hj]
    simp

/-- The bin loop of step 3 returns the largest of the initial value and the requirements
of the content in the bin. -/
theorem forwardBin_spec (slotType : SlotType) (lp : Layout) (slot : Int) :
    ∀ (bin : List Gridder) (init : Int),
      (∀ c, c ∈ bin → -1 ≤ slot - c.span slotType) →
      ∃ v, forwardBin slotType lp slot bin init = some v
        ∧ init ≤ v
        ∧ (∀ c, c ∈ bin → c.size + (lp (slot - c.span slotType)).minOffset ≤ v)
        ∧ (v = init ∨ ∃ c, c ∈ bin ∧ v = c.size + (lp (slot - c.span slotType)).minOffset) := by
  intro bin
  induction bin with
  | nil =>
    intro init _
    exact ⟨init, rfl, le_refl _, fun c hc => by simp at hc, Or.inl rfl⟩
  | cons c rest ih =>
    intro init hb
    have hc := hb c (List.mem_cons_self _ _)
    have hrest : ∀ x, x ∈ rest → -1 ≤ slot - x.span slotType :=
      fun x hx => hb x (List.mem_cons_of_mem _ hx)
    unfold forwardBin
    have hno : ¬ slot - c.span slotType < -1 := by omega
    simp only [hno, if_false]
    by_cases hgt : c.size + (lp (slot - c.span slotType)).minOffset > init
    · rw [if_pos hgt]
      obtain ⟨v, e, h1, h2, h3⟩ := ih (c.size + (lp (slot - c.span slotType)).minOffset) hrest
      refine ⟨v, e, by omega, ?_, ?_⟩
      · intro x hx
        rcases List.mem_cons.mp hx with hxc | hxr
        · subst hxc; exact h1
        · exact h2 x hxr
      · right
        rcases h3 with h3 | ⟨x, hx, h3⟩
        · exact ⟨c, List.mem_cons_self _ _, h3⟩
        · exact ⟨x, List.mem_cons_of_mem _ hx, h3⟩
    · rw [if_neg hgt]
      obtain ⟨v, e, h1, h2, h3⟩ := ih init hrest
      refine ⟨v, e, h1, ?_, ?_⟩
      · intro x hx
        rcases List.mem_cons.mp hx with hxc | hxr
        · subst hxc; omega
        · exact h2 x hxr
      · rcases h3 with h3 | ⟨x, hx, h3⟩
        · exact Or.inl h3
        · exact Or.inr ⟨x, List.mem_cons_of_mem _ hx, h3⟩

/-- The forward pass on bins whose content starts at or after slot 0: no fault, and the
result is as `ForwardOk` says; the value of `offset` is the last `minOffset` (0 for an
empty grid, given the dummy slot). -/
theorem forwardPass_ok (slotType : SlotType) (lp : Layout) (n : Nat)
    (hbin : ∀ j : Nat, j < n → ∀ c, c ∈ (lp j).binNextPtr →
      1 < c.span slotType ∧ -1 ≤ (j : Int) - c.span slotType)
    (hdummy : (lp (-1)).minOffset = 0) :
    ∃ r lp1, forwardPass slotType n lp = Except.ok (r, lp1)
      ∧ ForwardOk slotType n lp lp1
      ∧ r = (lp1 ((n : Int) - 1)).minOffset := by
  induction n with
  | zero =>
    refine ⟨0, lp, rfl, ?_, ?_⟩
    · exact ⟨fun j => ⟨rfl, rfl, rfl, rfl, rfl, rfl⟩, fun j _ => rfl,
        fun j hj => by omega, fun j hj => by omega, fun j hj => by omega⟩
    · simp [hdummy]
  | succ n ih =>
    obtain ⟨r, lp1, e, hok, hr⟩ := ih (fun j hj => hbin j (by omega))
    obtain ⟨f, ho, g1, g2, g3⟩ := hok
    have hbn := hbin n (by omega)
    have hbins : (lp1 n).binNextPtr = (lp n).binNextPtr := (f n).2.2.2.2.1
    obtain ⟨v, ev, v1, v2, v3⟩ := forwardBin_spec slotType lp1 n (lp1 n).binNextPtr
      ((lp1 n).minSize + r) (fun c hc => (hbn c (by rw [← hbins]; exact hc)).2)
    refine ⟨v, setMinOffset lp1 n v, ?_, ?_, ?_⟩
    · simp only [forwardPass, e, ev]
    · have hset : ∀ j : Int, j ≠ (n : Int) →
          (setMinOffset lp1 n v j).minOffset = (lp1 j).minOffset := by
        intro j hj
        have := (setMinOffset_fields lp1 n v j).2.2.2.2.2.2
        rw [this, if_neg hj]
      have hsetn : (setMinOffset lp1 n v n).minOffset = v := by
        have := (setMinOffset_fields lp1 n v n).2.2.2.2.2.2
        rw [this, if_pos rfl]
      refine ⟨?_, ?_, ?_, ?_, ?_⟩
      · intro j
        obtain ⟨a1, a2, a3, a4, a5, a6, _⟩ := setMinOffset_fields lp1 n v j
        obtain ⟨b1, b2, b3, b4, b5, b6⟩ := f j
        exact ⟨a5.trans b1, a1.trans b2, a2.trans b3, a3.trans b4, a4.trans b5, a6.trans b6⟩
      · intro j hj
        rw [hset j (by omega)]
        exact ho j (by omega)
      · intro j hj
        by_cases hjn : j = n
        · subst hjn
          rw [hsetn, hset _ (by omega), ← hr, ← (f j).1]
          exact v1
        · rw [hset _ (by omega), hset _ (by omega)]
          exact g1 j (by omega)
      · intro j hj c hc
        have hsp := hbin j hj c hc
        by_cases hjn : j = n
        · subst hjn
          rw [hsetn, hset _ (by omega)]
          exact v2 c (by rw [hbins]; exact hc)
        · rw [hset _ (by omega), hset _ (by omega)]
          exact g2 j (by omega) c hc
      · intro j hj
        by_cases hjn : j = n
        · subst hjn
          rw [hsetn, hset _ (by omega)]
          rcases v3 with v3 | ⟨c, hc, v3⟩
          · left; rw [v3, hr, (f j).1]
          · right
            have hc2 : c ∈ (lp j).binNextPtr := by rw [← hbins]; exact hc
            have hsp := hbin j hj c hc2
            refine ⟨c, hc2, ?_⟩
            rw [hset _ (by omega)]
            exact v3
        · rw [hset _ (by omega), hset _ (by omega)]
          rcases g3 j (by omega) with h | ⟨c, hc, h⟩
          · exact Or.inl h
          · right
            have hsp := hbin j hj c hc
            refine ⟨c, hc, ?_⟩
            rw [hset _ (by omega)]
            exact h
    · have : ((n + 1 : Nat) : Int) - 1 = (n : Int) := by omega
      rw [this]
      have := (setMinOffset_fields lp1 n v n).2.2.2.2.2.2
      rw [this, if_pos rfl]

/-! ### Step 4: the backward pass -/

/-- Pre-filling the right offsets (lines 2202-2204). -/
theorem fillMax_apply (n : Nat) (offset : Int) (lp : Layout) (j : Int) :
    forUp n (fun slot lp => setMaxOffset lp slot offset) lp j =
      if 0 ≤ j ∧ j < (n : Int) then { lp j with maxOffset := offset } else lp j := by
  induction n with
  | zero =>
    have : ¬ (0 ≤ j ∧ j < ((0 : Nat) : Int)) := by omega
    simp only [forUp, this, if_false]
  | succ n ih =>
    simp only [forUp]
    rw [setMaxOffset_apply, ih]
    by_cases hj : j = (n : Int)
    · subst hj
      have h1 : 0 ≤ (n : Int) ∧ (n : Int) < ((n + 1 : Nat) : Int) := by omega
      have h2 : ¬ (0 ≤ (n : Int) ∧ (n : Int) < (n : Int)) := by omega
      rw [if_pos rfl, if_pos h1, if_neg h2]
    · rw [if_neg hj]
      by_cases h2 : 0 ≤ j ∧ j < (n : Int)
      · have h3 : 0 ≤ j ∧ j < ((n + 1 : Nat) : Int) := by omega
        rw [if_pos h2, if_pos h3]
      · have h3 : ¬ (0 ≤ j ∧ j < ((n + 1 : Nat) : Int)) := by omega
        rw [if_neg h2, if_neg h3]

/-- The bin loop of step 4: only `maxOffset` is written, and each new value is the bound
`offset - size` of a content of the bin at the slot before the content. -/
theorem backwardBin_spec (slotType : SlotType) (slot : Int) (offset : Int) :
    ∀ (bin : List Gridder) (lp : Layout),
      ∃ lp1, backwardBin slotType slot offset bin lp = lp1
        ∧ (∀ j, (lp1 j).minSize = (lp j).minSize ∧ (lp1 j).weight = (lp j).weight
            ∧ (lp1 j).pad = (lp j).pad ∧ (lp1 j).uniform = (lp j).uniform
            ∧ (lp1 j).binNextPtr = (lp j).binNextPtr ∧ (lp1 j).minOffset = (lp j).minOffset)
        ∧ (∀ j, (lp1 j).maxOffset = (lp j).maxOffset
            ∨ ∃ c, c ∈ bin ∧ j = slot - c.span slotType ∧ 0 ≤ j
                ∧ (lp1 j).maxOffset = offset - c.size) := by
  intro bin
  induction bin with
  | nil =>
    intro lp
    exact ⟨lp, rfl, fun j => ⟨rfl, rfl, rfl, rfl, rfl, rfl⟩, fun j => Or.inl rfl⟩
  | cons c rest ih =>
    intro lp
    unfold backwardBin
    simp only
    by_cases hc : slot - c.span slotType ≥ 0
        ∧ offset - c.size < (lp (slot - c.span slotType)).maxOffset
    · rw [if_pos hc]
      obtain ⟨lp1, e, hf, hm⟩ := ih (setMaxOffset lp (slot - c.span slotType) (offset - c.size))
      refine ⟨lp1, e, ?_, ?_⟩
      · intro j
        obtain ⟨a1, a2, a3, a4, a5, a6, _⟩ := setMaxOffset_fields lp
          (slot - c.span slotType) (offset - c.size) j
        obtain ⟨b1, b2, b3, b4, b5, b6⟩ := hf j
        exact ⟨b1.trans a5, b2.trans a1, b3.trans a2, b4.trans a3, b5.trans a4, b6.trans a6⟩
      · intro j
        have a7 := (setMaxOffset_fields lp (slot - c.span slotType) (offset - c.size) j).2.2.2.2.2.2
        rcases hm j with h | ⟨x, hx, h1, h2, h3⟩
        · by_cases hj : j = slot - c.span slotType
          · right
            refine ⟨c, List.mem_cons_self _ _, hj, by omega, ?_⟩
            rw [h, a7, if_pos hj]
          · left
            rw [h, a7, if_neg hj]
        · exact Or.inr ⟨x, List.mem_cons_of_mem _ hx, h1, h2, h3⟩
    · rw [if_neg hc]
      obtain ⟨lp1, e, hf, hm⟩ := ih lp
      refine ⟨lp1, e, hf, ?_⟩
      intro j
      rcases hm j with h | ⟨x, hx, h1, h2, h3⟩
      · exact Or.inl h
      · exact Or.inr ⟨x, List.mem_cons_of_mem _ hx, h1, h2, h3⟩

/-- The bin loop of step 4 never raises a `maxOffset`. -/
theorem backwardBin_le (slotType : SlotType) (slot : Int) (offset : Int) :
    ∀ (bin : List Gridder) (lp : Layout) (j : Int),
      (backwardBin slotType slot offset bin lp j).maxOffset ≤ (lp j).maxOffset := by
  intro bin
  induction bin with
  | nil => intro lp j; exact le_refl _
  | cons c rest ih =>
    intro lp j
    unfold backwardBin
    simp only
    by_cases hc : slot - c.span slotType ≥ 0
        ∧ offset - c.size < (lp (slot - c.span slotType)).maxOffset
    · rw [if_pos hc]
      refine le_trans (ih _ j) ?_
      have a7 := (setMaxOffset_fields lp (slot - c.span slotType) (offset - c.size) j).2.2.2.2.2.2
      rw [a7]
      split
      · rename_i hj; rw [hj]; omega
      · exact le_refl _
    · rw [if_neg hc]
      exact ih lp j
/-- The loop of step 4 keeps `BackInv` down to slot 0. -/
theorem backwardPass_inv (slotType : SlotType) (n : Nat) (lp0 : Layout) (top : Int)
    (hmin : ∀ j : Nat, j < n →
      (lp0 ((j : Int) - 1)).minOffset + (lp0 j).minSize ≤ (lp0 j).minOffset)
    (hitem : ∀ j : Nat, j < n → ∀ c, c ∈ (lp0 j).binNextPtr →
      1 < c.span slotType
      ∧ c.size + (lp0 ((j : Int) - c.span slotType)).minOffset ≤ (lp0 j).minOffset) :
    ∀ (s : Nat) (offset : Int) (lp : Layout), s < n → BackInv n lp0 top s offset lp →
      BackInv n lp0 top 0 (backwardPass slotType s (offset, lp)).1
        (backwardPass slotType s (offset, lp)).2 := by
  intro s
  induction s with
  | zero => intro offset lp _ h; exact h
  | succ s ih =>
    intro offset lp hs h
    obtain ⟨hf, ho, hlu, hch, htop, hout⟩ := h
    obtain ⟨lp1, e1, f1, m1⟩ := backwardBin_spec slotType ((s + 1 : Nat) : Int) offset
      (lp ((s + 1 : Nat) : Int)).binNextPtr lp
    have hle := backwardBin_le slotType ((s + 1 : Nat) : Int) offset
      (lp ((s + 1 : Nat) : Int)).binNextPtr lp
    rw [e1] at hle
    -- the bin loop only writes slots in `0 .. s-1`
    have hsame : ∀ j : Int, (j < 0 ∨ (s : Int) ≤ j) → (lp1 j).maxOffset = (lp j).maxOffset := by
      intro j hj
      rcases m1 j with h | ⟨c, hc, h1, h2, _⟩
      · exact h
      · have hc0 : c ∈ (lp0 ((s + 1 : Nat) : Int)).binNextPtr := by
          rw [← (hf _).2.2.2.2.1]; exact hc
        have := (hitem (s + 1) hs c hc0).1
        omega
    have hlu1 : ∀ j : Nat, j < n → (lp1 j).minOffset ≤ (lp1 j).maxOffset := by
      intro j hj
      rw [(f1 j).2.2.2.2.2]
      rcases m1 j with h | ⟨c, hc, h1, h2, h3⟩
      · rw [h]; exact hlu j hj
      · rw [h3]
        have hc0 : c ∈ (lp0 ((s + 1 : Nat) : Int)).binNextPtr := by
          rw [← (hf _).2.2.2.2.1]; exact hc
        have hi := (hitem (s + 1) hs c hc0).2
        have hl := hlu (s + 1) hs
        rw [(hf _).2.2.2.2.2] at hl ⊢
        rw [h1]
        omega
    have hf1 : ∀ j, (lp1 j).minSize = (lp0 j).minSize ∧ (lp1 j).weight = (lp0 j).weight
        ∧ (lp1 j).pad = (lp0 j).pad ∧ (lp1 j).uniform = (lp0 j).uniform
        ∧ (lp1 j).binNextPtr = (lp0 j).binNextPtr ∧ (lp1 j).minOffset = (lp0 j).minOffset := by
      intro j
      obtain ⟨a1, a2, a3, a4, a5, a6⟩ := f1 j
      obtain ⟨b1, b2, b3, b4, b5, b6⟩ := hf j
      exact ⟨a1.trans b1, a2.trans b2, a3.trans b3, a4.trans b4, a5.trans b5, a6.trans b6⟩
    have hch1 : ∀ j : Nat, s + 1 < j → j < n →
        (lp1 ((j : Int) - 1)).maxOffset + (lp1 j).minSize ≤ (lp1 j).maxOffset := by
      intro j hj1 hj2
      rw [hsame _ (by omega), hsame _ (by omega), (f1 j).1]
      exact hch j hj1 hj2
    have hs1 : (lp1 ((s + 1 : Nat) : Int)).maxOffset = offset := by
      rw [hsame _ (by omega)]; exact ho.symm
    have hms : (lp0 ((s : Nat) : Int)).minOffset + (lp0 ((s + 1 : Nat) : Int)).minSize
        ≤ (lp0 ((s + 1 : Nat) : Int)).minOffset := by
      have := hmin (s + 1) hs
      have e : ((s + 1 : Nat) : Int) - 1 = (s : Int) := by omega
      rw [e] at this
      exact this
    have hlu_s1 := hlu1 (s + 1) hs
    rw [hs1, (hf1 _).2.2.2.2.2] at hlu_s1
    simp only [backwardPass]
    rw [e1]
    by_cases hlt : (lp1 (s : Int)).maxOffset < offset - (lp1 ((s + 1 : Nat) : Int)).minSize
    · rw [if_pos hlt]
      apply ih _ _ (by omega)
      refine ⟨hf1, rfl, hlu1, ?_, ?_, ?_⟩
      · intro j hj1 hj2
        by_cases hj : j = s + 1
        · subst hj
          have e : ((s + 1 : Nat) : Int) - 1 = (s : Int) := by omega
          rw [e, hs1]
          omega
        · exact hch1 j (by omega) hj2
      · rw [hsame _ (by omega)]; exact htop
      · intro j hj
        rw [hsame _ (by omega)]
        exact hout j hj
    · rw [if_neg hlt]
      apply ih _ _ (by omega)
      have hset : ∀ j : Int, j ≠ (s : Int) →
          (setMaxOffset lp1 s (offset - (lp1 ((s + 1 : Nat) : Int)).minSize) j).maxOffset
            = (lp1 j).maxOffset := by
        intro j hj
        have := (setMaxOffset_fields lp1 s
          (offset - (lp1 ((s + 1 : Nat) : Int)).minSize) j).2.2.2.2.2.2
        rw [this, if_neg hj]
      have hsets : (setMaxOffset lp1 s (offset - (lp1 ((s + 1 : Nat) : Int)).minSize) s).maxOffset
          = offset - (lp1 ((s + 1 : Nat) : Int)).minSize := by
        have := (setMaxOffset_fields lp1 s
          (offset - (lp1 ((s + 1 : Nat) : Int)).minSize) s).2.2.2.2.2.2
        rw [this, if_pos rfl]
      have hfs : ∀ j, (setMaxOffset lp1 s (offset - (lp1 ((s + 1 : Nat) : Int)).minSize) j).minSize
            = (lp1 j).minSize
          ∧ (setMaxOffset lp1 s (offset - (lp1 ((s + 1 : Nat) : Int)).minSize) j).minOffset
            = (lp1 j).minOffset := by
        intro j
        have := setMaxOffset_fields lp1 s (offset - (lp1 ((s + 1 : Nat) : Int)).minSize) j
        exact ⟨this.2.2.2.2.1, this.2.2.2.2.2.1⟩
      refine ⟨?_, hsets.symm, ?_, ?_, ?_, ?_⟩
      · intro j
        obtain ⟨a1, a2, a3, a4, a5, a6, _⟩ := setMaxOffset_fields lp1 s
          (offset - (lp1 ((s + 1 : Nat) : Int)).minSize) j
        obtain ⟨b1, b2, b3, b4, b5, b6⟩ := hf1 j
        exact ⟨a5.trans b1, a1.trans b2, a2.trans b3, a3.trans b4, a4.trans b5, a6.trans b6⟩
      · intro j hj
        rw [(hfs j).2]
        by_cases hjs : j = s
        · subst hjs
          rw [hsets, (hf1 _).2.2.2.2.2, (hf1 _).1]
          omega
        · rw [hset _ (by omega)]
          exact hlu1 j hj
      · intro j hj1 hj2
        rw [(hfs j).1]
        by_cases hj : j = s + 1
        · subst hj
          have e : ((s + 1 : Nat) : Int) - 1 = (s : Int) := by omega
          rw [e, hsets, hset _ (by omega), hs1]
          omega
        · rw [hset _ (by omega), hset _ (by omega)]
          exact hch1 j (by omega) hj2
      · rw [hset _ (by omega), hsame _ (by omega)]; exact htop
      · intro j hj
        rw [hset _ (by omega), hsame _ (by omega)]
        exact hout j hj

/-! ### Step 5: distributing the slack -/

theorem sumFrom_nonneg (f : Nat → Int) (hf : ∀ i, 0 ≤ f i) (n s : Nat) : 0 ≤ sumFrom f s n := by
  induction n generalizing s with
  | zero => exact le_refl _
  | succ n ih => simp only [sumFrom]; have := hf s; have := ih (s + 1); omega

theorem sumFrom_congr (f g : Nat → Int) (n s : Nat)
    (h : ∀ i, s ≤ i → i < s + n → f i = g i) : sumFrom f s n = sumFrom g s n := by
  induction n generalizing s with
  | zero => rfl
  | succ n ih =>
    simp only [sumFrom]
    rw [h s (by omega) (by omega), ih (s + 1) (fun i h1 h2 => h i (by omega) (by omega))]

theorem sumFrom_append (f : Nat → Int) (a b s : Nat) :
    sumFrom f s (a + b) = sumFrom f s a + sumFrom f (s + a) b := by
  induction a generalizing s with
  | zero => simp [sumFrom]
  | succ a ih =>
    have e : a + 1 + b = (a + b) + 1 := by omega
    rw [e]
    simp only [sumFrom]
    rw [ih (s + 1)]
    have e2 : s + 1 + a = s + (a + 1) := by omega
    rw [e2]
    omega

theorem sumFrom_one (n s : Nat) : sumFrom (fun _ => (1 : Int)) s n = n := by
  induction n generalizing s with
  | zero => rfl
  | succ n ih => simp only [sumFrom]; rw [ih]; push_cast; omega

/-- Rounding down to a multiple of `totalWeight` (lines 2330 and 2353) stays in the range
of an `int`. -/
theorem wrapInt_round (x T : Int) (hT : 0 < T) (hx0 : 0 ≤ x) (hx : x ≤ 2147483647) :
    wrapInt (Int.tdiv x T * T) = Int.tdiv x T * T := by
  rw [Int.tdiv_eq_ediv hx0 (le_of_lt hT)]
  have h2 := Int.ediv_mul_le x (ne_of_gt hT)
  have h3 : 0 ≤ x / T := Int.ediv_nonneg hx0 (le_of_lt hT)
  have h4 : 0 ≤ x / T * T := Int.mul_nonneg h3 (le_of_lt hT)
  exact wrapInt_eq _ (by omega) (by omega)

/-- The new value of `have` when the slack is at least 2, the slot can grow by less than
its share and the products fit in an `int`: at least 1 above `need`, and strictly below the
old value. -/
theorem reducedHave_bounds (T w need haveV g : Int) (hD : 2 ≤ haveV - need) (hT : 0 < T)
    (hw : 0 < w) (hwT : w ≤ T) (hg : g * T < (haveV - need) * w) (hg0 : 0 ≤ g)
    (hfit : (haveV - need + 3) * (T + 3) ≤ INT_MAX) :
    1 ≤ reducedHave T w need haveV g - need
    ∧ reducedHave T w need haveV g - need ≤ (haveV - need) - 1 := by
  unfold reducedHave
  simp only
  generalize hDd : haveV - need = D at hD hg hfit ⊢
  have hfit2 : (D + 3) * (T + 3) ≤ 2147483647 := hfit
  have hexp : (D + 3) * (T + 3) = D * T + 3 * D + 3 * T + 9 := by ring
  have hDT0 : 0 ≤ D * T := Int.mul_nonneg (by omega) (le_of_lt hT)
  have hDw : D * w ≤ D * T := Int.mul_le_mul_of_nonneg_left hwT (by omega)
  have hgT0 : 0 ≤ g * T := Int.mul_nonneg hg0 (le_of_lt hT)
  rw [wrapInt_eq (g * T) (by omega) (by omega), wrapInt_eq (3 * T) (by omega) (by omega),
    wrapInt_eq ((D - 1) * 3) (by omega) (by omega)]
  -- the fallback value
  have hfb : ∀ nh2 : Int, nh2 = (if (if D - 1 > 3 * T then Int.tdiv ((D - 1) * 3) 4 else D - 1) > T
        then wrapInt
          (Int.tdiv (if D - 1 > 3 * T then Int.tdiv ((D - 1) * 3) 4 else D - 1) T * T)
        else (if D - 1 > 3 * T then Int.tdiv ((D - 1) * 3) 4 else D - 1)) →
      1 ≤ nh2 ∧ nh2 ≤ D - 1 := by
    intro nh2 h
    have h1 : 1 ≤ (if D - 1 > 3 * T then Int.tdiv ((D - 1) * 3) 4 else D - 1)
        ∧ (if D - 1 > 3 * T then Int.tdiv ((D - 1) * 3) 4 else D - 1) ≤ D - 1 := by
      split
      · rw [Int.tdiv_eq_ediv (by omega) (by omega)]
        omega
      · omega
    generalize (if D - 1 > 3 * T then Int.tdiv ((D - 1) * 3) 4 else D - 1) = nh1 at h h1
    rw [h]
    split
    · rename_i hgt
      rw [wrapInt_round _ _ hT (by omega) (by omega), Int.tdiv_eq_ediv (by omega) (by omega)]
      have h2 := Int.ediv_mul_le nh1 (ne_of_gt hT)
      have h3 : 1 ≤ nh1 / T := Int.le_ediv_of_mul_le hT (by omega)
      have h4 : T ≤ nh1 / T * T := by nlinarith
      omega
    · omega
  by_cases hg1 : 0 < g
  · -- the slot can still grow: the main branch
    rw [Int.tdiv_eq_ediv hgT0 (le_of_lt hw)]
    have hq1 : 1 ≤ g * T / w := Int.le_ediv_of_mul_le hw (by nlinarith)
    have hq2 : g * T / w ≤ D - 1 := by
      have : g * T / w < D := Int.ediv_lt_of_lt_mul hw hg
      omega
    generalize g * T / w = q at hq1 hq2
    have h1 : 1 ≤ (if q > T then wrapInt (Int.tdiv q T * T) else q)
        ∧ (if q > T then wrapInt (Int.tdiv q T * T) else q) ≤ q := by
      split
      · rw [wrapInt_round _ _ hT (by omega) (by omega), Int.tdiv_eq_ediv (by omega) (by omega)]
        have h2 := Int.ediv_mul_le q (ne_of_gt hT)
        have h3 : 1 ≤ q / T := Int.le_ediv_of_mul_le hT (by omega)
        have h4 : T ≤ q / T * T := by nlinarith
        omega
      · omega
    generalize (if q > T then wrapInt (Int.tdiv q T * T) else q) = q1 at h1
    have hpos : ¬ q1 ≤ 0 := by omega
    rw [if_neg hpos]
    omega
  · -- the slot cannot grow at all: the fallback
    have hgz : g = 0 := by omega
    subst hgz
    rw [zero_mul, Int.zero_tdiv]
    have hnot : ¬ (0 : Int) > T := by omega
    rw [if_neg hnot, if_pos (le_refl _)]
    obtain ⟨h1, h2⟩ := hfb _ rfl
    have hpos : ¬ (if (if D - 1 > 3 * T then Int.tdiv ((D - 1) * 3) 4 else D - 1) > T
        then wrapInt
          (Int.tdiv (if D - 1 > 3 * T then Int.tdiv ((D - 1) * 3) 4 else D - 1) T * T)
        else (if D - 1 > 3 * T then Int.tdiv ((D - 1) * 3) 4 else D - 1)) ≤ 0 := by omega
    rw [if_neg hpos]
    omega

/-- The share of a slot exceeds the proportional share by less than one. -/
theorem grow_bound (D acc w T : Int) (hD : 0 ≤ D) (hacc : 0 ≤ acc) (hw : 0 ≤ w) (hT : 0 < T) :
    0 ≤ Int.tdiv (D * (acc + w)) T - Int.tdiv (D * acc) T
    ∧ (Int.tdiv (D * (acc + w)) T - Int.tdiv (D * acc) T - 1) * T < D * w := by
  rw [Int.tdiv_eq_ediv (Int.mul_nonneg hD (by omega)) (le_of_lt hT),
    Int.tdiv_eq_ediv (Int.mul_nonneg hD hacc) (le_of_lt hT)]
  have h1 := Int.ediv_mul_le (D * (acc + w)) (ne_of_gt hT)
  have h2 := Int.lt_ediv_add_one_mul_self (D * acc) hT
  have h3 : D * acc ≤ D * (acc + w) := by nlinarith
  have h4 := Int.ediv_le_ediv hT h3
  constructor
  · omega
  · nlinarith
theorem effWeight_nonneg (lp : Layout) (noWeights : Bool) (hw : ∀ j : Int, 0 ≤ (lp j).weight)
    (k : Nat) : 0 ≤ effWeight lp noWeights k := by
  unfold effWeight
  split
  · omega
  · exact hw k

/-- A round of the `do … while` loop whose products fit in an `int`, when it breaks out,
leaves a value of `have` that is at least `need + 1` and strictly smaller than before. -/
theorem tryHave_progress (lp : Layout) (noWeights : Bool) (T need hv : Int)
    (hT : 0 < T) (hD : 1 ≤ hv - need) (hw : ∀ j : Int, 0 ≤ (lp j).weight)
    (hfit : (hv - need + 3) * (T + 3) ≤ INT_MAX) :
    ∀ (r s : Nat) (pm pg acc : Int),
      0 ≤ acc → acc + sumFrom (effWeight lp noWeights) s r = T →
      pg = Int.tdiv ((hv - need) * acc) T →
      (∀ k : Nat, s ≤ k → k + 1 < s + r → (lp k).minOffset < (lp k).maxOffset) →
      (∀ k : Nat, s < k → k < s + r →
        (lp ((k : Int) - 1)).maxOffset + (lp k).minSize ≤ (lp k).maxOffset) →
      (0 < r → hv - need = 1 → pg = 0 → pm + (lp s).minSize + 1 ≤ (lp s).maxOffset) →
      (0 < r → pm + (lp s).minSize ≤ (lp s).maxOffset) →
      ∀ h, tryHave lp noWeights T need hv r s pm pg acc = some h →
        1 ≤ h - need ∧ h - need ≤ hv - need - 1 := by
  intro r
  induction r with
  | zero =>
    intro s pm pg acc _ _ _ _ _ _ _ h hh
    simp [tryHave] at hh
  | succ r ih =>
    intro s pm pg acc hacc hsum hpg hun hch hK hP h hh
    have hew : effWeight lp noWeights s = if noWeights = true then 1 else (lp s).weight := rfl
    have hw0 := effWeight_nonneg lp noWeights hw s
    have hrest := sumFrom_nonneg (effWeight lp noWeights) (effWeight_nonneg lp noWeights hw) r (s + 1)
    simp only [sumFrom] at hsum
    obtain ⟨hg0, hgb⟩ := grow_bound (hv - need) acc (effWeight lp noWeights s) T (by omega) hacc hw0 hT
    rw [← hpg] at hg0 hgb
    have hpg0 : 0 ≤ pg := by
      rw [hpg]; exact Int.tdiv_nonneg (Int.mul_nonneg (by omega) hacc) (le_of_lt hT)
    have hfit2 : (hv - need + 3) * (T + 3) ≤ 2147483647 := hfit
    have hexp : (hv - need + 3) * (T + 3)
        = (hv - need) * T + 3 * (hv - need) + 3 * T + 9 := by ring
    have hDT0 : 0 ≤ (hv - need) * T := Int.mul_nonneg (by omega) (le_of_lt hT)
    have hwr : wrapInt ((hv - need) * (acc + effWeight lp noWeights s))
        = (hv - need) * (acc + effWeight lp noWeights s) :=
      wrapInt_mul _ _ T (by omega) (by omega) (by omega) (by omega)
    unfold tryHave at hh
    simp only [← hew] at hh
    rw [hwr] at hh
    generalize hgr : Int.tdiv ((hv - need) * (acc + effWeight lp noWeights s)) T - pg = grow
      at hh hg0 hgb
    by_cases hfail : effWeight lp noWeights s > 0
        ∧ pm + (lp s).minSize + grow > (lp s).maxOffset
    · rw [if_pos hfail] at hh
      have hh2 : h = reducedHave T (effWeight lp noWeights s) need hv
          ((lp s).maxOffset - (lp s).minSize - pm) := by
        injection hh with hh; exact hh.symm
      obtain ⟨hwpos, hover⟩ := hfail
      have hwT : effWeight lp noWeights s ≤ T := by omega
      have hgT : ((lp s).maxOffset - (lp s).minSize - pm) * T
          < (hv - need) * effWeight lp noWeights s := by
        have : ((lp s).maxOffset - (lp s).minSize - pm) * T ≤ (grow - 1) * T :=
          Int.mul_le_mul_of_nonneg_right (by omega) (le_of_lt hT)
        omega
      have hD2 : 2 ≤ hv - need := by
        by_contra hlt
        have hD1 : hv - need = 1 := by omega
        by_cases hp : pg = 0
        · have := hK (by omega) hD1 hp
          rw [hD1] at hgb
          have : grow ≤ 1 := by
            by_contra hc
            have : T ≤ (grow - 1) * T := by nlinarith
            omega
          omega
        · rw [hD1, one_mul, Int.tdiv_eq_ediv hacc (le_of_lt hT)] at hpg
          have h1 : 1 ≤ acc / T := by omega
          have h2 := Int.ediv_mul_le acc (ne_of_gt hT)
          have h3 : T ≤ acc / T * T := by nlinarith
          omega
      rw [hh2]
      exact reducedHave_bounds T _ need hv _ hD2 hT hwpos hwT hgT
        (by have := hP (by omega); omega) hfit
    · rw [if_neg hfail] at hh
      refine ih (s + 1) _ _ _ (by omega) (by omega) ?_ ?_ ?_ ?_ ?_ h hh
      · rw [← hgr]; omega
      · intro k hk1 hk2
        exact hun k (by omega) (by omega)
      · intro k hk1 hk2
        exact hch k (by omega) (by omega)
      · intro hr hD1 hp1
        have hp : pg = 0 := by omega
        have hg : grow = 0 := by omega
        have hk := hK (by omega) hD1 hp
        have hu := hun s (le_refl _) (by omega)
        have hc := hch (s + 1) (by omega) (by omega)
        have e : ((s + 1 : Nat) : Int) - 1 = (s : Int) := by omega
        rw [e] at hc
        rw [hg]
        split <;> omega
      · intro hr
        have hu := hun s (le_refl _) (by omega)
        have hc := hch (s + 1) (by omega) (by omega)
        have e : ((s + 1 : Nat) : Int) - 1 = (s : Int) := by omega
        rw [e] at hc
        have hp0 := hP (by omega)
        by_cases hwpos : effWeight lp noWeights s > 0
        · have : ¬ pm + (lp s).minSize + grow > (lp s).maxOffset := fun h => hfail ⟨hwpos, h⟩
          split <;> omega
        · have hw00 : effWeight lp noWeights s = 0 := by omega
          rw [hw00, add_zero, ← hpg] at hgr
          split <;> omega

/-- The `do … while` loop whose products fit in an `int` ends within `have - need` rounds, with a value of `have` that is
at least `need + 1`, not larger than before, and for which the inner loop runs all the
way. -/
theorem fitHave_ok (lp : Layout) (noWeights : Bool) (T need : Int) (start endV : Nat)
    (hT : 0 < T) (hw : ∀ j : Int, 0 ≤ (lp j).weight)
    (hsum : sumFrom (effWeight lp noWeights) start (endV - start + 1) = T)
    (hun : ∀ k : Nat, start ≤ k → k + 1 < start + (endV - start + 1) →
      (lp k).minOffset < (lp k).maxOffset)
    (hch : ∀ k : Nat, start < k → k < start + (endV - start + 1) →
      (lp ((k : Int) - 1)).maxOffset + (lp k).minSize ≤ (lp k).maxOffset)
    (hK : (lp ((start : Int) - 1)).minOffset + (lp start).minSize + 1 ≤ (lp start).maxOffset) :
    ∀ (fuel : Nat) (hv : Int), 1 ≤ hv - need → (hv - need).toNat ≤ fuel →
      (hv - need + 3) * (T + 3) ≤ INT_MAX →
      ∃ hv1, fitHave lp noWeights T need start endV fuel hv = Except.ok hv1
        ∧ 1 ≤ hv1 - need ∧ hv1 - need ≤ hv - need
        ∧ tryHave lp noWeights T need hv1 (endV - start + 1) start
            (lp ((start : Int) - 1)).minOffset 0 0 = none := by
  intro fuel
  induction fuel with
  | zero => intro hv h1 h2 _; omega
  | succ fuel ih =>
    intro hv h1 h2 hfit
    unfold fitHave
    cases htry : tryHave lp noWeights T need hv (endV - start + 1) start
        (lp ((start : Int) - 1)).minOffset 0 0 with
    | none => exact ⟨hv, rfl, h1, le_refl _, htry⟩
    | some hv2 =>
      simp only
      obtain ⟨p1, p2⟩ := tryHave_progress lp noWeights T need hv hT h1 hw hfit
        (endV - start + 1) start _ 0 0 (le_refl _) (by omega) (by simp)
        hun hch (fun _ _ _ => hK) (fun _ => by omega) hv2 htry
      obtain ⟨hv1, e, q1, q2, q3⟩ := ih hv2 p1 (by omega)
        (le_trans (Int.mul_le_mul_of_nonneg_right (by omega) (by omega)) hfit)
      exact ⟨hv1, e, q1, by omega, q3⟩

/-- One step of the distribution loop, on a slot the loop has not written yet. -/
theorem distributeStep_apply (noWeights : Bool) (T need hv : Int) (s : Nat)
    (pg acc : Int) (cur : Layout)
    (hfit : wrapInt ((hv - need) * (acc + effWeight cur noWeights s))
      = (hv - need) * (acc + effWeight cur noWeights s)) :
    distributeStep noWeights T need hv s (pg, acc, cur) =
      (pg + (Int.tdiv ((hv - need) * (acc + effWeight cur noWeights s)) T - pg),
       acc + effWeight cur noWeights s,
       fun j => if j = (s : Int) then
          { cur s with
            minSize := (cur s).minSize
              + (Int.tdiv ((hv - need) * (acc + effWeight cur noWeights s)) T - pg)
            minOffset :=
              if (cur ((s : Int) - 1)).minOffset + ((cur s).minSize
                  + (Int.tdiv ((hv - need) * (acc + effWeight cur noWeights s)) T - pg))
                  > (cur s).minOffset
              then (cur ((s : Int) - 1)).minOffset + ((cur s).minSize
                  + (Int.tdiv ((hv - need) * (acc + effWeight cur noWeights s)) T - pg))
              else (cur s).minOffset }
        else cur j) := by
  have hew : effWeight cur noWeights s = if noWeights = true then 1 else (cur s).weight := rfl
  unfold distributeStep
  simp only [← hew]
  rw [hfit]
  generalize Int.tdiv ((hv - need) * (acc + effWeight cur noWeights s)) T - pg = grow
  refine Prod.ext rfl (Prod.ext rfl ?_)
  simp only
  have hne : ((s : Int) - 1) ≠ (s : Int) := by omega
  have e1 : (setMinSize cur s ((cur s).minSize + grow) ((s : Int) - 1)).minOffset
      = (cur ((s : Int) - 1)).minOffset := by
    rw [setMinSize_apply, if_neg hne]
  have e2 : (setMinSize cur s ((cur s).minSize + grow) s).minSize = (cur s).minSize + grow := by
    rw [setMinSize_apply, if_pos rfl]
  have e3 : (setMinSize cur s ((cur s).minSize + grow) s).minOffset = (cur s).minOffset := by
    rw [setMinSize_apply, if_pos rfl]
  rw [e1, e2, e3]
  funext j
  by_cases hc : (cur ((s : Int) - 1)).minOffset + ((cur s).minSize + grow) > (cur s).minOffset
  · rw [if_pos hc, if_pos hc, setMinOffset_apply, setMinSize_apply]
    by_cases hj : j = (s : Int)
    · rw [if_pos hj, if_pos hj, if_pos hj]
      subst hj
      rfl
    · rw [if_neg hj, if_neg hj, if_neg hj]
  · rw [if_neg hc, if_neg hc, setMinSize_apply]
    by_cases hj : j = (s : Int)
    · rw [if_pos hj, if_pos hj]
      subst hj
      rfl
    · rw [if_neg hj, if_neg hj]
/-- When the inner loop of the `do … while` ran all the way for `hv` and the products fit in
an `int`, the distribution loop with `hv` keeps every new `minOffset` within the slot's `maxOffset`: the slots of the span
grow by shares that are not negative and add up to the cumulative share, each slot is at
least `minSize` after its left neighbour, and nothing else is written. -/
theorem distribute_ok (lp : Layout) (noWeights : Bool) (T need hv : Int)
    (hT : 0 < T) (hD : 0 ≤ hv - need) (hw : ∀ j : Int, 0 ≤ (lp j).weight)
    (hfit : (hv - need + 3) * (T + 3) ≤ INT_MAX) :
    ∀ (r s : Nat) (pm pg acc : Int) (cur : Layout),
      acc + sumFrom (effWeight lp noWeights) s r = T →
      (∀ j : Int, (s : Int) ≤ j → cur j = lp j) →
      (∀ j : Int, (cur j).weight = (lp j).weight ∧ (cur j).maxOffset = (lp j).maxOffset
        ∧ (cur j).pad = (lp j).pad ∧ (cur j).uniform = (lp j).uniform
        ∧ (cur j).binNextPtr = (lp j).binNextPtr) →
      (cur ((s : Int) - 1)).minOffset = pm →
      0 ≤ acc → pg = Int.tdiv ((hv - need) * acc) T →
      pm ≤ (lp ((s : Int) - 1)).maxOffset →
      (∀ k : Nat, s ≤ k → k < s + r →
        (lp ((k : Int) - 1)).maxOffset + (lp k).minSize ≤ (lp k).maxOffset) →
      (∀ k : Nat, s ≤ k → k < s + r → (lp k).minOffset ≤ (lp k).maxOffset) →
      tryHave lp noWeights T need hv r s pm pg acc = none →
      ∃ pg1 acc1 lp1,
        forFrom (distributeStep noWeights T need hv) s r (pg, acc, cur) = (pg1, acc1, lp1)
        ∧ (∀ j : Int, (j < (s : Int) ∨ ((s + r : Nat) : Int) ≤ j) → lp1 j = cur j)
        ∧ (∀ j : Int, (lp1 j).weight = (lp j).weight ∧ (lp1 j).maxOffset = (lp j).maxOffset
            ∧ (lp1 j).pad = (lp j).pad ∧ (lp1 j).uniform = (lp j).uniform
            ∧ (lp1 j).binNextPtr = (lp j).binNextPtr)
        ∧ (∀ k : Nat, s ≤ k → k < s + r →
            (lp k).minSize ≤ (lp1 k).minSize
            ∧ (lp1 ((k : Int) - 1)).minOffset + (lp1 k).minSize ≤ (lp1 k).minOffset
            ∧ (lp k).minOffset ≤ (lp1 k).minOffset
            ∧ (lp1 k).minOffset ≤ (lp k).maxOffset)
        ∧ acc1 = acc + sumFrom (effWeight lp noWeights) s r
        ∧ pg1 = Int.tdiv ((hv - need) * acc1) T
        ∧ sumFrom (fun k => (lp1 k).minSize) s r
            = sumFrom (fun k => (lp k).minSize) s r + (pg1 - pg) := by
  intro r
  induction r with
  | zero =>
    intro s pm pg acc cur _ hcur hfr hpm hacc hpg hpmU hch hlu htry
    refine ⟨pg, acc, cur, rfl, fun j _ => rfl, hfr, fun k h1 h2 => by omega, ?_, hpg, ?_⟩
    · simp [sumFrom]
    · simp [sumFrom]
  | succ r ih =>
    intro s pm pg acc cur hsum hcur hfr hpm hacc hpg hpmU hch hlu htry
    have hew : effWeight lp noWeights s = if noWeights = true then 1 else (lp s).weight := rfl
    have hewc : effWeight cur noWeights s = effWeight lp noWeights s := by
      unfold effWeight; rw [(hfr s).1]
    have hw0 := effWeight_nonneg lp noWeights hw s
    have hrest := sumFrom_nonneg (effWeight lp noWeights) (effWeight_nonneg lp noWeights hw) r (s + 1)
    simp only [sumFrom] at hsum
    obtain ⟨hg0, _⟩ := grow_bound (hv - need) acc (effWeight lp noWeights s) T hD hacc hw0 hT
    rw [← hpg] at hg0
    have hcs : cur s = lp s := hcur s (le_refl _)
    have hfit2 : (hv - need + 3) * (T + 3) ≤ 2147483647 := hfit
    have hexp : (hv - need + 3) * (T + 3)
        = (hv - need) * T + 3 * (hv - need) + 3 * T + 9 := by ring
    have hDT0 : 0 ≤ (hv - need) * T := Int.mul_nonneg hD (le_of_lt hT)
    have hwr : wrapInt ((hv - need) * (acc + effWeight lp noWeights s))
        = (hv - need) * (acc + effWeight lp noWeights s) :=
      wrapInt_mul _ _ T (by omega) (by omega) (by omega) (by omega)
    unfold tryHave at htry
    simp only [← hew] at htry
    rw [hwr] at htry
    simp only [forFrom]
    rw [distributeStep_apply noWeights T need hv s pg acc cur (by rw [hewc]; exact hwr),
      hewc, hcs, hpm]
    generalize hgr : Int.tdiv ((hv - need) * (acc + effWeight lp noWeights s)) T - pg = grow
      at htry hg0
    by_cases hfail : effWeight lp noWeights s > 0
        ∧ pm + (lp s).minSize + grow > (lp s).maxOffset
    · rw [if_pos hfail] at htry
      exact absurd htry (by simp)
    rw [if_neg hfail] at htry
    -- the slot after this step
    generalize hcur2 : (fun j : Int => if j = (s : Int) then
        { lp s with
          minSize := (lp s).minSize + grow
          minOffset := if pm + ((lp s).minSize + grow) > (lp s).minOffset
            then pm + ((lp s).minSize + grow) else (lp s).minOffset }
      else cur j) = cur2
    have h2s : cur2 s = { lp s with
          minSize := (lp s).minSize + grow
          minOffset := if pm + ((lp s).minSize + grow) > (lp s).minOffset
            then pm + ((lp s).minSize + grow) else (lp s).minOffset } := by
      rw [← hcur2]; simp
    have h2o : ∀ j : Int, j ≠ (s : Int) → cur2 j = cur j := by
      intro j hj; rw [← hcur2]; simp [hj]
    have hpm2 : (cur2 (((s + 1 : Nat) : Int) - 1)).minOffset
        = (if pm + (lp s).minSize + grow < (lp s).minOffset then (lp s).minOffset
            else pm + (lp s).minSize + grow) := by
      have e : ((s + 1 : Nat) : Int) - 1 = (s : Int) := by omega
      rw [e, h2s]
      simp only
      split <;> split <;> omega
    have hI2 := hch s (le_refl _) (by omega)
    have hLU := hlu s (le_refl _) (by omega)
    have hpm2U : (if pm + (lp s).minSize + grow < (lp s).minOffset then (lp s).minOffset
            else pm + (lp s).minSize + grow) ≤ (lp (((s + 1 : Nat) : Int) - 1)).maxOffset := by
      have e : ((s + 1 : Nat) : Int) - 1 = (s : Int) := by omega
      rw [e]
      by_cases hwpos : effWeight lp noWeights s > 0
      · have : ¬ pm + (lp s).minSize + grow > (lp s).maxOffset := fun h => hfail ⟨hwpos, h⟩
        split <;> omega
      · have hw00 : effWeight lp noWeights s = 0 := by omega
        rw [hw00, add_zero, ← hpg] at hgr
        split <;> omega
    obtain ⟨pg1, acc1, lp1, e, o1, f1, k1, a1, p1, s1⟩ := ih (s + 1) _ (pg + grow)
      (acc + effWeight lp noWeights s) cur2 (by omega)
      (fun j hj => by rw [h2o j (by omega)]; exact hcur j (by omega))
      (fun j => by
        by_cases hj : j = (s : Int)
        · subst hj; rw [h2s]; exact ⟨rfl, rfl, rfl, rfl, rfl⟩
        · rw [h2o j hj]; exact hfr j)
      hpm2 (by omega) (by rw [← hgr]; omega) hpm2U
      (fun k h1 h2 => hch k (by omega) (by omega))
      (fun k h1 h2 => hlu k (by omega) (by omega))
      htry
    refine ⟨pg1, acc1, lp1, e, ?_, f1, ?_, ?_, p1, ?_⟩
    · intro j hj
      rw [o1 j (by omega), h2o j (by omega)]
    · intro k hk1 hk2
      by_cases hks : k = s
      · subst hks
        have e1 : lp1 k = cur2 k := o1 k (by omega)
        have e2 : lp1 ((k : Int) - 1) = cur ((k : Int) - 1) := by
          rw [o1 _ (by omega), h2o _ (by omega)]
        rw [e1, e2, h2s, hpm]
        simp only
        refine ⟨by omega, ?_, ?_, ?_⟩
        · split <;> omega
        · split <;> omega
        · have e3 : ((k + 1 : Nat) : Int) - 1 = (k : Int) := by omega
          rw [e3] at hpm2U
          have : (if pm + ((lp k).minSize + grow) > (lp k).minOffset
              then pm + ((lp k).minSize + grow) else (lp k).minOffset)
              = (if pm + (lp k).minSize + grow < (lp k).minOffset then (lp k).minOffset
                else pm + (lp k).minSize + grow) := by
            split <;> split <;> omega
          rw [this]; exact hpm2U
      · exact k1 k (by omega) (by omega)
    · rw [a1]; simp only [sumFrom]; omega
    · simp only [sumFrom]
      have e1 : lp1 s = cur2 s := o1 s (by omega)
      rw [e1, h2s, s1]
      simp only
      omega

/-- Recalculating the right offsets of a span (lines 2404-2414): only `maxOffset` of the
slots `start .. start+k-1` is written and never raised; afterwards each slot of the span is
at least `minSize` after the `maxOffset` of its left neighbour, and `minOffset ≤ maxOffset`
still holds. -/
theorem tighten_ok (start : Nat) :
    ∀ (k : Nat) (lp : Layout),
      (∀ j : Nat, start < j → j ≤ start + k →
        (lp ((j : Int) - 1)).minOffset + (lp j).minSize ≤ (lp j).minOffset) →
      (∀ j : Nat, start ≤ j → j ≤ start + k → (lp j).minOffset ≤ (lp j).maxOffset) →
      (∀ j : Int, (tighten start k lp j).minSize = (lp j).minSize
          ∧ (tighten start k lp j).minOffset = (lp j).minOffset
          ∧ (tighten start k lp j).weight = (lp j).weight
          ∧ (tighten start k lp j).pad = (lp j).pad
          ∧ (tighten start k lp j).uniform = (lp j).uniform
          ∧ (tighten start k lp j).binNextPtr = (lp j).binNextPtr)
      ∧ (∀ j : Int, (j < (start : Int) ∨ ((start + k : Nat) : Int) ≤ j) →
          (tighten start k lp j).maxOffset = (lp j).maxOffset)
      ∧ (∀ j : Int, (tighten start k lp j).maxOffset ≤ (lp j).maxOffset)
      ∧ (∀ j : Nat, start < j → j ≤ start + k →
          (tighten start k lp ((j : Int) - 1)).maxOffset + (tighten start k lp j).minSize
            ≤ (tighten start k lp j).maxOffset)
      ∧ (∀ j : Nat, start ≤ j → j ≤ start + k →
          (tighten start k lp j).minOffset ≤ (tighten start k lp j).maxOffset) := by
  intro k
  induction k with
  | zero =>
    intro lp h1 h2
    refine ⟨fun j => ⟨rfl, rfl, rfl, rfl, rfl, rfl⟩, fun j _ => rfl, fun j => le_refl _,
      fun j hj1 hj2 => by omega, fun j hj1 hj2 => h2 j hj1 hj2⟩
  | succ k ih =>
    intro lp h1 h2
    have hslot : (((start + k + 1 : Nat) : Int) - 1) = ((start + k : Nat) : Int) := by omega
    -- the layout after the step for slot `start + k + 1`
    obtain ⟨lp1, hlp1, hf1, hm1, hle1, hsl1⟩ : ∃ lp1 : Layout,
        tighten start (k + 1) lp = tighten start k lp1
        ∧ (∀ j : Int, (lp1 j).minSize = (lp j).minSize ∧ (lp1 j).minOffset = (lp j).minOffset
            ∧ (lp1 j).weight = (lp j).weight ∧ (lp1 j).pad = (lp j).pad
            ∧ (lp1 j).uniform = (lp j).uniform ∧ (lp1 j).binNextPtr = (lp j).binNextPtr)
        ∧ (∀ j : Int, j ≠ ((start + k : Nat) : Int) → (lp1 j).maxOffset = (lp j).maxOffset)
        ∧ (lp1 ((start + k : Nat) : Int)).maxOffset ≤ (lp ((start + k : Nat) : Int)).maxOffset
        ∧ (lp1 ((start + k : Nat) : Int)).maxOffset
            = min (lp ((start + k : Nat) : Int)).maxOffset
                ((lp ((start + k + 1 : Nat) : Int)).maxOffset
                  - (lp ((start + k + 1 : Nat) : Int)).minSize) := by
      by_cases hc : (lp ((start + k + 1 : Nat) : Int)).maxOffset
          - (lp ((start + k + 1 : Nat) : Int)).minSize
          < (lp (((start + k + 1 : Nat) : Int) - 1)).maxOffset
      · refine ⟨setMaxOffset lp (((start + k + 1 : Nat) : Int) - 1)
          ((lp ((start + k + 1 : Nat) : Int)).maxOffset
            - (lp ((start + k + 1 : Nat) : Int)).minSize), ?_, ?_, ?_, ?_, ?_⟩
        · simp only [tighten]; rw [if_pos hc]
        · intro j
          obtain ⟨a1, a2, a3, a4, a5, a6, _⟩ := setMaxOffset_fields lp
            (((start + k + 1 : Nat) : Int) - 1)
            ((lp ((start + k + 1 : Nat) : Int)).maxOffset
              - (lp ((start + k + 1 : Nat) : Int)).minSize) j
          exact ⟨a5, a6, a1, a2, a3, a4⟩
        · intro j hj
          rw [(setMaxOffset_fields lp _ _ j).2.2.2.2.2.2, if_neg (by omega)]
        · rw [(setMaxOffset_fields lp _ _ _).2.2.2.2.2.2, if_pos hslot.symm]
          rw [hslot] at hc; omega
        · rw [(setMaxOffset_fields lp _ _ _).2.2.2.2.2.2, if_pos hslot.symm]
          rw [hslot] at hc
          rw [min_eq_right (le_of_lt hc)]
      · refine ⟨lp, ?_, fun j => ⟨rfl, rfl, rfl, rfl, rfl, rfl⟩, fun j _ => rfl, le_refl _, ?_⟩
        · simp only [tighten]; rw [if_neg hc]
        · rw [hslot] at hc
          rw [min_eq_left (by omega)]
    have g1 := h1 (start + k + 1) (by omega) (by omega)
    have g2 := h2 (start + k + 1) (by omega) (by omega)
    rw [hslot] at g1
    obtain ⟨r1, r2, r3, r4, r5⟩ := ih lp1
      (fun j hj1 hj2 => by
        rw [(hf1 _).2.1, (hf1 _).1, (hf1 _).2.1]; exact h1 j hj1 (by omega))
      (fun j hj1 hj2 => by
        rw [(hf1 _).2.1]
        by_cases hj : j = start + k
        · subst hj
          rw [hsl1]
          have := h2 (start + k) (by omega) (by omega)
          exact le_min this (by omega)
        · rw [hm1 _ (by omega)]; exact h2 j hj1 (by omega))
    rw [hlp1]
    refine ⟨?_, ?_, ?_, ?_, ?_⟩
    · intro j
      obtain ⟨a1, a2, a3, a4, a5, a6⟩ := r1 j
      obtain ⟨b1, b2, b3, b4, b5, b6⟩ := hf1 j
      exact ⟨a1.trans b1, a2.trans b2, a3.trans b3, a4.trans b4, a5.trans b5, a6.trans b6⟩
    · intro j hj
      rw [r2 j (by omega), hm1 j (by omega)]
    · intro j
      refine le_trans (r3 j) ?_
      by_cases hj : j = ((start + k : Nat) : Int)
      · subst hj; exact hle1
      · rw [hm1 j hj]
    · intro j hj1 hj2
      by_cases hj : j = start + k + 1
      · subst hj
        rw [hslot, r2 ((start + k + 1 : Nat) : Int) (by omega), hm1 _ (by omega),
          (r1 _).1, (hf1 _).1]
        have := r3 ((start + k : Nat) : Int)
        rw [hsl1] at this
        have := min_le_right (lp ((start + k : Nat) : Int)).maxOffset
          ((lp ((start + k + 1 : Nat) : Int)).maxOffset
            - (lp ((start + k + 1 : Nat) : Int)).minSize)
        omega
      · exact r4 j hj1 (by omega)
    · intro j hj1 hj2
      by_cases hj : j = start + k + 1
      · subst hj
        rw [(r1 _).2.1, (hf1 _).2.1, r2 ((start + k + 1 : Nat) : Int) (by omega),
          hm1 _ (by omega)]
        exact g2
      · exact r5 j hj1 (by omega)

theorem findEnd_spec (lp : Layout) :
    ∀ (k e : Nat), e ≤ findEnd lp k e ∧ findEnd lp k e ≤ e + k
      ∧ (∀ j : Nat, e ≤ j → j < findEnd lp k e → ¬ fixedSlot lp j)
      ∧ (findEnd lp k e < e + k → fixedSlot lp (findEnd lp k e)) := by
  intro k
  induction k with
  | zero =>
    intro e
    simp only [findEnd]
    exact ⟨le_refl _, le_refl _, fun j h1 h2 => by omega, fun h => by omega⟩
  | succ k ih =>
    intro e
    simp only [findEnd]
    by_cases hfix : (lp e).minOffset = (lp e).maxOffset
    · rw [if_pos hfix]
      exact ⟨le_refl _, by omega, fun j h1 h2 => by omega, fun _ => hfix⟩
    · rw [if_neg hfix]
      obtain ⟨h1, h2, h3, h4⟩ := ih (e + 1)
      refine ⟨by omega, by omega, ?_, fun h => h4 (by omega)⟩
      intro j hj1 hj2
      by_cases hje : j = e
      · subst hje; exact hfix
      · exact h3 j (by omega) hj2

theorem spanSums_eq (lp : Layout) (start count : Nat) :
    spanSums lp start count =
      (sumFrom (fun k => (lp k).weight) start count,
       sumFrom (fun k => (lp k).minSize) start count) := by
  have key : ∀ (c s : Nat) (a b : Int),
      forFrom (fun slot (st : Int × Int) =>
          (st.1 + (lp slot).weight, st.2 + (lp slot).minSize)) s c (a, b)
        = (a + sumFrom (fun k => (lp k).weight) s c,
           b + sumFrom (fun k => (lp k).minSize) s c) := by
    intro c
    induction c with
    | zero => intro s a b; simp [forFrom, sumFrom]
    | succ c ih =>
      intro s a b
      simp only [forFrom, sumFrom]
      rw [ih]
      refine Prod.ext ?_ ?_ <;> simp only <;> omega
  unfold spanSums
  rw [key]
  simp

/-- Along a run of slots the `maxOffset` grows by at least the minimum sizes. -/
theorem max_chain_sum (n : Nat) (lp : Layout) (h : SpanInv n lp) :
    ∀ (c a : Nat), a + c ≤ n →
      (lp ((a : Int) - 1)).maxOffset + sumFrom (fun k => (lp k).minSize) a c
        ≤ (lp (((a + c : Nat) : Int) - 1)).maxOffset := by
  intro c
  induction c with
  | zero => intro a _; simp [sumFrom]
  | succ c ih =>
    intro a ha
    simp only [sumFrom]
    have h1 := h.max_chain a (by omega)
    have h2 := ih (a + 1) (by omega)
    have e1 : ((a + 1 : Nat) : Int) - 1 = (a : Int) := by omega
    have e2 : a + 1 + c = a + (c + 1) := by omega
    rw [e1, e2] at h2
    omega

/-- Along a run of slots the `minOffset` grows by at least the minimum sizes. -/
theorem min_chain_sum (n : Nat) (lp : Layout) (h : SpanInv n lp) :
    ∀ (c a : Nat), a + c ≤ n →
      (lp ((a : Int) - 1)).minOffset + sumFrom (fun k => (lp k).minSize) a c
        ≤ (lp (((a + c : Nat) : Int) - 1)).minOffset := by
  intro c
  induction c with
  | zero => intro a _; simp [sumFrom]
  | succ c ih =>
    intro a ha
    simp only [sumFrom]
    have h1 := h.min_chain a (by omega)
    have h2 := ih (a + 1) (by omega)
    have e1 : ((a + 1 : Nat) : Int) - 1 = (a : Int) := by omega
    have e2 : a + 1 + c = a + (c + 1) := by omega
    rw [e1, e2] at h2
    omega

theorem slack_nonneg (n : Nat) (lp : Layout) (h : SpanInv n lp) : 0 ≤ slack n lp := by
  unfold slack
  have := max_chain_sum n lp h n 0 (by omega)
  have e : (((0 : Nat) : Int) - 1) = -1 := by omega
  rw [e, h.dummy_max] at this
  have e2 : 0 + n = n := by omega
  rw [e2] at this
  omega

/-- The layout after one pass of step 5 over the span `start .. endV`, from the outcome of
the distribution (`lp1`) and of the recalculation of the right offsets (`lp2`): the
invariant holds again, and the slack has decreased by the amount `d` distributed. -/
theorem spanPass_inv (n start endV : Nat) (lp lp1 lp2 : Layout) (d : Int)
    (hinv : SpanInv n lp) (hse : start < endV) (hen : endV < n)
    (hfix : fixedSlot lp endV)
    (hpre : ∀ j : Nat, j < start → fixedSlot lp j)
    -- the distribution
    (o1 : ∀ j : Int, (j < (start : Int) ∨ ((start + (endV - start + 1) : Nat) : Int) ≤ j) →
      lp1 j = lp j)
    (f1 : ∀ j : Int, (lp1 j).weight = (lp j).weight ∧ (lp1 j).maxOffset = (lp j).maxOffset
      ∧ (lp1 j).pad = (lp j).pad ∧ (lp1 j).uniform = (lp j).uniform
      ∧ (lp1 j).binNextPtr = (lp j).binNextPtr)
    (k1 : ∀ k : Nat, start ≤ k → k < start + (endV - start + 1) →
      (lp k).minSize ≤ (lp1 k).minSize
      ∧ (lp1 ((k : Int) - 1)).minOffset + (lp1 k).minSize ≤ (lp1 k).minOffset
      ∧ (lp k).minOffset ≤ (lp1 k).minOffset
      ∧ (lp1 k).minOffset ≤ (lp k).maxOffset)
    (s1 : sumFrom (fun k => (lp1 k).minSize) start (endV - start + 1)
      = sumFrom (fun k => (lp k).minSize) start (endV - start + 1) + d)
    -- the recalculation of the right offsets
    (r1 : ∀ j : Int, (lp2 j).minSize = (lp1 j).minSize ∧ (lp2 j).minOffset = (lp1 j).minOffset
      ∧ (lp2 j).weight = (lp1 j).weight ∧ (lp2 j).pad = (lp1 j).pad
      ∧ (lp2 j).uniform = (lp1 j).uniform ∧ (lp2 j).binNextPtr = (lp1 j).binNextPtr)
    (r2 : ∀ j : Int, (j < (start : Int) ∨ ((start + (endV - start) : Nat) : Int) ≤ j) →
      (lp2 j).maxOffset = (lp1 j).maxOffset)
    (r4 : ∀ j : Nat, start < j → j ≤ start + (endV - start) →
      (lp2 ((j : Int) - 1)).maxOffset + (lp2 j).minSize ≤ (lp2 j).maxOffset)
    (r5 : ∀ j : Nat, start ≤ j → j ≤ start + (endV - start) →
      (lp2 j).minOffset ≤ (lp2 j).maxOffset) :
    SpanInv n lp2
    ∧ (∀ j : Nat, j < start → fixedSlot lp2 j)
    ∧ (∀ j : Int, (lp j).minSize ≤ (lp2 j).minSize)
    ∧ slack n lp2 + d = slack n lp
    ∧ (∀ j : Int, (lp2 j).weight = (lp j).weight ∧ (lp2 j).pad = (lp j).pad
        ∧ (lp2 j).uniform = (lp j).uniform ∧ (lp2 j).binNextPtr = (lp j).binNextPtr)
    ∧ (∀ j : Int, (j < 0 ∨ (n : Int) ≤ j) →
        (lp2 j).minSize = (lp j).minSize ∧ (lp2 j).minOffset = (lp j).minOffset
          ∧ (lp2 j).maxOffset = (lp j).maxOffset)
    ∧ (lp2 ((n : Int) - 1)).maxOffset = (lp ((n : Int) - 1)).maxOffset
    ∧ (∀ j : Int, (lp j).minOffset ≤ (lp2 j).minOffset) := by
  have hcnt : start + (endV - start + 1) = endV + 1 := by omega
  have hcnt2 : start + (endV - start) = endV := by omega
  rw [hcnt] at o1 k1
  rw [hcnt2] at r2 r4 r5
  -- fields of `lp2` in terms of `lp`
  have hout : ∀ j : Int, (j < (start : Int) ∨ ((endV + 1 : Nat) : Int) ≤ j) →
      (lp2 j).minSize = (lp j).minSize ∧ (lp2 j).minOffset = (lp j).minOffset
      ∧ (lp2 j).maxOffset = (lp j).maxOffset := by
    intro j hj
    rw [(r1 j).1, (r1 j).2.1, r2 j (by omega), o1 j hj]
    exact ⟨rfl, rfl, rfl⟩
  have hmaxE : (lp2 endV).maxOffset = (lp endV).maxOffset := by
    rw [r2 _ (by omega), (f1 _).2.1]
  have hminE : (lp2 endV).minOffset = (lp endV).minOffset := by
    rw [(r1 _).2.1]
    obtain ⟨_, _, h3, h4⟩ := k1 endV (by omega) (by omega)
    unfold fixedSlot at hfix
    omega
  have hprev : (lp ((start : Int) - 1)).minOffset = (lp ((start : Int) - 1)).maxOffset := by
    by_cases h0 : start = 0
    · subst h0
      have e : (((0 : Nat) : Int) - 1) = -1 := by omega
      rw [e, hinv.dummy_min, hinv.dummy_max]
    · have := hpre (start - 1) (by omega)
      unfold fixedSlot at this
      have e : (((start - 1 : Nat) : Nat) : Int) = (start : Int) - 1 := by omega
      rw [e] at this
      exact this
  have hU : (lp2 ((n : Int) - 1)).maxOffset = (lp ((n : Int) - 1)).maxOffset := by
    by_cases h1 : n = endV + 1
    · subst h1
      have e : ((endV + 1 : Nat) : Int) - 1 = (endV : Int) := by omega
      rw [e, hmaxE]
    · exact (hout _ (by omega)).2.2
  have hmono : ∀ j : Int, (lp j).minOffset ≤ (lp2 j).minOffset := by
    intro j
    by_cases h1 : j < (start : Int) ∨ ((endV + 1 : Nat) : Int) ≤ j
    · rw [(hout j h1).2.1]
    · have hj0 : 0 ≤ j := by omega
      have e : ((j.toNat : Nat) : Int) = j := Int.toNat_of_nonneg hj0
      have := (k1 j.toNat (by omega) (by omega)).2.2.1
      rw [e] at this
      rw [(r1 j).2.1]
      exact this
  refine ⟨⟨?_, ?_, ?_, ?_, ?_, ?_, ?_⟩, ?_, ?_, ?_, ?_, ?_, hU, hmono⟩
  · intro j
    rw [(r1 j).2.2.1, (f1 j).1]; exact hinv.weight_nonneg j
  · rw [(hout (-1) (by omega)).2.1]; exact hinv.dummy_min
  · rw [(hout (-1) (by omega)).2.2]; exact hinv.dummy_max
  · -- min_chain
    intro j hj
    by_cases h1 : j < start
    · rw [(hout _ (by omega)).2.1, (hout _ (by omega)).1, (hout _ (by omega)).2.1]
      exact hinv.min_chain j hj
    · by_cases h2 : j ≤ endV
      · rw [(r1 _).2.1, (r1 _).1, (r1 _).2.1]
        exact (k1 j (by omega) (by omega)).2.1
      · by_cases h3 : j = endV + 1
        · subst h3
          have e : ((endV + 1 : Nat) : Int) - 1 = (endV : Int) := by omega
          rw [e, hminE, (hout _ (by omega)).1, (hout _ (by omega)).2.1]
          have := hinv.min_chain (endV + 1) hj
          rw [e] at this
          exact this
        · rw [(hout _ (by omega)).2.1, (hout _ (by omega)).1, (hout _ (by omega)).2.1]
          exact hinv.min_chain j hj
  · -- max_chain
    intro j hj
    by_cases h1 : j < start
    · rw [(hout _ (by omega)).2.2, (hout _ (by omega)).1, (hout _ (by omega)).2.2]
      exact hinv.max_chain j hj
    · by_cases h0 : j = start
      · subst h0
        rw [(hout _ (by omega)).2.2, ← hprev]
        have a := (k1 j (by omega) (by omega)).2.1
        rw [o1 _ (by omega)] at a
        have b := r5 j (le_refl _) (by omega)
        rw [(r1 _).2.1] at b
        rw [(r1 _).1]
        omega
      · by_cases h2 : j ≤ endV
        · exact r4 j (by omega) h2
        · by_cases h3 : j = endV + 1
          · subst h3
            have e : ((endV + 1 : Nat) : Int) - 1 = (endV : Int) := by omega
            rw [e, hmaxE, (hout _ (by omega)).1, (hout _ (by omega)).2.2]
            have := hinv.max_chain (endV + 1) hj
            rw [e] at this
            exact this
          · rw [(hout _ (by omega)).2.2, (hout _ (by omega)).1, (hout _ (by omega)).2.2]
            exact hinv.max_chain j hj
  · -- min_le_max
    intro j hj
    by_cases h1 : j < start
    · rw [(hout _ (by omega)).2.1, (hout _ (by omega)).2.2]
      exact hinv.min_le_max j hj
    · by_cases h2 : j ≤ endV
      · exact r5 j (by omega) h2
      · rw [(hout _ (by omega)).2.1, (hout _ (by omega)).2.2]
        exact hinv.min_le_max j hj
  · -- last_fixed
    intro hn
    by_cases h1 : n = endV + 1
    · subst h1
      have e : ((endV + 1 : Nat) : Int) - 1 = (endV : Int) := by omega
      rw [e, hminE, hmaxE]
      exact hfix
    · rw [(hout _ (by omega)).2.1, (hout _ (by omega)).2.2]
      exact hinv.last_fixed hn
  · intro j hj
    unfold fixedSlot
    rw [(hout _ (by omega)).2.1, (hout _ (by omega)).2.2]
    exact hpre j hj
  · intro j
    by_cases h1 : j < (start : Int) ∨ ((endV + 1 : Nat) : Int) ≤ j
    · rw [(hout j h1).1]
    · have hj0 : 0 ≤ j := by omega
      have e : ((j.toNat : Nat) : Int) = j := Int.toNat_of_nonneg hj0
      have := (k1 j.toNat (by omega) (by omega)).1
      rw [e] at this
      rw [(r1 j).1]
      exact this
  · -- the slack
    unfold slack
    have hsplit : ∀ f : Nat → Int, sumFrom f 0 n
        = sumFrom f 0 start + sumFrom f start (endV - start + 1)
          + sumFrom f (endV + 1) (n - (endV + 1)) := by
      intro f
      have e1 : n = start + ((endV - start + 1) + (n - (endV + 1))) := by omega
      have e2 : start + (endV - start + 1) = endV + 1 := by omega
      conv_lhs => rw [e1]
      rw [sumFrom_append, sumFrom_append]
      simp only [Nat.zero_add, e2]
      omega
    rw [hU, hsplit (fun k => (lp2 k).minSize), hsplit (fun k => (lp k).minSize)]
    have e1 : sumFrom (fun k => (lp2 k).minSize) 0 start
        = sumFrom (fun k => (lp k).minSize) 0 start :=
      sumFrom_congr _ _ _ _ (fun i _ h2 => (hout i (by omega)).1)
    have e2 : sumFrom (fun k => (lp2 k).minSize) (endV + 1) (n - (endV + 1))
        = sumFrom (fun k => (lp k).minSize) (endV + 1) (n - (endV + 1)) :=
      sumFrom_congr _ _ _ _ (fun i h1 _ => (hout i (by omega)).1)
    have e3 : sumFrom (fun k => (lp2 k).minSize) start (endV - start + 1)
        = sumFrom (fun k => (lp1 k).minSize) start (endV - start + 1) :=
      sumFrom_congr _ _ _ _ (fun i _ _ => (r1 i).1)
    rw [e1, e2, e3, s1]
    omega
  · intro j
    obtain ⟨a1, a2, a3, a4, a5, a6⟩ := r1 j
    obtain ⟨b1, b2, b3, b4, b5⟩ := f1 j
    exact ⟨a3.trans b1, a4.trans b3, a5.trans b4, a6.trans b5⟩
  · intro j hj
    exact hout j (by omega)
/-- One pass of step 5 for an unresolved `start` whose products fit in an `int`: with fuel
for `slack` rounds of the `do … while` loop the pass ends without fault (the span ends at a fixed slot below
`gridCount`), the invariant holds again, no minimum size decreases and the slack
decreases by at least 1. -/
theorem resolveSpan_ok (n fuel start : Nat) (lp : Layout)
    (hinv : SpanInv n lp) (hs : start < n) (hun : ¬ fixedSlot lp start)
    (hpre : ∀ j : Nat, j < start → fixedSlot lp j)
    (hfuel : (slack n lp).toNat ≤ fuel)
    (hB : (slack n lp + 3) * (sumFrom (fun k => (lp k).weight) 0 n + (n : Int) + 3)
      ≤ INT_MAX) :
    ∃ lp2, resolveSpan fuel n start lp = Except.ok lp2
      ∧ SpanInv n lp2
      ∧ (∀ j : Nat, j < start → fixedSlot lp2 j)
      ∧ (∀ j : Int, (lp j).minSize ≤ (lp2 j).minSize)
      ∧ slack n lp2 + 1 ≤ slack n lp
      ∧ (∀ j : Int, (lp2 j).weight = (lp j).weight ∧ (lp2 j).pad = (lp j).pad
          ∧ (lp2 j).uniform = (lp j).uniform ∧ (lp2 j).binNextPtr = (lp j).binNextPtr)
      ∧ (∀ j : Int, (j < 0 ∨ (n : Int) ≤ j) →
          (lp2 j).minSize = (lp j).minSize ∧ (lp2 j).minOffset = (lp j).minOffset
            ∧ (lp2 j).maxOffset = (lp j).maxOffset)
      ∧ (lp2 ((n : Int) - 1)).maxOffset = (lp ((n : Int) - 1)).maxOffset
      ∧ (∀ j : Int, (lp j).minOffset ≤ (lp2 j).minOffset) := by
  -- the end of the span
  obtain ⟨e1, e2, e3, e4⟩ := findEnd_spec lp (n - (start + 1)) (start + 1)
  generalize hend : findEnd lp (n - (start + 1)) (start + 1) = endV at e1 e2 e3 e4
  have hlast := hinv.last_fixed (by omega)
  have hen : endV < n := by
    by_contra hc
    by_cases h1 : start + 1 ≤ n - 1
    · have := e3 (n - 1) h1 (by omega)
      apply this
      unfold fixedSlot
      have e : (((n - 1 : Nat) : Nat) : Int) = (n : Int) - 1 := by omega
      rw [e]; exact hlast
    · have h2 : start = n - 1 := by omega
      apply hun
      unfold fixedSlot
      have e : ((start : Nat) : Int) = (n : Int) - 1 := by omega
      rw [e]; exact hlast
  have hfix : fixedSlot lp endV := e4 (by omega)
  have hcnt : start + (endV - start + 1) = endV + 1 := by omega
  -- the slots of the span before the end are not fixed
  have hunfix : ∀ k : Nat, start ≤ k → k + 1 < start + (endV - start + 1) →
      (lp k).minOffset < (lp k).maxOffset := by
    intro k hk1 hk2
    have hlu := hinv.min_le_max k (by omega)
    have hne : ¬ fixedSlot lp k := by
      by_cases hks : k = start
      · subst hks; exact hun
      · exact e3 k (by omega) (by omega)
    unfold fixedSlot at hne
    omega
  have hch : ∀ k : Nat, start < k → k < start + (endV - start + 1) →
      (lp ((k : Int) - 1)).maxOffset + (lp k).minSize ≤ (lp k).maxOffset :=
    fun k _ hk2 => hinv.max_chain k (by omega)
  have hK : (lp ((start : Int) - 1)).minOffset + (lp start).minSize + 1 ≤ (lp start).maxOffset := by
    have := hinv.min_chain start hs
    have := hunfix start (le_refl _) (by omega)
    omega
  -- weights of the span
  unfold resolveSpan
  simp only [hend]
  have hnot : ¬ endV ≥ n := by omega
  rw [if_neg hnot, spanSums_eq]
  simp only
  generalize hnw : decide (sumFrom (fun k => (lp k).weight) start (endV - start + 1) = 0) = nw
  generalize hTd : (if sumFrom (fun k => (lp k).weight) start (endV - start + 1) = 0
      then (endV : Int) - start + 1
      else sumFrom (fun k => (lp k).weight) start (endV - start + 1)) = T
  have hTsum : sumFrom (effWeight lp nw) start (endV - start + 1) = T := by
    by_cases hz : sumFrom (fun k => (lp k).weight) start (endV - start + 1) = 0
    · rw [if_pos hz] at hTd
      have : nw = true := by rw [← hnw]; exact decide_eq_true hz
      subst this
      have : effWeight lp true = fun _ : Nat => (1 : Int) := by
        funext k; rfl
      rw [this, sumFrom_one, ← hTd]
      omega
    · rw [if_neg hz] at hTd
      have : nw = false := by rw [← hnw]; exact decide_eq_false hz
      subst this
      have : effWeight lp false = fun k : Nat => (lp k).weight := by
        funext k; unfold effWeight; simp
      rw [this, hTd]
  have hT : 0 < T := by
    by_cases hz : sumFrom (fun k => (lp k).weight) start (endV - start + 1) = 0
    · rw [if_pos hz] at hTd; omega
    · rw [if_neg hz] at hTd
      have := sumFrom_nonneg (fun k => (lp k).weight) (fun i => hinv.weight_nonneg i)
        (endV - start + 1) start
      omega
  generalize hneed : sumFrom (fun k => (lp k).minSize) start (endV - start + 1) = need
  -- the slack of the span is at least 1 and at most the slack of the layout
  have hD1 : 1 ≤ (lp endV).maxOffset - (lp ((start : Int) - 1)).minOffset - need := by
    have h1 := max_chain_sum n lp hinv (endV - start) (start + 1) (by omega)
    have ee1 : ((start + 1 : Nat) : Int) - 1 = (start : Int) := by omega
    have ee2 : (((start + 1 + (endV - start) : Nat) : Nat) : Int) - 1 = (endV : Int) := by omega
    rw [ee1, ee2] at h1
    have h2 := hunfix start (le_refl _) (by omega)
    have h3 := hinv.min_chain start hs
    have h4 : sumFrom (fun k => (lp k).minSize) start (endV - start + 1)
        = (lp start).minSize + sumFrom (fun k => (lp k).minSize) (start + 1) (endV - start) := by
      simp only [sumFrom]
    rw [← hneed, h4]
    omega
  have hDs : (lp endV).maxOffset - (lp ((start : Int) - 1)).minOffset - need ≤ slack n lp := by
    unfold slack
    have h1 := max_chain_sum n lp hinv (n - (endV + 1)) (endV + 1) (by omega)
    have ee1 : ((endV + 1 : Nat) : Int) - 1 = (endV : Int) := by omega
    have ee2 : (((endV + 1 + (n - (endV + 1)) : Nat) : Nat) : Int) - 1 = (n : Int) - 1 := by omega
    rw [ee1, ee2] at h1
    have h2 := min_chain_sum n lp hinv start 0 (by omega)
    have ee3 : (((0 : Nat) : Int) - 1) = -1 := by omega
    have ee4 : (((0 + start : Nat) : Nat) : Int) - 1 = (start : Int) - 1 := by omega
    rw [ee3, ee4, hinv.dummy_min] at h2
    have e1 : n = start + ((endV - start + 1) + (n - (endV + 1))) := by omega
    have hsplit : sumFrom (fun k => (lp k).minSize) 0 n
        = sumFrom (fun k => (lp k).minSize) 0 start
          + sumFrom (fun k => (lp k).minSize) start (endV - start + 1)
          + sumFrom (fun k => (lp k).minSize) (endV + 1) (n - (endV + 1)) := by
      conv_lhs => rw [e1]
      rw [sumFrom_append, sumFrom_append]
      simp only [Nat.zero_add, hcnt]
      omega
    rw [hsplit, hneed]
    omega
  -- the products of the span fit in an `int`
  have hTW : T ≤ sumFrom (fun k => (lp k).weight) 0 n + (n : Int) := by
    have e1 : n = start + ((endV - start + 1) + (n - (endV + 1))) := by omega
    have hsplit : sumFrom (fun k => (lp k).weight) 0 n
        = sumFrom (fun k => (lp k).weight) 0 start
          + sumFrom (fun k => (lp k).weight) start (endV - start + 1)
          + sumFrom (fun k => (lp k).weight) (endV + 1) (n - (endV + 1)) := by
      conv_lhs => rw [e1]
      rw [sumFrom_append, sumFrom_append]
      simp only [Nat.zero_add, hcnt]
      omega
    have h1 := sumFrom_nonneg (fun k => (lp k).weight) (fun i => hinv.weight_nonneg i) start 0
    have h2 := sumFrom_nonneg (fun k => (lp k).weight) (fun i => hinv.weight_nonneg i)
      (n - (endV + 1)) (endV + 1)
    have h3 := sumFrom_nonneg (fun k => (lp k).weight) (fun i => hinv.weight_nonneg i)
      (endV - start + 1) start
    by_cases hz : sumFrom (fun k => (lp k).weight) start (endV - start + 1) = 0
    · rw [if_pos hz] at hTd; omega
    · rw [if_neg hz] at hTd; omega
  have hfit : ∀ D : Int, 0 ≤ D →
      D ≤ (lp endV).maxOffset - (lp ((start : Int) - 1)).minOffset - need →
      (D + 3) * (T + 3) ≤ INT_MAX := by
    intro D hD0 hDle
    have h1 : (D + 3) * (T + 3) ≤ (slack n lp + 3) * (T + 3) :=
      Int.mul_le_mul_of_nonneg_right (by omega) (by omega)
    have h2 : (slack n lp + 3) * (T + 3)
        ≤ (slack n lp + 3) * (sumFrom (fun k => (lp k).weight) 0 n + (n : Int) + 3) :=
      Int.mul_le_mul_of_nonneg_left (by omega) (by omega)
    exact le_trans h1 (le_trans h2 hB)
  -- the `do … while` loop
  obtain ⟨hv, efit, hv1, hv2, htry⟩ := fitHave_ok lp nw T need start endV hT hinv.weight_nonneg
    hTsum hunfix hch hK fuel ((lp endV).maxOffset - (lp ((start : Int) - 1)).minOffset)
    hD1 (by omega) (hfit _ (by omega) (le_refl _))
  rw [efit]
  simp only
  -- the distribution
  have hpmU : (lp ((start : Int) - 1)).minOffset ≤ (lp ((start : Int) - 1)).maxOffset := by
    by_cases h0 : start = 0
    · subst h0
      have e : (((0 : Nat) : Int) - 1) = -1 := by omega
      rw [e, hinv.dummy_min, hinv.dummy_max]
    · have := hinv.min_le_max (start - 1) (by omega)
      have e : (((start - 1 : Nat) : Nat) : Int) = (start : Int) - 1 := by omega
      rw [e] at this
      exact this
  obtain ⟨pg1, acc1, lp1, ed, o1, f1, k1, a1, p1, s1⟩ := distribute_ok lp nw T need hv hT
    (by omega) hinv.weight_nonneg (hfit _ (by omega) (by omega))
    (endV - start + 1) start (lp ((start : Int) - 1)).minOffset
    0 0 lp (by omega) (fun j _ => rfl) (fun j => ⟨rfl, rfl, rfl, rfl, rfl⟩) rfl (le_refl _) (by simp)
    hpmU (fun k _ hk2 => hinv.max_chain k (by omega))
    (fun k _ hk2 => hinv.min_le_max k (by omega)) htry
  have hpg : pg1 = hv - need := by
    rw [p1, a1, hTsum, zero_add, Int.mul_tdiv_cancel _ (ne_of_gt hT)]
  have hdist : (distribute nw T need hv start (endV - start + 1) lp).2.2 = lp1 := by
    unfold distribute; rw [ed]
  rw [hdist]
  -- the recalculation of the right offsets
  obtain ⟨r1, r2, _, r4, r5⟩ := tighten_ok start (endV - start) lp1
    (fun j hj1 hj2 => (k1 j (by omega) (by omega)).2.1)
    (fun j hj1 hj2 => by
      rw [(f1 j).2.1]; exact (k1 j (by omega) (by omega)).2.2.2)
  obtain ⟨g1, g2, g3, g4, g5, g6, g7, g8⟩ := spanPass_inv n start endV lp lp1
    (tighten start (endV - start) lp1) (hv - need) hinv (by omega) hen hfix hpre
    o1 f1 k1 (by rw [s1, hpg]; omega) r1 r2 r4 r5
  exact ⟨_, rfl, g1, g2, g3, by omega, g5, g6, g7, g8⟩
/-- Step 5 as a whole, when its products fit in an `int`: with fuel for `slack` rounds of the `do … while` loop and for
`slack + gridCount` iterations of the scan, the scan ends without fault with every slot
fixed; the invariant holds at the end, no minimum size has decreased, and the `maxOffset`
of the last slot is as before. -/
theorem resolveSpans_ok (n inner : Nat) :
    ∀ (fuel start : Nat) (lp : Layout), SpanInv n lp → start ≤ n →
      (∀ j : Nat, j < start → fixedSlot lp j) →
      (slack n lp).toNat ≤ inner →
      (slack n lp).toNat + (n - start) ≤ fuel →
      (slack n lp + 3) * (sumFrom (fun k => (lp k).weight) 0 n + (n : Int) + 3) ≤ INT_MAX →
      ∃ lp2, resolveSpans n inner fuel start lp = Except.ok lp2
        ∧ SpanInv n lp2
        ∧ (∀ j : Nat, j < n → fixedSlot lp2 j)
        ∧ (∀ j : Int, (lp j).minSize ≤ (lp2 j).minSize)
        ∧ (∀ j : Int, (lp2 j).weight = (lp j).weight ∧ (lp2 j).pad = (lp j).pad
            ∧ (lp2 j).uniform = (lp j).uniform ∧ (lp2 j).binNextPtr = (lp j).binNextPtr)
        ∧ (lp2 ((n : Int) - 1)).maxOffset = (lp ((n : Int) - 1)).maxOffset
        ∧ (∀ j : Int, (lp j).minOffset ≤ (lp2 j).minOffset) := by
  intro fuel
  induction fuel with
  | zero =>
    intro start lp hinv hsn hpre _ hf _
    have : start = n := by omega
    subst this
    refine ⟨lp, ?_, hinv, hpre, fun j => le_refl _, fun j => ⟨rfl, rfl, rfl, rfl⟩, rfl,
      fun j => le_refl _⟩
    unfold resolveSpans
    simp
  | succ fuel ih =>
    intro start lp hinv hsn hpre hin hf hB
    by_cases hlt : start < n
    · unfold resolveSpans
      rw [if_pos hlt]
      simp only
      by_cases hfix : (lp start).minOffset = (lp start).maxOffset
      · rw [if_pos hfix]
        exact ih (start + 1) lp hinv (by omega)
          (fun j hj => by
            by_cases hjs : j = start
            · subst hjs; exact hfix
            · exact hpre j (by omega))
          hin (by omega) hB
      · rw [if_neg hfix]
        obtain ⟨lp1, e, g1, g2, g3, g4, g5, _, g7, g8⟩ :=
          resolveSpan_ok n inner start lp hinv hlt hfix hpre hin hB
        rw [e]
        simp only
        have hs1 := slack_nonneg n lp1 g1
        have hW1 : sumFrom (fun k => (lp1 k).weight) 0 n = sumFrom (fun k => (lp k).weight) 0 n :=
          sumFrom_congr _ _ _ _ (fun i _ _ => (g5 i).1)
        have hW0 := sumFrom_nonneg (fun k => (lp k).weight) (fun i => hinv.weight_nonneg i) n 0
        have hB1 : (slack n lp1 + 3) * (sumFrom (fun k => (lp1 k).weight) 0 n + (n : Int) + 3)
            ≤ INT_MAX := by
          rw [hW1]
          exact le_trans (Int.mul_le_mul_of_nonneg_right (by omega) (by omega)) hB
        obtain ⟨lp2, e2, q1, q2, q3, q4, q5, q6⟩ :=
          ih start lp1 g1 hsn g2 (by omega) (by omega) hB1
        refine ⟨lp2, e2, q1, q2, fun j => le_trans (g3 j) (q3 j), ?_, by rw [q5, g7],
          fun j => le_trans (g8 j) (q6 j)⟩
        intro j
        obtain ⟨a1, a2, a3, a4⟩ := q4 j
        obtain ⟨b1, b2, b3, b4⟩ := g5 j
        exact ⟨a1.trans b1, a2.trans b2, a3.trans b3, a4.trans b4⟩
    · have : start = n := by omega
      subst this
      refine ⟨lp, ?_, hinv, hpre, fun j => le_refl _, fun j => ⟨rfl, rfl, rfl, rfl⟩, rfl,
        fun j => le_refl _⟩
      unfold resolveSpans
      simp

/-- Step 4 as a whole, when the target is not above the required size: after pre-filling
the right offsets with the required size and the loop from right to left, the invariant
of step 5 holds; only `maxOffset` has been written. -/
theorem backward_ok (slotType : SlotType) (n : Nat) (lp0 : Layout) (r : Int)
    (hr : r = (lp0 ((n : Int) - 1)).minOffset)
    (hw : ∀ j : Int, 0 ≤ (lp0 j).weight)
    (hd1 : (lp0 (-1)).minOffset = 0) (hd2 : (lp0 (-1)).maxOffset = 0)
    (hm0 : ∀ j : Nat, j < n → 0 ≤ (lp0 j).minSize)
    (hmin : ∀ j : Nat, j < n →
      (lp0 ((j : Int) - 1)).minOffset + (lp0 j).minSize ≤ (lp0 j).minOffset)
    (hitem : ∀ j : Nat, j < n → ∀ c, c ∈ (lp0 j).binNextPtr →
      1 < c.span slotType
      ∧ c.size + (lp0 ((j : Int) - c.span slotType)).minOffset ≤ (lp0 j).minOffset) :
    SpanInv n (backwardPass slotType (n - 1)
        (r, forUp n (fun slot lp => setMaxOffset lp slot r) lp0)).2
    ∧ (∀ j : Int, ((backwardPass slotType (n - 1)
          (r, forUp n (fun slot lp => setMaxOffset lp slot r) lp0)).2 j).minSize
            = (lp0 j).minSize
        ∧ ((backwardPass slotType (n - 1)
          (r, forUp n (fun slot lp => setMaxOffset lp slot r) lp0)).2 j).minOffset
            = (lp0 j).minOffset
        ∧ ((backwardPass slotType (n - 1)
          (r, forUp n (fun slot lp => setMaxOffset lp slot r) lp0)).2 j).weight
            = (lp0 j).weight)
    ∧ (0 < n → ((backwardPass slotType (n - 1)
          (r, forUp n (fun slot lp => setMaxOffset lp slot r) lp0)).2 ((n : Int) - 1)).maxOffset
            = r) := by
  generalize hfill : forUp n (fun slot lp => setMaxOffset lp slot r) lp0 = lpf
  have hf : ∀ j : Int, lpf j =
      if 0 ≤ j ∧ j < (n : Int) then { lp0 j with maxOffset := r } else lp0 j := by
    intro j; rw [← hfill]; exact fillMax_apply n r lp0 j
  by_cases hn : n = 0
  · subst hn
    have hlp : ∀ j : Int, lpf j = lp0 j := by
      intro j; rw [hf j, if_neg (by omega)]
    simp only [backwardPass]
    refine ⟨⟨?_, ?_, ?_, fun j hj => by omega, fun j hj => by omega, fun j hj => by omega,
      fun h => by omega⟩, ?_, fun h => by omega⟩
    · intro j; rw [hlp]; exact hw j
    · rw [hlp]; exact hd1
    · rw [hlp]; exact hd2
    · intro j; rw [hlp]; exact ⟨rfl, rfl, rfl⟩
  -- the minimum offsets do not decrease along the slots
  have hmono : ∀ (c a : Nat), a + c < n → (lp0 a).minOffset ≤ (lp0 ((a + c : Nat) : Int)).minOffset := by
    intro c
    induction c with
    | zero => intro a _; exact le_refl _
    | succ c ih =>
      intro a ha
      have h1 := ih a (by omega)
      have h2 := hmin (a + c + 1) (by omega)
      have h3 := hm0 (a + c + 1) (by omega)
      have e : ((a + c + 1 : Nat) : Int) - 1 = ((a + c : Nat) : Int) := by omega
      rw [e] at h2
      have e2 : a + (c + 1) = a + c + 1 := by omega
      rw [e2]
      omega
  have hinit : BackInv n lp0 r (n - 1) r lpf := by
    refine ⟨?_, ?_, ?_, ?_, ?_, ?_⟩
    · intro j
      rw [hf j]
      split <;> exact ⟨rfl, rfl, rfl, rfl, rfl, rfl⟩
    · have e : (((n - 1 : Nat) : Nat) : Int) = (n : Int) - 1 := by omega
      rw [e, hf, if_pos (by omega)]
    · intro j hj
      rw [hf j, if_pos (by omega)]
      simp only
      have := hmono (n - 1 - j) j (by omega)
      have e : ((j + (n - 1 - j) : Nat) : Int) = (n : Int) - 1 := by omega
      rw [e] at this
      omega
    · intro j hj1 hj2; omega
    · rw [hf, if_pos (by omega)]
    · intro j hj
      rw [hf j, if_neg (by omega)]
  obtain ⟨bf, bo, blu, bch, btop, bout⟩ :=
    backwardPass_inv slotType n lp0 r hmin hitem (n - 1) r lpf (by omega) hinit
  refine ⟨⟨?_, ?_, ?_, ?_, ?_, blu, ?_⟩, ?_, fun _ => btop⟩
  · intro j; rw [(bf j).2.1]; exact hw j
  · rw [(bf _).2.2.2.2.2]; exact hd1
  · rw [bout _ (by omega)]; exact hd2
  · intro j hj
    rw [(bf _).2.2.2.2.2, (bf _).1, (bf _).2.2.2.2.2]
    exact hmin j hj
  · intro j hj
    by_cases h0 : j = 0
    · subst h0
      have e : (((0 : Nat) : Int) - 1) = -1 := by omega
      rw [e, bout _ (by omega), hd2]
      have h1 := hmin 0 hj
      rw [e, hd1] at h1
      have h2 := blu 0 hj
      rw [(bf _).2.2.2.2.2] at h2
      rw [(bf _).1]
      omega
    · exact bch j (by omega) hj
  · intro _
    rw [btop, (bf _).2.2.2.2.2, hr]
  · intro j
    exact ⟨(bf j).1, (bf j).2.2.2.2.2, (bf j).2.1⟩

/-! ### Steps 1 and 6, and the procedure as a whole -/

theorem copyOffsets_apply (n : Nat) (lp : Layout) (sp : Nat → SlotInfo) (j : Nat) :
    copyOffsets n lp sp j =
      if j < n then { sp j with offset := (lp j).minOffset } else sp j := by
  induction n with
  | zero => simp [copyOffsets, forUp]
  | succ n ih =>
    simp only [copyOffsets, forUp] at ih ⊢
    simp only [setOffset]
    rw [ih]
    by_cases h1 : j = n
    · subst h1; simp
    · by_cases h2 : j < n
      · have : j < n + 1 := by omega
        simp [h1, h2, this]
      · have : ¬ j < n + 1 := by omega
        simp [h1, h2, this]

theorem initLayout_fields (sp : Nat → SlotInfo) (cc n : Nat) (j : Int) :
    (initLayout sp cc n j).binNextPtr = []
    ∧ (initLayout sp cc n j).minOffset = 0
    ∧ (initLayout sp cc n j).maxOffset = 0
    ∧ (initLayout sp cc n j).minSize
        = (if 0 ≤ j ∧ j < (cc : Int) then (sp j.toNat).minSize else 0)
    ∧ (initLayout sp cc n j).weight
        = (if 0 ≤ j ∧ j < (cc : Int) then (sp j.toNat).weight else 0) := by
  unfold initLayout
  by_cases h1 : j = -1
  · subst h1
    have : ¬ (0 ≤ (-1 : Int) ∧ (-1 : Int) < (cc : Int)) := by omega
    rw [if_pos rfl, if_neg this, if_neg this]
    exact ⟨rfl, rfl, rfl, rfl, rfl⟩
  · rw [if_neg h1]
    by_cases h2 : 0 ≤ j ∧ j < (cc : Int)
    · rw [if_pos h2, if_pos h2, if_pos h2]
      exact ⟨rfl, rfl, rfl, rfl, rfl⟩
    · rw [if_neg h2, if_neg h2, if_neg h2]
      by_cases h3 : 0 ≤ j ∧ j < (n : Int)
      · rw [if_pos h3]
        exact ⟨rfl, rfl, rfl, rfl, rfl⟩
      · rw [if_neg h3]
        exact ⟨rfl, rfl, rfl, rfl, rfl⟩

/-- Steps 4 to 6 for a target that is not above the required size `r`, when the products
of step 5 fit in an `int`: with fuel
`(r - sum of the minimum sizes) + gridCount` the offsets are written without fault, from a
layout in which every slot is fixed and the invariant of step 5 holds. -/
theorem placeOffsets_ok (slotType : SlotType) (sp : Nat → SlotInfo) (n : Nat) (lp0 : Layout)
    (maxOffset r : Int) (hmax : maxOffset ≤ r)
    (hr : r = (lp0 ((n : Int) - 1)).minOffset)
    (hw : ∀ j : Int, 0 ≤ (lp0 j).weight)
    (hd1 : (lp0 (-1)).minOffset = 0) (hd2 : (lp0 (-1)).maxOffset = 0)
    (hm0 : ∀ j : Nat, j < n → 0 ≤ (lp0 j).minSize)
    (hmin : ∀ j : Nat, j < n →
      (lp0 ((j : Int) - 1)).minOffset + (lp0 j).minSize ≤ (lp0 j).minOffset)
    (hitem : ∀ j : Nat, j < n → ∀ c, c ∈ (lp0 j).binNextPtr →
      1 < c.span slotType
      ∧ c.size + (lp0 ((j : Int) - c.span slotType)).minOffset ≤ (lp0 j).minOffset)
    (fuel : Nat) (hfuel : r.toNat + n ≤ fuel)
    (hB : (r + 3) * (sumFrom (fun k => (lp0 k).weight) 0 n + (n : Int) + 3) ≤ INT_MAX) :
    ∃ lp5, placeOffsets fuel slotType sp n maxOffset r lp0 = Except.ok (copyOffsets n lp5 sp)
      ∧ SpanInv n lp5
      ∧ (∀ j : Nat, j < n → fixedSlot lp5 j)
      ∧ (∀ j : Int, (lp0 j).minSize ≤ (lp5 j).minSize)
      ∧ (0 < n → (lp5 ((n : Int) - 1)).maxOffset = r)
      ∧ (∀ j : Int, (lp0 j).minOffset ≤ (lp5 j).minOffset) := by
  obtain ⟨binv, bf, btop⟩ := backward_ok slotType n lp0 r hr hw hd1 hd2 hm0 hmin hitem
  unfold placeOffsets
  have hnot : ¬ maxOffset > r := by omega
  simp only [hnot, if_false]
  generalize hlp2 : (backwardPass slotType (n - 1)
      (r, forUp n (fun slot lp => setMaxOffset lp slot r) lp0)).2 = lp2 at binv bf btop
  -- the slack is at most the required size
  have hsl : slack n lp2 ≤ r := by
    have hs0 : 0 ≤ sumFrom (fun k => (lp2 k).minSize) 0 n := by
      have : sumFrom (fun k => (lp2 k).minSize) 0 n = sumFrom (fun k => (lp0 k).minSize) 0 n :=
        sumFrom_congr _ _ _ _ (fun i _ _ => (bf i).1)
      rw [this]
      have key : ∀ (c a : Nat), a + c ≤ n → 0 ≤ sumFrom (fun k => (lp0 k).minSize) a c := by
        intro c
        induction c with
        | zero => intro a _; exact le_refl _
        | succ c ih =>
          intro a ha
          simp only [sumFrom]
          have := hm0 a (by omega)
          have := ih (a + 1) (by omega)
          omega
      exact key n 0 (by omega)
    unfold slack
    by_cases hn : n = 0
    · subst hn
      have e : (((0 : Nat) : Int) - 1) = -1 := by omega
      rw [e, binv.dummy_max]
      rw [e, hd1] at hr
      simp only [sumFrom]
      omega
    · rw [btop (by omega)]
      omega
  have hW2 : sumFrom (fun k => (lp2 k).weight) 0 n = sumFrom (fun k => (lp0 k).weight) 0 n :=
    sumFrom_congr _ _ _ _ (fun i _ _ => (bf i).2.2)
  have hW0 := sumFrom_nonneg (fun k => (lp0 k).weight) (fun i => hw i) n 0
  have hs2 := slack_nonneg n lp2 binv
  have hB2 : (slack n lp2 + 3) * (sumFrom (fun k => (lp2 k).weight) 0 n + (n : Int) + 3)
      ≤ INT_MAX := by
    rw [hW2]
    exact le_trans (Int.mul_le_mul_of_nonneg_right (by omega) (by omega)) hB
  obtain ⟨lp5, e, q1, q2, q3, _, q5, q6⟩ := resolveSpans_ok n fuel fuel 0 lp2 binv (by omega)
    (fun j hj => by omega) (by omega) (by omega) hB2
  rw [e]
  refine ⟨lp5, rfl, q1, q2, ?_, ?_, ?_⟩
  · intro j
    rw [← (bf j).1]; exact q3 j
  · intro hn
    rw [q5]; exact btop hn
  · intro j
    rw [← (bf j).2.1]; exact q6 j

/-- Steps 1 to 3 on valid content and a slot table without negative `minSize` or `weight`:
no fault, and the layout that enters step 4. -/
theorem requiredLayout_ok (slotType : SlotType) (sp : Nat → SlotInfo) (cc n : Nat)
    (items : List Gridder)
    (hv : ∀ g, g ∈ items → ValidContent slotType n g)
    (hs : ∀ j, j < cc → 0 ≤ (sp j).minSize ∧ 0 ≤ (sp j).weight) :
    ∃ lp1 r lp3, binContent slotType n items (initLayout sp cc n) = Except.ok lp1
      ∧ requiredLayout slotType sp cc n items = Except.ok (r, lp3)
      ∧ ForwardOk slotType n (resolveUniform n lp1) lp3
      ∧ r = (lp3 ((n : Int) - 1)).minOffset
      ∧ (∀ j : Int, 0 ≤ (lp3 j).weight)
      ∧ (lp3 (-1)).minOffset = 0 ∧ (lp3 (-1)).maxOffset = 0
      ∧ (∀ j : Nat, j < n → configuredMin sp cc j ≤ (lp3 j).minSize ∧ 0 ≤ (lp3 j).minSize)
      ∧ (∀ j : Nat, j < n → ∀ c, c ∈ (lp3 j).binNextPtr →
          1 < c.span slotType
          ∧ c.size + (lp3 ((j : Int) - c.span slotType)).minOffset ≤ (lp3 j).minOffset)
      ∧ (∀ (j : Int) (c : Gridder), c ∈ (lp3 j).binNextPtr ↔
          ∃ g, g ∈ items ∧ 1 < g.span slotType ∧ g.rightEdge slotType = j
            ∧ c = g.sized slotType)
      ∧ 0 ≤ r
      ∧ (∀ g, g ∈ items → g.span slotType = 1 →
          g.nominal slotType + configuredPad sp cc (g.start slotType).toNat
            ≤ (lp3 (g.start slotType)).minSize) := by
  obtain ⟨lp1, e1, hf1, hb1, hm1⟩ := binContent_ok slotType n items (initLayout sp cc n) hv
  have hinit := initLayout_fields sp cc n
  -- the bins after step 2
  have hbins : ∀ (j : Int) (c : Gridder), c ∈ (lp1 j).binNextPtr ↔
      ∃ g, g ∈ items ∧ 1 < g.span slotType ∧ g.rightEdge slotType = j
        ∧ c = g.sized slotType := by
    intro j c
    rw [hb1 j c, (hinit j).1]
    simp
  have hmin1 : ∀ k : Nat, k < n → 0 ≤ (lp1 k).minSize ∧ configuredMin sp cc k ≤ (lp1 k).minSize := by
    intro k hk
    have h1 := (hf1 k).2.2.2.2.2
    rw [(hinit k).2.2.2.1] at h1
    unfold configuredMin
    by_cases hc : k < cc
    · have hc2 : 0 ≤ (k : Int) ∧ (k : Int) < (cc : Int) := by omega
      rw [if_pos hc2] at h1
      rw [if_pos hc]
      have := (hs k hc).1
      rw [Int.toNat_ofNat] at h1
      omega
    · have hc2 : ¬ (0 ≤ (k : Int) ∧ (k : Int) < (cc : Int)) := by omega
      rw [if_neg hc2] at h1
      rw [if_neg hc]
      omega
  have hu := resolveUniform_fields n lp1
  have hbin2 : ∀ j : Nat, j < n → ∀ c, c ∈ (resolveUniform n lp1 j).binNextPtr →
      1 < c.span slotType ∧ -1 ≤ (j : Int) - c.span slotType := by
    intro j hj c hc
    rw [(hu j).2.2.2.1] at hc
    obtain ⟨g, hg, h1, h2, h3⟩ := (hbins j c).mp hc
    rw [h3, sized_span]
    have := (hv g hg).1
    unfold Gridder.rightEdge at h2
    exact ⟨h1, by omega⟩
  have hdummy : (resolveUniform n lp1 (-1)).minOffset = 0 := by
    rw [(hu (-1)).2.2.2.2.1, (hf1 (-1)).2.2.2.1, (hinit (-1)).2.1]
  obtain ⟨r, lp3, e3, hok, hr⟩ := forwardPass_ok slotType (resolveUniform n lp1) n hbin2 hdummy
  have hms : ∀ k : Nat, k < n → configuredMin sp cc k ≤ (lp3 k).minSize ∧ 0 ≤ (lp3 k).minSize := by
    intro k hk
    rw [(hok.frame k).1]
    have h1 := (hu k).2.2.2.2.2.2 (fun i hi => (hmin1 i hi).1)
    have h2 := hmin1 k hk
    omega
  have hchain : ∀ j : Nat, j < n →
      (lp3 ((j : Int) - 1)).minOffset + (lp3 j).minSize ≤ (lp3 j).minOffset := by
    intro j hj
    have := hok.ge_init j hj
    rw [(hok.frame j).1]
    omega
  have hd3 : (lp3 (-1)).minOffset = 0 := by
    rw [hok.outside (-1) (by omega)]; exact hdummy
  have hpos : ∀ j : Nat, j ≤ n → 0 ≤ (lp3 ((j : Int) - 1)).minOffset := by
    intro j
    induction j with
    | zero =>
      intro _
      have e : (((0 : Nat) : Int) - 1) = -1 := by omega
      rw [e, hd3]
    | succ j ih =>
      intro hj
      have h1 := ih (by omega)
      have h2 := hchain j (by omega)
      have h3 := (hms j (by omega)).2
      have e : ((j + 1 : Nat) : Int) - 1 = (j : Int) := by omega
      rw [e]
      omega
  refine ⟨lp1, r, lp3, e1, ?_, hok, hr, ?_, hd3, ?_, hms, ?_, ?_, ?_, ?_⟩
  · unfold requiredLayout
    rw [e1]
    exact e3
  · intro j
    rw [(hok.frame j).2.1, (hu j).1, (hf1 j).1, (hinit j).2.2.2.2]
    split
    · rename_i h
      have := (hs j.toNat (by omega)).2
      exact this
    · exact le_refl _
  · rw [(hok.frame (-1)).2.2.2.2.2, (hu (-1)).2.2.2.2.2.1, (hf1 (-1)).2.2.2.2.1, (hinit (-1)).2.2.1]
  · intro j hj c hc
    rw [(hok.frame j).2.2.2.2.1] at hc
    exact ⟨(hbin2 j hj c hc).1, hok.ge_item j hj c hc⟩
  · intro j c
    rw [(hok.frame j).2.2.2.2.1, (hu j).2.2.2.1]
    exact hbins j c
  · rw [hr]; exact hpos n (le_refl _)
  · intro g hg hg1
    obtain ⟨v0, v1, v2⟩ := hv g hg
    have h1 := hm1 g hg hg1
    have hk : (((g.start slotType).toNat : Nat) : Int) = g.start slotType :=
      Int.toNat_of_nonneg v0
    have hlt : (g.start slotType).toNat < n := by omega
    have h2 := (hu (g.start slotType)).2.2.2.2.2.2 (fun i hi => (hmin1 i hi).1)
    rw [(hok.frame _).1]
    -- the pad of the slot as step 1 copied it
    have hpad : (initLayout sp cc n (g.start slotType)).pad
        = configuredPad sp cc (g.start slotType).toNat := by
      unfold initLayout configuredPad
      have hne : ¬ g.start slotType = -1 := by omega
      rw [if_neg hne]
      by_cases hc : (g.start slotType).toNat < cc
      · have hc2 : 0 ≤ g.start slotType ∧ g.start slotType < (cc : Int) := by omega
        rw [if_pos hc2, if_pos hc]
      · have hc2 : ¬ (0 ≤ g.start slotType ∧ g.start slotType < (cc : Int)) := by omega
        rw [if_neg hc2, if_neg hc]
        have hc3 : 0 ≤ g.start slotType ∧ g.start slotType < (n : Int) := by omega
        rw [if_pos hc3]
    rw [hpad] at h1
    omega

/-- `ResolveConstraints` on valid content and a slot table without negative `minSize` or
`weight`: steps 1 to 3 give a required size `r ≥ 0`, and for every target that is not above
it, fuel `r + gridCount` and products of step 5 that fit in an `int` (`ResolveFits`) the
procedure returns `r` and writes the offsets of a layout in which every slot is fixed and
the invariant of step 5 holds. -/
theorem resolveConstraints_ok (c : GridContainer) (slotType : SlotType)
    (hv : ∀ g, g ∈ c.contentPtr → ValidContent slotType (c.gridCount slotType) g)
    (hs : ∀ j, j < c.constraintCount slotType →
      0 ≤ (c.slotPtr slotType j).minSize ∧ 0 ≤ (c.slotPtr slotType j).weight) :
    ∃ r lp3, requiredLayout slotType (c.slotPtr slotType) (c.constraintCount slotType)
        (c.gridCount slotType) c.contentPtr = Except.ok (r, lp3)
      ∧ 0 ≤ r
      ∧ ∀ (maxOffset : Int) (fuel : Nat), maxOffset ≤ r →
          r.toNat + c.gridCount slotType ≤ fuel → ResolveFits c slotType r →
          ∃ lp5, ResolveConstraints fuel c slotType maxOffset
              = Except.ok (r, copyOffsets (c.gridCount slotType) lp5 (c.slotPtr slotType))
            ∧ SpanInv (c.gridCount slotType) lp5
            ∧ (∀ j : Nat, j < c.gridCount slotType → fixedSlot lp5 j)
            ∧ (∀ j : Nat, j < c.gridCount slotType →
                configuredMin (c.slotPtr slotType) (c.constraintCount slotType) j
                  ≤ (lp5 j).minSize)
            ∧ (0 < c.gridCount slotType →
                (lp5 ((c.gridCount slotType : Int) - 1)).maxOffset = r)
            ∧ (∀ g, g ∈ c.contentPtr → g.span slotType = 1 →
                g.nominal slotType + configuredPad (c.slotPtr slotType)
                    (c.constraintCount slotType) (g.start slotType).toNat
                  ≤ (lp5 (g.start slotType)).minSize)
            ∧ (∀ j : Int, (lp3 j).minOffset ≤ (lp5 j).minOffset) := by
  obtain ⟨lp1, r, lp3, e1, e3, hok, hr, hw, hd1, hd2, hms, hitem, _, hr0, hsp1⟩ :=
    requiredLayout_ok slotType (c.slotPtr slotType) (c.constraintCount slotType)
      (c.gridCount slotType) c.contentPtr hv hs
  refine ⟨r, lp3, e3, hr0, ?_⟩
  intro maxOffset fuel hmax hfuel hfit
  -- the weights of the layout are the configured weights
  have hwt : ∀ j : Nat, (lp3 j).weight
      = configuredWeight (c.slotPtr slotType) (c.constraintCount slotType) j := by
    intro j
    obtain ⟨lp1b, e1b, hf1, _, _⟩ := binContent_ok slotType (c.gridCount slotType) c.contentPtr
      (initLayout (c.slotPtr slotType) (c.constraintCount slotType) (c.gridCount slotType)) hv
    rw [e1] at e1b
    injection e1b with e1b
    subst e1b
    rw [(hok.frame j).2.1, (resolveUniform_fields (c.gridCount slotType) lp1 j).1, (hf1 j).1,
      (initLayout_fields (c.slotPtr slotType) (c.constraintCount slotType)
        (c.gridCount slotType) j).2.2.2.2]
    unfold configuredWeight
    by_cases hj : j < c.constraintCount slotType
    · rw [if_pos (by omega), if_pos hj, Int.toNat_ofNat]
    · rw [if_neg (by omega), if_neg hj]
  have hB : (r + 3) * (sumFrom (fun k => (lp3 k).weight) 0 (c.gridCount slotType)
      + (c.gridCount slotType : Int) + 3) ≤ INT_MAX := by
    rw [sumFrom_congr (fun k => (lp3 k).weight)
      (configuredWeight (c.slotPtr slotType) (c.constraintCount slotType)) _ _
      (fun i _ _ => hwt i)]
    exact hfit
  have hchain : ∀ j : Nat, j < c.gridCount slotType →
      (lp3 ((j : Int) - 1)).minOffset + (lp3 j).minSize ≤ (lp3 j).minOffset := by
    intro j hj
    have := hok.ge_init j hj
    rw [(hok.frame j).1]
    omega
  obtain ⟨lp5, e5, q1, q2, q3, q4, q5⟩ := placeOffsets_ok slotType (c.slotPtr slotType)
    (c.gridCount slotType) lp3 maxOffset r hmax hr hw hd1 hd2 (fun j hj => (hms j hj).2)
    hchain hitem fuel hfuel hB
  refine ⟨lp5, ?_, q1, q2, ?_, q4, ?_, q5⟩
  · unfold ResolveConstraints
    simp only [e3, e5]
  · intro j hj
    exact le_trans (hms j hj).1 (q3 j)
  · intro g hg hg1
    exact le_trans (hsp1 g hg hg1) (q3 _)

/-! ### Step 5 without assumptions on the products

The lemmas of this section hold whatever the products of step 5 evaluate to: they use only
that the distribution loop computes the shares that the `do … while` loop has checked. -/

/-- While the products of step 5 fit in an `int` (`ResolveFits`), after
`ResolveConstraints` with target 0 on valid content and a slot table without negative
`minSize` or `weight`: the procedure returns (with fuel `r + gridCount`, `r` the required
size), and for every slot `j < gridCount` the written offsets satisfy
`offset[j] ≥ offset[j-1] + minSize[j]` (`offset[-1] = 0`, that is `current` is at least the
configured minimum, which is 0 beyond the slots that have constraints); hence the offsets
do not decrease with the slot index. -/
theorem resolveConstraints_min_widths (c : GridContainer) (slotType : SlotType)
    (hv : ∀ g, g ∈ c.contentPtr → ValidContent slotType (c.gridCount slotType) g)
    (hs : ∀ j, j < c.constraintCount slotType →
      0 ≤ (c.slotPtr slotType j).minSize ∧ 0 ≤ (c.slotPtr slotType j).weight) :
    ∃ r : Int, ∀ fuel : Nat, r.toNat + c.gridCount slotType ≤ fuel →
      ResolveFits c slotType r →
      ∃ slotPtr1, ResolveConstraints fuel c slotType 0 = Except.ok (r, slotPtr1)
        ∧ (∀ j, j < c.gridCount slotType →
            configuredMin (c.slotPtr slotType) (c.constraintCount slotType) j
              ≤ current slotPtr1 j)
        ∧ (∀ i j, i ≤ j → j < c.gridCount slotType →
            (slotPtr1 i).offset ≤ (slotPtr1 j).offset) := by
  obtain ⟨r, lp3, _, hr0, h⟩ := resolveConstraints_ok c slotType hv hs
  refine ⟨r, fun fuel hfuel hfit => ?_⟩
  obtain ⟨lp5, e, hinv, _, hmin, _, _, _⟩ := h 0 fuel hr0 hfuel hfit
  have hcur : ∀ j, j < c.gridCount slotType →
      current (copyOffsets (c.gridCount slotType) lp5 (c.slotPtr slotType)) j
        = (lp5 j).minOffset - (lp5 ((j : Int) - 1)).minOffset := by
    intro j hj
    unfold current
    by_cases h0 : j = 0
    · subst h0
      rw [if_pos rfl, copyOffsets_apply, if_pos hj]
      have e : (((0 : Nat) : Int) - 1) = -1 := by omega
      rw [e, hinv.dummy_min]
      simp
    · rw [if_neg h0, copyOffsets_apply, copyOffsets_apply, if_pos hj, if_pos (by omega)]
      have e : (((j - 1 : Nat) : Nat) : Int) = (j : Int) - 1 := by omega
      simp only [e]
  have hcfg : ∀ j, 0 ≤ configuredMin (c.slotPtr slotType) (c.constraintCount slotType) j := by
    intro j
    unfold configuredMin
    split
    · rename_i hj; exact (hs j hj).1
    · exact le_refl _
  have hwidth : ∀ j, j < c.gridCount slotType →
      configuredMin (c.slotPtr slotType) (c.constraintCount slotType) j
        ≤ current (copyOffsets (c.gridCount slotType) lp5 (c.slotPtr slotType)) j := by
    intro j hj
    rw [hcur j hj]
    have h1 := hinv.min_chain j hj
    have h2 := hmin j hj
    omega
  refine ⟨_, e, hwidth, ?_⟩
  intro i j hij hj
  have key : ∀ d : Nat, i + d < c.gridCount slotType →
      (copyOffsets (c.gridCount slotType) lp5 (c.slotPtr slotType) i).offset
        ≤ (copyOffsets (c.gridCount slotType) lp5 (c.slotPtr slotType) (i + d)).offset := by
    intro d
    induction d with
    | zero => intro _; exact le_refl _
    | succ d ih =>
      intro hd
      have h1 := ih (by omega)
      have h2 := hwidth (i + (d + 1)) hd
      have h3 := hcfg (i + (d + 1))
      unfold current at h2
      rw [if_neg (by omega)] at h2
      have e : i + (d + 1) - 1 = i + d := by omega
      rw [e] at h2
      omega
  have := key (j - i) (by omega)
  have e : i + (j - i) = j := by omega
  rw [e] at this
  exact this

/-- Step 1 reads only `minSize`, `weight`, `pad` and `uniform` of the slot table. -/
theorem initLayout_congr (sp sp1 : Nat → SlotInfo) (cc n : Nat)
    (h : ∀ j, (sp1 j).minSize = (sp j).minSize ∧ (sp1 j).weight = (sp j).weight
      ∧ (sp1 j).pad = (sp j).pad ∧ (sp1 j).uniform = (sp j).uniform) :
    initLayout sp1 cc n = initLayout sp cc n := by
  funext j
  unfold initLayout
  rw [(h j.toNat).1, (h j.toNat).2.1, (h j.toNat).2.2.1, (h j.toNat).2.2.2]

theorem setSlotPtr_fields (slotType : SlotType) (c : GridContainer) (sp1 : Nat → SlotInfo) :
    (c.setSlotPtr slotType sp1).slotPtr slotType = sp1
    ∧ (c.setSlotPtr slotType sp1).constraintCount slotType = c.constraintCount slotType
    ∧ (c.setSlotPtr slotType sp1).gridCount slotType = c.gridCount slotType
    ∧ (c.setSlotPtr slotType sp1).contentPtr = c.contentPtr := by
  cases slotType <;> exact ⟨rfl, rfl, rfl, rfl⟩

/-- A call of `ResolveConstraints` that returns has written the `minOffset` of some layout
into the offsets of the slots below `gridCount`; with another slot table that has the same
constraints the same layout is computed. -/
theorem resolveConstraints_result (fuel : Nat) (c : GridContainer) (slotType : SlotType)
    (maxOffset r : Int) (sp1 : Nat → SlotInfo)
    (h : ResolveConstraints fuel c slotType maxOffset = Except.ok (r, sp1)) :
    ∃ lp5, sp1 = copyOffsets (c.gridCount slotType) lp5 (c.slotPtr slotType)
      ∧ ∀ sp2 : Nat → SlotInfo,
          (∀ j, (sp2 j).minSize = (c.slotPtr slotType j).minSize
            ∧ (sp2 j).weight = (c.slotPtr slotType j).weight
            ∧ (sp2 j).pad = (c.slotPtr slotType j).pad
            ∧ (sp2 j).uniform = (c.slotPtr slotType j).uniform) →
          ResolveConstraints fuel (c.setSlotPtr slotType sp2) slotType maxOffset
            = Except.ok (r, copyOffsets (c.gridCount slotType) lp5 sp2) := by
  unfold ResolveConstraints at h
  dsimp only at h
  cases hreq : requiredLayout slotType (c.slotPtr slotType) (c.constraintCount slotType)
      (c.gridCount slotType) c.contentPtr with
  | error e => rw [hreq] at h; simp at h
  | ok st =>
    rw [hreq] at h
    simp only at h
    unfold placeOffsets at h
    simp only at h
    cases hsp : resolveSpans (c.gridCount slotType) fuel fuel 0
        (backwardPass slotType (c.gridCount slotType - 1)
          (if maxOffset > st.1 then maxOffset else st.1,
            forUp (c.gridCount slotType)
              (fun slot lp => setMaxOffset lp slot (if maxOffset > st.1 then maxOffset else st.1))
              st.2)).2 with
    | error e => rw [hsp] at h; simp at h
    | ok lp5 =>
      rw [hsp] at h
      simp only at h
      injection h with h
      obtain ⟨hr, hsp1⟩ := Prod.mk.inj h
      refine ⟨lp5, hsp1.symm, ?_⟩
      intro sp2 hsame
      obtain ⟨f1, f2, f3, f4⟩ := setSlotPtr_fields slotType c sp2
      unfold ResolveConstraints
      dsimp only
      rw [f1, f2, f3, f4]
      have hreq2 : requiredLayout slotType sp2 (c.constraintCount slotType)
          (c.gridCount slotType) c.contentPtr = Except.ok st := by
        unfold requiredLayout at hreq ⊢
        rw [initLayout_congr (c.slotPtr slotType) sp2 _ _ hsame]
        exact hreq
      rw [hreq2]
      simp only
      unfold placeOffsets
      simp only
      rw [hsp, hr]

/-- C5. `ResolveConstraints` is a function of its inputs, and it is idempotent: when a call
returns the required size `r` and the slot table `slotPtr1`, the same call on the
container with `slotPtr1` as slot table (constraints and content unchanged) returns `r`
and `slotPtr1` again; the call has changed no field other than `offset`, and no slot at or
beyond `gridCount`. -/
theorem resolveConstraints_idempotent (fuel : Nat) (c : GridContainer) (slotType : SlotType)
    (maxOffset r : Int) (slotPtr1 : Nat → SlotInfo)
    (h : ResolveConstraints fuel c slotType maxOffset = Except.ok (r, slotPtr1)) :
    ResolveConstraints fuel (c.setSlotPtr slotType slotPtr1) slotType maxOffset
      = Except.ok (r, slotPtr1)
    ∧ (∀ j, (slotPtr1 j).minSize = (c.slotPtr slotType j).minSize
        ∧ (slotPtr1 j).weight = (c.slotPtr slotType j).weight
        ∧ (slotPtr1 j).pad = (c.slotPtr slotType j).pad
        ∧ (slotPtr1 j).uniform = (c.slotPtr slotType j).uniform
        ∧ (slotPtr1 j).temp = (c.slotPtr slotType j).temp)
    ∧ (∀ j, c.gridCount slotType ≤ j → slotPtr1 j = c.slotPtr slotType j)
    ∧ (∀ (r2 : Int) (slotPtr2 : Nat → SlotInfo),
        ResolveConstraints fuel c slotType maxOffset = Except.ok (r2, slotPtr2) →
        r2 = r ∧ slotPtr2 = slotPtr1) := by
  obtain ⟨lp5, hsp, hrun⟩ := resolveConstraints_result fuel c slotType maxOffset r slotPtr1 h
  have hfields : ∀ j, (slotPtr1 j).minSize = (c.slotPtr slotType j).minSize
      ∧ (slotPtr1 j).weight = (c.slotPtr slotType j).weight
      ∧ (slotPtr1 j).pad = (c.slotPtr slotType j).pad
      ∧ (slotPtr1 j).uniform = (c.slotPtr slotType j).uniform
      ∧ (slotPtr1 j).temp = (c.slotPtr slotType j).temp := by
    intro j
    rw [hsp, copyOffsets_apply]
    split <;> exact ⟨rfl, rfl, rfl, rfl, rfl⟩
  refine ⟨?_, hfields, ?_, ?_⟩
  · rw [hrun slotPtr1 (fun j => ⟨(hfields j).1, (hfields j).2.1, (hfields j).2.2.1,
      (hfields j).2.2.2.1⟩)]
    have : copyOffsets (c.gridCount slotType) lp5 slotPtr1 = slotPtr1 := by
      funext j
      rw [copyOffsets_apply]
      split
      · rename_i hj
        rw [hsp, copyOffsets_apply, if_pos hj]
      · rfl
    rw [this]
  · intro j hj
    rw [hsp, copyOffsets_apply, if_neg (by omega)]
  · intro r2 sp2 h2
    rw [h] at h2
    injection h2 with h2
    obtain ⟨a, b⟩ := Prod.mk.inj h2
    exact ⟨a.symm, b.symm⟩

theorem resolveConstraints_idempotent_witness :
    ∃ (fuel : Nat) (r : Int) (slotPtr1 : Nat → SlotInfo),
      ResolveConstraints fuel sampleContainer SlotType.COLUMN 0 = Except.ok (r, slotPtr1)
      ∧ (ResolveConstraints fuel (sampleContainer.setSlotPtr SlotType.COLUMN slotPtr1)
            SlotType.COLUMN 0 = Except.ok (r, slotPtr1)
        ∧ (∀ j, (slotPtr1 j).minSize = (sampleContainer.slotPtr SlotType.COLUMN j).minSize
            ∧ (slotPtr1 j).weight = (sampleContainer.slotPtr SlotType.COLUMN j).weight
            ∧ (slotPtr1 j).pad = (sampleContainer.slotPtr SlotType.COLUMN j).pad
            ∧ (slotPtr1 j).uniform = (sampleContainer.slotPtr SlotType.COLUMN j).uniform
            ∧ (slotPtr1 j).temp = (sampleContainer.slotPtr SlotType.COLUMN j).temp)
        ∧ (∀ j, sampleContainer.gridCount SlotType.COLUMN ≤ j →
            slotPtr1 j = sampleContainer.slotPtr SlotType.COLUMN j)
        ∧ (∀ (r2 : Int) (slotPtr2 : Nat → SlotInfo),
            ResolveConstraints fuel sampleContainer SlotType.COLUMN 0
              = Except.ok (r2, slotPtr2) →
            r2 = r ∧ slotPtr2 = slotPtr1)) := by
  have hv : ∀ g, g ∈ sampleContainer.contentPtr →
      ValidContent SlotType.COLUMN (sampleContainer.gridCount SlotType.COLUMN) g := by decide
  have hs : ∀ j, j < sampleContainer.constraintCount SlotType.COLUMN →
      0 ≤ (sampleContainer.slotPtr SlotType.COLUMN j).minSize
        ∧ 0 ≤ (sampleContainer.slotPtr SlotType.COLUMN j).weight := fun j hj => by
    have h : j = 0 ∨ j = 1 ∨ j = 2 := by
      have : sampleContainer.constraintCount SlotType.COLUMN = 3 := rfl
      omega
    rcases h with h | h | h <;> subst h <;> decide
  obtain ⟨r, lp3, e3, hr0, h⟩ := resolveConstraints_ok sampleContainer SlotType.COLUMN hv hs
  have hr : r = 90 := by
    have e90 : ∃ lp, requiredLayout SlotType.COLUMN (sampleContainer.slotPtr SlotType.COLUMN)
        (sampleContainer.constraintCount SlotType.COLUMN)
        (sampleContainer.gridCount SlotType.COLUMN) sampleContainer.contentPtr
          = Except.ok (90, lp) := ⟨_, rfl⟩
    obtain ⟨lp, e⟩ := e90
    rw [e3] at e
    injection e with e
    exact (Prod.mk.inj e).1
  have hfit : ResolveFits sampleContainer SlotType.COLUMN r := by
    rw [hr]
    unfold ResolveFits
    decide
  obtain ⟨lp5, e, _⟩ :=
    h 0 (r.toNat + sampleContainer.gridCount SlotType.COLUMN) hr0 (le_refl _) hfit
  exact ⟨_, r, _, e, resolveConstraints_idempotent _ sampleContainer SlotType.COLUMN 0 r _ e⟩

/-- C1, at the failing input. Four columns without constraints, a content of nominal size
3 on the columns 1-2 and a content of nominal size 4 on the columns 0-3, target 0:
`ResolveConstraints` returns 4 and writes the offsets 1, 2, 3, 4, so the cell of the first
content is `offset[2] - offset[0] = 2` wide, less than its size 3. -/
theorem resolveConstraints_overlap_cell :
    (∀ g, g ∈ overlapExample.contentPtr →
      ValidContent SlotType.COLUMN (overlapExample.gridCount SlotType.COLUMN) g)
    ∧ overlapExample.contentPtr.map (fun g => g.nominal SlotType.COLUMN) = [3, 4]
    ∧ offsetsOf 4 (ResolveConstraints 8 overlapExample SlotType.COLUMN 0)
        = some (4, [1, 2, 3, 4]) := by
  refine ⟨by decide, by decide, ?_⟩
  decide!

theorem psum_nonneg_below (f : Nat → Int) (n : Nat) (hf : ∀ i, i < n → 0 ≤ f i) :
    0 ≤ psum f n := by
  induction n with
  | zero => simp [psum]
  | succ n ih =>
    simp only [psum]
    have := ih (fun i hi => hf i (by omega))
    have := hf n (by omega)
    omega

theorem psum_term_le_below (f : Nat → Int) (n : Nat) (hf : ∀ i, i < n → 0 ≤ f i)
    (j : Nat) (hj : j < n) : f j ≤ psum f n := by
  induction n with
  | zero => omega
  | succ n ih =>
    simp only [psum]
    have h0 := psum_nonneg_below f n (fun i hi => hf i (by omega))
    by_cases h : j = n
    · subst h; omega
    · have := ih (fun i hi => hf i (by omega)) (by omega)
      have := hf n (by omega)
      omega

/-- The loop of lines 1586-1596 changes only the field `temp`. -/
theorem tempLoop_fields (slots : Nat) (slotPtr : Nat → SlotInfo) (j : Nat) :
    ((tempLoop slots slotPtr).2 j).weight = (slotPtr j).weight
    ∧ ((tempLoop slots slotPtr).2 j).minSize = (slotPtr j).minSize
    ∧ ((tempLoop slots slotPtr).2 j).offset = (slotPtr j).offset := by
  rw [tempLoop_eq]; by_cases hj : j < slots <;> simp [hj]

/-- One pass of the shrink loop whose products fit in an `int` distributes an amount
between `diff` and `-1`, whatever the widths of the slots are. -/
theorem shrinkPass_bounds (slots : Nat) (diff : Int) (slotPtr : Nat → SlotInfo)
    (hw : ∀ j, 0 ≤ (slotPtr j).weight)
    (hdiff : diff < 0) (hT : (shrinkWeights slots slotPtr).1 ≠ 0)
    (hfit : ShrinkFits slots diff slotPtr) :
    diff ≤ shrinkNewDiff diff (shrinkWeights slots slotPtr).1 slots (shrinkWeights slots slotPtr).2
    ∧ shrinkNewDiff diff (shrinkWeights slots slotPtr).1 slots (shrinkWeights slots slotPtr).2
        ≤ -1 := by
  have hsw0 : ∀ i, i < slots → 0 ≤ shrinkWeightOf slotPtr i := by
    intro i hi; unfold shrinkWeightOf; split
    · exact hw i
    · exact le_refl _
  have htw : 0 < psum (shrinkWeightOf slotPtr) slots := by
    have h1 := psum_nonneg_below _ slots hsw0
    have h2 : psum (shrinkWeightOf slotPtr) slots ≠ 0 := by
      rw [shrinkWeights_eq] at hT; exact hT
    omega
  have hf1 := (shrinkPass_fits slots diff slotPtr hw hfit).1
  rw [shrinkWeights_eq] at hf1 ⊢
  simp only at hf1 ⊢
  generalize hsp2 : (fun j => if j < slots then
      { slotPtr j with temp := shrinkWeightOf slotPtr j } else slotPtr j) = sp2 at hf1 ⊢
  have htemp : ∀ j, j < slots → (sp2 j).temp = shrinkWeightOf slotPtr j := by
    intro j hj; rw [← hsp2]; simp [hj]
  have hmins : ∀ j, (sp2 j).minSize = (slotPtr j).minSize := by
    intro j; rw [← hsp2]; by_cases hj : j < slots <;> simp [hj]
  have hcur : ∀ j, current sp2 j = current slotPtr j := by
    intro j
    apply current_congr
    intro i; rw [← hsp2]; by_cases hi : i < slots <;> simp [hi]
  generalize htwd : psum (shrinkWeightOf slotPtr) slots = tw at htw hf1
  have hf1 : ∀ j, j < slots → (sp2 j).temp ≠ 0 →
      wrapInt (tw * ((sp2 j).minSize - current sp2 j))
        = tw * ((sp2 j).minSize - current sp2 j) := by
    subst hsp2; exact hf1
  refine ⟨shrinkNewDiff_ge_diff diff tw sp2 slots, ?_⟩
  refine shrinkNewDiff_le diff tw sp2 slots (-1) (by omega) ?_ hf1
  intro j hj ht
  rw [htemp j hj] at ht
  have hle : shrinkWeightOf slotPtr j ≤ tw := by
    rw [← htwd]; exact psum_term_le_below _ slots hsw0 j hj
  have hgt : current slotPtr j > (slotPtr j).minSize := by
    by_contra hc
    apply ht; unfold shrinkWeightOf; simp [hc]
  have hsw : shrinkWeightOf slotPtr j = (slotPtr j).weight := by
    unfold shrinkWeightOf; simp [hgt]
  rw [hsw] at ht hle
  have hpos : 0 < (slotPtr j).weight := by have := hw j; omega
  rw [htemp j hj, hsw, hmins, hcur]
  have e : tw * ((slotPtr j).minSize - current slotPtr j)
      = -(tw * (current slotPtr j - (slotPtr j).minSize)) := by ring
  rw [e, Int.neg_tdiv, Int.tdiv_eq_ediv (Int.mul_nonneg (le_of_lt htw) (by omega))
    (le_of_lt hpos)]
  have : 1 ≤ tw * (current slotPtr j - (slotPtr j).minSize) / (slotPtr j).weight := by
    apply Int.le_ediv_of_mul_le hpos
    have : 1 ≤ current slotPtr j - (slotPtr j).minSize := by omega
    nlinarith
  omega

/-- The shrink loop whose products fit in an `int` ends within `|diff|` passes. -/
theorem shrinkLoop_terminates (slots : Nat) :
    ∀ (fuel : Nat) (diff : Int) (slotPtr : Nat → SlotInfo),
      (∀ j, 0 ≤ (slotPtr j).weight) →
      (-diff).toNat ≤ fuel → ShrinkFits slots diff slotPtr →
      ∃ slotPtr1, shrinkLoop slots fuel diff slotPtr = Except.ok slotPtr1 := by
  intro fuel
  induction fuel with
  | zero =>
    intro diff slotPtr _ hfuel _
    have hd : ¬ diff < 0 := by omega
    refine ⟨slotPtr, ?_⟩
    unfold shrinkLoop
    simp [hd]
  | succ fuel ih =>
    intro diff slotPtr hw hfuel hfit
    by_cases hd : diff < 0
    · unfold shrinkLoop
      simp only [hd, if_true]
      by_cases hT : (shrinkWeights slots slotPtr).1 = 0
      · simp only [hT, if_true]
        exact ⟨_, rfl⟩
      · simp only [hT, if_false]
        obtain ⟨h1, h2⟩ := shrinkPass_bounds slots diff slotPtr hw hd hT hfit
        apply ih
        · intro j
          rw [(shrinkPass_fields slots _ slotPtr
            ((shrinkPass_fits slots diff slotPtr hw hfit).2 _ h1 (by omega)) j).2]
          exact hw j
        · omega
        · exact shrinkFits_step slots diff _ slotPtr hw hfit hT h1 (by omega)
    · refine ⟨slotPtr, ?_⟩
      unfold shrinkLoop
      simp [hd]

/-- While the products fit in an `int` (`AdjustFits`, `ShrinkFits`), `AdjustOffsets`
terminates on every input with at least one slot and weights that are not negative: with
fuel for `|diff|` passes of the shrink loop, where `diff = size - slotPtr[slots-1].offset`,
the call returns (one unit of fuel is one pass, so the loop runs at most `|diff|` times);
and in every pass of the loop that does not leave it, the amount `newDiff` distributed is
at least `diff` and at most `-1`, so the remaining deficit `diff - newDiff` is strictly
greater than `diff` and not above 0. -/
theorem adjustOffsets_terminates (size : Int) (slots : Nat) (slotPtr : Nat → SlotInfo)
    (hslots : 0 < slots) (hw : ∀ j, 0 ≤ (slotPtr j).weight)
    (hfit : AdjustFits size slots slotPtr) :
    (∀ fuel : Nat, ((slotPtr (slots - 1)).offset - size).toNat ≤ fuel →
      ∃ r slotPtr1, AdjustOffsets fuel size slots slotPtr = Except.ok (r, slotPtr1))
    ∧ (∀ (diff : Int) (slotPtr0 : Nat → SlotInfo),
        (∀ j, 0 ≤ (slotPtr0 j).weight) → diff < 0 →
        (shrinkWeights slots slotPtr0).1 ≠ 0 → ShrinkFits slots diff slotPtr0 →
        diff ≤ shrinkNewDiff diff (shrinkWeights slots slotPtr0).1 slots
            (shrinkWeights slots slotPtr0).2
        ∧ shrinkNewDiff diff (shrinkWeights slots slotPtr0).1 slots
            (shrinkWeights slots slotPtr0).2 ≤ -1
        ∧ diff < diff - shrinkNewDiff diff (shrinkWeights slots slotPtr0).1 slots
            (shrinkWeights slots slotPtr0).2
        ∧ diff - shrinkNewDiff diff (shrinkWeights slots slotPtr0).1 slots
            (shrinkWeights slots slotPtr0).2 ≤ 0) := by
  constructor
  · intro fuel hfuel
    have hs0 : slots ≠ 0 := by omega
    unfold AdjustOffsets
    simp only [hs0, if_false]
    split
    · exact ⟨_, _, rfl⟩
    split
    · exact ⟨_, _, rfl⟩
    split
    · exact ⟨_, _, rfl⟩
    split
    · exact ⟨_, _, rfl⟩
    obtain ⟨sp1, e1⟩ := shrinkLoop_terminates slots fuel (size - (slotPtr (slots - 1)).offset)
      (tempLoop slots slotPtr).2
      (fun j => by rw [(tempLoop_fields slots slotPtr j).1]; exact hw j)
      (by omega)
      (shrinkFits_congr slots _ slotPtr _ (tempLoop_fields slots slotPtr) hfit.2)
    rw [e1]
    exact ⟨_, _, rfl⟩
  · intro diff sp0 hw0 hd hT hf0
    obtain ⟨h1, h2⟩ := shrinkPass_bounds slots diff sp0 hw0 hd hT hf0
    exact ⟨h1, h2, by omega, by omega⟩

theorem adjustOffsets_terminates_witness :
    (∀ fuel : Nat, ((shrinkExample (2 - 1)).offset - 70).toNat ≤ fuel →
      ∃ r slotPtr1, AdjustOffsets fuel 70 2 shrinkExample = Except.ok (r, slotPtr1))
    ∧ (∀ (diff : Int) (slotPtr0 : Nat → SlotInfo),
        (∀ j, 0 ≤ (slotPtr0 j).weight) → diff < 0 →
        (shrinkWeights 2 slotPtr0).1 ≠ 0 → ShrinkFits 2 diff slotPtr0 →
        diff ≤ shrinkNewDiff diff (shrinkWeights 2 slotPtr0).1 2 (shrinkWeights 2 slotPtr0).2
        ∧ shrinkNewDiff diff (shrinkWeights 2 slotPtr0).1 2 (shrinkWeights 2 slotPtr0).2 ≤ -1
        ∧ diff < diff - shrinkNewDiff diff (shrinkWeights 2 slotPtr0).1 2
            (shrinkWeights 2 slotPtr0).2
        ∧ diff - shrinkNewDiff diff (shrinkWeights 2 slotPtr0).1 2
            (shrinkWeights 2 slotPtr0).2 ≤ 0) :=
  adjustOffsets_terminates 70 2 shrinkExample (by decide)
    (fun j => by unfold shrinkExample; split <;> decide)
    (by unfold AdjustFits ShrinkFits; decide)

/-- The offset of a slot is the sum of the widths of the slots up to it. -/
theorem offset_eq_psum_current (slotPtr : Nat → SlotInfo) (n : Nat) :
    (slotPtr n).offset = psum (current slotPtr) (n + 1) := by
  induction n with
  | zero => simp [psum, current]
  | succ n ih =>
    have h : psum (current slotPtr) (n + 1 + 1)
        = psum (current slotPtr) (n + 1) + current slotPtr (n + 1) := rfl
    rw [h, ← ih]
    unfold current
    simp

/-- While the products fit in an `int` (`AdjustFits`), in every branch of `AdjustOffsets`
the slots that were at least `minSize` wide stay at least `minSize` wide, and the call
returns when the fuel covers `|diff|` passes. -/
theorem adjustOffsets_widths (fuel : Nat) (size : Int) (slots : Nat)
    (slotPtr : Nat → SlotInfo) (hslots : 0 < slots)
    (hw : ∀ j, 0 ≤ (slotPtr j).weight)
    (hmin : ∀ j, j < slots → (slotPtr j).minSize ≤ current slotPtr j)
    (hfuel : ((slotPtr (slots - 1)).offset - size).toNat ≤ fuel)
    (hfit : AdjustFits size slots slotPtr) :
    ∃ r slotPtr1, AdjustOffsets fuel size slots slotPtr = Except.ok (r, slotPtr1)
      ∧ ∀ j, j < slots →
          (slotPtr1 j).minSize = (slotPtr j).minSize ∧ (slotPtr j).minSize ≤ current slotPtr1 j := by
  have hs0 : slots ≠ 0 := by omega
  by_cases hd0 : size - (slotPtr (slots - 1)).offset = 0
  · refine ⟨size, slotPtr, ?_, fun j hj => ⟨rfl, hmin j hj⟩⟩
    unfold AdjustOffsets
    simp [hs0, hd0]
  by_cases hT : sumWeights slots slotPtr = 0
  · refine ⟨(slotPtr (slots - 1)).offset, slotPtr, ?_, fun j hj => ⟨rfl, hmin j hj⟩⟩
    unfold AdjustOffsets
    simp [hs0, hd0, hT]
  have hTpos : 0 < sumWeights slots slotPtr := by
    have := psum_nonneg (fun i => (slotPtr i).weight) hw slots
    rw [← sumWeights_eq] at this
    omega
  by_cases hgrow : (slotPtr (slots - 1)).offset < size
  · have hgf := grow_fits (size - (slotPtr (slots - 1)).offset) slots slotPtr hw (by omega)
      (by rw [mul_comm]; exact hfit.1)
    refine ⟨size, _, adjustOffsets_grow_eq fuel size slots slotPtr hslots hT hgrow,
      fun j hj => ⟨?_, le_trans (hmin j hj)
        (current_grow_le _ _ slots slotPtr hw hTpos (by omega) hgf j hj)⟩⟩
    rw [growLoop_eq _ _ _ _ hgf]
    simp [hj]
  have hshrink : size < (slotPtr (slots - 1)).offset := by omega
  by_cases hsz : size ≤ psum (tempOf slotPtr) slots
  · obtain ⟨sp1, h1, h2, h3⟩ := adjustOffsets_min_eq fuel size slots slotPtr hslots hT hshrink hsz
    refine ⟨_, sp1, h1, fun j hj => ⟨(h3 j).1, ?_⟩⟩
    rw [h2 j hj]
    unfold tempOf
    split
    · exact le_refl _
    · exact hmin j hj
  · have hfields : ∀ j, ((tempLoop slots slotPtr).2 j).minSize = (slotPtr j).minSize
        ∧ ((tempLoop slots slotPtr).2 j).weight = (slotPtr j).weight := by
      intro j; rw [tempLoop_eq]; by_cases hj : j < slots <;> simp [hj]
    have hcur : ∀ j, current (tempLoop slots slotPtr).2 j = current slotPtr j := by
      intro j
      apply current_congr
      intro i; rw [tempLoop_eq]; by_cases hi : i < slots <;> simp [hi]
    obtain ⟨sp1, e1, e2, e3⟩ := shrinkLoop_inv slots fuel (size - (slotPtr (slots - 1)).offset)
      (tempLoop slots slotPtr).2
      (fun j => by rw [(hfields j).2]; exact hw j)
      (fun j hj => by rw [(hfields j).1, hcur]; exact hmin j hj)
      (by omega)
      (shrinkFits_congr slots _ slotPtr _ (tempLoop_fields slots slotPtr) hfit.2)
    refine ⟨size, sp1, ?_, fun j hj => ⟨?_, ?_⟩⟩
    · unfold AdjustOffsets
      have h3 : ¬ size - (slotPtr (slots - 1)).offset > 0 := by omega
      have h4 : ¬ size ≤ (tempLoop slots slotPtr).1 := by rw [tempLoop_eq]; exact hsz
      simp only [hs0, if_false, hd0, hT, h3, h4, e1]
    · rw [(e2 j).1, (hfields j).1]
    · have := e3 j hj
      rw [(hfields j).1] at this
      exact this

/-- While the products fit in an `int` (`AdjustFits`), `AdjustOffsets` on at least one
slot, with weights that are not negative and every slot at least `minSize` wide before the
call, returns (given fuel for `|diff|` passes of the shrink loop), and afterwards the total
resolved size, the offset of the last slot, is at least the sum of the `minSize` of all the
slots. -/
theorem adjustOffsets_total_ge_minimums (fuel : Nat) (size : Int) (slots : Nat)
    (slotPtr : Nat → SlotInfo) (hslots : 0 < slots)
    (hw : ∀ j, 0 ≤ (slotPtr j).weight)
    (hmin : ∀ j, j < slots → (slotPtr j).minSize ≤ current slotPtr j)
    (hfuel : ((slotPtr (slots - 1)).offset - size).toNat ≤ fuel)
    (hfit : AdjustFits size slots slotPtr) :
    ∃ r slotPtr1, AdjustOffsets fuel size slots slotPtr = Except.ok (r, slotPtr1)
      ∧ psum (fun j => (slotPtr j).minSize) slots ≤ (slotPtr1 (slots - 1)).offset
      ∧ psum (fun j => (slotPtr1 j).minSize) slots ≤ (slotPtr1 (slots - 1)).offset := by
  obtain ⟨r, sp1, e, h⟩ :=
    adjustOffsets_widths fuel size slots slotPtr hslots hw hmin hfuel hfit
  have hoff : (sp1 (slots - 1)).offset = psum (current sp1) slots := by
    have := offset_eq_psum_current sp1 (slots - 1)
    rw [show slots - 1 + 1 = slots by omega] at this
    exact this
  refine ⟨r, sp1, e, ?_, ?_⟩
  · rw [hoff]
    exact psum_le_psum _ _ slots (fun j hj => (h j hj).2)
  · rw [hoff]
    exact psum_le_psum _ _ slots (fun j hj => by rw [(h j hj).1]; exact (h j hj).2)

theorem adjustOffsets_total_ge_minimums_witness :
    ∃ r slotPtr1, AdjustOffsets 30 70 2 shrinkExample = Except.ok (r, slotPtr1)
      ∧ psum (fun j => (shrinkExample j).minSize) 2 ≤ (slotPtr1 (2 - 1)).offset
      ∧ psum (fun j => (slotPtr1 j).minSize) 2 ≤ (slotPtr1 (2 - 1)).offset :=
  adjustOffsets_total_ge_minimums 30 70 2 shrinkExample (by decide)
    (fun j => by unfold shrinkExample; split <;> decide)
    (fun j hj => by
      have h : j = 0 ∨ j = 1 := by omega
      rcases h with h | h <;> subst h <;> decide)
    (by decide) (by unfold AdjustFits ShrinkFits; decide)

/-- C13. `AdjustForSticky` on a content with the four sticky flags set: for every cavity
and every requested size the result is the cavity inset by the outer padding,
`x + padLeft`, `y + padTop`, `width - padX`, `height - padY`; without outer padding the
result is the cavity itself. -/
theorem adjustForSticky_nsew (contentPtr : Gridder) (x y width height : Int)
    (hn : stuck contentPtr.sticky STICK_NORTH = true)
    (he : stuck contentPtr.sticky STICK_EAST = true)
    (hs : stuck contentPtr.sticky STICK_SOUTH = true)
    (hw : stuck contentPtr.sticky STICK_WEST = true) :
    AdjustForSticky contentPtr x y width height
      = (x + contentPtr.padLeft, y + contentPtr.padTop, width - contentPtr.padX,
          height - contentPtr.padY)
    ∧ (contentPtr.padLeft = 0 → contentPtr.padTop = 0 → contentPtr.padX = 0 →
        contentPtr.padY = 0 →
        AdjustForSticky contentPtr x y width height = (x, y, width, height)) := by
  have h : AdjustForSticky contentPtr x y width height
      = (x + contentPtr.padLeft, y + contentPtr.padTop, width - contentPtr.padX,
          height - contentPtr.padY) := by
    unfold AdjustForSticky
    by_cases hx : width - contentPtr.padX > contentPtr.reqWidth + contentPtr.iPadX <;>
      by_cases hy : height - contentPtr.padY > contentPtr.reqHeight + contentPtr.iPadY <;>
      simp only [hn, he, hs, hw, hx, hy, Bool.and_self, if_true, Bool.not_true,
        Bool.false_eq_true, if_false, Prod.mk.injEq, true_and, and_true] <;>
      omega
  refine ⟨h, ?_⟩
  intro h1 h2 h3 h4
  rw [h, h1, h2, h3, h4]
  simp

theorem adjustForSticky_nsew_witness :
    AdjustForSticky (stickyContent 15) 100 200 50 40
      = (100 + (stickyContent 15).padLeft, 200 + (stickyContent 15).padTop,
          50 - (stickyContent 15).padX, 40 - (stickyContent 15).padY)
    ∧ ((stickyContent 15).padLeft = 0 → (stickyContent 15).padTop = 0 →
        (stickyContent 15).padX = 0 → (stickyContent 15).padY = 0 →
        AdjustForSticky (stickyContent 15) 100 200 50 40 = (100, 200, 50, 40)) :=
  adjustForSticky_nsew (stickyContent 15) 100 200 50 40 (by decide) (by decide) (by decide)
    (by decide)

/-- C14. `AdjustForSticky` on a content without sticky flags whose requested size plus inner
padding is smaller than the cavity less the outer padding, in both directions: the result
has the width `reqWidth + iPadX` and the height `reqHeight + iPadY`, and it is centred:
with `slackX = (width - padX) - (reqWidth + iPadX)` the left edge is at
`x + padLeft + floor(slackX / 2)`, likewise for `y`; the slack left of the content and the
slack right of it add up to `slackX` and differ by at most one pixel, likewise above and
below. -/
theorem adjustForSticky_centre (contentPtr : Gridder) (x y width height : Int)
    (hn : stuck contentPtr.sticky STICK_NORTH = false)
    (he : stuck contentPtr.sticky STICK_EAST = false)
    (hs : stuck contentPtr.sticky STICK_SOUTH = false)
    (hw : stuck contentPtr.sticky STICK_WEST = false)
    (hx : contentPtr.reqWidth + contentPtr.iPadX < width - contentPtr.padX)
    (hy : contentPtr.reqHeight + contentPtr.iPadY < height - contentPtr.padY) :
    ∃ x1 y1 width1 height1,
      AdjustForSticky contentPtr x y width height = (x1, y1, width1, height1)
      ∧ width1 = contentPtr.reqWidth + contentPtr.iPadX
      ∧ height1 = contentPtr.reqHeight + contentPtr.iPadY
      ∧ x1 = x + contentPtr.padLeft
          + ((width - contentPtr.padX) - (contentPtr.reqWidth + contentPtr.iPadX)) / 2
      ∧ y1 = y + contentPtr.padTop
          + ((height - contentPtr.padY) - (contentPtr.reqHeight + contentPtr.iPadY)) / 2
      ∧ (x1 - (x + contentPtr.padLeft))
          + ((x + contentPtr.padLeft + (width - contentPtr.padX)) - (x1 + width1))
          = (width - contentPtr.padX) - (contentPtr.reqWidth + contentPtr.iPadX)
      ∧ ((x + contentPtr.padLeft + (width - contentPtr.padX)) - (x1 + width1))
          - (x1 - (x + contentPtr.padLeft)) ≤ 1
      ∧ 0 ≤ ((x + contentPtr.padLeft + (width - contentPtr.padX)) - (x1 + width1))
          - (x1 - (x + contentPtr.padLeft))
      ∧ (y1 - (y + contentPtr.padTop))
          + ((y + contentPtr.padTop + (height - contentPtr.padY)) - (y1 + height1))
          = (height - contentPtr.padY) - (contentPtr.reqHeight + contentPtr.iPadY)
      ∧ ((y + contentPtr.padTop + (height - contentPtr.padY)) - (y1 + height1))
          - (y1 - (y + contentPtr.padTop)) ≤ 1
      ∧ 0 ≤ ((y + contentPtr.padTop + (height - contentPtr.padY)) - (y1 + height1))
          - (y1 - (y + contentPtr.padTop)) := by
  have hx1 : width - contentPtr.padX > contentPtr.reqWidth + contentPtr.iPadX := hx
  have hy1 : height - contentPtr.padY > contentPtr.reqHeight + contentPtr.iPadY := hy
  have ex : Int.tdiv ((width - contentPtr.padX) - (contentPtr.reqWidth + contentPtr.iPadX)) 2
      = ((width - contentPtr.padX) - (contentPtr.reqWidth + contentPtr.iPadX)) / 2 :=
    Int.tdiv_eq_ediv (by omega) (by decide)
  have ey : Int.tdiv ((height - contentPtr.padY) - (contentPtr.reqHeight + contentPtr.iPadY)) 2
      = ((height - contentPtr.padY) - (contentPtr.reqHeight + contentPtr.iPadY)) / 2 :=
    Int.tdiv_eq_ediv (by omega) (by decide)
  refine ⟨_, _, _, _, rfl, ?_, ?_, ?_, ?_, ?_, ?_, ?_, ?_, ?_, ?_⟩ <;>
    simp only [hn, he, hs, hw, hx1, hy1, Bool.and_self, if_true, Bool.not_false,
      Bool.false_eq_true, if_false, ex, ey] <;> omega

theorem adjustForSticky_centre_witness :
    ∃ x1 y1 width1 height1,
      AdjustForSticky (stickyContent 0) 100 200 50 40 = (x1, y1, width1, height1)
      ∧ width1 = (stickyContent 0).reqWidth + (stickyContent 0).iPadX
      ∧ height1 = (stickyContent 0).reqHeight + (stickyContent 0).iPadY
      ∧ x1 = 100 + (stickyContent 0).padLeft
          + ((50 - (stickyContent 0).padX)
              - ((stickyContent 0).reqWidth + (stickyContent 0).iPadX)) / 2
      ∧ y1 = 200 + (stickyContent 0).padTop
          + ((40 - (stickyContent 0).padY)
              - ((stickyContent 0).reqHeight + (stickyContent 0).iPadY)) / 2
      ∧ (x1 - (100 + (stickyContent 0).padLeft))
          + ((100 + (stickyContent 0).padLeft + (50 - (stickyContent 0).padX)) - (x1 + width1))
          = (50 - (stickyContent 0).padX)
              - ((stickyContent 0).reqWidth + (stickyContent 0).iPadX)
      ∧ ((100 + (stickyContent 0).padLeft + (50 - (stickyContent 0).padX)) - (x1 + width1))
          - (x1 - (100 + (stickyContent 0).padLeft)) ≤ 1
      ∧ 0 ≤ ((100 + (stickyContent 0).padLeft + (50 - (stickyContent 0).padX)) - (x1 + width1))
          - (x1 - (100 + (stickyContent 0).padLeft))
      ∧ (y1 - (200 + (stickyContent 0).padTop))
          + ((200 + (stickyContent 0).padTop + (40 - (stickyContent 0).padY)) - (y1 + height1))
          = (40 - (stickyContent 0).padY)
              - ((stickyContent 0).reqHeight + (stickyContent 0).iPadY)
      ∧ ((200 + (stickyContent 0).padTop + (40 - (stickyContent 0).padY)) - (y1 + height1))
          - (y1 - (200 + (stickyContent 0).padTop)) ≤ 1
      ∧ 0 ≤ ((200 + (stickyContent 0).padTop + (40 - (stickyContent 0).padY)) - (y1 + height1))
          - (y1 - (200 + (stickyContent 0).padTop)) :=
  adjustForSticky_centre (stickyContent 0) 100 200 50 40 (by decide) (by decide) (by decide)
    (by decide) (by decide) (by decide)

/-- While the sum `max(newColumn, 0) + newSpan` fits in an `int`, `SetContentColumn` fails
exactly when that sum is at least `MAX_ELEMENT` (10000), where `newColumn` is the column
argument, or the current column when the argument is negative, and `newSpan` is the span
argument, or the current span when the argument is below 1; on failure the content is
unchanged; on success the column and the span are the new values and every other field is
unchanged.  The same holds for `SetContentRow`. -/
theorem setContent_bounds (contentPtr : Gridder) (slot span : Int)
    (hc : -2147483648 ≤ max (if slot < 0 then contentPtr.column else slot) 0
            + (if span < 1 then contentPtr.numCols else span)
          ∧ max (if slot < 0 then contentPtr.column else slot) 0
            + (if span < 1 then contentPtr.numCols else span) ≤ INT_MAX)
    (hr : -2147483648 ≤ max (if slot < 0 then contentPtr.row else slot) 0
            + (if span < 1 then contentPtr.numRows else span)
          ∧ max (if slot < 0 then contentPtr.row else slot) 0
            + (if span < 1 then contentPtr.numRows else span) ≤ INT_MAX) :
    ((SetContentColumn contentPtr slot span).1 = TclStatus.TCL_ERROR ↔
      max (if slot < 0 then contentPtr.column else slot) 0
        + (if span < 1 then contentPtr.numCols else span) ≥ 10000)
    ∧ ((SetContentColumn contentPtr slot span).1 = TclStatus.TCL_ERROR →
        (SetContentColumn contentPtr slot span).2 = contentPtr)
    ∧ ((SetContentColumn contentPtr slot span).1 = TclStatus.TCL_OK →
        (SetContentColumn contentPtr slot span).2 =
          { contentPtr with
            column := if slot < 0 then contentPtr.column else slot
            numCols := if span < 1 then contentPtr.numCols else span })
    ∧ ((SetContentRow contentPtr slot span).1 = TclStatus.TCL_ERROR ↔
      max (if slot < 0 then contentPtr.row else slot) 0
        + (if span < 1 then contentPtr.numRows else span) ≥ 10000)
    ∧ ((SetContentRow contentPtr slot span).1 = TclStatus.TCL_ERROR →
        (SetContentRow contentPtr slot span).2 = contentPtr)
    ∧ ((SetContentRow contentPtr slot span).1 = TclStatus.TCL_OK →
        (SetContentRow contentPtr slot span).2 =
          { contentPtr with
            row := if slot < 0 then contentPtr.row else slot
            numRows := if span < 1 then contentPtr.numRows else span }) := by
  have e1 : (if slot ≥ 0 then slot else contentPtr.column)
      = (if slot < 0 then contentPtr.column else slot) := by
    split <;> split <;> first | rfl | omega
  have e2 : (if span ≥ 1 then span else contentPtr.numCols)
      = (if span < 1 then contentPtr.numCols else span) := by
    split <;> split <;> first | rfl | omega
  have e3 : (if slot ≥ 0 then slot else contentPtr.row)
      = (if slot < 0 then contentPtr.row else slot) := by
    split <;> split <;> first | rfl | omega
  have e4 : (if span ≥ 1 then span else contentPtr.numRows)
      = (if span < 1 then contentPtr.numRows else span) := by
    split <;> split <;> first | rfl | omega
  have m : ∀ a : Int, (if a ≥ 0 then a else 0) = max a 0 := by
    intro a; split <;> omega
  unfold SetContentColumn SetContentRow
  simp only [e1, e2, e3, e4, m, MAX_ELEMENT]
  generalize (if slot < 0 then contentPtr.column else slot) = newColumn at hc
  generalize (if span < 1 then contentPtr.numCols else span) = newNumCols at hc
  generalize (if slot < 0 then contentPtr.row else slot) = newRow at hr
  generalize (if span < 1 then contentPtr.numRows else span) = newNumRows at hr
  rw [wrapInt_eq _ hc.1 hc.2, wrapInt_eq _ hr.1 hr.2]
  by_cases hc1 : max newColumn 0 + newNumCols ≥ 10000 <;>
    by_cases hr1 : max newRow 0 + newNumRows ≥ 10000 <;>
    simp [hc1, hr1]

/-- C19, at the failing input.  `grid .a -column 2147483647` calls
`SetContentColumn(contentPtr, 2147483647, -1)` on a content of span 1: the sum
`max(newColumn, 0) + newSpan` is 2147483648, not below `MAX_ELEMENT`, yet the `int`
`lastCol` of line 2578 is -2147483648, the test of line 2579 does not fire, the call
returns `TCL_OK` and the content is left at the column 2147483647.  `SetContentRow` does
the same with `lastRow` of line 2619. -/
theorem setContent_wraps :
    (stickyContent 0).numCols = 1 ∧ (stickyContent 0).numRows = 1
    ∧ max (2147483647 : Int) 0 + (stickyContent 0).numCols ≥ MAX_ELEMENT
    ∧ wrapInt (max (2147483647 : Int) 0 + (stickyContent 0).numCols) = -2147483648
    ∧ SetContentColumn (stickyContent 0) 2147483647 (-1)
        = (TclStatus.TCL_OK, { stickyContent 0 with column := 2147483647 })
    ∧ SetContentRow (stickyContent 0) 2147483647 (-1)
        = (TclStatus.TCL_OK, { stickyContent 0 with row := 2147483647 }) := by
  refine ⟨rfl, rfl, by decide, by decide, by decide, by decide⟩

/-! ### The slot table -/

theorem slotPtr_setSlotPtr (t t1 : SlotType) (c : GridContainer) (sp : Nat → SlotInfo) :
    (c.setSlotPtr t sp).slotPtr t1 = if t1 = t then sp else c.slotPtr t1 := by
  cases t <;> cases t1 <;> rfl

theorem space_setSlotPtr (t t1 : SlotType) (c : GridContainer) (sp : Nat → SlotInfo) :
    (c.setSlotPtr t sp).space t1 = c.space t1 := by
  cases t <;> cases t1 <;> rfl

theorem constraintCount_setSlotPtr (t t1 : SlotType) (c : GridContainer) (sp : Nat → SlotInfo) :
    (c.setSlotPtr t sp).constraintCount t1 = c.constraintCount t1 := by
  cases t <;> cases t1 <;> rfl

theorem slotPtr_setSpace (t t1 : SlotType) (c : GridContainer) (v : Nat) :
    (c.setSpace t v).slotPtr t1 = c.slotPtr t1 := by
  cases t <;> cases t1 <;> rfl

theorem space_setSpace (t t1 : SlotType) (c : GridContainer) (v : Nat) :
    (c.setSpace t v).space t1 = if t1 = t then v else c.space t1 := by
  cases t <;> cases t1 <;> rfl

theorem constraintCount_setSpace (t t1 : SlotType) (c : GridContainer) (v : Nat) :
    (c.setSpace t v).constraintCount t1 = c.constraintCount t1 := by
  cases t <;> cases t1 <;> rfl

theorem slotPtr_setMax (t t1 : SlotType) (c : GridContainer) (v : Nat) :
    (c.setMax t v).slotPtr t1 = c.slotPtr t1 := by
  cases t <;> cases t1 <;> rfl

theorem space_setMax (t t1 : SlotType) (c : GridContainer) (v : Nat) :
    (c.setMax t v).space t1 = c.space t1 := by
  cases t <;> cases t1 <;> rfl

theorem constraintCount_setMax (t t1 : SlotType) (c : GridContainer) (v : Nat) :
    (c.setMax t v).constraintCount t1 = if t1 = t then v else c.constraintCount t1 := by
  cases t <;> cases t1 <;> rfl

theorem checkSlotData_range (c : Container) (slot : Int) (t : SlotType) (k : Int)
    (h : slot < 0 ∨ 10000 ≤ slot) : CheckSlotData c slot t k = (TclStatus.TCL_ERROR, c) := by
  unfold CheckSlotData
  have h1 : slot < 0 ∨ slot ≥ MAX_ELEMENT := h
  rw [if_pos h1]

/-- The outcome of `CheckSlotData` on a slot within the bounds, when it may allocate. -/
theorem checkSlotData_alloc (c : Container) (slot : Int) (t : SlotType) (k : Int)
    (hk : k ≠ CHECK_ONLY) (h0 : 0 ≤ slot) (h1 : slot < 10000) :
    ∃ c1, CheckSlotData c slot t k = (TclStatus.TCL_OK, c1)
      ∧ c1.containerDataPtr.isSome = true
      ∧ c1.contentPtr = c.contentPtr
      ∧ c1.data.slotPtr t =
          (if slot ≥ (c.data.space t : Int) then growSlots (c.data.slotPtr t) (c.data.space t)
            else c.data.slotPtr t)
      ∧ c1.data.space t =
          (if slot ≥ (c.data.space t : Int) then slot.toNat + PREALLOC else c.data.space t)
      ∧ c1.data.constraintCount t =
          (if slot ≥ (c.data.constraintCount t : Int) ∧ k ≠ CHECK_SPACE then slot.toNat + 1
            else c.data.constraintCount t)
      ∧ ∀ t1, t1 ≠ t →
          c1.data.slotPtr t1 = c.data.slotPtr t1 ∧ c1.data.space t1 = c.data.space t1
            ∧ c1.data.constraintCount t1 = c.data.constraintCount t1 := by
  unfold CheckSlotData
  have hr : ¬ (slot < 0 ∨ slot ≥ MAX_ELEMENT) := by
    unfold MAX_ELEMENT; omega
  have hk2 : ¬ (k = CHECK_ONLY ∧ c.containerDataPtr.isNone = true) := fun h => hk h.1
  rw [if_neg hr, if_neg hk2]
  simp only [if_neg hk]
  refine ⟨_, rfl, rfl, rfl, ?_, ?_, ?_, ?_⟩
  · show (GridContainer.slotPtr t (if _ then _ else _)) = _
    split <;> split <;>
      simp only [slotPtr_setMax, slotPtr_setSpace, slotPtr_setSlotPtr, if_true]
  · show (GridContainer.space t (if _ then _ else _)) = _
    split <;> split <;>
      simp only [space_setMax, space_setSpace, space_setSlotPtr, if_true]
  · show (GridContainer.constraintCount t (if _ then _ else _)) = _
    split <;> split <;>
      simp only [constraintCount_setMax, constraintCount_setSpace, constraintCount_setSlotPtr,
        if_true]
  · intro t1 ht
    refine ⟨?_, ?_, ?_⟩
    · show (GridContainer.slotPtr t1 (if _ then _ else _)) = _
      split <;> split <;>
        simp only [slotPtr_setMax, slotPtr_setSpace, slotPtr_setSlotPtr, if_neg ht]
    · show (GridContainer.space t1 (if _ then _ else _)) = _
      split <;> split <;>
        simp only [space_setMax, space_setSpace, space_setSlotPtr, if_neg ht]
    · show (GridContainer.constraintCount t1 (if _ then _ else _)) = _
      split <;> split <;>
        simp only [constraintCount_setMax, constraintCount_setSpace,
          constraintCount_setSlotPtr, if_neg ht]

/-- C18. `CheckSlotData` in an allocating mode (`checkOnly` other than `CHECK_ONLY`) fails
exactly when the slot is negative or at least `MAX_ELEMENT` (10000), and then the
container is unchanged.  For a slot from 0 to 9999 it succeeds; afterwards the number of
slots allocated on the axis is greater than the slot and no allocation has shrunk, every
slot allocated before has its value on both axes, and the slots added are all zero (all
the slots, when the container had no table yet: `data` is then the table that
`InitContainerData` creates). -/
theorem checkSlotData_allocating (containerPtr : Container) (slot : Int) (slotType : SlotType)
    (checkOnly : Int) (hmode : checkOnly ≠ CHECK_ONLY) :
    ((CheckSlotData containerPtr slot slotType checkOnly).1 = TclStatus.TCL_ERROR ↔
      (slot < 0 ∨ 10000 ≤ slot))
    ∧ ((CheckSlotData containerPtr slot slotType checkOnly).1 = TclStatus.TCL_ERROR →
        (CheckSlotData containerPtr slot slotType checkOnly).2 = containerPtr)
    ∧ (0 ≤ slot → slot < 10000 →
        (CheckSlotData containerPtr slot slotType checkOnly).1 = TclStatus.TCL_OK
        ∧ slot < ((CheckSlotData containerPtr slot slotType checkOnly).2.data.space slotType : Int)
        ∧ (∀ t, containerPtr.data.space t
            ≤ (CheckSlotData containerPtr slot slotType checkOnly).2.data.space t)
        ∧ (∀ t j, j < containerPtr.data.space t →
            (CheckSlotData containerPtr slot slotType checkOnly).2.data.slotPtr t j
              = containerPtr.data.slotPtr t j)
        ∧ (∀ j, containerPtr.data.space slotType ≤ j →
            j < (CheckSlotData containerPtr slot slotType checkOnly).2.data.space slotType →
            (CheckSlotData containerPtr slot slotType checkOnly).2.data.slotPtr slotType j
              = defaultSlot)
        ∧ (containerPtr.containerDataPtr.isNone = true → ∀ t j,
            (CheckSlotData containerPtr slot slotType checkOnly).2.data.slotPtr t j
              = defaultSlot)) := by
  by_cases hr : slot < 0 ∨ 10000 ≤ slot
  · rw [checkSlotData_range containerPtr slot slotType checkOnly hr]
    refine ⟨⟨fun _ => hr, fun _ => rfl⟩, fun _ => rfl, ?_⟩
    intro h0 h1
    omega
  · have h0 : 0 ≤ slot := by omega
    have h1 : slot < 10000 := by omega
    obtain ⟨c1, e, _, _, hsp, hspace, _, hother⟩ :=
      checkSlotData_alloc containerPtr slot slotType checkOnly hmode h0 h1
    rw [e]
    refine ⟨⟨fun h => (by cases h), fun h => absurd h hr⟩, fun h => (by cases h), ?_⟩
    intro _ _
    have hsl : ∀ t j, j < containerPtr.data.space t →
        c1.data.slotPtr t j = containerPtr.data.slotPtr t j := by
      intro t j hj
      by_cases ht : t = slotType
      · subst ht
        rw [hsp]
        split
        · unfold growSlots; rw [if_pos hj]
        · rfl
      · rw [(hother t ht).1]
    refine ⟨rfl, ?_, ?_, hsl, ?_, ?_⟩
    · show slot < ((c1.data.space slotType : Nat) : Int)
      rw [hspace]
      split
      · unfold PREALLOC; omega
      · omega
    · intro t
      by_cases ht : t = slotType
      · subst ht
        show _ ≤ c1.data.space t
        rw [hspace]
        split
        · unfold PREALLOC; omega
        · exact le_refl _
      · show _ ≤ c1.data.space t
        rw [(hother t ht).2.1]
    · intro j hj hj1
      show c1.data.slotPtr slotType j = defaultSlot
      rw [hsp]
      split
      · unfold growSlots; rw [if_neg (by omega)]
      · rename_i hns
        have : c1.data.space slotType = containerPtr.data.space slotType := by
          rw [hspace, if_neg hns]
        have hj2 : j < c1.data.space slotType := hj1
        omega
    · intro hnone t j
      show c1.data.slotPtr t j = defaultSlot
      have hfresh : ∀ t1 i, containerPtr.data.slotPtr t1 i = defaultSlot := by
        intro t1 i
        unfold Container.data
        cases hd : containerPtr.containerDataPtr with
        | some d => rw [hd] at hnone; cases hnone
        | none => cases t1 <;> rfl
      by_cases ht : t = slotType
      · subst ht
        rw [hsp]
        split
        · unfold growSlots; split
          · exact hfresh _ _
          · rfl
        · exact hfresh _ _
      · rw [(hother t ht).1]; exact hfresh _ _

theorem checkSlotData_allocating_witness :
    ((CheckSlotData emptyContainer 30 SlotType.COLUMN 0).1 = TclStatus.TCL_ERROR ↔
      ((30 : Int) < 0 ∨ (10000 : Int) ≤ 30))
    ∧ ((CheckSlotData emptyContainer 30 SlotType.COLUMN 0).1 = TclStatus.TCL_ERROR →
        (CheckSlotData emptyContainer 30 SlotType.COLUMN 0).2 = emptyContainer)
    ∧ ((0 : Int) ≤ 30 → (30 : Int) < 10000 →
        (CheckSlotData emptyContainer 30 SlotType.COLUMN 0).1 = TclStatus.TCL_OK
        ∧ (30 : Int)
            < ((CheckSlotData emptyContainer 30 SlotType.COLUMN 0).2.data.space SlotType.COLUMN : Int)
        ∧ (∀ t, emptyContainer.data.space t
            ≤ (CheckSlotData emptyContainer 30 SlotType.COLUMN 0).2.data.space t)
        ∧ (∀ t j, j < emptyContainer.data.space t →
            (CheckSlotData emptyContainer 30 SlotType.COLUMN 0).2.data.slotPtr t j
              = emptyContainer.data.slotPtr t j)
        ∧ (∀ j, emptyContainer.data.space SlotType.COLUMN ≤ j →
            j < (CheckSlotData emptyContainer 30 SlotType.COLUMN 0).2.data.space SlotType.COLUMN →
            (CheckSlotData emptyContainer 30 SlotType.COLUMN 0).2.data.slotPtr SlotType.COLUMN j
              = defaultSlot)
        ∧ (emptyContainer.containerDataPtr.isNone = true → ∀ t j,
            (CheckSlotData emptyContainer 30 SlotType.COLUMN 0).2.data.slotPtr t j
              = defaultSlot)) :=
  checkSlotData_allocating emptyContainer 30 SlotType.COLUMN 0 (by decide)

/-! ### The loops of `GridRowColumnConfigureCommand` -/

theorem setOption_other (sp : Nat → SlotInfo) (slot : Nat) (o : OptionArg) (j : Nat)
    (hj : j ≠ slot) : (setOption sp slot o).2 j = sp j := by
  cases o with
  | minsize v => cases v <;> simp [setOption, hj]
  | pad v =>
    cases v with
    | none => rfl
    | some size => simp only [setOption]; split <;> simp [hj]
  | uniform u => simp [setOption, hj]
  | weight v =>
    cases v with
    | none => rfl
    | some wt => simp only [setOption]; split <;> simp [hj]
  | unknown => rfl

theorem setOptions_other (slot : Nat) (opts : List OptionArg) :
    ∀ (sp : Nat → SlotInfo) (j : Nat), j ≠ slot → (setOptions slot opts sp).2 j = sp j := by
  induction opts with
  | nil => intro sp j _; rfl
  | cons o os ih =>
    intro sp j hj
    unfold setOptions
    have h := setOption_other sp slot o j hj
    cases hr : setOption sp slot o with
    | mk s sp1 =>
      rw [hr] at h
      cases s with
      | TCL_OK => simp only; rw [ih sp1 j hj]; exact h
      | TCL_ERROR => exact h

theorem setOption_accepted (sp : Nat → SlotInfo) (slot : Nat) (o : OptionArg)
    (h : o.accepted = true) :
    setOption sp slot o
      = (TclStatus.TCL_OK, fun j => if j = slot then OptionArg.store (sp j) o else sp j) := by
  cases o with
  | minsize v =>
    cases v with
    | none => cases h
    | some size => rfl
  | pad v =>
    cases v with
    | none => cases h
    | some size =>
      have h1 : ¬ size < 0 := by
        have : 0 ≤ size := of_decide_eq_true h
        omega
      simp only [setOption, if_neg h1]
      rfl
  | uniform u => rfl
  | weight v =>
    cases v with
    | none => cases h
    | some wt =>
      have h1 : ¬ wt < 0 := by
        have : 0 ≤ wt := of_decide_eq_true h
        omega
      simp only [setOption, if_neg h1]
      rfl
  | unknown => cases h

theorem setOptions_accepted (slot : Nat) (opts : List OptionArg) :
    ∀ (sp : Nat → SlotInfo), (∀ o, o ∈ opts → o.accepted = true) →
      setOptions slot opts sp
        = (TclStatus.TCL_OK,
            fun j => if j = slot then opts.foldl OptionArg.store (sp j) else sp j) := by
  induction opts with
  | nil =>
    intro sp _
    unfold setOptions
    refine Prod.ext rfl ?_
    funext j
    simp
  | cons o os ih =>
    intro sp h
    unfold setOptions
    rw [setOption_accepted sp slot o (h o (List.mem_cons_self _ _))]
    simp only
    rw [ih _ (fun x hx => h x (List.mem_cons_of_mem _ hx))]
    refine Prod.ext rfl ?_
    funext j
    by_cases hj : j = slot <;> simp [hj]

theorem configureSlot_range (t : SlotType) (opts : List OptionArg) (st : ConfigureState)
    (slot : Int) (h : slot < 0 ∨ 10000 ≤ slot) :
    configureSlot t opts st slot = (TclStatus.TCL_ERROR, st) := by
  unfold configureSlot
  rw [checkSlotData_range st.containerPtr slot t 0 h]

/-- The outcome of the body of the slot loop on a slot within the bounds. -/
theorem configureSlot_spec (t : SlotType) (opts : List OptionArg) (st : ConfigureState)
    (slot : Int) (h0 : 0 ≤ slot) (h1 : slot < 10000) :
    ∃ st1 sp1,
      sp1 = (if slot ≥ (st.containerPtr.data.space t : Int) then
          growSlots (st.containerPtr.data.slotPtr t) (st.containerPtr.data.space t)
        else st.containerPtr.data.slotPtr t)
      ∧ configureSlot t opts st slot = ((setOptions slot.toNat opts sp1).1, st1)
      ∧ st1.slotPtrSet = true
      ∧ st1.containerPtr.contentPtr = st.containerPtr.contentPtr
      ∧ st1.containerPtr.data.slotPtr t = (setOptions slot.toNat opts sp1).2
      ∧ st1.containerPtr.data.space t =
          (if slot ≥ (st.containerPtr.data.space t : Int) then slot.toNat + PREALLOC
            else st.containerPtr.data.space t)
      ∧ st1.containerPtr.data.constraintCount t =
          (if slot ≥ (st.containerPtr.data.constraintCount t : Int) then slot.toNat + 1
            else st.containerPtr.data.constraintCount t)
      ∧ ∀ t1, t1 ≠ t →
          st1.containerPtr.data.slotPtr t1 = st.containerPtr.data.slotPtr t1
            ∧ st1.containerPtr.data.space t1 = st.containerPtr.data.space t1
            ∧ st1.containerPtr.data.constraintCount t1
                = st.containerPtr.data.constraintCount t1 := by
  obtain ⟨c1, e, _, hc, hsp, hspace, hmax, hother⟩ :=
    checkSlotData_alloc st.containerPtr slot t 0 (by decide) h0 h1
  have hmax1 : c1.data.constraintCount t =
      (if slot ≥ (st.containerPtr.data.constraintCount t : Int) then slot.toNat + 1
        else st.containerPtr.data.constraintCount t) := by
    rw [hmax]
    have : (0 : Int) ≠ CHECK_SPACE := by decide
    simp only [this, ne_eq, not_false_eq_true, and_true]
  refine ⟨⟨⟨some (c1.data.setSlotPtr t (setOptions slot.toNat opts (c1.data.slotPtr t)).2),
    c1.contentPtr⟩, true⟩, _, rfl, ?_, ?_, ?_, ?_, ?_, ?_, ?_⟩
  · unfold configureSlot
    rw [e]
    simp only
    rw [← hsp]
  · rfl
  · exact hc
  · show (c1.data.setSlotPtr t _).slotPtr t = _
    rw [slotPtr_setSlotPtr, if_pos rfl, hsp]
  · show (c1.data.setSlotPtr t _).space t = _
    rw [space_setSlotPtr, hspace]
  · show (c1.data.setSlotPtr t _).constraintCount t = _
    rw [constraintCount_setSlotPtr, hmax1]
  · intro t1 ht
    refine ⟨?_, ?_, ?_⟩
    · show (c1.data.setSlotPtr t _).slotPtr t1 = _
      rw [slotPtr_setSlotPtr, if_neg ht, (hother t1 ht).1]
    · show (c1.data.setSlotPtr t _).space t1 = _
      rw [space_setSlotPtr, (hother t1 ht).2.1]
    · show (c1.data.setSlotPtr t _).constraintCount t1 = _
      rw [constraintCount_setSlotPtr, (hother t1 ht).2.2]

theorem configStep_refl (t : SlotType) (S : Nat → Prop) (c : Container) : ConfigStep t S c c :=
  ⟨fun _ _ => ⟨rfl, rfl, rfl⟩, le_refl _, le_refl _, fun _ _ _ => rfl, rfl, fun h => h⟩

theorem configStep_same (t : SlotType) (S : Nat → Prop) (c c1 : Container)
    (hd : c1.data = c.data) (hc : c1.contentPtr = c.contentPtr) : ConfigStep t S c c1 := by
  refine ⟨fun _ _ => ?_, ?_, ?_, fun _ _ _ => ?_, hc, fun h => ?_⟩
  · rw [hd]; exact ⟨rfl, rfl, rfl⟩
  · rw [hd]
  · rw [hd]
  · rw [hd]
  · unfold TrailingDefault at h ⊢
    rw [hd]; exact h

theorem configStep_trans (t : SlotType) (S1 S2 S : Nat → Prop) (c0 c1 c2 : Container)
    (h1 : ConfigStep t S1 c0 c1) (h2 : ConfigStep t S2 c1 c2)
    (hS1 : ∀ j, S1 j → S j) (hS2 : ∀ j, S2 j → S j) : ConfigStep t S c0 c2 := by
  refine ⟨fun t1 ht => ?_, ?_, ?_, fun j hj hS => ?_, ?_, fun h => h2.trailing (h1.trailing h)⟩
  · obtain ⟨a1, a2, a3⟩ := h1.other t1 ht
    obtain ⟨b1, b2, b3⟩ := h2.other t1 ht
    exact ⟨b1.trans a1, b2.trans a2, b3.trans a3⟩
  · exact le_trans h1.space_le h2.space_le
  · exact le_trans h1.max_le h2.max_le
  · rw [h2.kept j (lt_of_lt_of_le hj h1.space_le) (fun h => hS (hS2 j h)),
      h1.kept j hj (fun h => hS (hS1 j h))]
  · exact h2.content.trans h1.content

theorem defaultSlot_unconstrained : defaultSlot.unconstrained = true := rfl

theorem configureSlot_step (t : SlotType) (opts : List OptionArg) (st : ConfigureState)
    (slot : Int) :
    ConfigStep t (fun j => (j : Int) = slot) st.containerPtr
      (configureSlot t opts st slot).2.containerPtr := by
  by_cases hr : slot < 0 ∨ 10000 ≤ slot
  · rw [configureSlot_range t opts st slot hr]
    exact configStep_refl _ _ _
  · obtain ⟨st1, sp1, hsp1, e, _, hc, hsp, hspace, hmax, hother⟩ :=
      configureSlot_spec t opts st slot (by omega) (by omega)
    rw [e]
    show ConfigStep t _ st.containerPtr st1.containerPtr
    have hsp1j : ∀ j, j < st.containerPtr.data.space t →
        sp1 j = st.containerPtr.data.slotPtr t j := by
      intro j hj
      rw [hsp1]
      split
      · unfold growSlots; rw [if_pos hj]
      · rfl
    refine ⟨hother, ?_, ?_, ?_, hc, ?_⟩
    · rw [hspace]; split
      · unfold PREALLOC; omega
      · exact le_refl _
    · rw [hmax]; split
      · omega
      · exact le_refl _
    · intro j hj hne
      rw [hsp, setOptions_other _ _ _ _ (by omega), hsp1j j hj]
    · intro hinv j hj hjs
      rw [hmax] at hj
      rw [hspace] at hjs
      have hmj : st.containerPtr.data.constraintCount t ≤ j := by
        split at hj <;> omega
      have hne : j ≠ slot.toNat := by
        split at hj <;> omega
      rw [hsp, setOptions_other _ _ _ _ hne, hsp1]
      split
      · unfold growSlots
        split
        · rename_i hlt
          exact hinv j hmj hlt
        · exact defaultSlot_unconstrained
      · rename_i hns
        rw [if_neg hns] at hjs
        exact hinv j hmj hjs

theorem configureRange_step (t : SlotType) (opts : List OptionArg) :
    ∀ (count : Nat) (first : Int) (st : ConfigureState),
      ConfigStep t (fun j => first ≤ (j : Int) ∧ (j : Int) < first + count) st.containerPtr
        (configureRange t opts count first st).2.containerPtr := by
  intro count
  induction count with
  | zero => intro first st; exact configStep_refl _ _ _
  | succ n ih =>
    intro first st
    have h1 := configureSlot_step t opts st first
    unfold configureRange
    cases hr : configureSlot t opts st first with
    | mk s st1 =>
      rw [hr] at h1
      cases s with
      | TCL_OK =>
        simp only
        refine configStep_trans t _ _ _ _ _ _ h1 (ih (first + 1) st1) ?_ ?_
        · intro j hj; simp only at hj; push_cast; omega
        · intro j hj; push_cast; omega
      | TCL_ERROR =>
        simp only
        refine configStep_trans t _ (fun _ => False) _ _ _ _ h1 (configStep_refl _ _ _) ?_ ?_
        · intro j hj; simp only at hj; push_cast; omega
        · intro j hj; exact hj.elim

theorem configureContent_step (t : SlotType) (opts : List OptionArg) :
    ∀ (content : List Gridder) (st : ConfigureState),
      ConfigStep t (fun j => ∃ g, g ∈ content ∧ g.covers t j) st.containerPtr
        (configureContent t opts content st).2.containerPtr := by
  intro content
  induction content with
  | nil => intro st; exact configStep_refl _ _ _
  | cons g gs ih =>
    intro st
    have h1 := configureRange_step t opts
      (g.start t - 1 + g.span t + 1 - g.start t).toNat (g.start t) st
    have hcov : ∀ j : Nat, (g.start t ≤ (j : Int) ∧
        (j : Int) < g.start t + ((g.start t - 1 + g.span t + 1 - g.start t).toNat : Nat)) →
        g.covers t j := by
      intro j hj
      unfold Gridder.covers
      omega
    unfold configureContent
    simp only
    cases hr : configureRange t opts (g.start t - 1 + g.span t + 1 - g.start t).toNat
        (g.start t) st with
    | mk s st1 =>
      rw [hr] at h1
      cases s with
      | TCL_OK =>
        simp only
        refine configStep_trans t _ _ _ _ _ _ h1 (ih st1) ?_ ?_
        · intro j hj; exact ⟨g, List.mem_cons_self _ _, hcov j hj⟩
        · intro j hj
          obtain ⟨g1, hg1, hc⟩ := hj
          exact ⟨g1, List.mem_cons_of_mem _ hg1, hc⟩
      | TCL_ERROR =>
        simp only
        refine configStep_trans t _ (fun _ => False) _ _ _ _ h1 (configStep_refl _ _ _) ?_ ?_
        · intro j hj; exact ⟨g, List.mem_cons_self _ _, hcov j hj⟩
        · intro j hj; exact hj.elim

theorem data_initContainerData (c : Container) :
    (InitContainerData c).data = c.data ∧ (InitContainerData c).contentPtr = c.contentPtr := by
  unfold InitContainerData Container.data
  cases h : c.containerDataPtr <;> simp [h]

theorem configureIndex_step (t : SlotType) (opts : List OptionArg) (st : ConfigureState)
    (index : IndexArg) :
    ConfigStep t (fun j => IndexArg.covers t st.containerPtr.contentPtr j index)
      st.containerPtr (configureIndex t opts st index).2.containerPtr := by
  cases index with
  | slot n =>
    have h := configureRange_step t opts (n + 1 - n).toNat n st
    refine configStep_trans t _ (fun _ => False) _ _ _ _ h (configStep_refl _ _ _) ?_ ?_
    · intro j hj
      show (j : Int) = n
      simp only at hj
      omega
    · intro j hj; exact hj.elim
  | all =>
    obtain ⟨hd, hc⟩ := data_initContainerData st.containerPtr
    have h0 : ConfigStep t (fun _ => False) st.containerPtr (InitContainerData st.containerPtr) :=
      configStep_same t _ _ _ hd hc
    have h := configureContent_step t opts (InitContainerData st.containerPtr).contentPtr
      { st with containerPtr := InitContainerData st.containerPtr }
    refine configStep_trans t _ _ _ _ _ _ h0 h ?_ ?_
    · intro j hj; exact hj.elim
    · intro j hj
      rw [hc] at hj
      exact hj
  | window g managed =>
    cases g with
    | none => exact configStep_refl _ _ _
    | some g =>
      cases managed with
      | false => exact configStep_refl _ _ _
      | true =>
        have h := configureContent_step t opts [g] st
        refine configStep_trans t _ (fun _ => False) _ _ _ _ h (configStep_refl _ _ _) ?_ ?_
        · intro j hj
          obtain ⟨g1, hg1, hc⟩ := hj
          rw [List.mem_singleton] at hg1
          subst hg1
          exact hc
        · intro j hj; exact hj.elim
  | illegal => exact configStep_refl _ _ _

theorem configureIndices_step (t : SlotType) (opts : List OptionArg) :
    ∀ (lObjv : List IndexArg) (st : ConfigureState),
      ConfigStep t
        (fun j => ∃ index, index ∈ lObjv ∧ IndexArg.covers t st.containerPtr.contentPtr j index)
        st.containerPtr (configureIndices t opts lObjv st).2.containerPtr := by
  intro lObjv
  induction lObjv with
  | nil => intro st; exact configStep_refl _ _ _
  | cons index rest ih =>
    intro st
    have h1 := configureIndex_step t opts st index
    unfold configureIndices
    cases hr : configureIndex t opts st index with
    | mk s st1 =>
      rw [hr] at h1
      cases s with
      | TCL_OK =>
        simp only
        refine configStep_trans t _ _ _ _ _ _ h1 (ih st1) ?_ ?_
        · intro j hj; exact ⟨index, List.mem_cons_self _ _, hj⟩
        · intro j hj
          obtain ⟨i1, hi1, hc⟩ := hj
          rw [h1.content] at hc
          exact ⟨i1, List.mem_cons_of_mem _ hi1, hc⟩
      | TCL_ERROR =>
        simp only
        refine configStep_trans t _ (fun _ => False) _ _ _ _ h1 (configStep_refl _ _ _) ?_ ?_
        · intro j hj; exact ⟨index, List.mem_cons_self _ _, hj⟩
        · intro j hj; exact hj.elim

/-! ### The check for constraint shrinkage -/

theorem trimMax_le (sp : Nat → SlotInfo) (n : Nat) : trimMax sp n ≤ n := by
  induction n with
  | zero => exact le_refl _
  | succ n ih =>
    unfold trimMax
    split
    · omega
    · exact le_refl _

theorem trimMax_tail (sp : Nat → SlotInfo) (n : Nat) :
    ∀ j, trimMax sp n ≤ j → j < n → (sp j).unconstrained = true := by
  induction n with
  | zero => intro j _ hj; omega
  | succ n ih =>
    intro j h1 h2
    unfold trimMax at h1
    split at h1
    · rename_i hu
      by_cases hj : j = n
      · subst hj; exact hu
      · exact ih j h1 (by omega)
    · omega

theorem trimMax_last (sp : Nat → SlotInfo) (n : Nat) :
    trimMax sp n = 0 ∨ (sp (trimMax sp n - 1)).unconstrained = false := by
  induction n with
  | zero => exact Or.inl rfl
  | succ n ih =>
    unfold trimMax
    split
    · exact ih
    · rename_i hu
      right
      simpa using hu

/-! ### The command -/

/-- With at least one index and at least one pair `-option value` the command runs the
loop over the index list and then checks for constraint shrinkage. -/
theorem configureCommand_set (c : Container) (t : SlotType) (index : IndexArg)
    (rest : List IndexArg) (o : OptionArg) (os : List OptionArg) :
    GridRowColumnConfigureCommand c t (index :: rest) (o :: os) =
      match configureIndices t (o :: os) (index :: rest)
          { containerPtr := c, slotPtrSet := false } with
      | (TclStatus.TCL_ERROR, st) => Except.ok (TclStatus.TCL_ERROR, st.containerPtr, none)
      | (TclStatus.TCL_OK, st) =>
        if st.slotPtrSet then
          Except.ok (TclStatus.TCL_OK,
            { st.containerPtr with
              containerDataPtr :=
                some (st.containerPtr.data.setMax t
                  (trimMax (st.containerPtr.data.slotPtr t)
                    (st.containerPtr.data.constraintCount t))) },
            none)
        else Except.ok (TclStatus.TCL_OK, st.containerPtr, none) := by
  cases index <;> cases rest <;> rfl

/-- A call that does not report values and does not run the loop fails and leaves the
container as it is. -/
theorem configureCommand_query (c : Container) (t : SlotType) (lObjv : List IndexArg)
    (s : TclStatus) (c1 : Container)
    (h : GridRowColumnConfigureCommand c t lObjv [] = Except.ok (s, c1, none)) :
    s = TclStatus.TCL_ERROR ∧ c1 = c := by
  unfold GridRowColumnConfigureCommand at h
  split at h
  · injection h with h
    simp only [Prod.mk.injEq] at h
    exact ⟨h.1.symm, h.2.1.symm⟩
  · dsimp only at h
    split at h
    · split at h
      · injection h with h
        simp at h
      · cases h
    · injection h with h
      simp at h
  · injection h with h
    simp only [Prod.mk.injEq] at h
    exact ⟨h.1.symm, h.2.1.symm⟩
  · rename_i h1
    simp at h1

theorem configureCommand_nil (c : Container) (t : SlotType) (options : List OptionArg) :
    GridRowColumnConfigureCommand c t [] options
      = Except.ok (TclStatus.TCL_ERROR, c, none) := by
  cases options <;> rfl

/-- C17, amended. After a `rowconfigure` or `columnconfigure` call that has set constraints
and returns `TCL_OK` (the slot loop has run, `slotPtr != NULL`) on a table whose
allocated slots from the maximum on had their defaults, `rowMax` (`columnMax`) is 0 or
the slot before it has a constraint that is not the default, and every allocated slot from
it on has only defaults: it is one more than the highest slot with a constraint, and 0
when there is none. -/
theorem configure_trims_max (containerPtr : Container) (slotType : SlotType)
    (lObjv : List IndexArg) (options : List OptionArg) (c1 : Container)
    (hinv : TrailingDefault slotType containerPtr)
    (hres : GridRowColumnConfigureCommand containerPtr slotType lObjv options
      = Except.ok (TclStatus.TCL_OK, c1, none))
    (hset : (configureIndices slotType options lObjv
      { containerPtr := containerPtr, slotPtrSet := false }).2.slotPtrSet = true) :
    (c1.data.constraintCount slotType = 0
      ∨ (c1.data.slotPtr slotType (c1.data.constraintCount slotType - 1)).unconstrained = false)
    ∧ (∀ j, c1.data.constraintCount slotType ≤ j → j < c1.data.space slotType →
        (c1.data.slotPtr slotType j).unconstrained = true) := by
  cases lObjv with
  | nil =>
    rw [configureCommand_nil] at hres
    injection hres with hres
    simp at hres
  | cons index rest =>
    cases options with
    | nil =>
      have := (configureCommand_query _ _ _ _ _ hres).1
      cases this
    | cons o os =>
      have hstep := configureIndices_step slotType (o :: os) (index :: rest)
        { containerPtr := containerPtr, slotPtrSet := false }
      rw [configureCommand_set] at hres
      cases hr : configureIndices slotType (o :: os) (index :: rest)
          { containerPtr := containerPtr, slotPtrSet := false } with
      | mk s st =>
        rw [hr] at hres hset hstep
        cases s with
        | TCL_ERROR =>
          injection hres with hres
          simp at hres
        | TCL_OK =>
          simp only at hres hset hstep
          rw [if_pos hset] at hres
          injection hres with hres
          simp only [Prod.mk.injEq, true_and, and_true] at hres
          subst hres
          have htr := hstep.trailing hinv
          show ((st.containerPtr.data.setMax slotType _).constraintCount slotType = 0
            ∨ ((st.containerPtr.data.setMax slotType _).slotPtr slotType
                ((st.containerPtr.data.setMax slotType _).constraintCount slotType - 1)).unconstrained
                = false)
            ∧ (∀ j, (st.containerPtr.data.setMax slotType _).constraintCount slotType ≤ j →
                j < (st.containerPtr.data.setMax slotType _).space slotType →
                ((st.containerPtr.data.setMax slotType _).slotPtr slotType j).unconstrained = true)
          simp only [constraintCount_setMax, slotPtr_setMax, space_setMax, if_true]
          refine ⟨trimMax_last _ _, ?_⟩
          intro j hj hjs
          by_cases hlt : j < st.containerPtr.data.constraintCount slotType
          · exact trimMax_tail _ _ j hj hlt
          · exact htr j (by omega) hjs

theorem configure_trims_max_witness :
    ∃ c1, GridRowColumnConfigureCommand emptyContainer SlotType.COLUMN
        [IndexArg.slot 7, IndexArg.slot 2]
        [OptionArg.weight (some 0), OptionArg.minsize (some 0)]
        = Except.ok (TclStatus.TCL_OK, c1, none)
      ∧ ((c1.data.constraintCount SlotType.COLUMN = 0
          ∨ (c1.data.slotPtr SlotType.COLUMN
              (c1.data.constraintCount SlotType.COLUMN - 1)).unconstrained = false)
        ∧ (∀ j, c1.data.constraintCount SlotType.COLUMN ≤ j →
            j < c1.data.space SlotType.COLUMN →
            (c1.data.slotPtr SlotType.COLUMN j).unconstrained = true)) :=
  ⟨_, rfl, configure_trims_max emptyContainer SlotType.COLUMN
    [IndexArg.slot 7, IndexArg.slot 2]
    [OptionArg.weight (some 0), OptionArg.minsize (some 0)] _
    (fun _ _ _ => rfl) rfl rfl⟩

theorem store_comm (m p w : Int) (u : Option Nat) (x y : OptionArg)
    (hx : x ∈ [OptionArg.minsize (some m), OptionArg.pad (some p), OptionArg.uniform u,
      OptionArg.weight (some w)])
    (hy : y ∈ [OptionArg.minsize (some m), OptionArg.pad (some p), OptionArg.uniform u,
      OptionArg.weight (some w)]) (z : SlotInfo) :
    OptionArg.store (OptionArg.store z x) y = OptionArg.store (OptionArg.store z y) x := by
  simp only [List.mem_cons, List.mem_singleton, List.not_mem_nil, or_false] at hx hy
  rcases hx with hx | hx | hx | hx <;> rcases hy with hy | hy | hy | hy <;>
    subst hx <;> subst hy <;> rfl

/-- C15. Slot configuration round trip: for every container and axis, every index `i` from
0 to 9999, every `-minsize m`, `-pad p` and `-weight w` with `p` and `w` not negative and
every `-uniform u` (`none` is the empty tag), given in any order, the call that sets the
four options on slot `i` returns `TCL_OK`, and the retrieval of the options of slot `i`
afterwards returns `TCL_OK` and reports exactly `m`, `p`, `u` and `w`, also when the four
values are the defaults. -/
theorem configure_round_trip (containerPtr : Container) (slotType : SlotType) (i m p w : Int)
    (u : Option Nat) (options : List OptionArg)
    (hi0 : 0 ≤ i) (hi1 : i < 10000) (hp : 0 ≤ p) (hw : 0 ≤ w)
    (hopts : options.Perm [OptionArg.minsize (some m), OptionArg.pad (some p),
      OptionArg.uniform u, OptionArg.weight (some w)]) :
    ∃ c1, GridRowColumnConfigureCommand containerPtr slotType [IndexArg.slot i] options
        = Except.ok (TclStatus.TCL_OK, c1, none)
      ∧ GridRowColumnConfigureCommand c1 slotType [IndexArg.slot i] []
        = Except.ok (TclStatus.TCL_OK, c1,
            some { minsize := m, pad := p, uniform := u, weight := w }) := by
  have hacc : ∀ o, o ∈ options → o.accepted = true := by
    intro o ho
    have := hopts.mem_iff.mp ho
    simp only [List.mem_cons, List.mem_singleton, List.not_mem_nil, or_false] at this
    rcases this with h | h | h | h <;> subst h
    · rfl
    · exact decide_eq_true hp
    · rfl
    · exact decide_eq_true hw
  obtain ⟨o, os, hcons⟩ : ∃ o os, options = o :: os := by
    cases options with
    | nil => have := hopts.length_eq; simp at this
    | cons o os => exact ⟨o, os, rfl⟩
  obtain ⟨st1, sp1, hsp1, e, hflag, _, hsp, hspace, hmax, _⟩ :=
    configureSlot_spec slotType options { containerPtr := containerPtr, slotPtrSet := false } i
      hi0 hi1
  rw [setOptions_accepted _ _ _ hacc] at e hsp
  simp only at e hsp
  have hrun : configureIndices slotType options [IndexArg.slot i]
      { containerPtr := containerPtr, slotPtrSet := false } = (TclStatus.TCL_OK, st1) := by
    have h1 : (i + 1 - i).toNat = 1 := by
      rw [show i + 1 - i = 1 by omega]; rfl
    simp only [configureIndices, configureIndex, h1, configureRange, e]
  -- the slot after the call
  have hslot : st1.containerPtr.data.slotPtr slotType i.toNat
      = { sp1 i.toNat with minSize := m, pad := p, uniform := u, weight := w } := by
    rw [hsp]
    simp only [if_true]
    rw [hopts.foldl_eq' (fun x hx y hy z => store_comm m p w u x y (hopts.mem_iff.mp hx)
      (hopts.mem_iff.mp hy) z)]
    rfl
  have hmax_gt : i.toNat < st1.containerPtr.data.constraintCount slotType := by
    rw [hmax]; split <;> omega
  have hspace_gt : i.toNat < st1.containerPtr.data.space slotType := by
    rw [hspace]; split
    · unfold PREALLOC; omega
    · omega
  refine ⟨{ st1.containerPtr with
      containerDataPtr := some (st1.containerPtr.data.setMax slotType
        (trimMax (st1.containerPtr.data.slotPtr slotType)
          (st1.containerPtr.data.constraintCount slotType))) }, ?_, ?_⟩
  · rw [hcons, configureCommand_set, ← hcons, hrun]
    simp only [hflag, if_true]
  · generalize hn : trimMax (st1.containerPtr.data.slotPtr slotType)
      (st1.containerPtr.data.constraintCount slotType) = n
    have htail := trimMax_tail (st1.containerPtr.data.slotPtr slotType)
      (st1.containerPtr.data.constraintCount slotType)
    rw [hn] at htail
    unfold GridRowColumnConfigureCommand
    simp only
    have hr : ¬ (i < 0 ∨ i ≥ MAX_ELEMENT) := by unfold MAX_ELEMENT; omega
    have hcheck : CheckSlotData
        { st1.containerPtr with
          containerDataPtr := some (st1.containerPtr.data.setMax slotType n) }
        i slotType CHECK_ONLY
        = (if (n : Int) < i then TclStatus.TCL_ERROR else TclStatus.TCL_OK,
          { st1.containerPtr with
            containerDataPtr := some (st1.containerPtr.data.setMax slotType n) }) := by
      unfold CheckSlotData
      rw [if_neg hr]
      simp only [Option.isNone_some, Bool.false_eq_true, and_false, if_false, if_true]
      refine Prod.ext ?_ rfl
      show (if (((st1.containerPtr.data.setMax slotType n).constraintCount slotType : Nat) : Int)
        < i then _ else _) = _
      rw [constraintCount_setMax, if_pos rfl]
    rw [hcheck]
    by_cases hlt : (n : Int) < i
    · have hun := htail i.toNat (by omega) hmax_gt
      rw [hslot] at hun
      simp only [SlotInfo.unconstrained, Bool.and_eq_true, beq_iff_eq,
        Option.isNone_iff_eq_none] at hun
      obtain ⟨⟨⟨h1, h2⟩, h3⟩, h4⟩ := hun
      simp only [if_pos hlt]
      rw [if_neg (by decide)]
      rw [h1, h2, h3, h4]
    · simp only [if_neg hlt, if_true]
      have hsp2 : i.toNat <
          (Container.data { st1.containerPtr with
            containerDataPtr := some (st1.containerPtr.data.setMax slotType n) }).space
              slotType := by
        show i.toNat < (st1.containerPtr.data.setMax slotType n).space slotType
        rw [space_setMax]; exact hspace_gt
      rw [if_pos hsp2]
      have : slotOptions
          ((Container.data { st1.containerPtr with
            containerDataPtr := some (st1.containerPtr.data.setMax slotType n) }).slotPtr
              slotType) i.toNat
          = { minsize := m, pad := p, uniform := u, weight := w } := by
        show slotOptions ((st1.containerPtr.data.setMax slotType n).slotPtr slotType) i.toNat = _
        rw [slotPtr_setMax]
        unfold slotOptions
        rw [hslot]
      rw [this]

theorem configure_round_trip_witness :
    ∃ c1, GridRowColumnConfigureCommand emptyContainer SlotType.ROW [IndexArg.slot 30]
        [OptionArg.weight (some 2), OptionArg.uniform (some 7), OptionArg.minsize (some 10),
          OptionArg.pad (some 1)]
        = Except.ok (TclStatus.TCL_OK, c1, none)
      ∧ GridRowColumnConfigureCommand c1 SlotType.ROW [IndexArg.slot 30] []
        = Except.ok (TclStatus.TCL_OK, c1,
            some { minsize := 10, pad := 1, uniform := some 7, weight := 2 }) :=
  configure_round_trip emptyContainer SlotType.ROW 30 10 1 2 (some 7)
    [OptionArg.weight (some 2), OptionArg.uniform (some 7), OptionArg.minsize (some 10),
      OptionArg.pad (some 1)]
    (by decide) (by decide) (by decide) (by decide) (by decide)

/-- C16, at the failing input. On a container without grid data
`grid rowconfigure . 24 -weight 1` returns `TCL_OK` and leaves `rowMax = 25` with
`rowSpace = 25` rows allocated; the retrieval of the options of row 25, which was never
configured, then passes `CheckSlotData` in the mode `CHECK_ONLY` (`end < slot` is false
for `slot = end`) and reads `rowPtr[25]`, one slot past the end of the array, instead of
reporting zeros. -/
theorem configure_query_past_end :
    ∃ c1, GridRowColumnConfigureCommand emptyContainer SlotType.ROW [IndexArg.slot 24]
        [OptionArg.weight (some 1)] = Except.ok (TclStatus.TCL_OK, c1, none)
      ∧ c1.data.rowMax = 25 ∧ c1.data.rowSpace = 25
      ∧ (CheckSlotData c1 25 SlotType.ROW CHECK_ONLY).1 = TclStatus.TCL_OK
      ∧ GridRowColumnConfigureCommand c1 SlotType.ROW [IndexArg.slot 25] []
          = Except.error Fault.outOfBounds :=
  ⟨_, rfl, rfl, rfl, rfl, rfl⟩

/-- C20, as stated, fails: on a container with a fresh table
`grid columnconfigure . 5 -minsize 10 -weight -1` returns `TCL_ERROR` for the negative
weight, yet afterwards column 5 has `minSize` 10 instead of 0 and `columnMax` is 6
instead of 0. -/
theorem configure_atomic_counterexample :
    ∃ c1, GridRowColumnConfigureCommand freshContainer SlotType.COLUMN [IndexArg.slot 5]
        [OptionArg.minsize (some 10), OptionArg.weight (some (-1))]
        = Except.ok (TclStatus.TCL_ERROR, c1, none)
      ∧ (freshContainer.data.columnPtr 5).minSize = 0 ∧ (c1.data.columnPtr 5).minSize = 10
      ∧ freshContainer.data.columnMax = 0 ∧ c1.data.columnMax = 6 :=
  ⟨_, rfl, rfl, rfl, rfl, rfl⟩

/-- C20, amended. When a `rowconfigure` or `columnconfigure` call fails, the other axis
of the slot table is as before (its slots, its maximum and its allocation); on the axis
of the call no allocated slot other than those that an element of the index list names
has changed, `rowMax` (`columnMax`) and the allocation have not decreased, and the
allocated slots from the maximum on keep their defaults if they had them.  The container
is exactly as before when the call fails before its first slot: an empty index list, a
retrieval with a malformed index list, or a first index that is illegal, negative or at
least 10000, or a window of another container. -/
theorem configure_failure_frame (containerPtr : Container) (slotType : SlotType)
    (lObjv : List IndexArg) (options : List OptionArg) (c1 : Container)
    (hres : GridRowColumnConfigureCommand containerPtr slotType lObjv options
      = Except.ok (TclStatus.TCL_ERROR, c1, none)) :
    (∀ t, t ≠ slotType →
      c1.data.slotPtr t = containerPtr.data.slotPtr t
        ∧ c1.data.space t = containerPtr.data.space t
        ∧ c1.data.constraintCount t = containerPtr.data.constraintCount t)
    ∧ (∀ j, j < containerPtr.data.space slotType →
        (¬ ∃ index, index ∈ lObjv ∧ IndexArg.covers slotType containerPtr.contentPtr j index) →
        c1.data.slotPtr slotType j = containerPtr.data.slotPtr slotType j)
    ∧ containerPtr.data.constraintCount slotType ≤ c1.data.constraintCount slotType
    ∧ containerPtr.data.space slotType ≤ c1.data.space slotType
    ∧ (TrailingDefault slotType containerPtr → TrailingDefault slotType c1)
    ∧ ((lObjv = [] ∨ options = [] ∨ (∃ rest, lObjv = IndexArg.illegal :: rest)
          ∨ (∃ n rest, lObjv = IndexArg.slot n :: rest ∧ (n < 0 ∨ 10000 ≤ n))
          ∨ (∃ g rest, lObjv = IndexArg.window (some g) false :: rest)) →
        c1 = containerPtr) := by
  have hsame : c1 = containerPtr →
      (∀ t, t ≠ slotType →
        c1.data.slotPtr t = containerPtr.data.slotPtr t
          ∧ c1.data.space t = containerPtr.data.space t
          ∧ c1.data.constraintCount t = containerPtr.data.constraintCount t)
      ∧ (∀ j, j < containerPtr.data.space slotType →
          (¬ ∃ index, index ∈ lObjv
            ∧ IndexArg.covers slotType containerPtr.contentPtr j index) →
          c1.data.slotPtr slotType j = containerPtr.data.slotPtr slotType j)
      ∧ containerPtr.data.constraintCount slotType ≤ c1.data.constraintCount slotType
      ∧ containerPtr.data.space slotType ≤ c1.data.space slotType
      ∧ (TrailingDefault slotType containerPtr → TrailingDefault slotType c1)
      ∧ ((lObjv = [] ∨ options = [] ∨ (∃ rest, lObjv = IndexArg.illegal :: rest)
            ∨ (∃ n rest, lObjv = IndexArg.slot n :: rest ∧ (n < 0 ∨ 10000 ≤ n))
            ∨ (∃ g rest, lObjv = IndexArg.window (some g) false :: rest)) →
          c1 = containerPtr) := by
    intro h
    subst h
    exact ⟨fun _ _ => ⟨rfl, rfl, rfl⟩, fun _ _ _ => rfl, le_refl _, le_refl _, fun h => h,
      fun _ => rfl⟩
  cases lObjv with
  | nil =>
    rw [configureCommand_nil] at hres
    injection hres with hres
    simp only [Prod.mk.injEq, true_and, and_true] at hres
    exact hsame hres.symm
  | cons index rest =>
    cases options with
    | nil => exact hsame (configureCommand_query _ _ _ _ _ hres).2
    | cons o os =>
      have hstep := configureIndices_step slotType (o :: os) (index :: rest)
        { containerPtr := containerPtr, slotPtrSet := false }
      rw [configureCommand_set] at hres
      cases hr : configureIndices slotType (o :: os) (index :: rest)
          { containerPtr := containerPtr, slotPtrSet := false } with
      | mk s st =>
        rw [hr] at hres hstep
        cases s with
        | TCL_OK =>
          simp only at hres
          split at hres <;>
          · injection hres with hres
            simp at hres
        | TCL_ERROR =>
          simp only at hres hstep
          injection hres with hres
          simp only [Prod.mk.injEq, true_and, and_true] at hres
          subst hres
          refine ⟨hstep.other, hstep.kept, hstep.max_le, hstep.space_le, hstep.trailing, ?_⟩
          intro hfirst
          have hst : st = { containerPtr := containerPtr, slotPtrSet := false } := by
            rcases hfirst with h | h | ⟨r, h⟩ | ⟨n, r, h, hn⟩ | ⟨g, r, h⟩
            · cases h
            · cases h
            · injection h with h1 h2
              subst h1
              simp only [configureIndices, configureIndex] at hr
              exact (Prod.mk.inj hr).2.symm
            · injection h with h1 h2
              subst h1
              have h1 : (n + 1 - n).toNat = 1 := by
                rw [show n + 1 - n = 1 by omega]; rfl
              simp only [configureIndices, configureIndex, h1, configureRange,
                configureSlot_range slotType (o :: os) _ n hn] at hr
              exact (Prod.mk.inj hr).2.symm
            · injection h with h1 h2
              subst h1
              simp only [configureIndices, configureIndex] at hr
              exact (Prod.mk.inj hr).2.symm
          rw [hst]

theorem configure_failure_frame_witness :
    ∃ c1, GridRowColumnConfigureCommand freshContainer SlotType.COLUMN [IndexArg.slot 5]
        [OptionArg.minsize (some 10), OptionArg.weight (some (-1))]
        = Except.ok (TclStatus.TCL_ERROR, c1, none)
      ∧ ((∀ t, t ≠ SlotType.COLUMN →
          c1.data.slotPtr t = freshContainer.data.slotPtr t
            ∧ c1.data.space t = freshContainer.data.space t
            ∧ c1.data.constraintCount t = freshContainer.data.constraintCount t)
        ∧ (∀ j, j < freshContainer.data.space SlotType.COLUMN →
            (¬ ∃ index, index ∈ [IndexArg.slot 5]
              ∧ IndexArg.covers SlotType.COLUMN freshContainer.contentPtr j index) →
            c1.data.slotPtr SlotType.COLUMN j = freshContainer.data.slotPtr SlotType.COLUMN j)
        ∧ freshContainer.data.constraintCount SlotType.COLUMN
            ≤ c1.data.constraintCount SlotType.COLUMN
        ∧ freshContainer.data.space SlotType.COLUMN ≤ c1.data.space SlotType.COLUMN
        ∧ (TrailingDefault SlotType.COLUMN freshContainer →
            TrailingDefault SlotType.COLUMN c1)
        ∧ (([IndexArg.slot 5] = []
              ∨ [OptionArg.minsize (some 10), OptionArg.weight (some (-1))] = []
              ∨ (∃ rest, [IndexArg.slot 5] = IndexArg.illegal :: rest)
              ∨ (∃ n rest, [IndexArg.slot 5] = IndexArg.slot n :: rest ∧ (n < 0 ∨ 10000 ≤ n))
              ∨ (∃ g rest, [IndexArg.slot 5] = IndexArg.window (some g) false :: rest)) →
            c1 = freshContainer)) :=
  ⟨_, rfl, configure_failure_frame freshContainer SlotType.COLUMN [IndexArg.slot 5]
    [OptionArg.minsize (some 10), OptionArg.weight (some (-1))] _ rfl⟩

/-- The retrieval of the options of a slot reports zeros, and changes nothing, when the
slot is negative, at least 10000 or above the maximum, and when the container has no
table. -/
theorem configure_query_zero (c : Container) (t : SlotType) (slot : Int)
    (h : slot < 0 ∨ 10000 ≤ slot ∨ c.containerDataPtr.isNone = true
      ∨ (c.data.constraintCount t : Int) < slot) :
    GridRowColumnConfigureCommand c t [IndexArg.slot slot] []
      = Except.ok (TclStatus.TCL_OK, c,
          some { minsize := 0, pad := 0, uniform := none, weight := 0 }) := by
  have hcheck : CheckSlotData c slot t CHECK_ONLY = (TclStatus.TCL_ERROR, c) := by
    by_cases hr : slot < 0 ∨ 10000 ≤ slot
    · exact checkSlotData_range c slot t CHECK_ONLY hr
    · have hr1 : ¬ (slot < 0 ∨ slot ≥ MAX_ELEMENT) := by unfold MAX_ELEMENT; omega
      unfold CheckSlotData
      rw [if_neg hr1]
      by_cases hn : c.containerDataPtr.isNone = true
      · rw [if_pos ⟨rfl, hn⟩]
      · have hlt : (c.data.constraintCount t : Int) < slot := by
          rcases h with h | h | h | h
          · omega
          · omega
          · exact absurd h hn
          · exact h
        have hinit : InitContainerData c = c := by
          unfold InitContainerData
          cases hd : c.containerDataPtr with
          | none => rw [hd] at hn; exact absurd rfl hn
          | some d => rfl
        rw [if_neg (fun h1 => hn h1.2)]
        simp only [if_true, if_pos hlt, hinit]
  unfold GridRowColumnConfigureCommand
  simp only [hcheck]
  rw [if_neg (by decide)]

/-! ### `StringToSticky` -/

theorem stickyFlags_nonneg (n e s w : Bool) : 0 ≤ stickyFlags n e s w := by
  cases n <;> cases e <;> cases s <;> cases w <;> decide

theorem stickyFlags_lor (n e s w : Bool) :
    Int.lor (stickyFlags n e s w) STICK_NORTH = stickyFlags true e s w
    ∧ Int.lor (stickyFlags n e s w) STICK_EAST = stickyFlags n true s w
    ∧ Int.lor (stickyFlags n e s w) STICK_SOUTH = stickyFlags n e true w
    ∧ Int.lor (stickyFlags n e s w) STICK_WEST = stickyFlags n e s true := by
  cases n <;> cases e <;> cases s <;> cases w <;> decide

/-- The loop of `StringToSticky` from any flags: -1 when a character is not accepted,
otherwise the flags so far with those of the letters of the string. -/
theorem stickyLoop_eq (string : List Char) :
    ∀ (n e s w : Bool), Char.ofNat 0 ∉ string →
      stickyLoop string (stickyFlags n e s w) =
        if ∀ c, c ∈ string → stickyChar c then
          stickyFlags (n || decide ('n' ∈ string ∨ 'N' ∈ string))
            (e || decide ('e' ∈ string ∨ 'E' ∈ string))
            (s || decide ('s' ∈ string ∨ 'S' ∈ string))
            (w || decide ('w' ∈ string ∨ 'W' ∈ string))
        else -1 := by
  induction string with
  | nil =>
    intro n e s w _
    simp [stickyLoop]
  | cons c rest ih =>
    intro n e s w h0
    have hc0 : c ≠ Char.ofNat 0 := fun h => h0 (by rw [h]; exact List.mem_cons_self _ _)
    have hr0 : Char.ofNat 0 ∉ rest := fun h => h0 (List.mem_cons_of_mem _ h)
    have hall : (∀ x, x ∈ c :: rest → stickyChar x) ↔ (stickyChar c ∧ ∀ x, x ∈ rest → stickyChar x) := by
      simp [List.forall_mem_cons]
    obtain ⟨l1, l2, l3, l4⟩ := stickyFlags_lor n e s w
    unfold stickyLoop
    rw [if_neg hc0]
    by_cases h1 : c = 'n' ∨ c = 'N'
    · rw [if_pos h1, l1, ih true e s w hr0]
      have hsc : stickyChar c := by
        rcases h1 with h | h
        · exact Or.inl h
        · exact Or.inr (Or.inl h)
      have e1 : (n || decide ('n' ∈ c :: rest ∨ 'N' ∈ c :: rest)) = true := by
        rcases h1 with h | h <;> subst h <;> simp
      have e2 : decide ('e' ∈ c :: rest ∨ 'E' ∈ c :: rest) = decide ('e' ∈ rest ∨ 'E' ∈ rest) := by
        rcases h1 with h | h <;> subst h <;> simp
      have e3 : decide ('s' ∈ c :: rest ∨ 'S' ∈ c :: rest) = decide ('s' ∈ rest ∨ 'S' ∈ rest) := by
        rcases h1 with h | h <;> subst h <;> simp
      have e4 : decide ('w' ∈ c :: rest ∨ 'W' ∈ c :: rest) = decide ('w' ∈ rest ∨ 'W' ∈ rest) := by
        rcases h1 with h | h <;> subst h <;> simp
      rw [e1, e2, e3, e4]
      simp only [hall, hsc, true_and, Bool.true_or]
    rw [if_neg h1]
    by_cases h2 : c = 'e' ∨ c = 'E'
    · rw [if_pos h2, l2, ih n true s w hr0]
      have hsc : stickyChar c := by
        rcases h2 with h | h
        · exact Or.inr (Or.inr (Or.inl h))
        · exact Or.inr (Or.inr (Or.inr (Or.inl h)))
      have e1 : decide ('n' ∈ c :: rest ∨ 'N' ∈ c :: rest) = decide ('n' ∈ rest ∨ 'N' ∈ rest) := by
        rcases h2 with h | h <;> subst h <;> simp
      have e2 : (e || decide ('e' ∈ c :: rest ∨ 'E' ∈ c :: rest)) = true := by
        rcases h2 with h | h <;> subst h <;> simp
      have e3 : decide ('s' ∈ c :: rest ∨ 'S' ∈ c :: rest) = decide ('s' ∈ rest ∨ 'S' ∈ rest) := by
        rcases h2 with h | h <;> subst h <;> simp
      have e4 : decide ('w' ∈ c :: rest ∨ 'W' ∈ c :: rest) = decide ('w' ∈ rest ∨ 'W' ∈ rest) := by
        rcases h2 with h | h <;> subst h <;> simp
      rw [e1, e2, e3, e4]
      simp only [hall, hsc, true_and, Bool.true_or]
    rw [if_neg h2]
    by_cases h3 : c = 's' ∨ c = 'S'
    · rw [if_pos h3, l3, ih n e true w hr0]
      have hsc : stickyChar c := by
        rcases h3 with h | h
        · exact Or.inr (Or.inr (Or.inr (Or.inr (Or.inl h))))
        · exact Or.inr (Or.inr (Or.inr (Or.inr (Or.inr (Or.inl h)))))
      have e1 : decide ('n' ∈ c :: rest ∨ 'N' ∈ c :: rest) = decide ('n' ∈ rest ∨ 'N' ∈ rest) := by
        rcases h3 with h | h <;> subst h <;> simp
      have e2 : decide ('e' ∈ c :: rest ∨ 'E' ∈ c :: rest) = decide ('e' ∈ rest ∨ 'E' ∈ rest) := by
        rcases h3 with h | h <;> subst h <;> simp
      have e3 : (s || decide ('s' ∈ c :: rest ∨ 'S' ∈ c :: rest)) = true := by
        rcases h3 with h | h <;> subst h <;> simp
      have e4 : decide ('w' ∈ c :: rest ∨ 'W' ∈ c :: rest) = decide ('w' ∈ rest ∨ 'W' ∈ rest) := by
        rcases h3 with h | h <;> subst h <;> simp
      rw [e1, e2, e3, e4]
      simp only [hall, hsc, true_and, Bool.true_or]
    rw [if_neg h3]
    by_cases h4 : c = 'w' ∨ c = 'W'
    · rw [if_pos h4, l4, ih n e s true hr0]
      have hsc : stickyChar c := by
        rcases h4 with h | h
        · exact Or.inr (Or.inr (Or.inr (Or.inr (Or.inr (Or.inr (Or.inl h))))))
        · exact Or.inr (Or.inr (Or.inr (Or.inr (Or.inr (Or.inr (Or.inr (Or.inl h)))))))
      have e1 : decide ('n' ∈ c :: rest ∨ 'N' ∈ c :: rest) = decide ('n' ∈ rest ∨ 'N' ∈ rest) := by
        rcases h4 with h | h <;> subst h <;> simp
      have e2 : decide ('e' ∈ c :: rest ∨ 'E' ∈ c :: rest) = decide ('e' ∈ rest ∨ 'E' ∈ rest) := by
        rcases h4 with h | h <;> subst h <;> simp
      have e3 : decide ('s' ∈ c :: rest ∨ 'S' ∈ c :: rest) = decide ('s' ∈ rest ∨ 'S' ∈ rest) := by
        rcases h4 with h | h <;> subst h <;> simp
      have e4 : (w || decide ('w' ∈ c :: rest ∨ 'W' ∈ c :: rest)) = true := by
        rcases h4 with h | h <;> subst h <;> simp
      rw [e1, e2, e3, e4]
      simp only [hall, hsc, true_and, Bool.true_or]
    rw [if_neg h4]
    have e1 : decide ('n' ∈ c :: rest ∨ 'N' ∈ c :: rest) = decide ('n' ∈ rest ∨ 'N' ∈ rest) := by
      have : 'n' ≠ c ∧ 'N' ≠ c := ⟨fun h => h1 (Or.inl h.symm), fun h => h1 (Or.inr h.symm)⟩
      simp [this.1, this.2]
    have e2 : decide ('e' ∈ c :: rest ∨ 'E' ∈ c :: rest) = decide ('e' ∈ rest ∨ 'E' ∈ rest) := by
      have : 'e' ≠ c ∧ 'E' ≠ c := ⟨fun h => h2 (Or.inl h.symm), fun h => h2 (Or.inr h.symm)⟩
      simp [this.1, this.2]
    have e3 : decide ('s' ∈ c :: rest ∨ 'S' ∈ c :: rest) = decide ('s' ∈ rest ∨ 'S' ∈ rest) := by
      have : 's' ≠ c ∧ 'S' ≠ c := ⟨fun h => h3 (Or.inl h.symm), fun h => h3 (Or.inr h.symm)⟩
      simp [this.1, this.2]
    have e4 : decide ('w' ∈ c :: rest ∨ 'W' ∈ c :: rest) = decide ('w' ∈ rest ∨ 'W' ∈ rest) := by
      have : 'w' ≠ c ∧ 'W' ≠ c := ⟨fun h => h4 (Or.inl h.symm), fun h => h4 (Or.inr h.symm)⟩
      simp [this.1, this.2]
    by_cases h5 : c = Char.ofNat 32 ∨ c = Char.ofNat 44 ∨ c = Char.ofNat 9 ∨ c = Char.ofNat 13
        ∨ c = Char.ofNat 10
    · rw [if_pos h5, ih n e s w hr0]
      have hsc : stickyChar c :=
        Or.inr (Or.inr (Or.inr (Or.inr (Or.inr (Or.inr (Or.inr (Or.inr h5)))))))
      rw [e1, e2, e3, e4]
      simp only [hall, hsc, true_and]
    · rw [if_neg h5]
      have hsc : ¬ stickyChar c := by
        intro h
        rcases h with h | h | h | h | h | h | h | h | h
        · exact h1 (Or.inl h)
        · exact h1 (Or.inr h)
        · exact h2 (Or.inl h)
        · exact h2 (Or.inr h)
        · exact h3 (Or.inl h)
        · exact h3 (Or.inr h)
        · exact h4 (Or.inl h)
        · exact h4 (Or.inr h)
        · exact h5 h
      rw [if_neg (fun h => hsc (hall.mp h).1)]

/-- C27. `StringToSticky` on a string (the characters before its terminator) returns -1 if
and only if the string has a character other than `n`, `e`, `s`, `w` in either case and
the separators space, comma, tab, CR and LF; otherwise it returns the bitwise OR of
`STICK_NORTH` = 1, `STICK_EAST` = 2, `STICK_SOUTH` = 4 and `STICK_WEST` = 8 for the
letters present, a value that depends only on which letters occur (not on their order,
case, repetition or the separators); the empty string gives 0. -/
theorem stringToSticky_spec (string : List Char) (hend : Char.ofNat 0 ∉ string) :
    (StringToSticky string = -1 ↔ ∃ c, c ∈ string ∧ ¬ stickyChar c)
    ∧ ((∀ c, c ∈ string → stickyChar c) → StringToSticky string = stickyOf string)
    ∧ StringToSticky [] = 0
    ∧ STICK_NORTH = 1 ∧ STICK_EAST = 2 ∧ STICK_SOUTH = 4 ∧ STICK_WEST = 8 := by
  have h := stickyLoop_eq string false false false false hend
  have h0 : stickyFlags false false false false = 0 := by decide
  rw [h0] at h
  simp only [Bool.false_or] at h
  refine ⟨?_, ?_, rfl, rfl, rfl, rfl, rfl⟩
  · unfold StringToSticky
    rw [h]
    constructor
    · intro hm
      by_contra hx
      have hall : ∀ c, c ∈ string → stickyChar c := by
        intro c hc
        by_contra hn
        exact hx ⟨c, hc, hn⟩
      rw [if_pos hall] at hm
      have := stickyFlags_nonneg (decide ('n' ∈ string ∨ 'N' ∈ string))
        (decide ('e' ∈ string ∨ 'E' ∈ string)) (decide ('s' ∈ string ∨ 'S' ∈ string))
        (decide ('w' ∈ string ∨ 'W' ∈ string))
      omega
    · intro hx
      obtain ⟨c, hc, hn⟩ := hx
      rw [if_neg (fun hall => hn (hall c hc))]
  · intro hall
    unfold StringToSticky stickyOf
    rw [h, if_pos hall]

theorem stringToSticky_spec_witness :
    (StringToSticky ['W', Char.ofNat 32, 'n', 'w'] = -1 ↔
      ∃ c, c ∈ ['W', Char.ofNat 32, 'n', 'w'] ∧ ¬ stickyChar c)
    ∧ ((∀ c, c ∈ ['W', Char.ofNat 32, 'n', 'w'] → stickyChar c) →
        StringToSticky ['W', Char.ofNat 32, 'n', 'w'] = stickyOf ['W', Char.ofNat 32, 'n', 'w'])
    ∧ StringToSticky [] = 0
    ∧ STICK_NORTH = 1 ∧ STICK_EAST = 2 ∧ STICK_SOUTH = 4 ∧ STICK_WEST = 8 :=
  stringToSticky_spec ['W', Char.ofNat 32, 'n', 'w'] (by decide)

/-! ### `SetGridSize` and the queries -/

theorem data_mk (d : GridContainer) (content : List Gridder) :
    (Container.mk (some d) content).data = d := rfl

/-- What `CheckSlotData` in the mode `CHECK_SPACE` leaves as it is, and what it
allocates. -/
theorem checkSlotData_space (c : Container) (slot : Int) (t : SlotType) :
    (CheckSlotData c slot t CHECK_SPACE).2.contentPtr = c.contentPtr
    ∧ (CheckSlotData c slot t CHECK_SPACE).2.data.columnEnd = c.data.columnEnd
    ∧ (CheckSlotData c slot t CHECK_SPACE).2.data.rowEnd = c.data.rowEnd
    ∧ (CheckSlotData c slot t CHECK_SPACE).2.data.columnMax = c.data.columnMax
    ∧ (CheckSlotData c slot t CHECK_SPACE).2.data.rowMax = c.data.rowMax
    ∧ (CheckSlotData c slot t CHECK_SPACE).2.data.startX = c.data.startX
    ∧ (CheckSlotData c slot t CHECK_SPACE).2.data.startY = c.data.startY
    ∧ (∀ t1, c.data.space t1 ≤ (CheckSlotData c slot t CHECK_SPACE).2.data.space t1)
    ∧ (∀ t1 j, j < c.data.space t1 →
        (CheckSlotData c slot t CHECK_SPACE).2.data.slotPtr t1 j = c.data.slotPtr t1 j)
    ∧ (0 ≤ slot → slot < 10000 →
        slot < ((CheckSlotData c slot t CHECK_SPACE).2.data.space t : Int)) := by
  by_cases hr : slot < 0 ∨ 10000 ≤ slot
  · rw [checkSlotData_range c slot t CHECK_SPACE hr]
    exact ⟨rfl, rfl, rfl, rfl, rfl, rfl, rfl, fun _ => le_refl _, fun _ _ _ => rfl,
      fun h0 h1 => by omega⟩
  · have hr1 : ¬ (slot < 0 ∨ slot ≥ MAX_ELEMENT) := by unfold MAX_ELEMENT; omega
    have hk3 : ¬ (CHECK_SPACE = CHECK_ONLY) := by decide
    have hk : ¬ (CHECK_SPACE = CHECK_ONLY ∧ c.containerDataPtr.isNone = true) :=
      fun h => hk3 h.1
    have hk2 : ¬ (slot ≥ (c.data.constraintCount t : Int) ∧ CHECK_SPACE ≠ CHECK_SPACE) :=
      fun h => h.2 rfl
    unfold CheckSlotData
    rw [if_neg hr1, if_neg hk]
    simp only [if_neg hk3, if_neg hk2]
    by_cases hs : slot ≥ (c.data.space t : Int)
    · simp only [if_pos hs, data_mk]
      refine ⟨?_, ?_, ?_, ?_, ?_, ?_, ?_, ?_, ?_, ?_⟩
      · trivial
      · cases t <;> rfl
      · cases t <;> rfl
      · cases t <;> rfl
      · cases t <;> rfl
      · cases t <;> rfl
      · cases t <;> rfl
      · intro t1
        rw [space_setSpace, space_setSlotPtr]
        split
        · rename_i h; subst h; unfold PREALLOC; omega
        · exact le_refl _
      · intro t1 j hj
        rw [slotPtr_setSpace, slotPtr_setSlotPtr]
        split
        · rename_i h; subst h; unfold growSlots; rw [if_pos hj]
        · rfl
      · intro h0 h1
        rw [space_setSpace, if_pos rfl]
        unfold PREALLOC; omega
    · simp only [if_neg hs, data_mk]
      refine ⟨?_, ?_, ?_, ?_, ?_, ?_, ?_, ?_, ?_, ?_⟩
      · trivial
      · trivial
      · trivial
      · trivial
      · trivial
      · trivial
      · trivial
      · first | trivial | exact fun _ => le_refl _
      · first | trivial | exact fun _ _ _ => rfl | exact fun _ _ _ => trivial
      · intro h0 h1; omega

theorem gridExtent_ge (content : List Gridder) :
    ∀ m : Int × Int, m.1 ≤ (gridExtent content m).1 ∧ m.2 ≤ (gridExtent content m).2
      ∧ (∀ g, g ∈ content → wrapInt (g.numCols + g.column) ≤ (gridExtent content m).1
          ∧ wrapInt (g.numRows + g.row) ≤ (gridExtent content m).2) := by
  induction content with
  | nil => intro m; exact ⟨le_refl _, le_refl _, fun g hg => by cases hg⟩
  | cons g rest ih =>
    intro m
    unfold gridExtent
    generalize hsx : wrapInt (g.numCols + g.column) = sx
    generalize hsy : wrapInt (g.numRows + g.row) = sy
    have hX : m.1 ≤ (if m.1 > sx then m.1 else sx) ∧ sx ≤ (if m.1 > sx then m.1 else sx) := by
      split <;> omega
    have hY : m.2 ≤ (if m.2 > sy then m.2 else sy) ∧ sy ≤ (if m.2 > sy then m.2 else sy) := by
      split <;> omega
    generalize (if m.1 > sx then m.1 else sx) = X at hX
    generalize (if m.2 > sy then m.2 else sy) = Y at hY
    obtain ⟨a1, a2, a3⟩ := ih (X, Y)
    simp only at a1 a2
    refine ⟨by omega, by omega, ?_⟩
    intro x hx
    rcases List.mem_cons.mp hx with h | h
    · subst h
      rw [hsx, hsy]
      constructor <;> omega
    · exact a3 x h

theorem gridExtent_attained (content : List Gridder) :
    ∀ m : Int × Int,
      ((gridExtent content m).1 = m.1
        ∨ ∃ g, g ∈ content ∧ (gridExtent content m).1 = wrapInt (g.numCols + g.column))
      ∧ ((gridExtent content m).2 = m.2
        ∨ ∃ g, g ∈ content ∧ (gridExtent content m).2 = wrapInt (g.numRows + g.row)) := by
  induction content with
  | nil => intro m; exact ⟨Or.inl rfl, Or.inl rfl⟩
  | cons g rest ih =>
    intro m
    unfold gridExtent
    generalize hsx : wrapInt (g.numCols + g.column) = sx
    generalize hsy : wrapInt (g.numRows + g.row) = sy
    have hX : (if m.1 > sx then m.1 else sx) = m.1 ∨ (if m.1 > sx then m.1 else sx) = sx := by
      split
      · exact Or.inl rfl
      · exact Or.inr rfl
    have hY : (if m.2 > sy then m.2 else sy) = m.2 ∨ (if m.2 > sy then m.2 else sy) = sy := by
      split
      · exact Or.inl rfl
      · exact Or.inr rfl
    generalize (if m.1 > sx then m.1 else sx) = X at hX
    generalize (if m.2 > sy then m.2 else sy) = Y at hY
    obtain ⟨a1, a2⟩ := ih (X, Y)
    simp only at a1 a2
    constructor
    · rcases a1 with h | ⟨x, hx, h⟩
      · rcases hX with h1 | h1
        · exact Or.inl (h.trans h1)
        · exact Or.inr ⟨g, List.mem_cons_self _ _, by rw [hsx]; exact h.trans h1⟩
      · exact Or.inr ⟨x, List.mem_cons_of_mem _ hx, h⟩
    · rcases a2 with h | ⟨x, hx, h⟩
      · rcases hY with h1 | h1
        · exact Or.inl (h.trans h1)
        · exact Or.inr ⟨g, List.mem_cons_self _ _, by rw [hsy]; exact h.trans h1⟩
      · exact Or.inr ⟨x, List.mem_cons_of_mem _ hx, h⟩

/-- The outcome of `SetGridSize` on a container with grid data. -/
theorem setGridSize_spec (c : Container) (d : GridContainer)
    (hd : c.containerDataPtr = some d) :
    ∃ c1, SetGridSize c = Except.ok c1
      ∧ c1.contentPtr = c.contentPtr
      ∧ (c1.data.columnEnd : Int) = (gridExtent c.contentPtr (0, 0)).1
      ∧ (c1.data.rowEnd : Int) = (gridExtent c.contentPtr (0, 0)).2
      ∧ c1.data.columnMax = d.columnMax ∧ c1.data.rowMax = d.rowMax
      ∧ c1.data.startX = d.startX ∧ c1.data.startY = d.startY
      ∧ (∀ t, d.space t ≤ c1.data.space t)
      ∧ (∀ t j, j < d.space t → c1.data.slotPtr t j = d.slotPtr t j)
      ∧ ((gridExtent c.contentPtr (0, 0)).1 < 10000 →
          c1.data.columnEnd < c1.data.columnSpace)
      ∧ ((gridExtent c.contentPtr (0, 0)).2 < 10000 → c1.data.rowEnd < c1.data.rowSpace) := by
  obtain ⟨g1, g2, _⟩ := gridExtent_ge c.contentPtr (0, 0)
  simp only at g1 g2
  unfold SetGridSize
  rw [hd]
  simp only
  generalize hm : gridExtent c.contentPtr (0, 0) = m at g1 g2
  generalize hc1 : Container.mk
      (some { d with columnEnd := m.1.toNat, rowEnd := m.2.toNat }) c.contentPtr = c1
  have e1 : c1.data = { d with columnEnd := m.1.toNat, rowEnd := m.2.toNat } := by
    rw [← hc1]; rfl
  have e1c : c1.contentPtr = c.contentPtr := by rw [← hc1]
  obtain ⟨a0, a1, a2, a3, a4, a5, a6, a7, a8, a9⟩ := checkSlotData_space c1 m.1 SlotType.COLUMN
  generalize hc2 : (CheckSlotData c1 m.1 SlotType.COLUMN CHECK_SPACE).2 = c2 at a0 a1 a2 a3 a4 a5 a6 a7 a8 a9
  obtain ⟨b0, b1, b2, b3, b4, b5, b6, b7, b8, b9⟩ := checkSlotData_space c2 m.2 SlotType.ROW
  generalize hc3 : (CheckSlotData c2 m.2 SlotType.ROW CHECK_SPACE).2 = c3 at b0 b1 b2 b3 b4 b5 b6 b7 b8 b9
  refine ⟨c3, rfl, ?_, ?_, ?_, ?_, ?_, ?_, ?_, ?_, ?_, ?_, ?_⟩
  · rw [b0, a0, e1c]
  · rw [b1, a1, e1]; simp only; omega
  · rw [b2, a2, e1]; simp only; omega
  · rw [b3, a3, e1]
  · rw [b4, a4, e1]
  · rw [b5, a5, e1]
  · rw [b6, a6, e1]
  · intro t
    have h1 := a7 t
    have h2 := b7 t
    rw [e1] at h1
    have : GridContainer.space t { d with columnEnd := m.1.toNat, rowEnd := m.2.toNat }
        = d.space t := by cases t <;> rfl
    omega
  · intro t j hj
    have hj1 : j < c1.data.space t := by
      rw [e1]
      have : GridContainer.space t { d with columnEnd := m.1.toNat, rowEnd := m.2.toNat }
          = d.space t := by cases t <;> rfl
      omega
    rw [b8 t j (lt_of_lt_of_le hj1 (a7 t)), a8 t j hj1, e1]
    cases t <;> rfl
  · intro hlt
    have h1 := a9 g1 hlt
    have h2 := b7 SlotType.COLUMN
    have h3 : (c3.data.columnEnd : Int) = m.1 := by
      rw [b1, a1, e1]; simp only; omega
    show c3.data.columnEnd < c3.data.space SlotType.COLUMN
    omega
  · intro hlt
    have h1 := b9 g2 hlt
    have h3 : (c3.data.rowEnd : Int) = m.2 := by
      rw [b2, a2, e1]; simp only; omega
    show c3.data.rowEnd < c3.data.space SlotType.ROW
    omega
theorem gridEnd_eq_max (t : SlotType) (c : GridContainer) :
    c.gridEnd t = max (c.slotCount t : Int) (c.constraintCount t : Int) := by
  unfold GridContainer.gridEnd
  split <;> omega

/-- While the sums `column + numCols` and `row + numRows` of every content fit in an `int`,
the command `grid size` reports `(0, 0)` for a container without grid data; otherwise it
runs `SetGridSize` and reports `(max(columnEnd, columnMax), max(rowEnd, rowMax))`, where
`columnMax` and `rowMax` are unchanged and the `columnEnd` that `SetGridSize` has stored
is the largest `column + numCols` over the content of the container, 0 when there is
none, and `rowEnd` the largest `row + numRows`. -/
theorem gridSize_spec (containerPtr : Container)
    (hfit : ∀ g, g ∈ containerPtr.contentPtr →
      (-2147483648 ≤ g.numCols + g.column ∧ g.numCols + g.column ≤ INT_MAX)
      ∧ (-2147483648 ≤ g.numRows + g.row ∧ g.numRows + g.row ≤ INT_MAX)) :
    (containerPtr.containerDataPtr.isNone = true →
      GridSizeCommand containerPtr = Except.ok (containerPtr, 0, 0))
    ∧ (∀ d, containerPtr.containerDataPtr = some d →
        ∃ c1, SetGridSize containerPtr = Except.ok c1
          ∧ GridSizeCommand containerPtr
            = Except.ok (c1, max (c1.data.columnEnd : Int) (c1.data.columnMax : Int),
                max (c1.data.rowEnd : Int) (c1.data.rowMax : Int))
          ∧ c1.data.columnMax = d.columnMax ∧ c1.data.rowMax = d.rowMax
          ∧ (∀ g, g ∈ containerPtr.contentPtr →
              g.column + g.numCols ≤ (c1.data.columnEnd : Int)
                ∧ g.row + g.numRows ≤ (c1.data.rowEnd : Int))
          ∧ (c1.data.columnEnd = 0
              ∨ ∃ g, g ∈ containerPtr.contentPtr
                  ∧ (c1.data.columnEnd : Int) = g.column + g.numCols)
          ∧ (c1.data.rowEnd = 0
              ∨ ∃ g, g ∈ containerPtr.contentPtr ∧ (c1.data.rowEnd : Int) = g.row + g.numRows)
          ∧ (containerPtr.contentPtr = [] → c1.data.columnEnd = 0 ∧ c1.data.rowEnd = 0)) := by
  constructor
  · intro hn
    unfold GridSizeCommand
    cases hd : containerPtr.containerDataPtr with
    | none => rfl
    | some d => rw [hd] at hn; cases hn
  · intro d hd
    obtain ⟨c1, e, _, hce, hre, hcm, hrm, _, _, _, _, _, _⟩ := setGridSize_spec containerPtr d hd
    obtain ⟨_, _, hge⟩ := gridExtent_ge containerPtr.contentPtr (0, 0)
    obtain ⟨ha1, ha2⟩ := gridExtent_attained containerPtr.contentPtr (0, 0)
    refine ⟨c1, e, ?_, hcm, hrm, ?_, ?_, ?_, ?_⟩
    · unfold GridSizeCommand
      rw [hd]
      simp only [e]
      rw [gridEnd_eq_max, gridEnd_eq_max]
      rfl
    · intro g hg
      have := hge g hg
      rw [wrapInt_eq _ (hfit g hg).1.1 (hfit g hg).1.2,
        wrapInt_eq _ (hfit g hg).2.1 (hfit g hg).2.2] at this
      omega
    · rcases ha1 with h | ⟨g, hg, h⟩
      · left; simp only at h; omega
      · right
        rw [wrapInt_eq _ (hfit g hg).1.1 (hfit g hg).1.2] at h
        exact ⟨g, hg, by omega⟩
    · rcases ha2 with h | ⟨g, hg, h⟩
      · left; simp only at h; omega
      · right
        rw [wrapInt_eq _ (hfit g hg).2.1 (hfit g hg).2.2] at h
        exact ⟨g, hg, by omega⟩
    · intro hnil
      rw [hnil] at hce hre
      simp only [gridExtent] at hce hre
      omega

/-- The slots below the end of the grid are allocated after `SetGridSize`, when the
maximum does not exceed the allocation and the content ends before `MAX_ELEMENT`. -/
theorem setGridSize_end_le (c : Container) (d : GridContainer)
    (hd : c.containerDataPtr = some d) (t : SlotType)
    (hmax : d.constraintCount t ≤ d.space t)
    (hext : ∀ g, g ∈ c.contentPtr →
      wrapInt (g.numCols + g.column) < 10000 ∧ wrapInt (g.numRows + g.row) < 10000)
    (c1 : Container) (e : SetGridSize c = Except.ok c1) :
    0 ≤ c1.data.gridEnd t ∧ c1.data.gridEnd t ≤ (c1.data.space t : Int)
    ∧ (d.constraintCount t < d.space t → c1.data.gridEnd t < (c1.data.space t : Int)) := by
  obtain ⟨c2, e2, _, hce, hre, hcm, hrm, _, _, hsp, _, hcs, hrs⟩ := setGridSize_spec c d hd
  rw [e] at e2
  injection e2 with e2
  subst e2
  obtain ⟨ha1, ha2⟩ := gridExtent_attained c.contentPtr (0, 0)
  have hx : (gridExtent c.contentPtr (0, 0)).1 < 10000 := by
    rcases ha1 with h | ⟨g, hg, h⟩
    · rw [h]; decide
    · rw [h]; exact (hext g hg).1
  have hy : (gridExtent c.contentPtr (0, 0)).2 < 10000 := by
    rcases ha2 with h | ⟨g, hg, h⟩
    · rw [h]; decide
    · rw [h]; exact (hext g hg).2
  have h1 := hcs hx
  have h2 := hrs hy
  have h3 := hsp t
  unfold GridContainer.gridEnd
  cases t with
  | COLUMN =>
    have h4 : c1.data.columnMax ≤ d.columnSpace := by rw [hcm]; exact hmax
    have h5 : d.columnSpace ≤ c1.data.columnSpace := h3
    have h6 : (d.columnMax < d.columnSpace → c1.data.columnMax < c1.data.columnSpace) := by
      intro h; rw [hcm]; omega
    show 0 ≤ (if (c1.data.columnEnd : Int) > c1.data.columnMax then (c1.data.columnEnd : Int)
        else c1.data.columnMax)
      ∧ (if (c1.data.columnEnd : Int) > c1.data.columnMax then (c1.data.columnEnd : Int)
        else c1.data.columnMax) ≤ (c1.data.columnSpace : Int)
      ∧ (d.columnMax < d.columnSpace →
        (if (c1.data.columnEnd : Int) > c1.data.columnMax then (c1.data.columnEnd : Int)
          else c1.data.columnMax) < (c1.data.columnSpace : Int))
    refine ⟨?_, ?_, ?_⟩
    · split <;> omega
    · split <;> omega
    · intro h; have := h6 h; split <;> omega
  | ROW =>
    have h4 : c1.data.rowMax ≤ d.rowSpace := by rw [hrm]; exact hmax
    have h5 : d.rowSpace ≤ c1.data.rowSpace := h3
    have h6 : (d.rowMax < d.rowSpace → c1.data.rowMax < c1.data.rowSpace) := by
      intro h; rw [hrm]; omega
    show 0 ≤ (if (c1.data.rowEnd : Int) > c1.data.rowMax then (c1.data.rowEnd : Int)
        else c1.data.rowMax)
      ∧ (if (c1.data.rowEnd : Int) > c1.data.rowMax then (c1.data.rowEnd : Int)
        else c1.data.rowMax) ≤ (c1.data.rowSpace : Int)
      ∧ (d.rowMax < d.rowSpace →
        (if (c1.data.rowEnd : Int) > c1.data.rowMax then (c1.data.rowEnd : Int)
          else c1.data.rowMax) < (c1.data.rowSpace : Int))
    refine ⟨?_, ?_, ?_⟩
    · split <;> omega
    · split <;> omega
    · intro h; have := h6 h; split <;> omega

theorem readOffset_ok (d : GridContainer) (t : SlotType) (i : Int) (h0 : 0 ≤ i)
    (h1 : i < (d.space t : Int)) :
    readOffset d t i = Except.ok (edgeOffset d t i) := by
  unfold readOffset edgeOffset
  rw [if_pos ⟨h0, h1⟩, if_neg (by omega)]

/-- The bounding box on one axis, between the slots `lo` and `hi` of the grid. -/
theorem bbox_axis (d : GridContainer) (t : SlotType) (endX lo hi x : Int)
    (hend : endX ≤ (d.space t : Int)) (h0 : 0 ≤ lo) (h1 : lo ≤ hi) (h2 : hi < endX) :
    bboxStart d t lo endX = Except.ok (edgeOffset d t (lo - 1))
    ∧ bboxExtent d t hi endX x = Except.ok (edgeOffset d t hi - x) := by
  constructor
  · unfold bboxStart
    by_cases hl : lo > 0
    · rw [if_pos ⟨hl, by omega⟩, readOffset_ok d t (lo - 1) (by omega) (by omega)]
    · rw [if_neg (fun h => hl h.1), if_neg hl]
      unfold edgeOffset
      rw [if_pos (by omega)]
  · unfold bboxExtent
    rw [if_neg (by omega), if_neg (by omega), readOffset_ok d t hi (by omega) (by omega)]

/-- The bounding box of the whole grid on one axis. -/
theorem bbox_axis_whole (d : GridContainer) (t : SlotType) (endX x : Int)
    (hend : endX ≤ (d.space t : Int)) (h0 : 0 < endX) :
    bboxStart d t 0 endX = Except.ok 0
    ∧ bboxExtent d t endX endX x = Except.ok (edgeOffset d t (endX - 1) - x) := by
  constructor
  · unfold bboxStart
    rw [if_neg (by omega), if_neg (by omega)]
  · unfold bboxExtent
    rw [if_neg (by omega), if_pos (le_refl _), readOffset_ok d t (endX - 1) (by omega) (by omega)]
/-- C24. The command `grid bbox` on a container with grid data whose maximums do not exceed
the allocations and whose content ends before `MAX_ELEMENT` (the sums `numCols + column`
and `numRows + row`, as `SetGridSize` computes them, are below 10000), after `SetGridSize`, with
`endX` and `endY` the ends of the grid and `offset[-1] = 0`: when the grid has no column
or no row the result is `(0, 0, 0, 0)`; otherwise, for two corners within the grid, with
`lo` and `hi` the smaller and the larger of each pair of coordinates, it is
`(startX + colOffset[lo - 1], startY + rowOffset[lo - 1], colOffset[hi] -
colOffset[lo - 1], rowOffset[hi] - rowOffset[lo - 1])`, the same for the two orders of
the corners; for one corner it is the box of that cell; without corners it is
`(startX, startY, colOffset[endX - 1], rowOffset[endY - 1])`.  A container without grid
data gives `(0, 0, 0, 0)`. -/
theorem gridBbox_spec (containerPtr : Container) (d : GridContainer)
    (hd : containerPtr.containerDataPtr = some d)
    (hmaxc : d.columnMax ≤ d.columnSpace) (hmaxr : d.rowMax ≤ d.rowSpace)
    (hext : ∀ g, g ∈ containerPtr.contentPtr →
      wrapInt (g.numCols + g.column) < 10000 ∧ wrapInt (g.numRows + g.row) < 10000) :
    ∃ c1, SetGridSize containerPtr = Except.ok c1
      ∧ ((c1.data.gridEnd SlotType.COLUMN = 0 ∨ c1.data.gridEnd SlotType.ROW = 0) →
          ∀ args, GridBboxCommand containerPtr args = Except.ok (c1, 0, 0, 0, 0))
      ∧ (c1.data.gridEnd SlotType.COLUMN ≠ 0 → c1.data.gridEnd SlotType.ROW ≠ 0 →
          (∀ column row column2 row2 : Int,
            0 ≤ column → column < c1.data.gridEnd SlotType.COLUMN →
            0 ≤ column2 → column2 < c1.data.gridEnd SlotType.COLUMN →
            0 ≤ row → row < c1.data.gridEnd SlotType.ROW →
            0 ≤ row2 → row2 < c1.data.gridEnd SlotType.ROW →
            GridBboxCommand containerPtr (BboxArgs.cells column row column2 row2)
              = Except.ok (c1,
                  c1.data.startX + edgeOffset c1.data SlotType.COLUMN (min column column2 - 1),
                  c1.data.startY + edgeOffset c1.data SlotType.ROW (min row row2 - 1),
                  edgeOffset c1.data SlotType.COLUMN (max column column2)
                    - edgeOffset c1.data SlotType.COLUMN (min column column2 - 1),
                  edgeOffset c1.data SlotType.ROW (max row row2)
                    - edgeOffset c1.data SlotType.ROW (min row row2 - 1))
            ∧ GridBboxCommand containerPtr (BboxArgs.cells column2 row2 column row)
              = GridBboxCommand containerPtr (BboxArgs.cells column row column2 row2)
            ∧ GridBboxCommand containerPtr (BboxArgs.cell column row)
              = Except.ok (c1,
                  c1.data.startX + edgeOffset c1.data SlotType.COLUMN (column - 1),
                  c1.data.startY + edgeOffset c1.data SlotType.ROW (row - 1),
                  edgeOffset c1.data SlotType.COLUMN column
                    - edgeOffset c1.data SlotType.COLUMN (column - 1),
                  edgeOffset c1.data SlotType.ROW row
                    - edgeOffset c1.data SlotType.ROW (row - 1)))
          ∧ GridBboxCommand containerPtr BboxArgs.whole
              = Except.ok (c1, c1.data.startX, c1.data.startY,
                  edgeOffset c1.data SlotType.COLUMN (c1.data.gridEnd SlotType.COLUMN - 1),
                  edgeOffset c1.data SlotType.ROW (c1.data.gridEnd SlotType.ROW - 1)))
      ∧ (∀ (c0 : Container) (args : BboxArgs), c0.containerDataPtr.isNone = true →
          GridBboxCommand c0 args = Except.ok (c0, 0, 0, 0, 0)) := by
  obtain ⟨c1, e, _⟩ := setGridSize_spec containerPtr d hd
  obtain ⟨hx0, hxs, _⟩ := setGridSize_end_le containerPtr d hd SlotType.COLUMN hmaxc hext c1 e
  obtain ⟨hy0, hys, _⟩ := setGridSize_end_le containerPtr d hd SlotType.ROW hmaxr hext c1 e
  -- the command between two corners
  have hbox : c1.data.gridEnd SlotType.COLUMN ≠ 0 → c1.data.gridEnd SlotType.ROW ≠ 0 →
      ∀ column row column2 row2 : Int,
        0 ≤ column → column < c1.data.gridEnd SlotType.COLUMN →
        0 ≤ column2 → column2 < c1.data.gridEnd SlotType.COLUMN →
        0 ≤ row → row < c1.data.gridEnd SlotType.ROW →
        0 ≤ row2 → row2 < c1.data.gridEnd SlotType.ROW →
        GridBboxCommand containerPtr (BboxArgs.cells column row column2 row2)
          = Except.ok (c1,
              c1.data.startX + edgeOffset c1.data SlotType.COLUMN (min column column2 - 1),
              c1.data.startY + edgeOffset c1.data SlotType.ROW (min row row2 - 1),
              edgeOffset c1.data SlotType.COLUMN (max column column2)
                - edgeOffset c1.data SlotType.COLUMN (min column column2 - 1),
              edgeOffset c1.data SlotType.ROW (max row row2)
                - edgeOffset c1.data SlotType.ROW (min row row2 - 1)) := by
    intro hx hy column row column2 row2 a1 a2 a3 a4 a5 a6 a7 a8
    have hcl : (if column > column2 then column2 else column) = min column column2 := by
      split <;> omega
    have hch : (if column > column2 then column else column2) = max column column2 := by
      split <;> omega
    have hrl : (if row > row2 then row2 else row) = min row row2 := by
      split <;> omega
    have hrh : (if row > row2 then row else row2) = max row row2 := by
      split <;> omega
    obtain ⟨b1, b2⟩ := bbox_axis c1.data SlotType.COLUMN (c1.data.gridEnd SlotType.COLUMN)
      (min column column2) (max column column2)
      (edgeOffset c1.data SlotType.COLUMN (min column column2 - 1)) hxs (by omega) (by omega)
      (by omega)
    obtain ⟨b3, b4⟩ := bbox_axis c1.data SlotType.ROW (c1.data.gridEnd SlotType.ROW)
      (min row row2) (max row row2)
      (edgeOffset c1.data SlotType.ROW (min row row2 - 1)) hys (by omega) (by omega)
      (by omega)
    unfold GridBboxCommand
    rw [hd]
    simp only [e]
    rw [if_neg (by intro h; rcases h with h | h; exact hx h; exact hy h)]
    simp only [hcl, hch, hrl, hrh, b1, b2, b3, b4]
    refine congrArg Except.ok (Prod.ext rfl (Prod.ext ?_ (Prod.ext ?_ rfl)))
    · simp only; omega
    · simp only; omega
  refine ⟨c1, e, ?_, ?_, ?_⟩
  · intro h0 args
    unfold GridBboxCommand
    rw [hd]
    simp only [e]
    rw [if_pos h0]
  · intro hx hy
    refine ⟨?_, ?_⟩
    · intro column row column2 row2 a1 a2 a3 a4 a5 a6 a7 a8
      refine ⟨hbox hx hy column row column2 row2 a1 a2 a3 a4 a5 a6 a7 a8, ?_, ?_⟩
      · rw [hbox hx hy column row column2 row2 a1 a2 a3 a4 a5 a6 a7 a8,
          hbox hx hy column2 row2 column row a3 a4 a1 a2 a7 a8 a5 a6,
          min_comm column2 column, max_comm column2 column, min_comm row2 row,
          max_comm row2 row]
      · obtain ⟨b1, b2⟩ := bbox_axis c1.data SlotType.COLUMN (c1.data.gridEnd SlotType.COLUMN)
          column column (edgeOffset c1.data SlotType.COLUMN (column - 1)) hxs a1 (le_refl _) a2
        obtain ⟨b3, b4⟩ := bbox_axis c1.data SlotType.ROW (c1.data.gridEnd SlotType.ROW)
          row row (edgeOffset c1.data SlotType.ROW (row - 1)) hys a5 (le_refl _) a6
        unfold GridBboxCommand
        rw [hd]
        simp only [e]
        rw [if_neg (by intro h; rcases h with h | h; exact hx h; exact hy h)]
        simp only [lt_irrefl, gt_iff_lt, if_false, b1, b2, b3, b4]
        refine congrArg Except.ok (Prod.ext rfl (Prod.ext ?_ (Prod.ext ?_ rfl)))
        · simp only; omega
        · simp only; omega
    · obtain ⟨b1, b2⟩ := bbox_axis_whole c1.data SlotType.COLUMN
        (c1.data.gridEnd SlotType.COLUMN) 0 hxs (by omega)
      obtain ⟨b3, b4⟩ := bbox_axis_whole c1.data SlotType.ROW
        (c1.data.gridEnd SlotType.ROW) 0 hys (by omega)
      have hc : ¬ (0 : Int) > c1.data.gridEnd SlotType.COLUMN := by omega
      have hr : ¬ (0 : Int) > c1.data.gridEnd SlotType.ROW := by omega
      unfold GridBboxCommand
      rw [hd]
      simp only [e]
      rw [if_neg (by intro h; rcases h with h | h; exact hx h; exact hy h)]
      simp only [hc, hr, if_false, b1, b2, b3, b4]
      refine congrArg Except.ok (Prod.ext rfl (Prod.ext ?_ (Prod.ext ?_ (Prod.ext ?_ ?_))))
      · simp only; omega
      · simp only; omega
      · simp only; omega
      · simp only; omega
  · intro c0 args hn
    unfold GridBboxCommand
    cases h : c0.containerDataPtr with
    | none => rfl
    | some d0 => rw [h] at hn; cases hn

theorem gridBbox_spec_witness :
    ∃ c1, SetGridSize locationExample = Except.ok c1
      ∧ ((c1.data.gridEnd SlotType.COLUMN = 0 ∨ c1.data.gridEnd SlotType.ROW = 0) →
          ∀ args, GridBboxCommand locationExample args = Except.ok (c1, 0, 0, 0, 0))
      ∧ (c1.data.gridEnd SlotType.COLUMN ≠ 0 → c1.data.gridEnd SlotType.ROW ≠ 0 →
          (∀ column row column2 row2 : Int,
            0 ≤ column → column < c1.data.gridEnd SlotType.COLUMN →
            0 ≤ column2 → column2 < c1.data.gridEnd SlotType.COLUMN →
            0 ≤ row → row < c1.data.gridEnd SlotType.ROW →
            0 ≤ row2 → row2 < c1.data.gridEnd SlotType.ROW →
            GridBboxCommand locationExample (BboxArgs.cells column row column2 row2)
              = Except.ok (c1,
                  c1.data.startX + edgeOffset c1.data SlotType.COLUMN (min column column2 - 1),
                  c1.data.startY + edgeOffset c1.data SlotType.ROW (min row row2 - 1),
                  edgeOffset c1.data SlotType.COLUMN (max column column2)
                    - edgeOffset c1.data SlotType.COLUMN (min column column2 - 1),
                  edgeOffset c1.data SlotType.ROW (max row row2)
                    - edgeOffset c1.data SlotType.ROW (min row row2 - 1))
            ∧ GridBboxCommand locationExample (BboxArgs.cells column2 row2 column row)
              = GridBboxCommand locationExample (BboxArgs.cells column row column2 row2)
            ∧ GridBboxCommand locationExample (BboxArgs.cell column row)
              = Except.ok (c1,
                  c1.data.startX + edgeOffset c1.data SlotType.COLUMN (column - 1),
                  c1.data.startY + edgeOffset c1.data SlotType.ROW (row - 1),
                  edgeOffset c1.data SlotType.COLUMN column
                    - edgeOffset c1.data SlotType.COLUMN (column - 1),
                  edgeOffset c1.data SlotType.ROW row
                    - edgeOffset c1.data SlotType.ROW (row - 1)))
          ∧ GridBboxCommand locationExample BboxArgs.whole
              = Except.ok (c1, c1.data.startX, c1.data.startY,
                  edgeOffset c1.data SlotType.COLUMN (c1.data.gridEnd SlotType.COLUMN - 1),
                  edgeOffset c1.data SlotType.ROW (c1.data.gridEnd SlotType.ROW - 1)))
      ∧ (∀ (c0 : Container) (args : BboxArgs), c0.containerDataPtr.isNone = true →
          GridBboxCommand c0 args = Except.ok (c0, 0, 0, 0, 0)) :=
  gridBbox_spec locationExample _ rfl (by decide) (by decide) (by decide)
/-- The scan of `grid location` from slot `i`: with the slots up to `endX` allocated and
enough fuel it stops at the first slot from `i` on whose offset is not below `x`, or at
`endX`. -/
theorem locateLoop_spec (d : GridContainer) (t : SlotType) (x endX : Int)
    (hend : endX < (d.space t : Int)) :
    ∀ (n : Nat) (i : Int), 0 ≤ i → i ≤ endX → endX - i < n →
      ∃ r, locateLoop d t x endX n i = Except.ok r ∧ i ≤ r ∧ r ≤ endX
        ∧ (∀ k, i ≤ k → k < r → edgeOffset d t k < x)
        ∧ (r < endX → x ≤ edgeOffset d t r) := by
  intro n
  induction n with
  | zero => intro i _ h1 h2; omega
  | succ n ih =>
    intro i h0 h1 h2
    unfold locateLoop
    rw [readOffset_ok d t i h0 (by omega)]
    by_cases hc : edgeOffset d t i < x ∧ i < endX
    · simp only [if_pos hc]
      obtain ⟨r, e, r1, r2, r3, r4⟩ := ih (i + 1) (by omega) (by omega) (by omega)
      refine ⟨r, e, by omega, r2, ?_, r4⟩
      intro k k1 k2
      by_cases hk : k = i
      · rw [hk]; exact hc.1
      · exact r3 k (by omega) k2
    · simp only [if_neg hc]
      refine ⟨i, rfl, le_refl _, h1, ?_, ?_⟩
      · intro k k1 k2; omega
      · intro hi
        by_contra hx
        exact hc ⟨by omega, hi⟩

/-- The slot of a pixel on one axis. -/
theorem locate_spec (d : GridContainer) (t : SlotType) (x start endX : Int)
    (h0 : 0 ≤ endX) (hend : endX < (d.space t : Int)) :
    ∃ r, locate d t x start endX = Except.ok r
      ∧ (x < start → r = -1)
      ∧ (start ≤ x → 0 ≤ r ∧ r ≤ endX
          ∧ (∀ k, 0 ≤ k → k < r → edgeOffset d t k < x - start)
          ∧ (r < endX → x - start ≤ edgeOffset d t r)) := by
  unfold locate
  by_cases hx : x < start
  · rw [if_pos hx]
    exact ⟨-1, rfl, fun _ => rfl, fun h => by omega⟩
  · rw [if_neg hx]
    obtain ⟨r, e, r1, r2, r3, r4⟩ :=
      locateLoop_spec d t (x - start) endX hend (endX.toNat + 1) 0 (le_refl _) h0 (by omega)
    exact ⟨r, e, fun h => absurd h hx, fun _ => ⟨r1, r2, r3, r4⟩⟩

/-- C23. On the container `locationExample`, whose columns 0 and 1 have the offsets 10 and
20 and whose origin is 0, `grid location` at x = 10 reports column 0, although the offset
of column 0 does not exceed 10 and the first column whose offset exceeds 10 is column 1. -/
theorem gridLocation_boundary_counterexample :
    (∃ c1, GridLocationCommand locationExample 10 0 = Except.ok (c1, 0, 0))
    ∧ locationExample.data.startX = 0
    ∧ ¬ (edgeOffset locationExample.data SlotType.COLUMN 0 > 10 - 0)
    ∧ edgeOffset locationExample.data SlotType.COLUMN 1 > 10 - 0 :=
  ⟨⟨_, rfl⟩, rfl, by decide, by decide⟩

/-- C23. The command `grid location` on a container with grid data whose maximums are
below the allocations and whose content ends before `MAX_ELEMENT` (the sums
`numCols + column` and `numRows + row`, as `SetGridSize` computes them, are below 10000),
with `endX` the larger
of `columnEnd` and `columnMax` after `SetGridSize`: for `x < startX` the column is -1; for
`x >= startX` the column `i` is between 0 and `endX`, every slot before `i` has an offset
below `x - startX`, and when `i < endX` the offset of slot `i` is at least `x - startX`
(the first slot whose offset is not below `x - startX`, or `endX` when there is none).
The row is found the same way from `y`, `startY` and the row offsets.  A container
without grid data gives `(-1, -1)`. -/
theorem gridLocation_spec (containerPtr : Container) (d : GridContainer)
    (hd : containerPtr.containerDataPtr = some d)
    (hmaxc : d.columnMax < d.columnSpace) (hmaxr : d.rowMax < d.rowSpace)
    (hext : ∀ g, g ∈ containerPtr.contentPtr →
      wrapInt (g.numCols + g.column) < 10000 ∧ wrapInt (g.numRows + g.row) < 10000)
    (x y : Int) :
    (∃ c1 i j, SetGridSize containerPtr = Except.ok c1
      ∧ GridLocationCommand containerPtr x y = Except.ok (c1, i, j)
      ∧ c1.data.gridEnd SlotType.COLUMN = max (c1.data.columnEnd : Int) (c1.data.columnMax : Int)
      ∧ c1.data.gridEnd SlotType.ROW = max (c1.data.rowEnd : Int) (c1.data.rowMax : Int)
      ∧ (x < c1.data.startX → i = -1)
      ∧ (c1.data.startX ≤ x → 0 ≤ i ∧ i ≤ c1.data.gridEnd SlotType.COLUMN
          ∧ (∀ k, 0 ≤ k → k < i →
              edgeOffset c1.data SlotType.COLUMN k < x - c1.data.startX)
          ∧ (i < c1.data.gridEnd SlotType.COLUMN →
              x - c1.data.startX ≤ edgeOffset c1.data SlotType.COLUMN i))
      ∧ (y < c1.data.startY → j = -1)
      ∧ (c1.data.startY ≤ y → 0 ≤ j ∧ j ≤ c1.data.gridEnd SlotType.ROW
          ∧ (∀ k, 0 ≤ k → k < j →
              edgeOffset c1.data SlotType.ROW k < y - c1.data.startY)
          ∧ (j < c1.data.gridEnd SlotType.ROW →
              y - c1.data.startY ≤ edgeOffset c1.data SlotType.ROW j)))
    ∧ (∀ c0 : Container, c0.containerDataPtr.isNone = true →
        GridLocationCommand c0 x y = Except.ok (c0, -1, -1)) := by
  constructor
  · obtain ⟨c1, e, _⟩ := setGridSize_spec containerPtr d hd
    obtain ⟨hx0, _, hxs⟩ :=
      setGridSize_end_le containerPtr d hd SlotType.COLUMN (le_of_lt hmaxc) hext c1 e
    obtain ⟨hy0, _, hys⟩ :=
      setGridSize_end_le containerPtr d hd SlotType.ROW (le_of_lt hmaxr) hext c1 e
    obtain ⟨i, ei, i1, i2⟩ := locate_spec c1.data SlotType.COLUMN x c1.data.startX
      (c1.data.gridEnd SlotType.COLUMN) hx0 (hxs hmaxc)
    obtain ⟨j, ej, j1, j2⟩ := locate_spec c1.data SlotType.ROW y c1.data.startY
      (c1.data.gridEnd SlotType.ROW) hy0 (hys hmaxr)
    refine ⟨c1, i, j, e, ?_, by rw [gridEnd_eq_max]; rfl, by rw [gridEnd_eq_max]; rfl,
      i1, i2, j1, j2⟩
    unfold GridLocationCommand
    rw [hd]
    simp only [e, ei, ej]
  · intro c0 hn
    unfold GridLocationCommand
    cases h : c0.containerDataPtr with
    | none => rfl
    | some d0 => rw [h] at hn; cases hn

theorem gridLocation_spec_witness :
    (∃ c1 i j, SetGridSize locationExample = Except.ok c1
      ∧ GridLocationCommand locationExample 10 0 = Except.ok (c1, i, j)
      ∧ c1.data.gridEnd SlotType.COLUMN = max (c1.data.columnEnd : Int) (c1.data.columnMax : Int)
      ∧ c1.data.gridEnd SlotType.ROW = max (c1.data.rowEnd : Int) (c1.data.rowMax : Int)
      ∧ (10 < c1.data.startX → i = -1)
      ∧ (c1.data.startX ≤ 10 → 0 ≤ i ∧ i ≤ c1.data.gridEnd SlotType.COLUMN
          ∧ (∀ k, 0 ≤ k → k < i →
              edgeOffset c1.data SlotType.COLUMN k < 10 - c1.data.startX)
          ∧ (i < c1.data.gridEnd SlotType.COLUMN →
              10 - c1.data.startX ≤ edgeOffset c1.data SlotType.COLUMN i))
      ∧ (0 < c1.data.startY → j = -1)
      ∧ (c1.data.startY ≤ 0 → 0 ≤ j ∧ j ≤ c1.data.gridEnd SlotType.ROW
          ∧ (∀ k, 0 ≤ k → k < j →
              edgeOffset c1.data SlotType.ROW k < 0 - c1.data.startY)
          ∧ (j < c1.data.gridEnd SlotType.ROW →
              0 - c1.data.startY ≤ edgeOffset c1.data SlotType.ROW j)))
    ∧ (∀ c0 : Container, c0.containerDataPtr.isNone = true →
        GridLocationCommand c0 10 0 = Except.ok (c0, -1, -1)) :=
  gridLocation_spec locationExample _ rfl (by decide) (by decide) (by decide) 10 0

/-- Without slots the procedure `ResolveConstraints` on a container without content
returns 0 and the slot table as it was, for every target and every fuel. -/
theorem resolveConstraints_no_slots (fuel : Nat) (c : GridContainer) (slotType : SlotType)
    (maxOffset : Int) (hc : c.contentPtr = []) (hn : c.gridCount slotType = 0) :
    ResolveConstraints fuel c slotType maxOffset = Except.ok (0, c.slotPtr slotType) := by
  unfold ResolveConstraints requiredLayout
  rw [hc, hn]
  unfold binContent forwardPass placeOffsets
  simp only [forUp]
  unfold backwardPass resolveSpans copyOffsets
  simp [forUp]

/-- For content that starts at a slot that is not negative, spans at least one slot and
ends inside the `gridCount` slots, steps 1 to 3 of `ResolveConstraints` index the layout
array only from the dummy slot -1 to `gridCount - 1`: every content of span above 1 is
binned at its last slot, which is below `gridCount`, and the forward pass reads for it the
slot before its first slot, which is at least -1 (the dummy slot, of offset 0, for a
content that starts at slot 0); steps 1 to 3 return for every such item list and every
slot table. -/
theorem resolveConstraints_index_bound (c : GridContainer) (slotType : SlotType)
    (hv : ∀ g, g ∈ c.contentPtr → ValidContent slotType (c.gridCount slotType) g) :
    (∀ g, g ∈ c.contentPtr → 1 < g.span slotType →
      0 ≤ g.rightEdge slotType ∧ g.rightEdge slotType < c.gridCount slotType
        ∧ -1 ≤ g.rightEdge slotType - g.span slotType)
    ∧ (∃ r lp3, requiredLayout slotType (c.slotPtr slotType) (c.constraintCount slotType)
        (c.gridCount slotType) c.contentPtr = Except.ok (r, lp3)
        ∧ (lp3 (-1)).minOffset = 0
        ∧ ∀ (j : Int) (x : Gridder), x ∈ (lp3 j).binNextPtr →
            0 ≤ j ∧ j < c.gridCount slotType ∧ -1 ≤ j - x.span slotType) := by
  have hedge : ∀ g, g ∈ c.contentPtr → 1 < g.span slotType →
      0 ≤ g.rightEdge slotType ∧ g.rightEdge slotType < c.gridCount slotType
        ∧ -1 ≤ g.rightEdge slotType - g.span slotType := by
    intro g hg hsp
    obtain ⟨h1, h2, h3⟩ := hv g hg
    unfold Gridder.rightEdge
    omega
  refine ⟨hedge, ?_⟩
  · obtain ⟨lp1, e1, hf, hb, _⟩ := binContent_ok slotType (c.gridCount slotType) c.contentPtr
      (initLayout (c.slotPtr slotType) (c.constraintCount slotType) (c.gridCount slotType)) hv
    have hinit : ∀ j : Int, ((initLayout (c.slotPtr slotType) (c.constraintCount slotType)
        (c.gridCount slotType)) j).binNextPtr = []
        ∧ ((initLayout (c.slotPtr slotType) (c.constraintCount slotType)
        (c.gridCount slotType)) j).minOffset = 0 := by
      intro j
      unfold initLayout blankLayout
      split
      · exact ⟨rfl, rfl⟩
      · split
        · exact ⟨rfl, rfl⟩
        · split <;> exact ⟨rfl, rfl⟩
    have hbin : ∀ (j : Int) (x : Gridder),
        x ∈ (resolveUniform (c.gridCount slotType) lp1 j).binNextPtr →
          1 < x.span slotType ∧ 0 ≤ j ∧ j < c.gridCount slotType
            ∧ -1 ≤ j - x.span slotType := by
      intro j x hx
      rw [(resolveUniform_fields (c.gridCount slotType) lp1 j).2.2.2.1] at hx
      rcases (hb j x).mp hx with h | ⟨g, hg, hsp, he, hxg⟩
      · rw [(hinit j).1] at h
        cases h
      · obtain ⟨a1, a2, a3⟩ := hedge g hg hsp
        rw [hxg, sized_span, ← he]
        exact ⟨hsp, a1, a2, a3⟩
    obtain ⟨r, lp3, e3, hok, _⟩ := forwardPass_ok slotType
      (resolveUniform (c.gridCount slotType) lp1) (c.gridCount slotType)
      (fun j _ x hx => ⟨(hbin j x hx).1, (hbin j x hx).2.2.2⟩)
      (by rw [(resolveUniform_fields (c.gridCount slotType) lp1 (-1)).2.2.2.2.1,
            (hf (-1)).2.2.2.1, (hinit (-1)).2])
    refine ⟨r, lp3, ?_, ?_, ?_⟩
    · unfold requiredLayout
      simp only [e1, e3]
    · rw [hok.outside (-1) (Or.inl (by omega)),
        (resolveUniform_fields (c.gridCount slotType) lp1 (-1)).2.2.2.2.1,
        (hf (-1)).2.2.2.1, (hinit (-1)).2]
    · intro j x hx
      rw [(hok.frame j).2.2.2.2.1] at hx
      exact (hbin j x hx).2
theorem setOption_weight_pad (sp : Nat → SlotInfo) (slot : Nat) (o : OptionArg)
    (h : ∀ j, 0 ≤ (sp j).weight ∧ 0 ≤ (sp j).pad) :
    ∀ j, 0 ≤ ((setOption sp slot o).2 j).weight ∧ 0 ≤ ((setOption sp slot o).2 j).pad := by
  intro j
  cases o with
  | minsize size =>
    cases size with
    | none => exact h j
    | some size =>
      simp only [setOption]
      by_cases hj : j = slot
      · rw [if_pos hj]; exact h j
      · rw [if_neg hj]; exact h j
  | pad size =>
    cases size with
    | none => exact h j
    | some size =>
      simp only [setOption]
      by_cases hs : size < 0
      · rw [if_pos hs]; exact h j
      · rw [if_neg hs]
        by_cases hj : j = slot
        · simp only [if_pos hj]; exact ⟨(h j).1, by omega⟩
        · simp only [if_neg hj]; exact h j
  | uniform uid =>
    simp only [setOption]
    by_cases hj : j = slot
    · rw [if_pos hj]; exact h j
    · rw [if_neg hj]; exact h j
  | weight wt =>
    cases wt with
    | none => exact h j
    | some wt =>
      simp only [setOption]
      by_cases hs : wt < 0
      · rw [if_pos hs]; exact h j
      · rw [if_neg hs]
        by_cases hj : j = slot
        · simp only [if_pos hj]; exact ⟨by omega, (h j).2⟩
        · simp only [if_neg hj]; exact h j
  | unknown => exact h j

theorem setOptions_weight_pad (slot : Nat) :
    ∀ (opts : List OptionArg) (sp : Nat → SlotInfo),
      (∀ j, 0 ≤ (sp j).weight ∧ 0 ≤ (sp j).pad) →
      ∀ j, 0 ≤ ((setOptions slot opts sp).2 j).weight
        ∧ 0 ≤ ((setOptions slot opts sp).2 j).pad := by
  intro opts
  induction opts with
  | nil => intro sp h; exact h
  | cons o os ih =>
    intro sp h
    have h1 := setOption_weight_pad sp slot o h
    unfold setOptions
    cases hr : setOption sp slot o with
    | mk s sp1 =>
      rw [hr] at h1
      cases s with
      | TCL_OK => exact ih sp1 h1
      | TCL_ERROR => exact h1

theorem weightPadOk_mk (d : GridContainer) (content : List Gridder)
    (h : ∀ (t : SlotType) (j : Nat), 0 ≤ (d.slotPtr t j).weight ∧ 0 ≤ (d.slotPtr t j).pad) :
    WeightPadOk (Container.mk (some d) content) := fun t j => h t j

theorem setSlotPtr_weight_pad (d : GridContainer) (t : SlotType) (sp : Nat → SlotInfo)
    (h : ∀ (t1 : SlotType) (j : Nat), 0 ≤ (d.slotPtr t1 j).weight ∧ 0 ≤ (d.slotPtr t1 j).pad)
    (hsp : ∀ j, 0 ≤ (sp j).weight ∧ 0 ≤ (sp j).pad) :
    ∀ (t1 : SlotType) (j : Nat), 0 ≤ ((d.setSlotPtr t sp).slotPtr t1 j).weight
      ∧ 0 ≤ ((d.setSlotPtr t sp).slotPtr t1 j).pad := by
  intro t1 j
  rw [slotPtr_setSlotPtr]
  split
  · exact hsp j
  · exact h t1 j

/-- A container without grid data has no negative `weight` or `pad`. -/
theorem weightPadOk_fresh (content : List Gridder) :
    WeightPadOk (Container.mk none content) :=
  fun t j => by cases t <;> exact ⟨le_refl _, le_refl _⟩

theorem initContainerData_weight_pad (c : Container) (h : WeightPadOk c) :
    WeightPadOk (InitContainerData c) := by
  intro t j
  rw [(data_initContainerData c).1]
  exact h t j

theorem checkSlotData_weight_pad (c : Container) (slot : Int) (t : SlotType) (k : Int)
    (h : WeightPadOk c) : WeightPadOk (CheckSlotData c slot t k).2 := by
  unfold CheckSlotData
  split
  · exact h
  · split
    · exact h
    · simp only
      split
      · exact initContainerData_weight_pad c h
      · have hg : ∀ j, 0 ≤ (growSlots (c.data.slotPtr t) (c.data.space t) j).weight
            ∧ 0 ≤ (growSlots (c.data.slotPtr t) (c.data.space t) j).pad := by
          intro j
          unfold growSlots
          split
          · exact h t j
          · exact ⟨le_refl _, le_refl _⟩
        have h1 := setSlotPtr_weight_pad c.data t _ h hg
        apply weightPadOk_mk
        intro t1 j
        by_cases hs : slot ≥ (c.data.space t : Int)
        · simp only [if_pos hs]
          split
          · rw [slotPtr_setMax, slotPtr_setSpace]; exact h1 t1 j
          · rw [slotPtr_setSpace]; exact h1 t1 j
        · simp only [if_neg hs]
          split
          · rw [slotPtr_setMax]; exact h t1 j
          · exact h t1 j

theorem configureSlot_weight_pad (t : SlotType) (opts : List OptionArg) (st : ConfigureState)
    (slot : Int) (h : WeightPadOk st.containerPtr) :
    WeightPadOk (configureSlot t opts st slot).2.containerPtr := by
  have h1 := checkSlotData_weight_pad st.containerPtr slot t 0 h
  unfold configureSlot
  cases hr : CheckSlotData st.containerPtr slot t 0 with
  | mk s c =>
    rw [hr] at h1
    cases s with
    | TCL_ERROR => exact h1
    | TCL_OK =>
      simp only
      apply weightPadOk_mk
      exact setSlotPtr_weight_pad c.data t _ h1
        (setOptions_weight_pad slot.toNat opts _ (fun j => h1 t j))

theorem configureRange_weight_pad (t : SlotType) (opts : List OptionArg) :
    ∀ (count : Nat) (first : Int) (st : ConfigureState), WeightPadOk st.containerPtr →
      WeightPadOk (configureRange t opts count first st).2.containerPtr := by
  intro count
  induction count with
  | zero => intro first st h; exact h
  | succ n ih =>
    intro first st h
    have h1 := configureSlot_weight_pad t opts st first h
    unfold configureRange
    cases hr : configureSlot t opts st first with
    | mk s st1 =>
      rw [hr] at h1
      cases s with
      | TCL_OK => exact ih (first + 1) st1 h1
      | TCL_ERROR => exact h1

theorem configureContent_weight_pad (t : SlotType) (opts : List OptionArg) :
    ∀ (items : List Gridder) (st : ConfigureState), WeightPadOk st.containerPtr →
      WeightPadOk (configureContent t opts items st).2.containerPtr := by
  intro items
  induction items with
  | nil => intro st h; exact h
  | cons g rest ih =>
    intro st h
    have h1 := configureRange_weight_pad t opts
      (g.start t - 1 + g.span t + 1 - g.start t).toNat (g.start t) st h
    unfold configureContent
    simp only
    cases hr : configureRange t opts (g.start t - 1 + g.span t + 1 - g.start t).toNat
        (g.start t) st with
    | mk s st1 =>
      rw [hr] at h1
      cases s with
      | TCL_OK => exact ih st1 h1
      | TCL_ERROR => exact h1

theorem configureIndex_weight_pad (t : SlotType) (opts : List OptionArg)
    (st : ConfigureState) (index : IndexArg) (h : WeightPadOk st.containerPtr) :
    WeightPadOk (configureIndex t opts st index).2.containerPtr := by
  cases index with
  | slot n => exact configureRange_weight_pad t opts _ n st h
  | all =>
    exact configureContent_weight_pad t opts _
      { st with containerPtr := InitContainerData st.containerPtr }
      (initContainerData_weight_pad _ h)
  | window g managed =>
    cases g with
    | none => exact h
    | some g =>
      cases managed with
      | false => exact h
      | true => exact configureContent_weight_pad t opts [g] st h
  | illegal => exact h

theorem configureIndices_weight_pad (t : SlotType) (opts : List OptionArg) :
    ∀ (lObjv : List IndexArg) (st : ConfigureState), WeightPadOk st.containerPtr →
      WeightPadOk (configureIndices t opts lObjv st).2.containerPtr := by
  intro lObjv
  induction lObjv with
  | nil => intro st h; exact h
  | cons index rest ih =>
    intro st h
    have h1 := configureIndex_weight_pad t opts st index h
    unfold configureIndices
    cases hr : configureIndex t opts st index with
    | mk s st1 =>
      rw [hr] at h1
      cases s with
      | TCL_OK => exact ih st1 h1
      | TCL_ERROR => exact h1

/-- The commands `grid rowconfigure` and `grid columnconfigure` never store a negative
`weight` or `pad`: when no slot of the container has one before the call, none has one
after it, whatever the completion code. -/
theorem configure_keeps_weight_pad (c : Container) (t : SlotType) (lObjv : List IndexArg)
    (opts : List OptionArg) (h : WeightPadOk c) (s : TclStatus) (c1 : Container)
    (o : Option SlotOptions)
    (hr : GridRowColumnConfigureCommand c t lObjv opts = Except.ok (s, c1, o)) :
    WeightPadOk c1 := by
  unfold GridRowColumnConfigureCommand at hr
  split at hr
  · injection hr with hr
    rw [← (Prod.mk.inj (Prod.mk.inj hr).2).1]
    exact h
  · rename_i slot
    have h1 := checkSlotData_weight_pad c slot t CHECK_ONLY h
    dsimp only at hr
    split at hr
    · split at hr
      · injection hr with hr
        rw [← (Prod.mk.inj (Prod.mk.inj hr).2).1]
        exact h1
      · cases hr
    · injection hr with hr
      rw [← (Prod.mk.inj (Prod.mk.inj hr).2).1]
      exact h1
  · injection hr with hr
    rw [← (Prod.mk.inj (Prod.mk.inj hr).2).1]
    exact h
  · rename_i i is o1 os
    have h1 := configureIndices_weight_pad t (o1 :: os) (i :: is)
      { containerPtr := c, slotPtrSet := false } h
    split at hr
    · rename_i st he
      rw [he] at h1
      injection hr with hr
      rw [← (Prod.mk.inj (Prod.mk.inj hr).2).1]
      exact h1
    · rename_i st he
      rw [he] at h1
      split at hr
      · injection hr with hr
        rw [← (Prod.mk.inj (Prod.mk.inj hr).2).1]
        apply weightPadOk_mk
        intro t1 j
        rw [slotPtr_setMax]
        exact h1 t1 j
      · injection hr with hr
        rw [← (Prod.mk.inj (Prod.mk.inj hr).2).1]
        exact h1

/-- C25. On a container without grid data, `grid columnconfigure . 0 -minsize -5` returns
TCL_OK and stores the `minSize` -5 in column 0, which the retrieval of the options of
column 0 then reports; the same call with `-weight -5` or with `-pad -5` returns
TCL_ERROR and leaves the `weight` and the `pad` of column 0 at 0. -/
theorem configure_negative_minsize :
    (∃ c1, GridRowColumnConfigureCommand emptyContainer SlotType.COLUMN [IndexArg.slot 0]
          [OptionArg.minsize (some (-5))] = Except.ok (TclStatus.TCL_OK, c1, none)
        ∧ (c1.data.slotPtr SlotType.COLUMN 0).minSize = -5
        ∧ GridRowColumnConfigureCommand c1 SlotType.COLUMN [IndexArg.slot 0] []
            = Except.ok (TclStatus.TCL_OK, c1,
                some { minsize := -5, pad := 0, uniform := none, weight := 0 }))
    ∧ (∃ c1, GridRowColumnConfigureCommand emptyContainer SlotType.COLUMN [IndexArg.slot 0]
          [OptionArg.weight (some (-5))] = Except.ok (TclStatus.TCL_ERROR, c1, none)
        ∧ (c1.data.slotPtr SlotType.COLUMN 0).weight = 0)
    ∧ (∃ c1, GridRowColumnConfigureCommand emptyContainer SlotType.COLUMN [IndexArg.slot 0]
          [OptionArg.pad (some (-5))] = Except.ok (TclStatus.TCL_ERROR, c1, none)
        ∧ (c1.data.slotPtr SlotType.COLUMN 0).pad = 0) :=
  ⟨⟨_, rfl, rfl, rfl⟩, ⟨_, rfl, rfl⟩, ⟨_, rfl, rfl⟩⟩

theorem window_set (st : GridState) (p : Tk_Window) (r : GridRecord) :
    (st.set p r).window = st.window := rfl

theorem get_set (st : GridState) (p q : Tk_Window) (r : GridRecord) :
    (st.set p r).get q = if q = p then r else st.get q := by
  unfold GridState.get GridState.set
  simp only
  by_cases h : q = p
  · simp only [if_pos h]
  · simp only [if_neg h]

theorem window_modify (st : GridState) (p : Tk_Window) (f : GridRecord → GridRecord) :
    (st.modify p f).window = st.window := rfl

theorem get_modify (st : GridState) (p q : Tk_Window) (f : GridRecord → GridRecord) :
    (st.modify p f).get q = if q = p then f (st.get p) else st.get q :=
  get_set st p q _

theorem get_modify_self (st : GridState) (p : Tk_Window) (f : GridRecord → GridRecord) :
    (st.modify p f).get p = f (st.get p) := by
  rw [get_modify, if_pos rfl]

theorem get_modify_ne (st : GridState) (p q : Tk_Window) (f : GridRecord → GridRecord)
    (h : q ≠ p) : (st.modify p f).get q = st.get q := by
  rw [get_modify, if_neg h]

/-- The procedure `GetGrid` returns NULL for a dead window and the structure of the window
otherwise; it changes no window and no structure. -/
theorem getGrid_spec (st : GridState) (tkwin : Tk_Window) :
    (GetGrid st tkwin).1 = (if (st.window tkwin).alreadyDead then none else some tkwin)
    ∧ (GetGrid st tkwin).2.window = st.window
    ∧ ∀ q, (GetGrid st tkwin).2.get q = st.get q := by
  unfold GetGrid
  by_cases hd : (st.window tkwin).alreadyDead = true
  · rw [if_pos hd, if_pos hd]
    exact ⟨rfl, rfl, fun _ => rfl⟩
  · rw [if_neg hd, if_neg hd]
    cases he : st.gridHashTable tkwin with
    | some r => exact ⟨rfl, rfl, fun _ => rfl⟩
    | none =>
      refine ⟨rfl, rfl, fun q => ?_⟩
      show (st.set tkwin (newGridder (st.window tkwin))).get q = st.get q
      rw [get_set]
      by_cases hq : q = tkwin
      · rw [if_pos hq, hq]
        unfold GridState.get
        rw [he]
      · rw [if_neg hq]

theorem checkSlotData_isSome (c : Container) (slot : Int) (t : SlotType) (k : Int)
    (h : c.containerDataPtr.isSome = true) :
    (CheckSlotData c slot t k).2.containerDataPtr.isSome = true := by
  unfold CheckSlotData
  split
  · exact h
  · split
    · exact h
    · simp only
      split
      · unfold InitContainerData
        cases hc : c.containerDataPtr with
        | none => rw [hc] at h; cases h
        | some d => simp only [hc]; rfl
      · rfl

theorem setGridSize_isSome (c : Container) (h : c.containerDataPtr.isSome = true) :
    ∃ c1, SetGridSize c = Except.ok c1 ∧ c1.containerDataPtr.isSome = true := by
  unfold SetGridSize
  cases hc : c.containerDataPtr with
  | none => rw [hc] at h; cases h
  | some d =>
    simp only
    exact ⟨_, rfl, checkSlotData_isSome _ _ _ _ (checkSlotData_isSome _ _ _ _ rfl)⟩

/-- The call `SetGridSize(containerPtr)` on a container that has grid data returns and
changes only `containerDataPtr` of the container, which stays set. -/
theorem state_setGridSize (st : GridState) (p : Tk_Window)
    (h : (st.get p).containerDataPtr.isSome = true) :
    ∃ d1, st.SetGridSize p = Except.ok (st.setData p (some d1)) := by
  obtain ⟨c1, e, h1⟩ := setGridSize_isSome (st.view p) h
  unfold GridState.SetGridSize
  rw [e]
  cases hc : c1.containerDataPtr with
  | none => rw [hc] at h1; cases h1
  | some d1 => exact ⟨d1, by simp only [hc]⟩

/-- The procedure `Unlink` on a content that is in the list of its container `P`, which
has grid data: it returns, the content has no container afterwards, the list of `P` has
lost the content, and nothing else changes but the grid data and the flags of `P`. -/
theorem unlink_spec (st : GridState) (contentPtr P : Tk_Window)
    (hP : (st.get contentPtr).containerPtr = some P)
    (hmem : contentPtr ∈ (st.get P).contentPtr)
    (hd : (st.get P).containerDataPtr.isSome = true)
    (hne : P ≠ contentPtr) :
    ∃ st1, Unlink st contentPtr = Except.ok st1
      ∧ st1.window = st.window
      ∧ st1.get contentPtr = { st.get contentPtr with containerPtr := none }
      ∧ (st1.get P).contentPtr = (st.get P).contentPtr.erase contentPtr
      ∧ (st1.get P).content = (st.get P).content
      ∧ (st1.get P).containerPtr = (st.get P).containerPtr
      ∧ (st1.get P).inObj = (st.get P).inObj
      ∧ (st1.get P).containerDataPtr.isSome = true
      ∧ (∀ q, q ≠ contentPtr → q ≠ P → st1.get q = st.get q) := by
  unfold Unlink
  rw [hP]
  simp only [if_pos hmem]
  have h1 : ((st.modify P (fun r =>
      { r with contentPtr := r.contentPtr.erase contentPtr, requestedRelayout := true })).get
        P).containerDataPtr.isSome = true := by
    rw [get_modify_self]
    exact hd
  obtain ⟨d1, e1⟩ := state_setGridSize _ P h1
  rw [e1]
  simp only
  have hne2 : contentPtr ≠ P := fun h => hne h.symm
  split
  · refine ⟨_, rfl, rfl, ?_, ?_, ?_, ?_, ?_, ?_, ?_⟩
    · rw [get_modify_ne _ _ _ _ hne2, get_modify_self]
      unfold GridState.setData
      rw [get_modify_ne _ _ _ _ hne2, get_modify_ne _ _ _ _ hne2]
    · rw [get_modify_self, get_modify_ne _ _ _ _ hne]
      unfold GridState.setData
      rw [get_modify_self, get_modify_self]
    · rw [get_modify_self, get_modify_ne _ _ _ _ hne]
      unfold GridState.setData
      rw [get_modify_self, get_modify_self]
    · rw [get_modify_self, get_modify_ne _ _ _ _ hne]
      unfold GridState.setData
      rw [get_modify_self, get_modify_self]
    · rw [get_modify_self, get_modify_ne _ _ _ _ hne]
      unfold GridState.setData
      rw [get_modify_self, get_modify_self]
    · rw [get_modify_self, get_modify_ne _ _ _ _ hne]
      unfold GridState.setData
      rw [get_modify_self]
      rfl
    · intro q hq1 hq2
      rw [get_modify_ne _ _ _ _ hq2, get_modify_ne _ _ _ _ hq1]
      unfold GridState.setData
      rw [get_modify_ne _ _ _ _ hq2, get_modify_ne _ _ _ _ hq2]
  · refine ⟨_, rfl, rfl, ?_, ?_, ?_, ?_, ?_, ?_, ?_⟩
    · rw [get_modify_self]
      unfold GridState.setData
      rw [get_modify_ne _ _ _ _ hne2, get_modify_ne _ _ _ _ hne2]
    · rw [get_modify_ne _ _ _ _ hne]
      unfold GridState.setData
      rw [get_modify_self, get_modify_self]
    · rw [get_modify_ne _ _ _ _ hne]
      unfold GridState.setData
      rw [get_modify_self, get_modify_self]
    · rw [get_modify_ne _ _ _ _ hne]
      unfold GridState.setData
      rw [get_modify_self, get_modify_self]
    · rw [get_modify_ne _ _ _ _ hne]
      unfold GridState.setData
      rw [get_modify_self, get_modify_self]
    · rw [get_modify_ne _ _ _ _ hne]
      unfold GridState.setData
      rw [get_modify_self]
      rfl
    · intro q hq1 hq2
      rw [get_modify_ne _ _ _ _ hq1]
      unfold GridState.setData
      rw [get_modify_ne _ _ _ _ hq2, get_modify_ne _ _ _ _ hq2]

/-- The statement that calls `Tk_UnmaintainGeometry` changes no `Gridder` structure and,
of the windows, at most `maintainerPtr`. -/
theorem unmaintain_spec (tk : TkProcs) (st : GridState) (contentPtr containerPtr : Tk_Window) :
    (∀ q, (unmaintain tk st contentPtr containerPtr).get q = st.get q)
    ∧ (∀ q, ∃ m, (unmaintain tk st contentPtr containerPtr).window q
        = { st.window q with maintainerPtr := m }) := by
  unfold unmaintain
  split
  · exact ⟨fun q => by unfold GridState.get; simp only; split <;> rfl, fun q => ⟨_, rfl⟩⟩
  · exact ⟨fun q => rfl, fun q => ⟨(st.window q).maintainerPtr, rfl⟩⟩
/-- C29. For a live window `content` that is managed, that is whose structure has the
container `P`, is in the list of `P`, and whose container has grid data: `grid forget`
(first character `f`, code 102) and `grid remove` return TCL_OK; afterwards the content
has no container and the list of `P` is the old list without the content, so that the
other items are in it as before and in the same order; after `forget` the content has
`column = row = -1`, both spans 1, all outer and inner padding 0 and sticky 0, the values
that `GetGrid` gives to a new structure; after `remove` its row, column, spans, padding
and sticky are unchanged and the name of `P` is saved; the settings, the container and
the own list of every other window are unchanged. -/
theorem forget_remove_spec (tk : TkProcs) (tkwin : Tk_Window) (c : Char) (st : GridState)
    (content P : Tk_Window)
    (hlive : (st.window content).alreadyDead = false)
    (hP : (st.get content).containerPtr = some P)
    (hmem : content ∈ (st.get P).contentPtr)
    (hd : (st.get P).containerDataPtr.isSome = true)
    (hne : P ≠ content) :
    ∃ st1, GridForgetRemoveCommand tk tkwin c [some content] st
        = Except.ok (TclStatus.TCL_OK, st1)
      ∧ (st1.get content).containerPtr = none
      ∧ (st1.get P).contentPtr = (st.get P).contentPtr.erase content
      ∧ ((st.get P).contentPtr.erase content).Sublist (st.get P).contentPtr
      ∧ (∀ q, q ≠ content → (q ∈ (st1.get P).contentPtr ↔ q ∈ (st.get P).contentPtr))
      ∧ (c = Char.ofNat 102 →
          (st1.get content).content.column = -1 ∧ (st1.get content).content.row = -1
          ∧ (st1.get content).content.numCols = 1 ∧ (st1.get content).content.numRows = 1
          ∧ (st1.get content).content.padX = 0 ∧ (st1.get content).content.padY = 0
          ∧ (st1.get content).content.padLeft = 0 ∧ (st1.get content).content.padTop = 0
          ∧ (st1.get content).content.iPadX = 0 ∧ (st1.get content).content.iPadY = 0
          ∧ (st1.get content).content.sticky = 0
          ∧ ∀ w : TkWindow,
              (st1.get content).content.column = (newGridder w).content.column
              ∧ (st1.get content).content.row = (newGridder w).content.row
              ∧ (st1.get content).content.numCols = (newGridder w).content.numCols
              ∧ (st1.get content).content.numRows = (newGridder w).content.numRows
              ∧ (st1.get content).content.padX = (newGridder w).content.padX
              ∧ (st1.get content).content.padY = (newGridder w).content.padY
              ∧ (st1.get content).content.padLeft = (newGridder w).content.padLeft
              ∧ (st1.get content).content.padTop = (newGridder w).content.padTop
              ∧ (st1.get content).content.iPadX = (newGridder w).content.iPadX
              ∧ (st1.get content).content.iPadY = (newGridder w).content.iPadY
              ∧ (st1.get content).content.sticky = (newGridder w).content.sticky)
      ∧ (c ≠ Char.ofNat 102 →
          (st1.get content).content = (st.get content).content
          ∧ (st1.get content).inObj = some P)
      ∧ (st1.get content).contentPtr = (st.get content).contentPtr
      ∧ (∀ q, q ≠ content →
          (st1.get q).content = (st.get q).content
          ∧ (st1.get q).containerPtr = (st.get q).containerPtr
          ∧ (q ≠ P → (st1.get q).contentPtr = (st.get q).contentPtr)) := by
  obtain ⟨g1, g2, g3⟩ := getGrid_spec st content
  rw [hlive] at g1
  simp only [Bool.false_eq_true, if_false] at g1
  unfold GridForgetRemoveCommand forgetRemove
  cases hg : GetGrid st content with
  | mk ptr st0 =>
    rw [hg] at g1 g2 g3
    simp only at g1 g2 g3
    subst g1
    simp only
    rw [g3 content, hP]
    simp only
    -- the state before `Unlink`
    generalize hst2 : (if c = Char.ofNat 102 then
        st0.modify content (fun r =>
          { r with
            content :=
              { r.content with
                column := -1, row := -1, numCols := 1, numRows := 1, padX := 0, padY := 0,
                padLeft := 0, padTop := 0, iPadX := 0, iPadY := 0,
                doubleBw := 2 * (st0.window tkwin).border_width, sticky := 0 },
            inObj := none, requestedRelayout := false, dontPropagate := false,
            allocedContainer := false })
      else st0.modify content (fun r => { r with inObj := some P })) = st2
    have hother : ∀ q, q ≠ content → st2.get q = st.get q := by
      intro q hq
      rw [← hst2]
      split
      · rw [get_modify_ne _ _ _ _ hq, g3]
      · rw [get_modify_ne _ _ _ _ hq, g3]
    have hself : (st2.get content).containerPtr = some P
        ∧ (st2.get content).contentPtr = (st.get content).contentPtr := by
      rw [← hst2]
      split
      · rw [get_modify_self, g3]; exact ⟨hP, rfl⟩
      · rw [get_modify_self, g3]; exact ⟨hP, rfl⟩
    obtain ⟨u1, _⟩ := unmaintain_spec tk st2 content P
    obtain ⟨st3, e3, _, k1, k2, k3, k4, _, _, k7⟩ :=
      unlink_spec (unmaintain tk st2 content P) content P
        (by rw [u1]; exact hself.1)
        (by rw [u1, hother P hne]; exact hmem)
        (by rw [u1, hother P hne]; exact hd) hne
    rw [u1] at k1 k2 k3 k4
    rw [hother P hne] at k2 k3 k4
    rw [e3]
    refine ⟨st3, rfl, ?_, k2, List.erase_sublist _ _, ?_, ?_, ?_, ?_, ?_⟩
    · rw [k1]
    · intro q hq
      rw [k2]
      exact List.mem_erase_of_ne hq
    · intro hc
      rw [k1, ← hst2, if_pos hc, get_modify_self, g3]
      exact ⟨rfl, rfl, rfl, rfl, rfl, rfl, rfl, rfl, rfl, rfl, rfl,
        fun _ => ⟨rfl, rfl, rfl, rfl, rfl, rfl, rfl, rfl, rfl, rfl, rfl⟩⟩
    · intro hc
      rw [k1, ← hst2, if_neg hc, get_modify_self, g3]
      exact ⟨rfl, rfl⟩
    · rw [k1]
      exact hself.2
    · intro q hq
      by_cases hqP : q = P
      · rw [hqP]
        exact ⟨k3, k4, fun h => absurd rfl h⟩
      · have := k7 q hq hqP
        rw [u1, hother q hq] at this
        rw [this]
        exact ⟨rfl, rfl, fun _ => rfl⟩

theorem forget_remove_spec_witness :
    ∃ st1, GridForgetRemoveCommand sampleTk 0 (Char.ofNat 102) [some 1] sampleState
        = Except.ok (TclStatus.TCL_OK, st1)
      ∧ (st1.get 1).containerPtr = none
      ∧ (st1.get 0).contentPtr = (sampleState.get 0).contentPtr.erase 1
      ∧ ((sampleState.get 0).contentPtr.erase 1).Sublist (sampleState.get 0).contentPtr
      ∧ (∀ q, q ≠ 1 → (q ∈ (st1.get 0).contentPtr ↔ q ∈ (sampleState.get 0).contentPtr))
      ∧ (Char.ofNat 102 = Char.ofNat 102 →
          (st1.get 1).content.column = -1 ∧ (st1.get 1).content.row = -1
          ∧ (st1.get 1).content.numCols = 1 ∧ (st1.get 1).content.numRows = 1
          ∧ (st1.get 1).content.padX = 0 ∧ (st1.get 1).content.padY = 0
          ∧ (st1.get 1).content.padLeft = 0 ∧ (st1.get 1).content.padTop = 0
          ∧ (st1.get 1).content.iPadX = 0 ∧ (st1.get 1).content.iPadY = 0
          ∧ (st1.get 1).content.sticky = 0
          ∧ ∀ w : TkWindow,
              (st1.get 1).content.column = (newGridder w).content.column
              ∧ (st1.get 1).content.row = (newGridder w).content.row
              ∧ (st1.get 1).content.numCols = (newGridder w).content.numCols
              ∧ (st1.get 1).content.numRows = (newGridder w).content.numRows
              ∧ (st1.get 1).content.padX = (newGridder w).content.padX
              ∧ (st1.get 1).content.padY = (newGridder w).content.padY
              ∧ (st1.get 1).content.padLeft = (newGridder w).content.padLeft
              ∧ (st1.get 1).content.padTop = (newGridder w).content.padTop
              ∧ (st1.get 1).content.iPadX = (newGridder w).content.iPadX
              ∧ (st1.get 1).content.iPadY = (newGridder w).content.iPadY
              ∧ (st1.get 1).content.sticky = (newGridder w).content.sticky)
      ∧ (Char.ofNat 102 ≠ Char.ofNat 102 →
          (st1.get 1).content = (sampleState.get 1).content
          ∧ (st1.get 1).inObj = some 0)
      ∧ (st1.get 1).contentPtr = (sampleState.get 1).contentPtr
      ∧ (∀ q, q ≠ 1 →
          (st1.get q).content = (sampleState.get q).content
          ∧ (st1.get q).containerPtr = (sampleState.get q).containerPtr
          ∧ (q ≠ 0 → (st1.get q).contentPtr = (sampleState.get q).contentPtr)) :=
  forget_remove_spec sampleTk 0 (Char.ofNat 102) sampleState 1 0 rfl rfl (by decide) rfl
    (by decide)

theorem sameItems_refl (st : GridState) : SameItems st st :=
  ⟨rfl, fun _ => ⟨rfl, rfl, rfl, rfl, rfl, rfl, rfl⟩⟩

theorem sameItems_trans (st st1 st2 : GridState) (h1 : SameItems st st1)
    (h2 : SameItems st1 st2) : SameItems st st2 := by
  refine ⟨h2.1.trans h1.1, fun p => ?_⟩
  obtain ⟨a1, a2, a3, a4, a5, a6, a7⟩ := h1.2 p
  obtain ⟨b1, b2, b3, b4, b5, b6, b7⟩ := h2.2 p
  exact ⟨b1.trans a1, b2.trans a2, b3.trans a3, b4.trans a4, b5.trans a5, b6.trans a6,
    b7.trans a7⟩

theorem sameItems_getGrid (st : GridState) (tkwin : Tk_Window) :
    SameItems st (GetGrid st tkwin).2 := by
  obtain ⟨_, g2, g3⟩ := getGrid_spec st tkwin
  refine ⟨g2, fun p => ?_⟩
  rw [g3]
  exact ⟨rfl, rfl, rfl, rfl, rfl, rfl, rfl⟩

theorem sameItems_setData (st : GridState) (p : Tk_Window) (d : Option GridContainer) :
    SameItems st (st.setData p d) := by
  refine ⟨rfl, fun q => ?_⟩
  unfold GridState.setData
  rw [get_modify]
  by_cases h : q = p
  · rw [if_pos h, h]
    exact ⟨rfl, rfl, rfl, rfl, rfl, rfl, rfl⟩
  · rw [if_neg h]
    exact ⟨rfl, rfl, rfl, rfl, rfl, rfl, rfl⟩

theorem sameItems_initContainerData (st : GridState) (p : Tk_Window) :
    SameItems st (st.InitContainerData p) :=
  sameItems_setData st p _

theorem scanParent_same (content : Tk_Window) (s : ContentState) (numWindows : Nat) :
    SameItems s.st (scanParent content s numWindows).1.st
    ∧ (scanParent content s numWindows).1.defaultRow = s.defaultRow
    ∧ (scanParent content s numWindows).1.defaultColumn = s.defaultColumn
    ∧ (scanParent content s numWindows).1.positionGiven = s.positionGiven := by
  unfold scanParent
  split
  · exact ⟨sameItems_refl _, rfl, rfl, rfl⟩
  · split
    · exact ⟨sameItems_refl _, rfl, rfl, rfl⟩
    · rename_i parent _
      have h := sameItems_getGrid s.st parent
      split
      · rename_i st1 he
        rw [he] at h
        exact ⟨h, rfl, rfl, rfl⟩
      · rename_i p st1 he
        rw [he] at h
        exact ⟨sameItems_trans _ _ _ h (sameItems_initContainerData _ _), rfl, rfl, rfl⟩

theorem scanWindow_same (tk : TkProcs) (content : Tk_Window) (s : ContentState)
    (numWindows : Nat) :
    SameItems s.st (scanWindow tk content s numWindows).1.st
    ∧ (scanWindow tk content s numWindows).1.defaultRow = s.defaultRow
    ∧ (scanWindow tk content s numWindows).1.defaultColumn = s.defaultColumn
    ∧ (scanWindow tk content s numWindows).1.positionGiven = s.positionGiven := by
  unfold scanWindow
  split
  · exact scanParent_same content s numWindows
  · have h := sameItems_getGrid s.st content
    split
    · rename_i st1 he
      rw [he] at h
      exact ⟨h, rfl, rfl, rfl⟩
    · rename_i contentPtr st1 he
      rw [he] at h
      simp only at h
      have hp := scanParent_same content { s with st := st1 } numWindows
      split
      · exact ⟨sameItems_trans _ _ _ h hp.1, hp.2⟩
      · split
        · exact ⟨sameItems_trans _ _ _ h hp.1, hp.2⟩
        · rename_i parent _
          have h2 := sameItems_getGrid st1 parent
          split
          · rename_i st2 he2
            rw [he2] at h2
            exact ⟨sameItems_trans _ _ _ h h2, rfl, rfl, rfl⟩
          · rename_i p st2 he2
            rw [he2] at h2
            have hp2 := scanParent_same content
              { s with st := st2.InitContainerData p, containerPtr := some p } numWindows
            exact ⟨sameItems_trans _ _ _ h (sameItems_trans _ _ _ h2
              (sameItems_trans _ _ _ (sameItems_initContainerData _ _) hp2.1)), hp2.2⟩

theorem scanArgs_same (tk : TkProcs) :
    ∀ (objv : List Tcl_Obj) (i : Nat) (prevChar : Char) (numWindows : Nat) (s : ContentState),
      SameItems s.st (scanArgs tk objv i prevChar numWindows s).2.1.st
      ∧ (scanArgs tk objv i prevChar numWindows s).2.1.defaultRow = s.defaultRow
      ∧ (scanArgs tk objv i prevChar numWindows s).2.1.defaultColumn = s.defaultColumn
      ∧ (scanArgs tk objv i prevChar numWindows s).2.1.positionGiven = s.positionGiven := by
  intro objv
  induction objv with
  | nil => intro i prevChar numWindows s; exact ⟨sameItems_refl _, rfl, rfl, rfl⟩
  | cons obj rest ih =>
    intro i prevChar numWindows s
    unfold scanArgs
    split
    · split
      · exact ⟨sameItems_refl _, rfl, rfl, rfl⟩
      · rename_i content _
        obtain ⟨a1, a2, a3, a4⟩ := scanWindow_same tk content s numWindows
        obtain ⟨b1, b2, b3, b4⟩ := ih (i + 1) obj.firstChar
          (scanWindow tk content s numWindows).2 (scanWindow tk content s numWindows).1
        exact ⟨sameItems_trans _ _ _ a1 b1, b2.trans a2, b3.trans a3, b4.trans a4⟩
    · split
      · exact ⟨sameItems_refl _, rfl, rfl, rfl⟩
      · split
        · exact ⟨sameItems_refl _, rfl, rfl, rfl⟩
        · split
          · exact ⟨sameItems_refl _, rfl, rfl, rfl⟩
          · split
            · exact ⟨sameItems_refl _, rfl, rfl, rfl⟩
            · split
              · exact ih (i + 1) obj.firstChar numWindows s
              · exact ⟨sameItems_refl _, rfl, rfl, rfl⟩

theorem checkOptions_same :
    ∀ (n : Nat) (options : List Tcl_Obj) (s : ContentState), options.length ≤ n →
      SameItems s.st (checkOptions options s).2.st
      ∧ (checkOptions options s).2.defaultColumn = s.defaultColumn
      ∧ (checkOptions options s).2.positionGiven = s.positionGiven := by
  intro n
  induction n with
  | zero =>
    intro options s hl
    cases options with
    | nil => unfold checkOptions; exact ⟨sameItems_refl _, rfl, rfl⟩
    | cons a t => simp at hl
  | succ n ih =>
    intro options s hl
    cases options with
    | nil => unfold checkOptions; exact ⟨sameItems_refl _, rfl, rfl⟩
    | cons name t =>
      cases t with
      | nil => unfold checkOptions; exact ⟨sameItems_refl _, rfl, rfl⟩
      | cons value rest =>
        have hr : rest.length ≤ n := by simp at hl; omega
        unfold checkOptions
        split
        · exact ⟨sameItems_refl _, rfl, rfl⟩
        · split
          · exact ⟨sameItems_refl _, rfl, rfl⟩
          · rename_i other _
            have h := sameItems_getGrid s.st other
            split
            · rename_i st1 he
              rw [he] at h
              obtain ⟨b1, b2, b3⟩ := ih rest { s with st := st1, containerPtr := none } hr
              exact ⟨sameItems_trans _ _ _ h b1, b2, b3⟩
            · rename_i p st1 he
              rw [he] at h
              obtain ⟨b1, b2, b3⟩ := ih rest
                { s with st := st1.InitContainerData p, containerPtr := some p } hr
              exact ⟨sameItems_trans _ _ _ h
                (sameItems_trans _ _ _ (sameItems_initContainerData _ _) b1), b2, b3⟩
        · split
          · exact ⟨sameItems_refl _, rfl, rfl⟩
          · split
            · exact ⟨sameItems_refl _, rfl, rfl⟩
            · rename_i tmp _ _
              exact ih rest { s with defaultRow := tmp } hr
        · exact ih rest s hr

/-- The checks of `ConfigureContent` before its loop over the content change no window
and, in the structures, at most `containerDataPtr`. -/
theorem scanCommand_same (tk : TkProcs) (st : GridState) (objv : List Tcl_Obj) :
    SameItems st (scanCommand tk st objv).2.1.st := by
  unfold scanCommand
  have h1 := (scanArgs_same tk objv 0 (Char.ofNat 0) 0
    { st := st, containerPtr := none, defaultRow := -1, defaultColumn := 0,
      positionGiven := false }).1
  split
  · rename_i s1 numWindows he
    rw [he] at h1
    exact h1
  · rename_i s1 numWindows he
    rw [he] at h1
    split
    · exact h1
    · have h2 := (checkOptions_same _ (objv.drop numWindows) s1 (le_refl _)).1
      split
      · rename_i s2 he2
        rw [he2] at h2
        exact sameItems_trans _ _ _ h1 h2
      · rename_i s2 he2
        rw [he2] at h2
        exact sameItems_trans _ _ _ h1 h2

/-- C21. On the state `sampleState`, where window 1 is at column 3, the command
`grid configure .a -column 7 -sticky q` fails at the invalid `-sticky` value and leaves
window 1 at column 7: the value of the option before the offending one has been stored. -/
theorem configureContent_atomic_counterexample :
    ∃ st1, ConfigureContent sampleTk 5 sampleState
        [windowObj 1, optionObj ConfOption.CONF_COLUMN, intObj 7,
          optionObj ConfOption.CONF_STICKY, badStickyObj]
        = Except.ok (TclStatus.TCL_ERROR, st1)
      ∧ StringToSticky badStickyObj.string = -1
      ∧ (sampleState.get 1).content.column = 3
      ∧ (st1.get 1).content.column = 7 :=
  ⟨_, rfl, rfl, rfl, rfl⟩

/-- C21. When `ConfigureContent` fails in one of the checks that it makes before its loop
over the content (a window argument that names no window, a malformed argument or
shortcut, an option word without value, an option name that is not one, an `-in` window
that does not exist, a `-row` value that is not a non-negative integer), it returns
TCL_ERROR and no window and no field of the structure of any window differs from before
the call, apart from `containerDataPtr`: row, column, spans, padding, sticky, container,
list of content, saved name and flags are as they were. -/
theorem configureContent_check_failure (tk : TkProcs) (fuel : Nat) (st : GridState)
    (objv : List Tcl_Obj) (h : (scanCommand tk st objv).1 = TclStatus.TCL_ERROR) :
    ∃ st1, ConfigureContent tk fuel st objv = Except.ok (TclStatus.TCL_ERROR, st1)
      ∧ SameItems st st1 := by
  have hs := scanCommand_same tk st objv
  unfold ConfigureContent
  cases hr : scanCommand tk st objv with
  | mk status r =>
    cases r with
    | mk s numWindows =>
      rw [hr] at h hs
      simp only at h hs
      subst h
      exact ⟨s.st, rfl, hs⟩

theorem configureContent_check_failure_witness :
    ∃ st1, ConfigureContent sampleTk 5 sampleState
        [windowObj 1, optionObj ConfOption.CONF_COLUMN, intObj 7,
          optionObj ConfOption.CONF_ROW, intObj (-3)]
        = Except.ok (TclStatus.TCL_ERROR, st1)
      ∧ SameItems sampleState st1 :=
  configureContent_check_failure sampleTk 5 sampleState
    [windowObj 1, optionObj ConfOption.CONF_COLUMN, intObj 7,
      optionObj ConfOption.CONF_ROW, intObj (-3)] rfl

theorem managementLoop_found (tk : TkProcs) (window : Tk_Window → TkWindow)
    (content : Tk_Window) :
    ∀ (n : Nat) (container : Tk_Window) (fuel : Nat),
      managedInside tk window content n container → n < fuel →
      managementLoop tk window content fuel (some container) = Except.ok true := by
  intro n
  induction n with
  | zero =>
    intro container fuel h hf
    cases fuel with
    | zero => omega
    | succ f =>
      have hc : container = content := h
      unfold managementLoop
      rw [if_pos hc]
  | succ n ih =>
    intro container fuel h hf
    cases fuel with
    | zero => omega
    | succ f =>
      unfold managementLoop
      by_cases hc : container = content
      · rw [if_pos hc]
      · rw [if_neg hc]
        rcases h with h | ⟨next, e, h⟩
        · exact absurd h hc
        · rw [e]
          exact ih next f h (by omega)

theorem initContainerData_isSome (st : GridState) (p : Tk_Window) :
    ((st.InitContainerData p).get p).containerDataPtr.isSome = true := by
  unfold GridState.InitContainerData GridState.setData
  rw [get_modify_self]
  unfold InitContainerData
  simp only
  split
  · rename_i d he
    rw [he]
    rfl
  · rfl

theorem unmaintain_window (tk : TkProcs) (st st1 : GridState) (c p : Tk_Window)
    (h : st1.window = st.window) :
    (unmaintain tk st1 c p).window = (unmaintain tk st c p).window := by
  unfold unmaintain
  rw [h]
  split <;> simp only [h]

theorem windowsAtCheck_same (tk : TkProcs) (st st1 : GridState) (c x : Tk_Window)
    (h : SameItems st st1) : windowsAtCheck tk st1 c x = windowsAtCheck tk st c x := by
  unfold windowsAtCheck
  rw [(h.2 c).2.1]
  split
  · exact h.1
  · split
    · exact unmaintain_window tk st st1 c _ h.1
    · exact h.1

/-- The content `c`, which is not in the container `x`, is put at the head of the list of
`x` by `linkContent`, after it has left the list of its former container. -/
theorem linkContent_spec (tk : TkProcs) (st : GridState) (c x : Tk_Window) (hxc : x ≠ c)
    (hdata : (st.get x).containerDataPtr.isSome = true)
    (hold : ∀ p, (st.get c).containerPtr = some p →
      p ≠ x ∧ p ≠ c ∧ c ∈ (st.get p).contentPtr ∧ (st.get p).containerDataPtr.isSome = true) :
    ∃ st4, linkContent tk st c x = Except.ok st4
      ∧ st4.window = windowsAtCheck tk st c x
      ∧ (st4.get c).containerPtr = some x
      ∧ (st4.get c).contentPtr = (st.get c).contentPtr
      ∧ (st4.get x).contentPtr = c :: (st.get x).contentPtr
      ∧ (st4.get x).containerPtr = (st.get x).containerPtr
      ∧ (st4.get x).containerDataPtr.isSome = true
      ∧ (∀ p, (st.get c).containerPtr = some p →
          (st4.get p).contentPtr = (st.get p).contentPtr.erase c
          ∧ (st4.get p).containerPtr = (st.get p).containerPtr)
      ∧ (∀ q, q ≠ c → q ≠ x → (st.get c).containerPtr ≠ some q → st4.get q = st.get q) := by
  have hcx : c ≠ x := fun h => hxc h.symm
  unfold linkContent windowsAtCheck
  cases hp : (st.get c).containerPtr with
  | none =>
    simp only [hp, Option.isNone_none, if_true]
    refine ⟨_, rfl, rfl, ?_, ?_, ?_, ?_, ?_, ?_, ?_⟩
    · simp only [get_modify, hcx, hxc, if_true, if_false]
    · simp only [get_modify, hcx, hxc, if_true, if_false]
    · simp only [get_modify, hcx, hxc, if_true, if_false]
    · simp only [get_modify, hcx, hxc, if_true, if_false]
    · simp only [get_modify, hcx, hxc, if_true, if_false]
      exact hdata
    · intro p h
      cases h
    · intro q h1 h2 _
      simp only [get_modify, h1, h2, if_false]
  | some p =>
    obtain ⟨h1, h2, h3, h4⟩ := hold p hp
    obtain ⟨u1, _⟩ := unmaintain_spec tk st c p
    obtain ⟨st1, e1, k0, k1, k2, k3, k4, _, k6, k7⟩ :=
      unlink_spec (unmaintain tk st c p) c p (by rw [u1]; exact hp) (by rw [u1]; exact h3)
        (by rw [u1]; exact h4) h2
    rw [u1] at k1 k2 k3 k4
    simp only [if_pos h1, e1]
    have hnone : ((st1.modify c (fun r => { r with containerPtr := none })).get
        c).containerPtr.isNone = true := by
      rw [get_modify_self]
      rfl
    simp only [hnone, if_true]
    have hxp : x ≠ p := fun h => h1 h.symm
    have hxget : st1.get x = st.get x := by
      rw [k7 x hxc hxp, u1]
    refine ⟨_, rfl, ?_, ?_, ?_, ?_, ?_, ?_, ?_, ?_⟩
    · exact k0
    · simp only [get_modify, hcx, hxc, if_true, if_false]
    · simp only [get_modify, hcx, hxc, if_true, if_false, k1]
    · simp only [get_modify, hcx, hxc, if_true, if_false, hxget]
    · simp only [get_modify, hcx, hxc, if_true, if_false, hxget]
    · simp only [get_modify, hcx, hxc, if_true, if_false, hxget]
      exact hdata
    · intro p1 he
      injection he with he
      subst he
      simp only [get_modify, h1, h2, if_false]
      exact ⟨k2, k4⟩
    · intro q q1 q2 q3
      have q4 : q ≠ p := fun h => q3 (by rw [h])
      simp only [get_modify, q1, q2, if_false]
      rw [k7 q q1 q4, u1]
theorem initContainerData_data (st : GridState) (p q : Tk_Window)
    (h : (st.get q).containerDataPtr.isSome = true) :
    ((st.InitContainerData p).get q).containerDataPtr.isSome = true := by
  by_cases hq : q = p
  · rw [hq]
    exact initContainerData_isSome st p
  · unfold GridState.InitContainerData GridState.setData
    rw [get_modify_ne _ _ _ _ hq]
    exact h

theorem scanParent_data (content : Tk_Window) (s : ContentState) (numWindows : Nat)
    (q : Tk_Window) (h : (s.st.get q).containerDataPtr.isSome = true) :
    ((scanParent content s numWindows).1.st.get q).containerDataPtr.isSome = true := by
  unfold scanParent
  split
  · exact h
  · split
    · exact h
    · rename_i parent _
      obtain ⟨_, _, g3⟩ := getGrid_spec s.st parent
      split
      · rename_i st1 he
        rw [he] at g3
        simp only at g3 ⊢
        rw [g3]
        exact h
      · rename_i p st1 he
        rw [he] at g3
        simp only at g3 ⊢
        exact initContainerData_data _ _ _ (by rw [g3]; exact h)

theorem scanWindow_data (tk : TkProcs) (content : Tk_Window) (s : ContentState)
    (numWindows : Nat) (q : Tk_Window) (h : (s.st.get q).containerDataPtr.isSome = true) :
    ((scanWindow tk content s numWindows).1.st.get q).containerDataPtr.isSome = true := by
  unfold scanWindow
  split
  · exact scanParent_data content s numWindows q h
  · obtain ⟨_, _, g3⟩ := getGrid_spec s.st content
    split
    · rename_i st1 he
      rw [he] at g3
      simp only at g3 ⊢
      rw [g3]
      exact h
    · rename_i contentPtr st1 he
      rw [he] at g3
      simp only at g3
      have h1 : (st1.get q).containerDataPtr.isSome = true := by rw [g3]; exact h
      split
      · exact scanParent_data content { s with st := st1 } numWindows q h1
      · split
        · exact scanParent_data content { s with st := st1 } numWindows q h1
        · rename_i parent _
          obtain ⟨_, _, k3⟩ := getGrid_spec st1 parent
          split
          · rename_i st2 he2
            rw [he2] at k3
            simp only at k3 ⊢
            rw [k3]
            exact h1
          · rename_i p st2 he2
            rw [he2] at k3
            simp only at k3
            exact scanParent_data content
              { s with st := st2.InitContainerData p, containerPtr := some p } numWindows q
              (initContainerData_data _ _ _ (by rw [k3]; exact h1))

/-- The topology checks of `placeContent` fail for a content `c` inside which its new
container `x` is managed: the content is taken out of the list of `x` again. -/
theorem placeContent_cycle (tk : TkProcs) (fuel n : Nat) (defaultColumnSpan : Int)
    (s : ContentState) (c x : Tk_Window)
    (hcont : s.containerPtr = some x) (hxc : x ≠ c)
    (hdata : (s.st.get x).containerDataPtr.isSome = true)
    (hold : ∀ p, (s.st.get c).containerPtr = some p →
      p ≠ x ∧ p ≠ c ∧ c ∈ (s.st.get p).contentPtr
        ∧ (s.st.get p).containerDataPtr.isSome = true)
    (hhier : ∃ b, hierarchyLoop (windowsAtCheck tk s.st c x) (s.st.window c).parentPtr fuel
      (some x) = Except.ok b)
    (hchain : managedInside tk (windowsAtCheck tk s.st c x) c n x) (hn : n < fuel) :
    ∃ s5, placeContent tk fuel c c defaultColumnSpan s = Except.ok (TclStatus.TCL_ERROR, s5)
      ∧ (s5.st.get c).containerPtr = none
      ∧ (s5.st.get c).contentPtr = (s.st.get c).contentPtr
      ∧ (s5.st.get x).contentPtr = (s.st.get x).contentPtr
      ∧ (s5.st.get x).containerPtr = (s.st.get x).containerPtr
      ∧ (∀ p, (s.st.get c).containerPtr = some p →
          (s5.st.get p).contentPtr = (s.st.get p).contentPtr.erase c
          ∧ (s5.st.get p).containerPtr = (s.st.get p).containerPtr)
      ∧ (∀ q, q ≠ c → q ≠ x → (s.st.get c).containerPtr ≠ some q →
          s5.st.get q = s.st.get q) := by
  obtain ⟨st4, e4, l1, l2, l3, l4, l5, l6, l7, l8⟩ :=
    linkContent_spec tk s.st c x hxc hdata hold
  obtain ⟨st5, e5, _, m1, m2, _, m4, _, _, m7⟩ :=
    unlink_spec st4 c x l2 (by rw [l4]; exact List.mem_cons_self _ _) l6 hxc
  have hfail : unlinkFail { s with st := st4, containerPtr := some x } c
      = Except.ok (TclStatus.TCL_ERROR, { s with st := st5, containerPtr := some x }) := by
    unfold unlinkFail
    simp only [e5]
  have hres : (st5.get c).containerPtr = none
      ∧ (st5.get c).contentPtr = (s.st.get c).contentPtr
      ∧ (st5.get x).contentPtr = (s.st.get x).contentPtr
      ∧ (st5.get x).containerPtr = (s.st.get x).containerPtr
      ∧ (∀ p, (s.st.get c).containerPtr = some p →
          (st5.get p).contentPtr = (s.st.get p).contentPtr.erase c
          ∧ (st5.get p).containerPtr = (s.st.get p).containerPtr)
      ∧ (∀ q, q ≠ c → q ≠ x → (s.st.get c).containerPtr ≠ some q →
          st5.get q = s.st.get q) := by
    refine ⟨?_, ?_, ?_, ?_, ?_, ?_⟩
    · rw [m1]
    · rw [m1]; exact l3
    · rw [m2, l4, List.erase_cons_head]
    · rw [m4, l5]
    · intro p hp
      obtain ⟨h1, h2, _, _⟩ := hold p hp
      rw [m7 p h2 h1]
      exact l7 p hp
    · intro q q1 q2 q3
      rw [m7 q q1 q2]
      exact l8 q q1 q2 q3
  obtain ⟨b, eb⟩ := hhier
  unfold placeContent
  simp only [hcont, e4, l1, eb]
  cases b with
  | false =>
    simp only
    exact ⟨_, hfail, hres⟩
  | true =>
    simp only
    rw [managementLoop_found tk _ c n x fuel hchain hn]
    simp only
    exact ⟨_, hfail, hres⟩

/-- The checks of `ConfigureContent` on `grid configure c -in x` for a live window `x`:
they pass, `x` is the container of the command and has grid data. -/
theorem scanCommand_in (tk : TkProcs) (st : GridState) (c x : Tk_Window)
    (hx : (st.window x).alreadyDead = false) :
    ∃ s, scanCommand tk st [windowObj c, optionObj ConfOption.CONF_IN, windowObj x]
        = (TclStatus.TCL_OK, s, 1)
      ∧ SameItems st s.st ∧ s.containerPtr = some x ∧ s.defaultRow = -1
      ∧ s.positionGiven = false
      ∧ (s.st.get x).containerDataPtr.isSome = true
      ∧ (∀ q, (st.get q).containerDataPtr.isSome = true →
          (s.st.get q).containerDataPtr.isSome = true) := by
  generalize hs0 : ContentState.mk st none (-1) 0 false = s0
  obtain ⟨a1, a2, _, a4⟩ := scanWindow_same tk c s0 0
  have a5 := scanWindow_data tk c s0 0
  generalize hs1 : (scanWindow tk c s0 0).1 = s1 at a1 a2 a4 a5
  have hscan : scanArgs tk [windowObj c, optionObj ConfOption.CONF_IN, windowObj x] 0
      (Char.ofNat 0) 0 s0 = (TclStatus.TCL_OK, s1, 1) := by
    rw [← hs1]
    simp +decide [scanArgs, windowObj, optionObj, Tcl_Obj.firstChar]
  have hst : s0.st = st := by rw [← hs0]
  rw [hst] at a1 a5
  obtain ⟨g1, g2, g3⟩ := getGrid_spec s1.st x
  rw [a1.1, hx] at g1
  simp only [Bool.false_eq_true, if_false] at g1
  cases hg : GetGrid s1.st x with
  | mk ptr st2 =>
    rw [hg] at g1 g2 g3
    simp only at g1 g2 g3
    subst g1
    have hsame2 : SameItems s1.st st2 := by
      have := sameItems_getGrid s1.st x
      rw [hg] at this
      exact this
    refine ⟨{ s1 with st := st2.InitContainerData x, containerPtr := some x }, ?_,
      sameItems_trans _ _ _ a1
        (sameItems_trans _ _ _ hsame2 (sameItems_initContainerData _ _)), rfl, ?_, ?_,
      initContainerData_isSome _ _,
      fun q hq => initContainerData_data _ _ _ (by rw [g3]; exact a5 q hq)⟩
    · unfold scanCommand
      rw [hs0, hscan]
      simp +decide [checkOptions, optionObj, windowObj, hg]
    · show s1.defaultRow = -1
      rw [a2, ← hs0]
    · show s1.positionGiven = false
      rw [a4, ← hs0]
theorem windowObj_firstChar (w : Tk_Window) : (windowObj w).firstChar = Char.ofNat 46 := rfl

/-- The loop over the content for a single window argument whose body fails. -/
theorem configureWindows_single (tk : TkProcs) (fuel : Nat) (options : List Tcl_Obj)
    (w : Tk_Window) (s r : ContentState)
    (h : configureWindow tk fuel options (windowObj w) 1 s
      = Except.ok (TclStatus.TCL_ERROR, r)) :
    configureWindows tk fuel options [windowObj w] s = Except.ok (TclStatus.TCL_ERROR, r) := by
  unfold configureWindows
  rw [if_neg (by rw [windowObj_firstChar]; decide), if_neg (by rw [windowObj_firstChar]; decide)]
  have e : (1 : Int) + countHoriz [] = 1 := rfl
  rw [e, h]

/-- C22. On the state `sampleState`, where window 0 manages window 1 and window 1 manages
window 2, the command `grid configure .1 -in .2` fails, and afterwards window 1 is no
longer in the list of window 0, which managed it before the call, and has no container;
the lists of the windows 1 and 2 are as before. -/
theorem configureContent_cycle_counterexample :
    ∃ st1, ConfigureContent sampleTk 5 sampleState
        [windowObj 1, optionObj ConfOption.CONF_IN, windowObj 2]
        = Except.ok (TclStatus.TCL_ERROR, st1)
      ∧ managedInside sampleTk sampleState.window 1 1 2
      ∧ (sampleState.get 1).containerPtr = some 0 ∧ (sampleState.get 0).contentPtr = [1]
      ∧ (st1.get 1).containerPtr = none ∧ (st1.get 0).contentPtr = []
      ∧ (st1.get 1).contentPtr = [2] ∧ (st1.get 2).contentPtr = [] :=
  ⟨_, rfl, Or.inr ⟨1, rfl, rfl⟩, rfl, rfl, rfl, rfl, rfl, rfl⟩

/-- C22. The command `grid configure c -in x` for live windows `c` and `x`, where `c` is
not a top-level, `x` is `c` itself or is managed inside `c` directly or through at most
`n < fuel` containers, and `c` is not managed by `x`; when `c` has a container `p`, `c`
is in the list of `p` and `p` has grid data; the loop over the ancestors of `x` returns.
The command returns TCL_ERROR; the lists of content of `c` and of `x` are as before the
call.  When `x` is `c`, every container link and every list is as before.  When `x` is
not `c`, the content `c` has no container afterwards: it has been taken out of the list
of the container `p` that managed it before the call, whose other items keep their order;
the container of every other window and every other list are as before. -/
theorem configureContent_in_cycle (tk : TkProcs) (fuel n : Nat) (st : GridState)
    (c x : Tk_Window)
    (hc : (st.window c).alreadyDead = false) (hx : (st.window x).alreadyDead = false)
    (htop : (st.window c).topWinHierarchy = false)
    (hold : ∀ p, (st.get c).containerPtr = some p →
      p ≠ x ∧ p ≠ c ∧ c ∈ (st.get p).contentPtr ∧ (st.get p).containerDataPtr.isSome = true)
    (hhier : ∃ b, hierarchyLoop (windowsAtCheck tk st c x) (st.window c).parentPtr fuel
      (some x) = Except.ok b)
    (hchain : managedInside tk (windowsAtCheck tk st c x) c n x) (hn : n < fuel) :
    ∃ st1, ConfigureContent tk fuel st [windowObj c, optionObj ConfOption.CONF_IN, windowObj x]
        = Except.ok (TclStatus.TCL_ERROR, st1)
      ∧ (st1.get c).contentPtr = (st.get c).contentPtr
      ∧ (st1.get x).contentPtr = (st.get x).contentPtr
      ∧ (x = c → ∀ q, (st1.get q).containerPtr = (st.get q).containerPtr
          ∧ (st1.get q).contentPtr = (st.get q).contentPtr)
      ∧ (x ≠ c →
          (st1.get c).containerPtr = none
          ∧ (∀ p, (st.get c).containerPtr = some p →
              (st1.get p).contentPtr = (st.get p).contentPtr.erase c)
          ∧ (∀ q, q ≠ c → (st1.get q).containerPtr = (st.get q).containerPtr)
          ∧ (∀ q, (st.get c).containerPtr ≠ some q →
              (st1.get q).contentPtr = (st.get q).contentPtr)) := by
  obtain ⟨s, es, hsame, hcont, hrow, hpos, hdata, hkept⟩ := scanCommand_in tk st c x hx
  -- the default row
  obtain ⟨d1, ed⟩ := state_setGridSize s.st x hdata
  have hsame1 : SameItems st (s.st.setData x (some d1)) :=
    sameItems_trans _ _ _ hsame (sameItems_setData _ _ _)
  have hdef : ∃ row, chooseDefaultRow s = Except.ok
      { s with st := s.st.setData x (some d1), defaultRow := row } := by
    unfold chooseDefaultRow
    rw [if_pos (by rw [hrow]; decide)]
    simp only [hcont, hdata, if_true, ed]
    exact ⟨_, rfl⟩
  obtain ⟨row, edef⟩ := hdef
  generalize hs1 : ({ s with st := s.st.setData x (some d1), defaultRow := row } :
    ContentState) = s1 at edef
  have hst1 : s1.st = s.st.setData x (some d1) := by rw [← hs1]
  have hcont1 : s1.containerPtr = some x := by rw [← hs1]; exact hcont
  have hpos1 : s1.positionGiven = false := by rw [← hs1]; exact hpos
  rw [← hst1] at hsame1
  have hkept1 : ∀ q, (st.get q).containerDataPtr.isSome = true →
      (s1.st.get q).containerDataPtr.isSome = true := by
    intro q hq
    rw [hst1]
    unfold GridState.setData
    rw [get_modify]
    split
    · rfl
    · exact hkept q hq
  -- the structure of the content
  obtain ⟨g1, g2, g3⟩ := getGrid_spec s1.st c
  rw [hsame1.1, hc] at g1
  simp only [Bool.false_eq_true, if_false] at g1
  cases hg : GetGrid s1.st c with
  | mk ptr st2 =>
    rw [hg] at g1 g2 g3
    simp only at g1 g2 g3
    subst g1
    have hsame2 : SameItems st st2 := by
      refine sameItems_trans _ _ _ hsame1 ?_
      have := sameItems_getGrid s1.st c
      rw [hg] at this
      exact this
    have hkept2 : ∀ q, (st.get q).containerDataPtr.isSome = true →
        (st2.get q).containerDataPtr.isSome = true := by
      intro q hq
      rw [g3]
      exact hkept1 q hq
    by_cases hxc : x = c
    · -- the window is its own container
      have hwin : configureWindow tk fuel [optionObj ConfOption.CONF_IN, windowObj x]
          (windowObj c) 1 s1 = Except.ok (TclStatus.TCL_ERROR, { s1 with st := st2 }) := by
        unfold configureWindow
        simp only [windowObj, hsame1.1, htop, hg, configureOptions, optionObj, hxc,
          Bool.false_eq_true, if_false, if_true]
      have hall := configureWindows_single tk fuel _ c s1 _ hwin
      refine ⟨st2, ?_, (hsame2.2 c).2.2.1, (hsame2.2 x).2.2.1,
        fun _ q => ⟨(hsame2.2 q).2.1, (hsame2.2 q).2.2.1⟩, fun h => absurd hxc h⟩
      unfold ConfigureContent
      simp only [es, edef, List.drop_succ_cons, List.drop_zero, List.take_succ_cons,
        List.take_zero, hall]
    · -- the container is managed inside the content
      obtain ⟨k1, k2, k3⟩ := getGrid_spec st2 x
      rw [hsame2.1, hx] at k1
      simp only [Bool.false_eq_true, if_false] at k1
      cases hg3 : GetGrid st2 x with
      | mk ptr3 st3 =>
        rw [hg3] at k1 k2 k3
        simp only at k1 k2 k3
        subst k1
        have hsame3 : SameItems st (st3.InitContainerData x) := by
          refine sameItems_trans _ _ _ hsame2 (sameItems_trans _ _ _ ?_
            (sameItems_initContainerData _ _))
          have := sameItems_getGrid st2 x
          rw [hg3] at this
          exact this
        have hkept3 : ∀ q, (st.get q).containerDataPtr.isSome = true →
            ((st3.InitContainerData x).get q).containerDataPtr.isSome = true := by
          intro q hq
          exact initContainerData_data _ _ _ (by rw [k3]; exact hkept2 q hq)
        generalize hs3 : ContentState.mk (st3.InitContainerData x) (some x) s1.defaultRow
          s1.defaultColumn true = s3
        have hst3 : s3.st = st3.InitContainerData x := by rw [← hs3]
        have hcont3 : s3.containerPtr = some x := by rw [← hs3]
        have hpos3 : s3.positionGiven = true := by rw [← hs3]
        rw [← hst3] at hsame3 hkept3
        have hold3 : ∀ p, (s3.st.get c).containerPtr = some p →
            p ≠ x ∧ p ≠ c ∧ c ∈ (s3.st.get p).contentPtr
              ∧ (s3.st.get p).containerDataPtr.isSome = true := by
          intro p hp
          rw [(hsame3.2 c).2.1] at hp
          obtain ⟨h1, h2, h3, h4⟩ := hold p hp
          exact ⟨h1, h2, by rw [(hsame3.2 p).2.2.1]; exact h3, hkept3 p h4⟩
        obtain ⟨s5, e5, r1, r2, r3, r4, r5, r6⟩ := placeContent_cycle tk fuel n 1 s3 c x
          hcont3 hxc (by rw [hst3]; exact initContainerData_isSome _ _) hold3
          (by rw [windowsAtCheck_same tk st s3.st c x hsame3, hsame3.1]; exact hhier)
          (by rw [windowsAtCheck_same tk st s3.st c x hsame3]; exact hchain) hn
        have hne : ¬ (s3.containerPtr = (s3.st.get c).containerPtr) := by
          intro h
          rw [hcont3] at h
          exact (hold3 x h.symm).1 rfl
        have hwin : configureWindow tk fuel [optionObj ConfOption.CONF_IN, windowObj x]
            (windowObj c) 1 s1 = Except.ok (TclStatus.TCL_ERROR, s5) := by
          unfold configureWindow
          simp only [windowObj, hsame1.1, htop, hg, configureOptions, optionObj, hxc,
            Bool.false_eq_true, if_false, hg3, hs3, hpos3, hne, and_false, false_and,
            not_true_eq_false, e5]
        have hall := configureWindows_single tk fuel _ c s1 _ hwin
        rw [(hsame3.2 c).2.2.1] at r2
        rw [(hsame3.2 x).2.2.1] at r3
        rw [(hsame3.2 x).2.1] at r4
        refine ⟨s5.st, ?_, r2, r3, fun h => absurd h hxc, fun _ => ⟨r1, ?_, ?_, ?_⟩⟩
        · unfold ConfigureContent
          simp only [es, edef, List.drop_succ_cons, List.drop_zero, List.take_succ_cons,
            List.take_zero, hall]
        · intro p hp
          have := (r5 p (by rw [(hsame3.2 c).2.1]; exact hp)).1
          rw [(hsame3.2 p).2.2.1] at this
          exact this
        · intro q hq
          by_cases hqx : q = x
          · rw [hqx]; exact r4
          · by_cases hqp : (st.get c).containerPtr = some q
            · have := (r5 q (by rw [(hsame3.2 c).2.1]; exact hqp)).2
              rw [(hsame3.2 q).2.1] at this
              exact this
            · rw [r6 q hq hqx (by rw [(hsame3.2 c).2.1]; exact hqp)]
              exact (hsame3.2 q).2.1
        · intro q hq
          by_cases hqc : q = c
          · rw [hqc]; exact r2
          · by_cases hqx : q = x
            · rw [hqx]; exact r3
            · rw [r6 q hqc hqx (by rw [(hsame3.2 c).2.1]; exact hq)]
              exact (hsame3.2 q).2.2.1

theorem configureContent_in_cycle_witness :
    ∃ st1, ConfigureContent sampleTk 5 sampleState
        [windowObj 1, optionObj ConfOption.CONF_IN, windowObj 2]
        = Except.ok (TclStatus.TCL_ERROR, st1)
      ∧ (st1.get 1).contentPtr = (sampleState.get 1).contentPtr
      ∧ (st1.get 2).contentPtr = (sampleState.get 2).contentPtr
      ∧ ((2 : Tk_Window) = 1 → ∀ q, (st1.get q).containerPtr = (sampleState.get q).containerPtr
          ∧ (st1.get q).contentPtr = (sampleState.get q).contentPtr)
      ∧ ((2 : Tk_Window) ≠ 1 →
          (st1.get 1).containerPtr = none
          ∧ (∀ p, (sampleState.get 1).containerPtr = some p →
              (st1.get p).contentPtr = (sampleState.get p).contentPtr.erase 1)
          ∧ (∀ q, q ≠ 1 → (st1.get q).containerPtr = (sampleState.get q).containerPtr)
          ∧ (∀ q, (sampleState.get 1).containerPtr ≠ some q →
              (st1.get q).contentPtr = (sampleState.get q).contentPtr)) :=
  configureContent_in_cycle sampleTk 5 1 sampleState 1 2 rfl rfl rfl
    (fun p hp => by
      have h0 : (sampleState.get 1).containerPtr = some 0 := rfl
      rw [h0] at hp
      injection hp with hp
      subst hp
      exact ⟨by decide, by decide, by decide, rfl⟩)
    ⟨true, rfl⟩ (Or.inr ⟨1, rfl, rfl⟩) (by decide)

theorem stickyToObj_flags (n e s w : Bool) :
    StickyToObj (stickyFlags n e s w)
      = (if n then [Char.ofNat 110] else []) ++ (if e then [Char.ofNat 101] else [])
        ++ (if s then [Char.ofNat 115] else []) ++ (if w then [Char.ofNat 119] else []) := by
  cases n <;> cases e <;> cases s <;> cases w <;> decide

/-- C40. For every flag set `f` from 0 to 15, `StringToSticky` of the string that
`StickyToObj` makes of `f` is `f`; and for every string `s` that `StringToSticky` accepts
(it does not return -1), `StickyToObj` of the flags of `s` is the canonical string: the
letters n, e, s, w that `s` holds in either case, in this order, each once. -/
theorem sticky_round_trip (f : Int) (string : List Char) (h0 : 0 ≤ f) (h15 : f ≤ 15)
    (hend : Char.ofNat 0 ∉ string) (hacc : StringToSticky string ≠ -1) :
    StringToSticky (StickyToObj f) = f
    ∧ StickyToObj (StringToSticky string) = canonicalSticky string
    ∧ (canonicalSticky string).Nodup
    ∧ (canonicalSticky string).Sublist
        [Char.ofNat 110, Char.ofNat 101, Char.ofNat 115, Char.ofNat 119] := by
  refine ⟨?_, ?_, ?_, ?_⟩
  · interval_cases f <;> decide
  · have h := stickyLoop_eq string false false false false hend
    have hz : stickyFlags false false false false = 0 := by decide
    rw [hz] at h
    simp only [Bool.false_or] at h
    unfold StringToSticky at hacc ⊢
    by_cases hall : ∀ c, c ∈ string → stickyChar c
    · rw [h, if_pos hall, stickyToObj_flags]
      unfold canonicalSticky
      simp only [decide_eq_true_eq]
    · rw [h, if_neg hall] at hacc
      exact absurd rfl hacc
  · unfold canonicalSticky
    by_cases a : 'n' ∈ string ∨ 'N' ∈ string <;> by_cases b : 'e' ∈ string ∨ 'E' ∈ string <;>
      by_cases c : 's' ∈ string ∨ 'S' ∈ string <;>
      by_cases d : 'w' ∈ string ∨ 'W' ∈ string <;>
      simp only [a, b, c, d, if_true, if_false] <;> decide
  · unfold canonicalSticky
    by_cases a : 'n' ∈ string ∨ 'N' ∈ string <;> by_cases b : 'e' ∈ string ∨ 'E' ∈ string <;>
      by_cases c : 's' ∈ string ∨ 'S' ∈ string <;>
      by_cases d : 'w' ∈ string ∨ 'W' ∈ string <;>
      simp only [a, b, c, d, if_true, if_false] <;> decide

theorem sticky_round_trip_witness :
    StringToSticky (StickyToObj 10) = 10
    ∧ StickyToObj (StringToSticky ['W', Char.ofNat 32, 'n', 'w'])
        = canonicalSticky ['W', Char.ofNat 32, 'n', 'w']
    ∧ (canonicalSticky ['W', Char.ofNat 32, 'n', 'w']).Nodup
    ∧ (canonicalSticky ['W', Char.ofNat 32, 'n', 'w']).Sublist
        [Char.ofNat 110, Char.ofNat 101, Char.ofNat 115, Char.ofNat 119] :=
  sticky_round_trip 10 ['W', Char.ofNat 32, 'n', 'w'] (by decide) (by decide) (by decide)
    (by decide)

theorem tdiv_two_bounds (d : Int) (h : 0 ≤ d) : 0 ≤ Int.tdiv d 2 ∧ Int.tdiv d 2 ≤ d := by
  rw [Int.tdiv_eq_ediv h (by decide)]
  omega

/-- C39. `AdjustForSticky` keeps the content inside the cavity less the outer padding, for
every sticky value, padding and requested size: with `(x1, y1, width1, height1)` the
result, `x + padLeft <= x1`, `x1 + width1 <= x + padLeft + (width - padX)` and
`width1 <= width - padX`, and the same vertically.  With EAST set and WEST not set the
content is flush with the right edge of the padded cavity, with WEST set `x1` is
`x + padLeft`; with SOUTH set and NORTH not set it is flush with the bottom edge, with
NORTH set `y1` is `y + padTop`. -/
theorem adjustForSticky_inside (contentPtr : Gridder) (x y width height : Int) :
    ∃ x1 y1 width1 height1,
      AdjustForSticky contentPtr x y width height = (x1, y1, width1, height1)
      ∧ x + contentPtr.padLeft ≤ x1
      ∧ x1 + width1 ≤ x + contentPtr.padLeft + (width - contentPtr.padX)
      ∧ width1 ≤ width - contentPtr.padX
      ∧ y + contentPtr.padTop ≤ y1
      ∧ y1 + height1 ≤ y + contentPtr.padTop + (height - contentPtr.padY)
      ∧ height1 ≤ height - contentPtr.padY
      ∧ (stuck contentPtr.sticky STICK_EAST = true → stuck contentPtr.sticky STICK_WEST = false →
          x1 + width1 = x + contentPtr.padLeft + (width - contentPtr.padX))
      ∧ (stuck contentPtr.sticky STICK_WEST = true → x1 = x + contentPtr.padLeft)
      ∧ (stuck contentPtr.sticky STICK_SOUTH = true →
          stuck contentPtr.sticky STICK_NORTH = false →
          y1 + height1 = y + contentPtr.padTop + (height - contentPtr.padY))
      ∧ (stuck contentPtr.sticky STICK_NORTH = true → y1 = y + contentPtr.padTop) := by
  have tx := tdiv_two_bounds ((width - contentPtr.padX) - (contentPtr.reqWidth + contentPtr.iPadX))
  have ty := tdiv_two_bounds
    ((height - contentPtr.padY) - (contentPtr.reqHeight + contentPtr.iPadY))
  have z : Int.tdiv 0 2 = 0 := by decide
  refine ⟨_, _, _, _, rfl, ?_⟩
  cases hn : stuck contentPtr.sticky STICK_NORTH <;>
    cases he : stuck contentPtr.sticky STICK_EAST <;>
    cases hs : stuck contentPtr.sticky STICK_SOUTH <;>
    cases hw : stuck contentPtr.sticky STICK_WEST <;>
    by_cases hx : width - contentPtr.padX > contentPtr.reqWidth + contentPtr.iPadX <;>
    by_cases hy : height - contentPtr.padY > contentPtr.reqHeight + contentPtr.iPadY <;>
    simp only [hx, hy, Bool.and_self, Bool.and_true, Bool.and_false, Bool.true_and,
      Bool.false_and, if_true, Bool.not_true, Bool.not_false, Bool.false_eq_true, if_false,
      z, true_implies, false_implies, reduceCtorEq, and_true, true_and, imp_self] <;>
    omega

/-! ### Termination and the end of the runs of step 5 -/

theorem fitHave_mono (lp : Layout) (noWeights : Bool) (T need : Int) (start endV : Nat) :
    ∀ (fuel : Nat) (hv h : Int),
      fitHave lp noWeights T need start endV fuel hv = Except.ok h →
      ∀ k, fitHave lp noWeights T need start endV (fuel + k) hv = Except.ok h := by
  intro fuel
  induction fuel with
  | zero =>
    intro hv h e
    unfold fitHave at e
    cases e
  | succ f ih =>
    intro hv h e k
    have ek : f + 1 + k = (f + k) + 1 := by omega
    rw [ek]
    unfold fitHave at e ⊢
    cases ht : tryHave lp noWeights T need hv (endV - start + 1) start
        (lp ((start : Int) - 1)).minOffset 0 0 with
    | none => rw [ht] at e; exact e
    | some h1 =>
      rw [ht] at e
      exact ih h1 h e k

theorem resolveSpan_mono (fuel n start : Nat) (lp lp2 : Layout)
    (e : resolveSpan fuel n start lp = Except.ok lp2) (k : Nat) :
    resolveSpan (fuel + k) n start lp = Except.ok lp2 := by
  unfold resolveSpan at e ⊢
  dsimp only at e ⊢
  split at e
  · cases e
  · rename_i hge
    rw [if_neg hge]
    split at e
    · cases e
    · rename_i hv he
      rw [fitHave_mono _ _ _ _ _ _ _ _ _ he k]
      exact e

theorem resolveSpans_mono (n inner : Nat) :
    ∀ (fuel start : Nat) (lp lp2 : Layout),
      resolveSpans n inner fuel start lp = Except.ok lp2 →
      ∀ k1 k2, resolveSpans n (inner + k1) (fuel + k2) start lp = Except.ok lp2 := by
  intro fuel
  induction fuel with
  | zero =>
    intro start lp lp2 e k1 k2
    unfold resolveSpans at e ⊢
    split at e
    · cases e
    · rename_i h
      rw [if_neg h]
      exact e
  | succ f ih =>
    intro start lp lp2 e k1 k2
    have ek : f + 1 + k2 = (f + k2) + 1 := by omega
    rw [ek]
    unfold resolveSpans at e ⊢
    split at e
    · rename_i h
      rw [if_pos h]
      simp only at e ⊢
      split at e
      · rename_i hf
        rw [if_pos hf]
        exact ih _ _ _ e k1 k2
      · rename_i hf
        rw [if_neg hf]
        split at e
        · cases e
        · rename_i lp1 he
          rw [resolveSpan_mono _ _ _ _ _ he k1]
          exact ih _ _ _ e k1 k2
    · rename_i h
      rw [if_neg h]
      exact e

theorem placeOffsets_mono (fuel : Nat) (slotType : SlotType) (sp : Nat → SlotInfo) (n : Nat)
    (maxOffset r : Int) (lp : Layout) (sp1 : Nat → SlotInfo)
    (e : placeOffsets fuel slotType sp n maxOffset r lp = Except.ok sp1) (k : Nat) :
    placeOffsets (fuel + k) slotType sp n maxOffset r lp = Except.ok sp1 := by
  unfold placeOffsets at e ⊢
  dsimp only at e ⊢
  split at e
  · cases e
  · rename_i lp3 hl
    rw [resolveSpans_mono _ _ _ _ _ _ hl k k]
    exact e

/-- More fuel does not change the result of `ResolveConstraints`. -/
theorem resolveConstraints_mono (fuel : Nat) (c : GridContainer) (slotType : SlotType)
    (maxOffset : Int) (res : Int × (Nat → SlotInfo))
    (e : ResolveConstraints fuel c slotType maxOffset = Except.ok res) (k : Nat) :
    ResolveConstraints (fuel + k) c slotType maxOffset = Except.ok res := by
  unfold ResolveConstraints at e ⊢
  dsimp only at e ⊢
  split at e
  · cases e
  · rename_i st hst
    split at e
    · cases e
    · rename_i sp1 hp
      rw [placeOffsets_mono _ _ _ _ _ _ _ _ hp k]
      exact e

/-- While the products of step 5 fit in an `int` (`ResolveFits`), `ResolveConstraints`
with target 0 terminates on valid content and a slot table without negative `minSize` or
`weight`: there are a required size `r` and a slot table that the procedure returns
whenever each of its two unbounded loops, the `do … while` that retries with a reduced
`have` and the scan over the runs, may run `r + gridCount` times or more. -/
theorem resolveConstraints_terminates (c : GridContainer) (slotType : SlotType)
    (hv : ∀ g, g ∈ c.contentPtr → ValidContent slotType (c.gridCount slotType) g)
    (hs : ∀ j, j < c.constraintCount slotType →
      0 ≤ (c.slotPtr slotType j).minSize ∧ 0 ≤ (c.slotPtr slotType j).weight) :
    ∃ r : Int, 0 ≤ r
      ∧ (ResolveFits c slotType r →
          ∃ slotPtr1 : Nat → SlotInfo,
            ∀ fuel : Nat, r.toNat + c.gridCount slotType ≤ fuel →
              ResolveConstraints fuel c slotType 0 = Except.ok (r, slotPtr1)) := by
  obtain ⟨r, lp3, _, hr0, h⟩ := resolveConstraints_ok c slotType hv hs
  refine ⟨r, hr0, fun hfit => ?_⟩
  obtain ⟨lp5, e, _⟩ := h 0 (r.toNat + c.gridCount slotType) hr0 (le_refl _) hfit
  refine ⟨copyOffsets (c.gridCount slotType) lp5 (c.slotPtr slotType), fun fuel hfuel => ?_⟩
  have ef : fuel = r.toNat + c.gridCount slotType + (fuel - (r.toNat + c.gridCount slotType)) := by
    omega
  rw [ef]
  exact resolveConstraints_mono _ c slotType 0 _ e _

/-- When no slot is shrinkable, the layout is not wider than its minimum possible size. -/
theorem total_le_minimum (slots : Nat) (slotPtr : Nat → SlotInfo)
    (hw : ∀ j, 0 ≤ (slotPtr j).weight)
    (hT : (shrinkWeights slots slotPtr).1 = 0) :
    psum (current slotPtr) slots ≤ psum (tempOf slotPtr) slots := by
  rw [shrinkWeights_eq] at hT
  have hsw0 : ∀ i, 0 ≤ shrinkWeightOf slotPtr i := by
    intro i; unfold shrinkWeightOf; split
    · exact hw i
    · exact le_refl _
  apply psum_le_psum
  intro j hj
  have h1 := psum_term_le (shrinkWeightOf slotPtr) hsw0 hj
  have h2 := hsw0 j
  have h3 : shrinkWeightOf slotPtr j = 0 := by
    have : psum (shrinkWeightOf slotPtr) slots = 0 := hT
    omega
  unfold shrinkWeightOf at h3
  unfold tempOf
  by_cases hwj : (slotPtr j).weight > 0
  · simp only [hwj, if_true]
    by_cases hc : current slotPtr j > (slotPtr j).minSize
    · simp only [hc, if_true] at h3
      omega
    · omega
  · simp only [hwj, if_false]
    exact le_refl _

/-- One pass of the shrink loop whose products are computed exactly moves the last offset
by exactly `newDiff` and leaves the minimum possible size of the layout as it was. -/
theorem shrinkPass_total (slots : Nat) (newDiff : Int) (slotPtr : Nat → SlotInfo)
    (hslots : 0 < slots) (hw : ∀ j, 0 ≤ (slotPtr j).weight)
    (hT : (shrinkWeights slots slotPtr).1 ≠ 0)
    (hfit : ∀ j, j < slots →
      wrapInt (newDiff * psum (fun i => ((shrinkWeights slots slotPtr).2 i).temp) (j + 1))
        = newDiff * psum (fun i => ((shrinkWeights slots slotPtr).2 i).temp) (j + 1)) :
    ((shrinkDistribute newDiff (shrinkWeights slots slotPtr).1 slots
        (shrinkWeights slots slotPtr).2).2 (slots - 1)).offset
      = (slotPtr (slots - 1)).offset + newDiff
    ∧ psum (tempOf (shrinkDistribute newDiff (shrinkWeights slots slotPtr).1 slots
        (shrinkWeights slots slotPtr).2).2) slots = psum (tempOf slotPtr) slots := by
  have htemp : ∀ n, psum (fun i => ((shrinkWeights slots slotPtr).2 i).temp) n
      = psum (fun i => if i < slots then shrinkWeightOf slotPtr i else (slotPtr i).temp) n := by
    intro n
    apply psum_congr
    intro i _
    rw [shrinkWeights_eq]
    by_cases hi : i < slots <;> simp [hi]
  have hcur : ∀ j, current (shrinkWeights slots slotPtr).2 j = current slotPtr j := by
    intro j
    apply current_congr
    intro i; rw [shrinkWeights_eq]; by_cases hi : i < slots <;> simp [hi]
  constructor
  · rw [shrinkDistribute_eq _ _ _ _ hfit]
    have h1 : slots - 1 < slots := by omega
    have h2 : slots - 1 + 1 = slots := by omega
    simp only [h1, if_true, h2]
    have h3 : psum (fun i => ((shrinkWeights slots slotPtr).2 i).temp) slots
        = (shrinkWeights slots slotPtr).1 := by
      rw [htemp, shrinkWeights_eq]
      apply psum_congr
      intro i hi
      simp [hi]
    rw [h3, Int.mul_tdiv_cancel _ hT]
    rw [shrinkWeights_eq]
    simp [h1]
  · apply psum_congr
    intro j hj
    unfold tempOf
    have hf : ((shrinkDistribute newDiff (shrinkWeights slots slotPtr).1 slots
        (shrinkWeights slots slotPtr).2).2 j).weight = (slotPtr j).weight
        ∧ ((shrinkDistribute newDiff (shrinkWeights slots slotPtr).1 slots
        (shrinkWeights slots slotPtr).2).2 j).minSize = (slotPtr j).minSize := by
      rw [shrinkDistribute_eq _ _ _ _ hfit, shrinkWeights_eq]
      simp [hj]
    rw [hf.1, hf.2]
    by_cases hwj : (slotPtr j).weight > 0
    · simp only [hwj, if_true]
    · simp only [hwj, if_false]
      rw [current_shrinkDistribute _ _ _ _ _ hj hfit, hcur]
      have h0 : ((shrinkWeights slots slotPtr).2 j).temp = 0 := by
        rw [shrinkWeights_eq]
        simp only [hj, if_true]
        unfold shrinkWeightOf
        have := hw j
        split
        · omega
        · rfl
      have h4 : psum (fun i => ((shrinkWeights slots slotPtr).2 i).temp) (j + 1)
          = psum (fun i => ((shrinkWeights slots slotPtr).2 i).temp) j := by
        simp only [psum, h0]
        omega
      rw [h4]
      omega

/-- The shrink loop whose products fit in an `int`, started above the minimum possible
size, never leaves through the exit on zero shrinkable weight, and it ends with the last
offset moved by exactly `diff`. -/
theorem shrinkLoop_exact (slots : Nat) (hslots : 0 < slots) :
    ∀ (fuel : Nat) (diff : Int) (slotPtr : Nat → SlotInfo),
      (∀ j, 0 ≤ (slotPtr j).weight) →
      (∀ j, j < slots → (slotPtr j).minSize ≤ current slotPtr j) →
      (-diff).toNat ≤ fuel → diff ≤ 0 →
      psum (tempOf slotPtr) slots < (slotPtr (slots - 1)).offset + diff →
      ShrinkFits slots diff slotPtr →
      ∃ slotPtr1, shrinkLoop slots fuel diff slotPtr = Except.ok slotPtr1
        ∧ (slotPtr1 (slots - 1)).offset = (slotPtr (slots - 1)).offset + diff := by
  intro fuel
  induction fuel with
  | zero =>
    intro diff slotPtr _ _ hfuel hd0 _ _
    have hd : ¬ diff < 0 := by omega
    have hz : diff = 0 := by omega
    refine ⟨slotPtr, ?_, by omega⟩
    unfold shrinkLoop
    simp [hd]
  | succ fuel ih =>
    intro diff slotPtr hw hmin hfuel hd0 hgt hfit
    by_cases hd : diff < 0
    · have hT : (shrinkWeights slots slotPtr).1 ≠ 0 := by
        intro hT
        have h1 := total_le_minimum slots slotPtr hw hT
        have h2 := offset_eq_psum_current slotPtr (slots - 1)
        rw [show slots - 1 + 1 = slots by omega] at h2
        omega
      unfold shrinkLoop
      simp only [hd, if_true, hT, if_false]
      obtain ⟨h1, h2, h3⟩ := shrinkPass_inv slots diff slotPtr hw hmin hd hT hfit
      have hf2 := (shrinkPass_fits slots diff slotPtr hw hfit).2 _ h1 (by omega)
      obtain ⟨h4, h5⟩ := shrinkPass_total slots
        (shrinkNewDiff diff (shrinkWeights slots slotPtr).1 slots (shrinkWeights slots slotPtr).2)
        slotPtr hslots hw hT hf2
      have hfields : ∀ j, ((shrinkDistribute
          (shrinkNewDiff diff (shrinkWeights slots slotPtr).1 slots
            (shrinkWeights slots slotPtr).2)
          (shrinkWeights slots slotPtr).1 slots (shrinkWeights slots slotPtr).2).2 j).minSize
            = (slotPtr j).minSize
          ∧ ((shrinkDistribute
          (shrinkNewDiff diff (shrinkWeights slots slotPtr).1 slots
            (shrinkWeights slots slotPtr).2)
          (shrinkWeights slots slotPtr).1 slots (shrinkWeights slots slotPtr).2).2 j).weight
            = (slotPtr j).weight := by
        intro j
        exact shrinkPass_fields slots _ slotPtr hf2 j
      obtain ⟨sp1, e1, e2⟩ := ih
        (diff - shrinkNewDiff diff (shrinkWeights slots slotPtr).1 slots
            (shrinkWeights slots slotPtr).2)
        _ (fun j => by rw [(hfields j).2]; exact hw j)
        (fun j hj => by rw [(hfields j).1]; exact h3 j hj)
        (by omega) (by omega) (by rw [h4, h5]; omega)
        (shrinkFits_step slots diff _ slotPtr hw hfit hT h1 (by omega))
      refine ⟨sp1, e1, ?_⟩
      rw [e2, h4]
      omega
    · have hz : diff = 0 := by omega
      refine ⟨slotPtr, ?_, by omega⟩
      unfold shrinkLoop
      simp [hd]

/-- While the products fit in an `int` (`AdjustFits`), the value returned by
`AdjustOffsets` is the offset of the last slot after the call: on at least one slot, with
weights that are not negative, every slot at least
`minSize` wide on entry and fuel for `|diff|` passes of the shrink loop, the call returns
`r` and leaves `slotPtr[slots-1].offset = r`, in every branch.  For a target strictly
between the minimum possible size (the sum of `minSize` over the weighted slots and of the
current width over the others) and the current total, `r` is the target, so the final
total is the target exactly; and in every state of the shrink loop with a deficit
`diff < 0` whose total less the deficit is above the minimum possible size, the
shrinkable weight is not zero, so the exit of line 1635 is not taken. -/
theorem adjustOffsets_returns_last_offset (fuel : Nat) (size : Int) (slots : Nat)
    (slotPtr : Nat → SlotInfo) (hslots : 0 < slots)
    (hw : ∀ j, 0 ≤ (slotPtr j).weight)
    (hmin : ∀ j, j < slots → (slotPtr j).minSize ≤ current slotPtr j)
    (hfuel : ((slotPtr (slots - 1)).offset - size).toNat ≤ fuel)
    (hfit : AdjustFits size slots slotPtr) :
    (∃ r slotPtr1, AdjustOffsets fuel size slots slotPtr = Except.ok (r, slotPtr1)
      ∧ r = (slotPtr1 (slots - 1)).offset
      ∧ (psum (fun j => if (slotPtr j).weight > 0 then (slotPtr j).minSize
            else current slotPtr j) slots < size →
          size < (slotPtr (slots - 1)).offset →
          r = size ∧ (slotPtr1 (slots - 1)).offset = size))
    ∧ (∀ (diff : Int) (slotPtr0 : Nat → SlotInfo),
        (∀ j, 0 ≤ (slotPtr0 j).weight) →
        diff < 0 →
        psum (fun j => if (slotPtr0 j).weight > 0 then (slotPtr0 j).minSize
            else current slotPtr0 j) slots < (slotPtr0 (slots - 1)).offset + diff →
        (shrinkWeights slots slotPtr0).1 ≠ 0) := by
  have hs0 : slots ≠ 0 := by omega
  have hlast : ∀ sp : Nat → SlotInfo, (sp (slots - 1)).offset = psum (current sp) slots := by
    intro sp
    have h2 := offset_eq_psum_current sp (slots - 1)
    rw [show slots - 1 + 1 = slots by omega] at h2
    exact h2
  have htemp : ∀ sp : Nat → SlotInfo,
      psum (fun j => if (sp j).weight > 0 then (sp j).minSize else current sp j) slots
        = psum (tempOf sp) slots := fun sp => rfl
  constructor
  · by_cases hd0 : size - (slotPtr (slots - 1)).offset = 0
    · refine ⟨size, slotPtr, ?_, by omega, fun _ h => by omega⟩
      unfold AdjustOffsets
      simp [hs0, hd0]
    by_cases hT : sumWeights slots slotPtr = 0
    · refine ⟨(slotPtr (slots - 1)).offset, slotPtr, ?_, rfl, fun h1 h2 => ?_⟩
      · unfold AdjustOffsets
        simp [hs0, hd0, hT]
      · exfalso
        rw [sumWeights_eq] at hT
        have h3 : psum (tempOf slotPtr) slots = psum (current slotPtr) slots := by
          apply psum_congr
          intro j hj
          have h4 := psum_term_le (fun i => (slotPtr i).weight) hw hj
          have h5 := hw j
          have h6 : ¬ (slotPtr j).weight > 0 := by
            simp only at h4
            omega
          unfold tempOf
          simp only [h6, if_false]
        rw [htemp, h3, ← hlast] at h1
        omega
    by_cases hgrow : (slotPtr (slots - 1)).offset < size
    · refine ⟨size, _, adjustOffsets_grow_eq fuel size slots slotPtr hslots hT hgrow, ?_,
        fun _ h => by omega⟩
      rw [growLoop_eq _ _ _ _ (grow_fits (size - (slotPtr (slots - 1)).offset) slots slotPtr
        hw (by omega) (by rw [mul_comm]; exact hfit.1))]
      have h1 : slots - 1 < slots := by omega
      have h2 : slots - 1 + 1 = slots := by omega
      simp only [h1, if_true, h2]
      rw [← sumWeights_eq, Int.mul_tdiv_cancel _ hT]
      omega
    have hshrink : size < (slotPtr (slots - 1)).offset := by omega
    by_cases hsz : size ≤ psum (tempOf slotPtr) slots
    · obtain ⟨sp1, h1, h2, h3⟩ :=
        adjustOffsets_min_eq fuel size slots slotPtr hslots hT hshrink hsz
      refine ⟨_, sp1, h1, ?_, fun h4 _ => ?_⟩
      · rw [hlast sp1]
        exact psum_congr _ _ _ (fun j hj => (h2 j hj).symm)
      · rw [htemp] at h4
        omega
    · have hfields : ∀ j, ((tempLoop slots slotPtr).2 j).minSize = (slotPtr j).minSize
          ∧ ((tempLoop slots slotPtr).2 j).weight = (slotPtr j).weight
          ∧ ((tempLoop slots slotPtr).2 j).offset = (slotPtr j).offset := by
        intro j; rw [tempLoop_eq]; by_cases hj : j < slots <;> simp [hj]
      have hcur : ∀ j, current (tempLoop slots slotPtr).2 j = current slotPtr j := by
        intro j
        apply current_congr
        intro i; exact (hfields i).2.2
      have htl : psum (tempOf (tempLoop slots slotPtr).2) slots = psum (tempOf slotPtr) slots := by
        apply psum_congr
        intro j _
        unfold tempOf
        rw [(hfields j).1, (hfields j).2.1, hcur]
      obtain ⟨sp1, e1, e2⟩ := shrinkLoop_exact slots hslots fuel
        (size - (slotPtr (slots - 1)).offset) (tempLoop slots slotPtr).2
        (fun j => by rw [(hfields j).2.1]; exact hw j)
        (fun j hj => by rw [(hfields j).1, hcur]; exact hmin j hj)
        (by omega) (by omega)
        (by rw [htl, (hfields (slots - 1)).2.2]; omega)
        (shrinkFits_congr slots _ slotPtr _ (tempLoop_fields slots slotPtr) hfit.2)
      rw [(hfields (slots - 1)).2.2] at e2
      refine ⟨size, sp1, ?_, by omega, fun _ _ => ⟨rfl, by omega⟩⟩
      unfold AdjustOffsets
      have h3 : ¬ size - (slotPtr (slots - 1)).offset > 0 := by omega
      have h4 : ¬ size ≤ (tempLoop slots slotPtr).1 := by rw [tempLoop_eq]; exact hsz
      simp only [hs0, if_false, hd0, hT, h3, h4, e1]
  · intro diff sp0 hw0 hd hgt hT
    have h1 := total_le_minimum slots sp0 hw0 hT
    rw [htemp, hlast sp0] at hgt
    omega

theorem adjustOffsets_returns_last_offset_witness :
    (∃ r slotPtr1, AdjustOffsets 30 70 2 shrinkExample = Except.ok (r, slotPtr1)
      ∧ r = (slotPtr1 (2 - 1)).offset
      ∧ (psum (fun j => if (shrinkExample j).weight > 0 then (shrinkExample j).minSize
            else current shrinkExample j) 2 < 70 →
          70 < (shrinkExample (2 - 1)).offset →
          r = 70 ∧ (slotPtr1 (2 - 1)).offset = 70))
    ∧ (∀ (diff : Int) (slotPtr0 : Nat → SlotInfo),
        (∀ j, 0 ≤ (slotPtr0 j).weight) →
        diff < 0 →
        psum (fun j => if (slotPtr0 j).weight > 0 then (slotPtr0 j).minSize
            else current slotPtr0 j) 2 < (slotPtr0 (2 - 1)).offset + diff →
        (shrinkWeights 2 slotPtr0).1 ≠ 0) :=
  adjustOffsets_returns_last_offset 30 70 2 shrinkExample (by decide)
    (fun j => by unfold shrinkExample; split <;> decide)
    (fun j hj => by
      have h : j = 0 ∨ j = 1 := by omega
      rcases h with h | h <;> subst h <;> decide)
    (by decide) (by unfold AdjustFits ShrinkFits; decide)

/-- C32, as stated, fails.  In `shrinkStepExample` (two slots of `minSize` 10, weights 2
and 1, widths 11 and 15) with the deficit `diff = -5` both slots are shrinkable, the total
weight is 3 and one pass distributes `newDiff = -1` (the bound `3 * (10 - 11) / 2` of
slot 0): slot 0 stays 11 wide, as `-1 * 2 / 3` is 0, and slot 1 becomes 14 wide.  The
deficit left is `-4`, not 0, and neither slot is at its `minSize` 10.  The whole call with
the target 21 needs five passes: four units of fuel do not suffice, five do. -/
theorem shrinkPass_progress_counterexample :
    (shrinkWeights 2 shrinkStepExample).1 = 3
    ∧ shrinkNewDiff (-5) 3 2 (shrinkWeights 2 shrinkStepExample).2 = -1
    ∧ (∀ fuel, shrinkLoop 2 (fuel + 1) (-5) shrinkStepExample
        = shrinkLoop 2 fuel (-5 - -1)
            (shrinkDistribute (-1) 3 2 (shrinkWeights 2 shrinkStepExample).2).2)
    ∧ (-5 : Int) - -1 ≠ 0
    ∧ current shrinkStepExample 0 = 11 ∧ (shrinkStepExample 0).minSize = 10
    ∧ current shrinkStepExample 1 = 15 ∧ (shrinkStepExample 1).minSize = 10
    ∧ current (shrinkDistribute (-1) 3 2 (shrinkWeights 2 shrinkStepExample).2).2 0 = 11
    ∧ current (shrinkDistribute (-1) 3 2 (shrinkWeights 2 shrinkStepExample).2).2 1 = 14
    ∧ AdjustOffsets 4 21 2 shrinkStepExample = Except.error Fault.outOfFuel
    ∧ (∃ slotPtr1, AdjustOffsets 5 21 2 shrinkStepExample = Except.ok (21, slotPtr1)
        ∧ (slotPtr1 0).offset = 11 ∧ (slotPtr1 1).offset = 21) :=
  ⟨by decide, by decide, fun _ => rfl, by decide, by decide, by decide, by decide, by decide,
    by decide, by decide, rfl, ⟨_, rfl, by decide, by decide⟩⟩

/-- C32, amended.  Every pass of the proportional shrink loop that does not leave it (a
deficit `diff < 0`, shrinkable weight not zero), on at least one slot, with weights that
are not negative, every slot at least `minSize` wide, and products that fit in an `int`
(`ShrinkFits`: the total weight times the deficit, and times the excess of each slot over
its `minSize`, is at most `INT_MAX`): the pass is one iteration of
`shrinkLoop`; the amount `newDiff` it distributes is at least `diff` and at most `-1`, so
the deficit shrinks by at least one pixel; `newDiff` is `diff` itself (the whole deficit
is removed) or the bound `totalWeight * (minSize - current) / weight`, truncated, of a
slot that was above its `minSize`; the last offset moves by exactly `newDiff`; and every
slot stays at least `minSize` wide and becomes no wider. -/
theorem shrinkPass_progress (slots : Nat) (diff : Int) (slotPtr : Nat → SlotInfo)
    (hslots : 0 < slots)
    (hw : ∀ j, 0 ≤ (slotPtr j).weight)
    (hmin : ∀ j, j < slots → (slotPtr j).minSize ≤ current slotPtr j)
    (hdiff : diff < 0) (hT : (shrinkWeights slots slotPtr).1 ≠ 0)
    (hfit : ShrinkFits slots diff slotPtr) :
    ∃ (newDiff : Int) (slotPtr1 : Nat → SlotInfo),
      newDiff = shrinkNewDiff diff (shrinkWeights slots slotPtr).1 slots
          (shrinkWeights slots slotPtr).2
      ∧ slotPtr1 = (shrinkDistribute newDiff (shrinkWeights slots slotPtr).1 slots
          (shrinkWeights slots slotPtr).2).2
      ∧ (∀ fuel, shrinkLoop slots (fuel + 1) diff slotPtr
          = shrinkLoop slots fuel (diff - newDiff) slotPtr1)
      ∧ diff ≤ newDiff ∧ newDiff ≤ -1
      ∧ (newDiff = diff
          ∨ ∃ j, j < slots ∧ (slotPtr j).minSize < current slotPtr j
              ∧ 0 < (slotPtr j).weight
              ∧ newDiff = Int.tdiv ((shrinkWeights slots slotPtr).1
                  * ((slotPtr j).minSize - current slotPtr j)) (slotPtr j).weight)
      ∧ (slotPtr1 (slots - 1)).offset = (slotPtr (slots - 1)).offset + newDiff
      ∧ ∀ j, j < slots →
          (slotPtr j).minSize ≤ current slotPtr1 j ∧ current slotPtr1 j ≤ current slotPtr j := by
  obtain ⟨h1, h2, h3⟩ := shrinkPass_inv slots diff slotPtr hw hmin hdiff hT hfit
  obtain ⟨hf1, hf2⟩ := shrinkPass_fits slots diff slotPtr hw hfit
  have hf2 := hf2 _ h1 (by omega)
  obtain ⟨h4, _⟩ := shrinkPass_total slots
    (shrinkNewDiff diff (shrinkWeights slots slotPtr).1 slots (shrinkWeights slots slotPtr).2)
    slotPtr hslots hw hT hf2
  refine ⟨_, _, rfl, rfl, ?_, h1, h2, ?_, h4, fun j hj => ⟨h3 j hj, ?_⟩⟩
  · intro fuel
    conv_lhs => unfold shrinkLoop
    simp only [hdiff, if_true, hT, if_false]
  · rcases shrinkNewDiff_cases diff (shrinkWeights slots slotPtr).1
        (shrinkWeights slots slotPtr).2 slots hf1 with h | ⟨j, hj, ht, h⟩
    · exact Or.inl h
    · right
      have hcur : current (shrinkWeights slots slotPtr).2 j = current slotPtr j := by
        apply current_congr
        intro i; rw [shrinkWeights_eq]; by_cases hi : i < slots <;> simp [hi]
      have hf : ((shrinkWeights slots slotPtr).2 j).temp = shrinkWeightOf slotPtr j
          ∧ ((shrinkWeights slots slotPtr).2 j).minSize = (slotPtr j).minSize := by
        rw [shrinkWeights_eq]
        simp [hj]
      rw [hf.1] at ht
      have hgt : current slotPtr j > (slotPtr j).minSize := by
        by_contra hc
        apply ht; unfold shrinkWeightOf; simp [hc]
      have hsw : shrinkWeightOf slotPtr j = (slotPtr j).weight := by
        unfold shrinkWeightOf; simp [hgt]
      rw [hsw] at ht
      have := hw j
      refine ⟨j, hj, hgt, by omega, ?_⟩
      rw [h, hcur, hf.1, hf.2, hsw]
  · exact shrinkPass_le slots _ slotPtr hw (by omega) hT hf2 j hj

theorem shrinkPass_progress_witness :
    ∃ (newDiff : Int) (slotPtr1 : Nat → SlotInfo),
      newDiff = shrinkNewDiff (-5) (shrinkWeights 2 shrinkStepExample).1 2
          (shrinkWeights 2 shrinkStepExample).2
      ∧ slotPtr1 = (shrinkDistribute newDiff (shrinkWeights 2 shrinkStepExample).1 2
          (shrinkWeights 2 shrinkStepExample).2).2
      ∧ (∀ fuel, shrinkLoop 2 (fuel + 1) (-5) shrinkStepExample
          = shrinkLoop 2 fuel (-5 - newDiff) slotPtr1)
      ∧ -5 ≤ newDiff ∧ newDiff ≤ -1
      ∧ (newDiff = -5
          ∨ ∃ j, j < 2 ∧ (shrinkStepExample j).minSize < current shrinkStepExample j
              ∧ 0 < (shrinkStepExample j).weight
              ∧ newDiff = Int.tdiv ((shrinkWeights 2 shrinkStepExample).1
                  * ((shrinkStepExample j).minSize - current shrinkStepExample j))
                  (shrinkStepExample j).weight)
      ∧ (slotPtr1 (2 - 1)).offset = (shrinkStepExample (2 - 1)).offset + newDiff
      ∧ ∀ j, j < 2 →
          (shrinkStepExample j).minSize ≤ current slotPtr1 j
          ∧ current slotPtr1 j ≤ current shrinkStepExample j :=
  shrinkPass_progress 2 (-5) shrinkStepExample (by decide)
    (fun j => by unfold shrinkStepExample; split <;> decide)
    (fun j hj => by
      have h : j = 0 ∨ j = 1 := by omega
      rcases h with h | h <;> subst h <;> decide)
    (by decide) (by decide) (by unfold ShrinkFits; decide)

/-- C38, at the failing input.  On a container without grid data and without content
`grid rowconfigure . 24 -weight 1` returns `TCL_OK` and leaves `rowMax = 25` with the
`rowSpace = 25` rows that `InitContainerData` allocates: the index 25 passes
`CheckSlotData` in the mode `CHECK_ONLY` (its test is `end < slot`) although it is not
below the capacity, and `rowPtr[25]` is outside the array.  In the same way
`grid columnconfigure . 24 -weight 1` leaves `columnMax = 25 = columnSpace`; the relayout
that it schedules returns at once, as the container has no content, and the scan
`for (i = 0; slotPtr[i].offset < x && i < endX; i++)` of `grid location . 1 0`, with
`endX = 25` and every offset 0, tests `slotPtr[25].offset` before `i < endX`: a read at
the capacity. -/
theorem checkOnly_accepts_capacity :
    (∃ c1, GridRowColumnConfigureCommand emptyContainer SlotType.ROW [IndexArg.slot 24]
        [OptionArg.weight (some 1)] = Except.ok (TclStatus.TCL_OK, c1, none)
      ∧ c1.data.constraintCount SlotType.ROW = 25 ∧ c1.data.space SlotType.ROW = 25
      ∧ (CheckSlotData c1 25 SlotType.ROW CHECK_ONLY).1 = TclStatus.TCL_OK
      ∧ ¬ (25 < (CheckSlotData c1 25 SlotType.ROW CHECK_ONLY).2.data.space SlotType.ROW)
      ∧ readOffset (CheckSlotData c1 25 SlotType.ROW CHECK_ONLY).2.data SlotType.ROW 25
          = Except.error Fault.outOfBounds)
    ∧ (∃ c2, GridRowColumnConfigureCommand emptyContainer SlotType.COLUMN [IndexArg.slot 24]
        [OptionArg.weight (some 1)] = Except.ok (TclStatus.TCL_OK, c2, none)
      ∧ c2.contentPtr = []
      ∧ c2.data.constraintCount SlotType.COLUMN = 25 ∧ c2.data.space SlotType.COLUMN = 25
      ∧ (∃ c3, SetGridSize c2 = Except.ok c3
          ∧ c3.data.gridEnd SlotType.COLUMN = 25 ∧ c3.data.space SlotType.COLUMN = 25
          ∧ (∀ i : Nat, i < 25 → readOffset c3.data SlotType.COLUMN i = Except.ok 0)
          ∧ readOffset c3.data SlotType.COLUMN 25 = Except.error Fault.outOfBounds)
      ∧ GridLocationCommand c2 1 0 = Except.error Fault.outOfBounds) :=
  ⟨⟨_, rfl, rfl, rfl, rfl, by decide, rfl⟩,
    ⟨_, rfl, rfl, rfl, rfl,
      ⟨_, rfl, rfl, rfl, fun i hi => by interval_cases i <;> rfl, rfl⟩, rfl⟩⟩

/-- With weights that sum to zero `AdjustOffsets` leaves the slots as they are. -/
theorem adjustOffsets_zero_weights (fuel : Nat) (size : Int) (slots : Nat)
    (slotPtr : Nat → SlotInfo) (hslots : 0 < slots) (hT : sumWeights slots slotPtr = 0) :
    ∃ r, AdjustOffsets fuel size slots slotPtr = Except.ok (r, slotPtr) := by
  have hs0 : slots ≠ 0 := by omega
  unfold AdjustOffsets
  by_cases hd : size - (slotPtr (slots - 1)).offset = 0
  · exact ⟨size, by simp [hs0, hd]⟩
  · exact ⟨(slotPtr (slots - 1)).offset, by simp [hs0, hd, hT]⟩

/-- C31, at the failing input.  In `locationExample` (two columns laid out with the
offsets 10 and 20, a content 10 x 10 in each) `grid bbox . 0 0` reports `0 0 10 10`.
`grid columnconfigure . 0 -minsize 50` returns `TCL_OK`, stores the `minSize` 50 and (at
lines 1289-1292) schedules a relayout; the offsets stay 10 and 20 until `ArrangeGrid`
runs.  `GridBboxCommand` does not run it (`GridLocationCommand` does, at lines 846-849),
so `grid bbox . 0 0` still reports `0 0 10 10`.  The layout pass, that is `SetGridSize`,
which changes nothing here, `ResolveConstraints` with the target 0 and `AdjustOffsets`,
which leaves the offsets of these columns of weight 0 alone whatever the size of the
window, gives the offsets 50 and 60, with which `grid bbox . 0 0` reports the width 50. -/
theorem gridBbox_stale_offsets :
    ∃ (c1 : Container) (slotPtr1 : Nat → SlotInfo),
      GridRowColumnConfigureCommand locationExample SlotType.COLUMN [IndexArg.slot 0]
          [OptionArg.minsize (some 50)] = Except.ok (TclStatus.TCL_OK, c1, none)
      ∧ (c1.data.columnPtr 0).minSize = 50
      ∧ (c1.data.columnPtr 0).offset = 10 ∧ (c1.data.columnPtr 1).offset = 20
      ∧ (∃ c0, GridBboxCommand locationExample (BboxArgs.cell 0 0)
          = Except.ok (c0, 0, 0, 10, 10))
      ∧ (∃ c2, GridBboxCommand c1 (BboxArgs.cell 0 0) = Except.ok (c2, 0, 0, 10, 10))
      ∧ SetGridSize c1 = Except.ok c1
      ∧ c1.data.contentPtr = c1.contentPtr
      ∧ (∀ fuel : Nat, ResolveConstraints (2 + fuel) c1.data SlotType.COLUMN 0
          = Except.ok (60, slotPtr1))
      ∧ (slotPtr1 0).offset = 50 ∧ (slotPtr1 1).offset = 60
      ∧ (∀ (fuel : Nat) (size : Int), ∃ r,
          AdjustOffsets fuel size (c1.data.gridCount SlotType.COLUMN) slotPtr1
            = Except.ok (r, slotPtr1))
      ∧ bboxOf (GridBboxCommand
            { c1 with containerDataPtr := some (c1.data.setSlotPtr SlotType.COLUMN slotPtr1) }
            (BboxArgs.cell 0 0)) = some (0, 0, 50, 10) := by
  refine ⟨_, ?sp, rfl, rfl, rfl, rfl, ⟨_, rfl⟩, ⟨_, rfl⟩, rfl, rfl, ?h1, ?h2, ?h3, ?h4, ?h5⟩
  case h1 =>
    intro k
    apply resolveConstraints_mono
    exact rfl
  case h2 => rfl
  case h3 => rfl
  case h4 =>
    intro fuel size
    exact adjustOffsets_zero_weights fuel size _ _ (by decide) rfl
  case h5 => decide!

/-- C6, at a failing input. Two slots of weight 40000 and width 0 grow to the target 70000:
the total weight 80000 is positive and the target is above the last offset 0, the call
returns 70000, and the product `diff * weight` of line 1575 is 2800000000 for slot 0 and
5600000000 for slot 1, above `INT_MAX`; as `int` they are -1494967296 and 1305032704, so
the offsets written are -18687 and 16312: the last offset is not the target, and slot 0 is
narrower than before. -/
theorem adjustOffsets_grow_wraps :
    0 < sumWeights 2 growWrapExample ∧ (growWrapExample (2 - 1)).offset < 70000
    ∧ wrapInt (70000 * 40000) = -1494967296 ∧ wrapInt (70000 * 80000) = 1305032704
    ∧ offsetsOf 2 (AdjustOffsets 0 70000 2 growWrapExample) = some (70000, [-18687, 16312])
    ∧ ∃ slotPtr1, AdjustOffsets 0 70000 2 growWrapExample = Except.ok (70000, slotPtr1)
        ∧ (slotPtr1 (2 - 1)).offset ≠ 70000
        ∧ current slotPtr1 0 < current growWrapExample 0 := by
  refine ⟨by decide, by decide, by decide, by decide, by decide, _, rfl, by decide, by decide⟩

/-- C7, at a failing input. Slot 0 is the only slot with a weight (1000000), the offsets
are 100 and 200 and the target is 2400, so the surplus is 2200: the product
`diff * weight` of line 1575 is 2200000000, as `int` -2094967296, and the offsets written
are -1994 and -1894: slot 0 has not grown by 2200, it has shrunk by 2094 to a negative
width, while slot 1 keeps its width 100. -/
theorem adjustOffsets_grow_single_wraps :
    (singleWrapExample 0).weight ≠ 0 ∧ (singleWrapExample 1).weight = 0
    ∧ 2400 - (singleWrapExample (2 - 1)).offset = 2200
    ∧ wrapInt (2200 * 1000000) = -2094967296
    ∧ offsetsOf 2 (AdjustOffsets 0 2400 2 singleWrapExample) = some (2400, [-1994, -1894])
    ∧ ∃ slotPtr1, AdjustOffsets 0 2400 2 singleWrapExample = Except.ok (2400, slotPtr1)
        ∧ current singleWrapExample 0 = 100 ∧ current slotPtr1 0 = -1994
        ∧ current slotPtr1 0 ≠ current singleWrapExample 0 + 2200
        ∧ current slotPtr1 1 = current singleWrapExample 1 := by
  refine ⟨by decide, by decide, by decide, by decide, by decide, _, rfl, by decide, by decide,
    by decide, by decide⟩

/-- C9, at a failing input. Two slots of `minSize` 20 and weight 1000000 are 50 wide each,
so each is at least at its minimum; growing to the target 2100 (line 1575) the product
`diff * weight` for slot 1 is 2000 * 2000000, as `int` -294967296, and the offsets written
are 1050 and -47: slot 1 is -1097 wide, below its `minSize` 20. -/
theorem adjustOffsets_below_minSize :
    (∀ j, j < 2 → (minWrapExample j).minSize ≤ current minWrapExample j)
    ∧ (∀ j, 0 ≤ (minWrapExample j).weight)
    ∧ wrapInt (2000 * 2000000) = -294967296
    ∧ offsetsOf 2 (AdjustOffsets 0 2100 2 minWrapExample) = some (2100, [1050, -47])
    ∧ ∃ slotPtr1, AdjustOffsets 0 2100 2 minWrapExample = Except.ok (2100, slotPtr1)
        ∧ current slotPtr1 1 = -1097 ∧ (slotPtr1 1).minSize = 20
        ∧ current slotPtr1 1 < (slotPtr1 1).minSize := by
  refine ⟨by decide, fun _ => by simp [minWrapExample], by decide, by decide, _, rfl,
    by decide, by decide, by decide⟩

/-- C12, at a failing input. The slots have the minimum sizes 30 and 40 and are 100 wide
each; slot 0 has weight 1500000. Growing to the target 2200 the product `diff * weight`
of line 1575 is 2000 * 1500000, as `int` -1294967296, and the offsets written are -763 and
-663: the total size after the call, the last offset -663, is below the sum 70 of the
minimum sizes. -/
theorem adjustOffsets_total_below_minimums :
    (∀ j, j < 2 → (totalWrapExample j).minSize ≤ current totalWrapExample j)
    ∧ psum (fun i => (totalWrapExample i).minSize) 2 = 70
    ∧ wrapInt (2000 * 1500000) = -1294967296
    ∧ offsetsOf 2 (AdjustOffsets 0 2200 2 totalWrapExample) = some (2200, [-763, -663])
    ∧ ∃ r slotPtr1, AdjustOffsets 0 2200 2 totalWrapExample = Except.ok (r, slotPtr1)
        ∧ (slotPtr1 (2 - 1)).offset = -663
        ∧ (slotPtr1 (2 - 1)).offset < psum (fun i => (slotPtr1 i).minSize) 2 := by
  refine ⟨by decide, by decide, by decide, by decide, _, _, rfl, by decide, by decide⟩

/-- C37, at a failing input. Two slots of weight 1000000 and no minimum size are 100 wide
each; growing to the target 2300 the call returns 2300, but the product `diff * weight` of
line 1575 for the last slot is 2100 * 2000000, as `int` -94967296, and the last offset
written is 153: the value returned is not the last slot's offset after the call. -/
theorem adjustOffsets_return_wraps :
    (∀ j, j < 2 → (lastWrapExample j).minSize ≤ current lastWrapExample j)
    ∧ (∀ j, 0 ≤ (lastWrapExample j).weight)
    ∧ wrapInt (2100 * 2000000) = -94967296
    ∧ offsetsOf 2 (AdjustOffsets 0 2300 2 lastWrapExample) = some (2300, [1150, 153])
    ∧ ∃ r slotPtr1, AdjustOffsets 0 2300 2 lastWrapExample = Except.ok (r, slotPtr1)
        ∧ r = 2300 ∧ (slotPtr1 (2 - 1)).offset = 153 ∧ r ≠ (slotPtr1 (2 - 1)).offset := by
  refine ⟨by decide, fun _ => by simp [lastWrapExample], by decide, by decide, _, _, rfl,
    by decide, by decide, by decide⟩

/-- C11, at a failing input. One slot of weight 1073741824 and no minimum size is 8 pixels
wide, and the target is 4. The loop of lines 1618-1671 is entered with `diff = -4`; the
product `totalWeight * (minSize - current)` of line 1654 is 1073741824 * -8, as `int` 0, so
`newDiff` is 0, nothing is removed and `diff` stays -4: every iteration repeats the one
before, and the call does not return, whatever the number of iterations allowed. With two
slots of weight 1500000 that are 1000 wide and the target 1000 the same product is
3000000 * -1000, as `int` 1294967296: the first pass has `newDiff = 863`, above 0, and takes
`diff` from -1000 to -1863, away from 0. -/
theorem adjustOffsets_never_returns :
    (∀ j, 0 ≤ (stuckExample j).weight)
    ∧ wrapInt (1073741824 * (0 - 8)) = 0
    ∧ shrinkNewDiff (-4) 1073741824 1 (shrinkWeights 1 (tempLoop 1 stuckExample).2).2 = 0
    ∧ (∀ fuel, AdjustOffsets fuel 4 1 stuckExample = Except.error Fault.outOfFuel)
    ∧ wrapInt (3000000 * (0 - 1000)) = 1294967296
    ∧ shrinkNewDiff (-1000) 3000000 2 (shrinkWeights 2 (tempLoop 2 widenExample).2).2 = 863 := by
  refine ⟨fun _ => by simp [stuckExample], by decide, by decide, ?_, by decide, by decide⟩
  have hpass : ∀ sp : Nat → SlotInfo,
      (sp 0).minSize = 0 → (sp 0).weight = 1073741824 → (sp 0).offset = 8 →
      (shrinkWeights 1 sp).1 = 1073741824
      ∧ shrinkNewDiff (-4) 1073741824 1 (shrinkWeights 1 sp).2 = 0
      ∧ ((shrinkDistribute 0 1073741824 1 (shrinkWeights 1 sp).2).2 0).minSize = 0
      ∧ ((shrinkDistribute 0 1073741824 1 (shrinkWeights 1 sp).2).2 0).weight = 1073741824
      ∧ ((shrinkDistribute 0 1073741824 1 (shrinkWeights 1 sp).2).2 0).offset = 8 := by
    intro sp h1 h2 h3
    simp [shrinkWeights, shrinkNewDiff, shrinkDistribute, forUp, current, setTemp, setOffset,
      h1, h2, h3, wrapInt]
  have hloop : ∀ (fuel : Nat) (sp : Nat → SlotInfo),
      (sp 0).minSize = 0 → (sp 0).weight = 1073741824 → (sp 0).offset = 8 →
      shrinkLoop 1 fuel (-4) sp = Except.error Fault.outOfFuel := by
    intro fuel
    induction fuel with
    | zero =>
      intro sp _ _ _
      unfold shrinkLoop
      simp
    | succ n ih =>
      intro sp h1 h2 h3
      obtain ⟨a, b, c1, c2, c3⟩ := hpass sp h1 h2 h3
      unfold shrinkLoop
      simp only [a, b]
      simp
      exact ih _ c1 c2 c3
  intro fuel
  have h0 : ((tempLoop 1 stuckExample).2 0).minSize = 0
      ∧ ((tempLoop 1 stuckExample).2 0).weight = 1073741824
      ∧ ((tempLoop 1 stuckExample).2 0).offset = 8
      ∧ (tempLoop 1 stuckExample).1 = 0 := by decide
  unfold AdjustOffsets
  have hs : sumWeights 1 stuckExample = 1073741824 := by decide
  have ho : (stuckExample (1 - 1)).offset = 8 := rfl
  have hl := hloop fuel _ h0.1 h0.2.1 h0.2.2.1
  simp only [hs, ho, h0.2.2.2]
  simp
  rw [hl]

/-! ## `ResolveConstraints` at inputs whose products do not fit in an `int` -/

/-- C2, at a failing input. Three columns of the weights 40000, 1000000 and 1000000, column
1 with `minSize` 10, hold a content of width 10 in column 2 and a content of width 3000 on
the columns 0-2; nothing is negative and the content is valid. With the target 0 the call
returns the required size 3000 and writes the offsets 160, 10 and 3000: the products
`(have - need) * accWeight` of the lines 2306 and 2388 (2980 * 1040000 for column 1 in
the first pass, as `int` -1195767296) do not fit in an `int`, so the share of a column
comes out negative, and
column 1 ends before column 0 does: it is -150 wide, below its `minSize` 10, and the
offsets decrease from column 0 to column 1. -/
theorem resolveConstraints_offsets_decrease :
    (∀ g, g ∈ minWidthWrapExample.contentPtr →
      ValidContent SlotType.COLUMN (minWidthWrapExample.gridCount SlotType.COLUMN) g)
    ∧ (∀ j, 0 ≤ (minWidthWrapExample.slotPtr SlotType.COLUMN j).minSize
        ∧ 0 ≤ (minWidthWrapExample.slotPtr SlotType.COLUMN j).weight
        ∧ 0 ≤ (minWidthWrapExample.slotPtr SlotType.COLUMN j).pad)
    ∧ minWidthWrapExample.contentPtr.map (fun g => g.nominal SlotType.COLUMN) = [10, 3000]
    ∧ minWidthWrapExample.gridCount SlotType.COLUMN = 3
    ∧ wrapInt (2980 * 1040000) = -1195767296
    ∧ offsetsOf 3 (ResolveConstraints 10 minWidthWrapExample SlotType.COLUMN 0)
        = some (3000, [160, 10, 3000])
    ∧ ∃ slotPtr1, ResolveConstraints 10 minWidthWrapExample SlotType.COLUMN 0
          = Except.ok (3000, slotPtr1)
        ∧ (slotPtr1 1).offset < (slotPtr1 0).offset
          + configuredMin (minWidthWrapExample.slotPtr SlotType.COLUMN)
              (minWidthWrapExample.constraintCount SlotType.COLUMN) 1
        ∧ (slotPtr1 1).offset < (slotPtr1 0).offset := by
  refine ⟨by decide, ?_, by decide, by decide, by decide, by decide!, ?_⟩
  · intro j
    show 0 ≤ (minWidthWrapExample.columnPtr j).minSize
      ∧ 0 ≤ (minWidthWrapExample.columnPtr j).weight ∧ 0 ≤ (minWidthWrapExample.columnPtr j).pad
    unfold minWidthWrapExample
    simp only
    split
    · decide
    · split <;> decide
  · have h : offsetsOf 3 (ResolveConstraints 10 minWidthWrapExample SlotType.COLUMN 0)
        = some (3000, [160, 10, 3000]) := by decide!
    cases hr : ResolveConstraints 10 minWidthWrapExample SlotType.COLUMN 0 with
    | error e => rw [hr] at h; cases h
    | ok v =>
      obtain ⟨r, sp⟩ := v
      rw [hr] at h
      simp only [offsetsOf, List.range, List.range.loop, List.map, Option.some.injEq,
        Prod.mk.injEq, List.cons.injEq, and_true] at h
      obtain ⟨h0, h1, h2, h3⟩ := h
      subst h0
      refine ⟨sp, rfl, ?_, ?_⟩
      · rw [h1, h2]; decide
      · rw [h1, h2]; decide

theorem hang_pass (m : Int) (hm : m = 0 ∨ m = -1294) (lp : Layout) (g : List Gridder)
    (h0 : lp 0 =
      { binNextPtr := [], minSize := m, pad := 0, weight := 1000000, uniform := none,
        minOffset := 0, maxOffset := 3000 })
    (h1 : lp 1 =
      { binNextPtr := g, minSize := 0, pad := 0, weight := 0, uniform := none,
        minOffset := 3000, maxOffset := 3000 })
    (hd : (lp (-1)).minOffset = 0) (n : Nat) :
    ∃ lp1, resolveSpan (n + 1) 2 0 lp = Except.ok lp1
      ∧ lp1 0 =
        { binNextPtr := [], minSize := -1294, pad := 0, weight := 1000000, uniform := none,
          minOffset := 0, maxOffset := 3000 }
      ∧ lp1 1 =
        { binNextPtr := g, minSize := 0, pad := 0, weight := 0, uniform := none,
          minOffset := 3000, maxOffset := 3000 }
      ∧ (lp1 (-1)).minOffset = 0 := by
  have t1 : Int.tdiv 1294967296 1000000 = 1294 := by decide
  have t2 : Int.tdiv 967296 1000000 = 0 := by decide
  rcases hm with hm | hm <;> subst hm <;>
    simp [t1, t2, resolveSpan, findEnd, spanSums, forFrom, fitHave, tryHave, distribute, distributeStep,
      tighten, setMinSize, setMinOffset, setMaxOffset, h0, h1, hd, wrapInt, reducedHave]

theorem hang_loop (g : List Gridder) (inner fuel : Nat) (lp : Layout)
    (h0 : lp 0 =
      { binNextPtr := [], minSize := -1294, pad := 0, weight := 1000000, uniform := none,
        minOffset := 0, maxOffset := 3000 })
    (h1 : lp 1 =
      { binNextPtr := g, minSize := 0, pad := 0, weight := 0, uniform := none,
        minOffset := 3000, maxOffset := 3000 })
    (hd : (lp (-1)).minOffset = 0) :
    resolveSpans 2 (inner + 1) fuel 0 lp = Except.error Fault.outOfFuel := by
  induction fuel generalizing lp with
  | zero =>
    unfold resolveSpans
    simp
  | succ n ih =>
    obtain ⟨lp1, e, a0, a1, ad⟩ := hang_pass (-1294) (Or.inr rfl) lp g h0 h1 hd inner
    unfold resolveSpans
    have hne : ¬ (lp ((0 : Nat) : Int)).minOffset = (lp ((0 : Nat) : Int)).maxOffset := by
      rw [Nat.cast_zero, h0]
      decide
    rw [if_pos (by decide)]
    simp only [if_neg hne, e]
    exact ih lp1 a0 a1 ad

/-- C35, at a failing input. Column 0 has weight 1000000 and a content of width 3000 lies on
the columns 0-1; nothing is negative, the content is valid and the target is 0. Step 3
gives the required size 3000, and step 4 leaves column 0 with the range 0 .. 3000. In step
5 the product `(have - need) * accWeight` of the lines 2306 and 2388 is 3000 * 1000000, as
`int` -1294967296: the share of column 0 is -1294, its `minSize` becomes -1294 and its
`minOffset` stays 0, below its `maxOffset` 3000. In every later pass the product is
4294 * 1000000, as `int` -967296, the share is 0 and the layout is left as it is: the scan of
the lines 2236-2415 stays at column 0 for ever, and the call does not return, whatever the
number of iterations allowed. -/
theorem resolveConstraints_never_returns :
    (∀ g, g ∈ hangExample.contentPtr →
      ValidContent SlotType.COLUMN (hangExample.gridCount SlotType.COLUMN) g)
    ∧ (∀ j, 0 ≤ (hangExample.slotPtr SlotType.COLUMN j).minSize
        ∧ 0 ≤ (hangExample.slotPtr SlotType.COLUMN j).weight
        ∧ 0 ≤ (hangExample.slotPtr SlotType.COLUMN j).pad)
    ∧ (∃ lp, requiredLayout SlotType.COLUMN (hangExample.slotPtr SlotType.COLUMN)
        (hangExample.constraintCount SlotType.COLUMN) (hangExample.gridCount SlotType.COLUMN)
        hangExample.contentPtr = Except.ok (3000, lp))
    ∧ wrapInt (3000 * 1000000) = -1294967296
    ∧ wrapInt (4294 * 1000000) = -967296
    ∧ ∀ fuel, ResolveConstraints fuel hangExample SlotType.COLUMN 0
        = Except.error Fault.outOfFuel := by
  refine ⟨by decide, ?_, ⟨_, rfl⟩, by decide, by decide, ?_⟩
  · intro j
    show 0 ≤ (hangExample.columnPtr j).minSize
      ∧ 0 ≤ (hangExample.columnPtr j).weight ∧ 0 ≤ (hangExample.columnPtr j).pad
    unfold hangExample
    simp only
    split <;> decide
  · intro fuel
    obtain ⟨lp3, e3, b0, b1, bd⟩ : ∃ lp,
        requiredLayout SlotType.COLUMN (hangExample.slotPtr SlotType.COLUMN)
          (hangExample.constraintCount SlotType.COLUMN) 2 hangExample.contentPtr
          = Except.ok (3000, lp)
        ∧ (backwardPass SlotType.COLUMN (2 - 1)
            (3000, forUp 2 (fun slot lp => setMaxOffset lp slot 3000) lp)).2 0 =
          { binNextPtr := [], minSize := 0, pad := 0, weight := 1000000, uniform := none,
            minOffset := 0, maxOffset := 3000 }
        ∧ (backwardPass SlotType.COLUMN (2 - 1)
            (3000, forUp 2 (fun slot lp => setMaxOffset lp slot 3000) lp)).2 1 =
          { binNextPtr := [(columnContent 0 2 3000).sized SlotType.COLUMN], minSize := 0,
            pad := 0, weight := 0, uniform := none, minOffset := 3000, maxOffset := 3000 }
        ∧ ((backwardPass SlotType.COLUMN (2 - 1)
            (3000, forUp 2 (fun slot lp => setMaxOffset lp slot 3000) lp)).2 (-1)).minOffset
            = 0 :=
      ⟨_, rfl, by decide, by decide, by decide⟩
    have hg : hangExample.gridCount SlotType.COLUMN = 2 := by decide
    have h30 : (if (0 : Int) > 3000 then (0 : Int) else 3000) = 3000 := by decide
    unfold ResolveConstraints
    simp only [hg]
    rw [e3]
    unfold placeOffsets
    simp only [h30]
    cases fuel with
    | zero =>
      unfold resolveSpans
      simp
    | succ n =>
      obtain ⟨lp1, e, a0, a1, ad⟩ := hang_pass 0 (Or.inl rfl) _ _ b0 b1 bd n
      unfold resolveSpans
      rw [if_pos (by decide)]
      have hne : ¬ ((backwardPass SlotType.COLUMN (2 - 1)
          (3000, forUp 2 (fun slot lp => setMaxOffset lp slot 3000) lp3)).2
            ((0 : Nat) : Int)).minOffset
          = ((backwardPass SlotType.COLUMN (2 - 1)
          (3000, forUp 2 (fun slot lp => setMaxOffset lp slot 3000) lp3)).2
            ((0 : Nat) : Int)).maxOffset := by
        rw [Nat.cast_zero, b0]
        decide
      simp only [if_neg hne, e, hang_loop _ n n lp1 a0 a1 ad]

/-! ## `grid size` and `grid columnconfigure` at failing inputs -/

/-- C30, at a failing input. The only content of the container is at column 2147483647
with span 1, the position that `SetContentColumn` stores for `grid configure .a -column
2147483647`; the largest `column + colSpan` over the items is 2147483648. The sum
`numCols + column` of line 2540 is -2147483648 as `int`, which is not above the initial
`maxX = 0`: `SetGridSize` stores `columnEnd = 0`, and `grid size` reports 0 columns and 1
row. -/
theorem gridSize_wraps :
    wrapSizeExample.contentPtr.map (fun g => (g.column, g.numCols, g.row, g.numRows))
      = [(2147483647, 1, 0, 1)]
    ∧ wrapSizeExample.contentPtr.map (fun g => g.column + g.numCols) = [2147483648]
    ∧ wrapInt (1 + 2147483647) = -2147483648
    ∧ ∃ c1, SetGridSize wrapSizeExample = Except.ok c1
        ∧ GridSizeCommand wrapSizeExample = Except.ok (c1, 0, 1)
        ∧ c1.data.columnEnd = 0 ∧ c1.data.columnMax = 0
        ∧ c1.data.rowEnd = 1 ∧ c1.data.rowMax = 0 := by
  refine ⟨by decide, by decide, by decide, _, rfl, rfl, ?_, ?_, ?_, ?_⟩ <;> decide

/-- C17, as stated, fails. On a container without constraints, the call
`grid columnconfigure . {3 5} -minsize 0 -weight -1` stores the `-minsize 0` of column 3,
for which `CheckSlotData` has raised `columnMax` to 4, and returns TCL_ERROR at the negative
weight (lines 1228-1230) before the recomputation of lines 1261-1286: `columnMax` is 4 although
every column has only its defaults. -/
theorem configure_trims_max_counterexample :
    freshContainer.data.columnMax = 0
    ∧ ∃ c1, GridRowColumnConfigureCommand freshContainer SlotType.COLUMN
        [IndexArg.slot 3, IndexArg.slot 5]
        [OptionArg.minsize (some 0), OptionArg.weight (some (-1))]
        = Except.ok (TclStatus.TCL_ERROR, c1, none)
      ∧ c1.data.columnMax = 4
      ∧ ((List.range 25).all fun j => (c1.data.columnPtr j).unconstrained) = true
      ∧ c1.data.columnSpace = 25 :=
  ⟨rfl, _, rfl, rfl, by decide, rfl⟩

/-! ## The layout pass `ArrangeGrid` -/

theorem binContent_error (slotType : SlotType) (gridCount : Nat) :
    ∀ (items : List Gridder) (lp : Layout) (e : Fault),
      binContent slotType gridCount items lp = Except.error e → e = Fault.outOfBounds := by
  intro items
  induction items with
  | nil =>
    intro lp e h
    cases h
  | cons c rest ih =>
    intro lp e h
    unfold binContent at h
    simp only at h
    split at h
    · split at h
      · injection h with h
        exact h.symm
      · exact ih _ _ h
    · split at h
      · split at h
        · injection h with h
          exact h.symm
        · split at h
          · exact ih _ _ h
          · exact ih _ _ h
      · exact ih _ _ h

/-- Step 2 keeps what is in the bins, and puts every content of span above 1 into the bin
of its last slot, which is at least -1 and below `gridCount`. -/
theorem binContent_binned (slotType : SlotType) (gridCount : Nat) :
    ∀ (items : List Gridder) (lp lp1 : Layout),
      binContent slotType gridCount items lp = Except.ok lp1 →
      (∀ j c, c ∈ (lp j).binNextPtr → c ∈ (lp1 j).binNextPtr)
      ∧ ∀ g, g ∈ items → 1 < g.span slotType →
          g.rightEdge slotType < gridCount
          ∧ g.sized slotType ∈ (lp1 (g.rightEdge slotType)).binNextPtr := by
  intro items
  induction items with
  | nil =>
    intro lp lp1 h
    injection h with h
    subst h
    exact ⟨fun _ _ hc => hc, fun g hg => by simp at hg⟩
  | cons c rest ih =>
    intro lp lp1 h
    unfold binContent at h
    simp only at h
    by_cases hs : c.span slotType > 1
    · rw [if_pos hs] at h
      split at h
      · cases h
      · rename_i hr
        obtain ⟨k1, k2⟩ := ih _ _ h
        have hpush : ∀ j x, x ∈ (lp j).binNextPtr →
            x ∈ (pushBin lp (c.start slotType + c.span slotType - 1)
              { c with size := c.nominal slotType } j).binNextPtr := by
          intro j x hx
          rw [(pushBin_fields _ _ _ _).2.2.2.2.2.2]
          split
          · exact List.mem_cons_of_mem _ hx
          · exact hx
        refine ⟨fun j x hx => k1 j x (hpush j x hx), ?_⟩
        intro g hg hgs
        rcases List.mem_cons.mp hg with hgc | hgr
        · subst hgc
          refine ⟨?_, ?_⟩
          · unfold Gridder.rightEdge
            omega
          · apply k1
            rw [(pushBin_fields _ _ _ _).2.2.2.2.2.2]
            unfold Gridder.rightEdge
            rw [if_pos rfl]
            exact List.mem_cons_self _ _
        · exact k2 g hgr hgs
    · rw [if_neg hs] at h
      have hrest : ∀ lp0, binContent slotType gridCount rest lp0 = Except.ok lp1 →
          (∀ j x, x ∈ (lp j).binNextPtr → x ∈ (lp0 j).binNextPtr) →
          (∀ j x, x ∈ (lp j).binNextPtr → x ∈ (lp1 j).binNextPtr)
          ∧ ∀ g, g ∈ c :: rest → 1 < g.span slotType →
              g.rightEdge slotType < gridCount
              ∧ g.sized slotType ∈ (lp1 (g.rightEdge slotType)).binNextPtr := by
        intro lp0 h0 hk
        obtain ⟨k1, k2⟩ := ih _ _ h0
        refine ⟨fun j x hx => k1 j x (hk j x hx), ?_⟩
        intro g hg hgs
        rcases List.mem_cons.mp hg with hgc | hgr
        · subst hgc
          omega
        · exact k2 g hgr hgs
      split at h
      · split at h
        · cases h
        · split at h
          · refine hrest _ h ?_
            intro j x hx
            rw [(setMinSize_fields _ _ _ _).2.2.2.1]
            exact hx
          · exact hrest _ h (fun _ _ hx => hx)
      · exact hrest _ h (fun _ _ hx => hx)

theorem forwardBin_underflow (slotType : SlotType) (lp : Layout) (slot : Int) (g : Gridder)
    (hs : slot - g.span slotType < -1) :
    ∀ (bin : List Gridder) (init : Int), g ∈ bin →
      forwardBin slotType lp slot bin init = none := by
  intro bin
  induction bin with
  | nil =>
    intro init hg
    simp at hg
  | cons c rest ih =>
    intro init hg
    unfold forwardBin
    simp only
    by_cases hc : slot - c.span slotType < -1
    · rw [if_pos hc]
    · rw [if_neg hc]
      have hgr : g ∈ rest := by
        rcases List.mem_cons.mp hg with h | h
        · subst h
          exact absurd hs hc
        · exact h
      split
      · exact ih _ hgr
      · exact ih _ hgr

/-- Step 3 stops with a read below the layout array when the bin of a slot below
`gridCount` holds a content whose span is larger than the slot index plus one. -/
theorem forwardPass_underflow (slotType : SlotType) (lp : Layout) (slot : Nat) (g : Gridder)
    (hg : g ∈ (lp slot).binNextPtr) (hs : (slot : Int) - g.span slotType < -1) :
    ∀ n, (∀ st, forwardPass slotType n lp = Except.ok st →
        ∀ j, (st.2 j).binNextPtr = (lp j).binNextPtr)
      ∧ (∀ e, forwardPass slotType n lp = Except.error e → e = Fault.outOfBounds)
      ∧ (slot < n → forwardPass slotType n lp = Except.error Fault.outOfBounds) := by
  intro n
  induction n with
  | zero =>
    refine ⟨?_, ?_, ?_⟩
    · intro st h j
      injection h with h
      subst h
      rfl
    · intro e h
      cases h
    · intro h
      omega
  | succ n ih =>
    obtain ⟨i1, i2, i3⟩ := ih
    cases hr : forwardPass slotType n lp with
    | error e =>
      have he := i2 e hr
      subst he
      refine ⟨?_, ?_, ?_⟩
      · intro st h
        unfold forwardPass at h
        rw [hr] at h
        cases h
      · intro e h
        unfold forwardPass at h
        rw [hr] at h
        injection h with h
        exact h.symm
      · intro _
        unfold forwardPass
        rw [hr]
    | ok st =>
      have hb := i1 st hr
      cases hf : forwardBin slotType st.2 n (st.2 n).binNextPtr ((st.2 n).minSize + st.1) with
      | none =>
        refine ⟨?_, ?_, ?_⟩
        · intro st1 h
          unfold forwardPass at h
          rw [hr] at h
          simp only [hf] at h
          cases h
        · intro e h
          unfold forwardPass at h
          rw [hr] at h
          simp only [hf] at h
          injection h with h
          exact h.symm
        · intro _
          unfold forwardPass
          rw [hr]
          simp only [hf]
      | some m =>
        refine ⟨?_, ?_, ?_⟩
        · intro st1 h j
          unfold forwardPass at h
          rw [hr] at h
          simp only [hf] at h
          injection h with h
          subst h
          simp only
          rw [(setMinOffset_fields _ _ _ _).2.2.2.1]
          exact hb j
        · intro e h
          unfold forwardPass at h
          rw [hr] at h
          simp only [hf] at h
          cases h
        · intro hlt
          by_cases hsn : slot = n
          · subst hsn
            have hmem : g ∈ (st.2 (slot : Int)).binNextPtr := by
              rw [hb]
              exact hg
            rw [forwardBin_underflow slotType st.2 slot g hs _ _ hmem] at hf
            cases hf
          · have := i3 (by omega)
            rw [hr] at this
            cases this

/-- Steps 1 to 3 fault on every slot table when the list holds a content that spans more
than one slot and has the start -1 that `ConfigureContent` gives a content before its
position is assigned: it is binned at slot `span - 2`, and line 2174 reads
`layoutPtr[-2]`. -/
theorem requiredLayout_underflow (slotType : SlotType) (slotPtr : Nat → SlotInfo)
    (constraintCount gridCount : Nat) (items : List Gridder) (g : Gridder)
    (hg : g ∈ items) (hs : 1 < g.span slotType) (hc : g.start slotType = -1) :
    requiredLayout slotType slotPtr constraintCount gridCount items
      = Except.error Fault.outOfBounds := by
  unfold requiredLayout
  cases hb : binContent slotType gridCount items (initLayout slotPtr constraintCount gridCount) with
  | error e =>
    have := binContent_error slotType gridCount items _ e hb
    subst this
    rfl
  | ok lp =>
    obtain ⟨_, k⟩ := binContent_binned slotType gridCount items _ lp hb
    obtain ⟨k1, k2⟩ := k g hg hs
    have hre : g.rightEdge slotType = ((g.rightEdge slotType).toNat : Int) := by
      unfold Gridder.rightEdge
      omega
    simp only
    have hmem : g.sized slotType
        ∈ (resolveUniform gridCount lp ((g.rightEdge slotType).toNat : Int)).binNextPtr := by
      rw [(resolveUniform_fields gridCount lp _).2.2.2.1, ← hre]
      exact k2
    have hlt : (g.rightEdge slotType).toNat < gridCount := by omega
    have hsp : (((g.rightEdge slotType).toNat : Nat) : Int) - (g.sized slotType).span slotType < -1 := by
      rw [sized_span, ← hre]
      unfold Gridder.rightEdge
      omega
    exact (forwardPass_underflow slotType _ _ _ hmem hsp gridCount).2.2 hlt

theorem setGridSize_content (c c1 : Container) (h : SetGridSize c = Except.ok c1) :
    c1.contentPtr = c.contentPtr := by
  cases hd : c.containerDataPtr with
  | none =>
    unfold SetGridSize at h
    rw [hd] at h
    cases h
  | some d =>
    obtain ⟨c2, e1, e2, _⟩ := setGridSize_spec c d hd
    rw [e1] at h
    injection h with h
    subst h
    exact e2

theorem resolveConstraints_underflow (fuel : Nat) (c : GridContainer) (slotType : SlotType)
    (maxOffset : Int) (g : Gridder) (hg : g ∈ c.contentPtr) (hs : 1 < g.span slotType)
    (hc : g.start slotType = -1) :
    ResolveConstraints fuel c slotType maxOffset = Except.error Fault.outOfBounds := by
  unfold ResolveConstraints
  simp only [requiredLayout_underflow slotType _ _ _ _ g hg hs hc]

/-- The layout pass faults on a container with grid data that holds a content of column -1
spanning more than one column. -/
theorem arrangeGrid_underflow (fuel : Nat) (anchor : Int → Int → Int × Int)
    (tkwin : ContainerWindow) (c : Container) (d : GridContainer)
    (hd : c.containerDataPtr = some d) (g : Gridder) (hg : g ∈ c.contentPtr)
    (hs : 1 < g.numCols) (hc : g.column = -1) :
    ArrangeGrid fuel anchor tkwin c = Except.error Fault.outOfBounds := by
  obtain ⟨c1, e1, e2, _⟩ := setGridSize_spec c d hd
  unfold ArrangeGrid
  cases hl : c.contentPtr with
  | nil => rw [hl] at hg; simp at hg
  | cons a rest =>
    rw [hd]
    simp only [e1]
    have hmem : g ∈ c1.solverView.contentPtr := by
      show g ∈ c1.contentPtr
      rw [e2]
      exact hg
    rw [resolveConstraints_underflow fuel c1.solverView SlotType.COLUMN 0 g hmem hs hc]

/-- C26, as stated, fails. The container `noContentExample` has no content and a column 0
of `-minsize 10`, and its window has requested 50 x 40 pixels. The layout pass `ArrangeGrid`,
the only caller of `ResolveConstraints`, returns at its test for an empty list before it
calls `SetGridSize` and `ResolveConstraints`: no required size is computed, 0 or other,
`Tk_GeometryRequest` is not called, so the size requested stays 50 x 40, and the container
is as before. -/
theorem arrangeGrid_no_content_counterexample :
    noContentExample.contentPtr = []
    ∧ (noContentExample.data.columnPtr 0).minSize = 10
    ∧ noContentExample.data.columnMax = 1
    ∧ sampleWindow.reqWidth = 50 ∧ sampleWindow.reqHeight = 40
    ∧ ∀ (fuel : Nat) (anchor : Int → Int → Int × Int),
        ArrangeGrid fuel anchor sampleWindow noContentExample
          = Except.ok { containerPtr := noContentExample, request := none,
                        relayout := false, placed := [] } :=
  ⟨rfl, rfl, rfl, rfl, rfl, fun _ _ => rfl⟩

/-- C26, amended. With zero items in the container, for every slot table (also with
configured minimum sizes, pads or uniform groups), every window size and every fuel, the
layout pass `ArrangeGrid` returns before it calls `ResolveConstraints`: nothing is written,
neither an offset nor another field of the container, no size is requested for the
container (`Tk_GeometryRequest` is not called, so the size requested is not set to 0) and
no new layout is scheduled. -/
theorem arrangeGrid_no_content (fuel : Nat) (anchor : Int → Int → Int × Int)
    (tkwin : ContainerWindow) (containerPtr : Container)
    (h : containerPtr.contentPtr = []) :
    ArrangeGrid fuel anchor tkwin containerPtr
      = Except.ok { containerPtr := containerPtr, request := none, relayout := false,
                    placed := [] } := by
  unfold ArrangeGrid
  rw [h]

theorem arrangeGrid_no_content_witness :
    noContentExample.contentPtr = []
    ∧ ArrangeGrid 0 (fun _ _ => (0, 0)) sampleWindow noContentExample
      = Except.ok { containerPtr := noContentExample, request := none, relayout := false,
                    placed := [] } :=
  ⟨rfl, arrangeGrid_no_content 0 (fun _ _ => (0, 0)) sampleWindow noContentExample rfl⟩

/-- C28, at a failing input. No window is managed, and the command
`grid .a .b -columnspan 5000` is given for two children of the top-level: `.a` is put at
column 0 with span 5000, the default column becomes 5000, and for `.b` the call
`SetContentColumn(interp, contentPtr, defaultColumn, -1)` of line 3449 fails because
5000 + 5000 is not below `MAX_ELEMENT`. The command returns TCL_ERROR at line 3450 without
`Unlink`: `.b` stays in the list of the container with column -1 and span 5000, and a layout
is pending. `ArrangeGrid` then calls `ResolveConstraints` for the columns, where step 2 bins
`.b` at slot 4998 and step 3 (line 2174) reads `layoutPtr[4998 - 5000]`, the element -2 of
the layout array, below the dummy slot -1: the model faults for every fuel. -/
theorem resolveConstraints_negative_start :
    ∃ st1, ConfigureContent sampleTk 5 siblingState
        [windowObj 1, windowObj 2, optionObj ConfOption.CONF_COLUMNSPAN, intObj 5000]
        = Except.ok (TclStatus.TCL_ERROR, st1)
      ∧ (st1.get 0).contentPtr = [2, 1]
      ∧ (st1.get 0).requestedRelayout = true
      ∧ (st1.get 2).containerPtr = some 0
      ∧ ((st1.get 1).content.column = 0 ∧ (st1.get 1).content.numCols = 5000)
      ∧ ((st1.get 2).content.column = -1 ∧ (st1.get 2).content.numCols = 5000)
      ∧ (∀ g, g ∈ (st1.view 0).contentPtr → g.column = -1 →
          g.rightEdge SlotType.COLUMN = 4998
          ∧ g.rightEdge SlotType.COLUMN - g.span SlotType.COLUMN = -2)
      ∧ (∀ (fuel : Nat) (maxOffset : Int) (c1 : Container),
          SetGridSize (st1.view 0) = Except.ok c1 →
          ResolveConstraints fuel c1.solverView SlotType.COLUMN maxOffset
            = Except.error Fault.outOfBounds)
      ∧ ∀ (fuel : Nat) (anchor : Int → Int → Int × Int) (tkwin : ContainerWindow),
          ArrangeGrid fuel anchor tkwin (st1.view 0) = Except.error Fault.outOfBounds := by
  refine ⟨_, rfl, rfl, rfl, rfl, ⟨rfl, rfl⟩, ⟨rfl, rfl⟩, by decide, ?_, ?_⟩
  · intro fuel maxOffset c1 h1
    have e2 := setGridSize_content _ _ h1
    refine resolveConstraints_underflow fuel _ SlotType.COLUMN maxOffset
      { (newGridder (siblingWindows 2)).content with numCols := 5000 } ?_ (by decide) rfl
    show _ ∈ c1.contentPtr
    rw [e2]
    decide
  · intro fuel anchor tkwin
    exact arrangeGrid_underflow fuel anchor tkwin _ _ rfl
      { (newGridder (siblingWindows 2)).content with numCols := 5000 } (by decide) (by decide) rfl

/-- The layout pass on `locationExample`, two cells of 10 x 10 pixels in one row. In a window
that has requested 50 x 40 the pass computes the required size 20 x 10, requests it and
schedules a new layout, without placing the content. In a window of 50 x 40 pixels that
has requested 20 x 10 nothing is requested, the layout keeps its size (no slot has a
weight), the anchor puts it at (15, 15), and the two contents are placed at (15, 15) and
(25, 15) with their size 10 x 10. -/
theorem arrangeGrid_sample :
    requestOf (ArrangeGrid 5 (fun _ _ => (15, 15)) sampleWindow locationExample)
      = some (some (20, 10), true)
    ∧ placedOf (ArrangeGrid 5 (fun _ _ => (15, 15)) sampleWindow locationExample) = some []
    ∧ requestOf (ArrangeGrid 5 (fun _ _ => (15, 15))
          { sampleWindow with reqWidth := 20, reqHeight := 10 } locationExample)
      = some (none, false)
    ∧ placedOf (ArrangeGrid 5 (fun _ _ => (15, 15))
          { sampleWindow with reqWidth := 20, reqHeight := 10 } locationExample)
      = some [(15, 15, 10, 10), (25, 15, 10, 10)] := by
  refine ⟨?_, ?_, ?_, ?_⟩ <;> decide!

end TkGrid
